import Mathlib

/-!
# Mali-400 (r3p2) group state machine: a shallow embedding

Embedding of `drivers/gpu/mali400/r3p2/mali/common/mali_group.c` and of the parts of
`mali_mmu.c`, `mali_gp.c`, `mali_l2_cache.c`, `mali_broadcast.c`, `mali_scheduler.c` it calls.

Conventions of the embedding

* Release build: `MALI_DEBUG_ASSERT*`, `MALI_DEBUG_PRINT` and `MALI_DEBUG_CODE` expand to nothing.
  Conditions the source asserts appear as hypotheses of theorems or as guards of the step
  relation. `MALI_PRINT_ERROR` is live, so a register read inside its argument is performed.
* Profiling and tracepoint calls (`_maliggy_osk_profiling_add_event`, `trace_gpu_sched_switch`,
  the `CONFIG_MALI400_PROFILING` blocks) are left out; `MALI_UPPER_HALF_SCHEDULING` is off.
* The hardware is an oracle: `World.reads` lists the values that the coming register reads
  return, in order. Every read takes the head (0 when the list is exhausted), truncated to 32 bits.
* `World.log` is write-only. It records register writes, the entry into (and, where a result
  matters, the return from) selected driver functions, calls to code that is not part of these
  sources (PP core, DLBU, timers, the group lock, job setters) and the scheduler callbacks. A
  scheduler callback carries a copy of the group as it is at the moment of the call.
* Pointers: a session is a natural number, `none` is `NULL`. A job descriptor is an immutable
  record (`id` and `session` are set once by `maliggy_gp_job_create`); its setters are logged.
* Constants of headers that are not part of these sources are fields of `Config`.
-/

namespace Mali

/-! ## Machine words -/

/-- Bitwise complement of a 32-bit word: the C expression `~x` at type `u32`. -/
def u32_not (x : Nat) : Nat := (x % 4294967296) ^^^ 4294967295

/-- Reinterpretation of a 32-bit word as a signed integer: the C cast `(s32)x`. -/
def to_s32 (x : Nat) : Int :=
  if x % 4294967296 < 2147483648 then ((x % 4294967296 : Nat) : Int)
  else ((x % 4294967296 : Nat) : Int) - 4294967296

/-- Some bit of `x` is set that is not set in `m`. -/
def has_bit_outside (x m : Nat) : Prop := ∃ i, x.testBit i = true ∧ m.testBit i = false

/-! ## Constants taken as parameters -/

/-- Constants and globals whose definitions are outside these sources
(`mali_kernel_common.h`, `regs/mali_gp_regs.h`, `regs/mali_200_regs.h`, `mali_mmu.h`,
`mali_hw_core.h`, `regs/mali_l2...`), the module parameter `maliggy_max_job_runtime`, the helper
pages allocated by `maliggy_mmu_initialize`, and the page directory address of each session. -/
structure Config where
  MALI_REG_POLL_COUNT_FAST : Nat
  MALI_REG_POLL_COUNT_SLOW : Nat
  MALI_HW_CORE_NO_COUNTER : Nat
  MALIGP2_REG_VAL_IRQ_VS_END_CMD_LST : Nat
  MALIGP2_REG_VAL_IRQ_PLBU_END_CMD_LST : Nat
  MALIGP2_REG_VAL_IRQ_PLBU_OUT_OF_MEM : Nat
  MALIGP2_REG_VAL_IRQ_HANG : Nat
  MALIGP2_REG_VAL_IRQ_MASK_USED : Nat
  MALIGP2_REG_VAL_IRQ_MASK_ALL : Nat
  MALI400GP_REG_VAL_IRQ_RESET_COMPLETED : Nat
  MALIGP2_REG_VAL_STATUS_MASK_ACTIVE : Nat
  MALIGP2_REG_VAL_STATUS_BUS_STOPPED : Nat
  MALIGP2_REG_VAL_CMD_START_VS : Nat
  MALIGP2_REG_VAL_CMD_START_PLBU : Nat
  MALIGP2_REG_VAL_CMD_UPDATE_PLBU_ALLOC : Nat
  MALIGP2_REG_VAL_CMD_RESET : Nat
  MALIGP2_REG_VAL_CMD_STOP_BUS : Nat
  MALI400GP_REG_VAL_CMD_SOFT_RESET : Nat
  MALIGP2_REG_VAL_PERF_CNT_ENABLE : Nat
  MALI200_REG_VAL_IRQ_END_OF_FRAME : Nat
  MALI200_REG_VAL_IRQ_HANG : Nat
  MALI200_REG_VAL_IRQ_MASK_USED : Nat
  MALI200_REG_VAL_STATUS_RENDERING_ACTIVE : Nat
  MALI_MMU_STATUS_BIT_PAGING_ENABLED : Nat
  MALI_MMU_STATUS_BIT_PAGE_FAULT_ACTIVE : Nat
  MALI_MMU_STATUS_BIT_STALL_ACTIVE : Nat
  MALI_MMU_STATUS_BIT_STALL_NOT_ACTIVE : Nat
  MALI_MMU_INTERRUPT_PAGE_FAULT : Nat
  MALI_MMU_INTERRUPT_READ_BUS_ERROR : Nat
  MALI400_L2_CACHE_STATUS_COMMAND_BUSY : Nat
  MALI400_L2_CACHE_COMMAND_CLEAR_ALL : Nat
  maliggy_empty_page_directory : Nat
  maliggy_page_fault_flush_page_directory : Nat
  maliggy_max_job_runtime : Nat
  session_page_directory : Nat → Nat

/-- MMU command `MALI_MMU_COMMAND_ENABLE_PAGING` of `enum maliggy_mmu_command`. -/
def MALI_MMU_COMMAND_ENABLE_PAGING : Nat := 0
/-- MMU command `MALI_MMU_COMMAND_ENABLE_STALL`. -/
def MALI_MMU_COMMAND_ENABLE_STALL : Nat := 2
/-- MMU command `MALI_MMU_COMMAND_DISABLE_STALL`. -/
def MALI_MMU_COMMAND_DISABLE_STALL : Nat := 3
/-- MMU command `MALI_MMU_COMMAND_ZAP_CACHE`. -/
def MALI_MMU_COMMAND_ZAP_CACHE : Nat := 4
/-- MMU command `MALI_MMU_COMMAND_PAGE_FAULT_DONE`. -/
def MALI_MMU_COMMAND_PAGE_FAULT_DONE : Nat := 5
/-- MMU command `MALI_MMU_COMMAND_HARD_RESET`. -/
def MALI_MMU_COMMAND_HARD_RESET : Nat := 6

/-- Bound of the busy poll in `maliggy_l2_cache_send_command` (`loop_count`). -/
def l2_loop_count : Nat := 100000

/-! ## Data model -/

/-- The hardware unit a register belongs to (`struct maliggy_hw_core`). -/
inductive HwCore
  | mmu
  | gp
  | pp (core_id : Nat)
  | l2 (core_id : Nat)
  | bcast
  | pmu
  deriving DecidableEq, Repr

/-- Registers written by the modelled code. -/
inductive Reg
  | MALI_MMU_REGISTER_DTE_ADDR
  | MALI_MMU_REGISTER_STATUS
  | MALI_MMU_REGISTER_COMMAND
  | MALI_MMU_REGISTER_INT_MASK
  | MALI_MMU_REGISTER_INT_RAWSTAT
  | MALI_MMU_REGISTER_PAGE_FAULT_ADDR
  | MALIGP2_REG_ADDR_MGMT_VSCL_START_ADDR
  | MALIGP2_REG_ADDR_MGMT_PLBU_ALLOC_START_ADDR
  | MALIGP2_REG_ADDR_MGMT_PLBU_ALLOC_END_ADDR
  | MALIGP2_REG_ADDR_MGMT_CMD
  | MALIGP2_REG_ADDR_MGMT_INT_RAWSTAT
  | MALIGP2_REG_ADDR_MGMT_INT_CLEAR
  | MALIGP2_REG_ADDR_MGMT_INT_MASK
  | MALIGP2_REG_ADDR_MGMT_WRITE_BOUND_LOW
  | MALIGP2_REG_ADDR_MGMT_PERF_CNT_0_ENABLE
  | MALIGP2_REG_ADDR_MGMT_PERF_CNT_1_ENABLE
  | MALIGP2_REG_ADDR_MGMT_PERF_CNT_0_SRC
  | MALIGP2_REG_ADDR_MGMT_PERF_CNT_1_SRC
  | MALIGP2_REG_ADDR_MGMT_PERF_CNT_0_VALUE
  | MALIGP2_REG_ADDR_MGMT_PERF_CNT_1_VALUE
  | MALIGP2_REG_ADDR_MGMT_STATUS
  | MALI200_REG_ADDR_MGMT_INT_RAWSTAT
  | MALI200_REG_ADDR_MGMT_INT_MASK
  | MALI200_REG_ADDR_MGMT_STATUS
  | MALI200_REG_ADDR_STACK
  | MALI400_L2_CACHE_REGISTER_STATUS
  | MALI400_L2_CACHE_REGISTER_COMMAND
  | bcast_unit_addr_broadcast_mask
  | bcast_unit_addr_irq_override_mask
  | MALIGP2_REG_ADDR_MGMT_INT_STAT
  | MALI200_REG_ADDR_MGMT_INT_STATUS
  | PMU_REG_ADDR_MGMT_POWER_UP
  | PMU_REG_ADDR_MGMT_POWER_DOWN
  | PMU_REG_ADDR_MGMT_STATUS
  | PMU_REG_ADDR_MGMT_INT_MASK
  | PMU_REG_ADDR_MGMT_INT_RAWSTAT
  | PMU_REG_ADDR_MGMT_INT_CLEAR
  | PMU_REG_ADDR_MGMT_SW_DELAY
  deriving DecidableEq, Repr

/-- The states of a group (`enum maliggy_group_core_state`). -/
inductive maliggy_group_core_state
  | MALI_GROUP_STATE_IDLE
  | MALI_GROUP_STATE_WORKING
  | MALI_GROUP_STATE_OOM
  | MALI_GROUP_STATE_IN_VIRTUAL
  | MALI_GROUP_STATE_JOINING_VIRTUAL
  | MALI_GROUP_STATE_LEAVING_VIRTUAL
  | MALI_GROUP_STATE_DISABLED
  deriving DecidableEq, Repr

/-- Result of activating a page directory (`enum maliggy_group_activate_pd_status`). -/
inductive maliggy_group_activate_pd_status
  | MALI_GROUP_ACTIVATE_PD_STATUS_FAILED
  | MALI_GROUP_ACTIVATE_PD_STATUS_OK_KEPT_PD
  | MALI_GROUP_ACTIVATE_PD_STATUS_OK_SWITCHED_PD
  deriving DecidableEq, Repr

/-- The value of the enumerator, as C numbers it. -/
def maliggy_group_activate_pd_status.toNat : maliggy_group_activate_pd_status → Nat
  | .MALI_GROUP_ACTIVATE_PD_STATUS_FAILED => 0
  | .MALI_GROUP_ACTIVATE_PD_STATUS_OK_KEPT_PD => 1
  | .MALI_GROUP_ACTIVATE_PD_STATUS_OK_SWITCHED_PD => 2

/-- A GP job descriptor: the attributes the group code reads through the accessors of
`mali_gp_job.h`. -/
structure maliggy_gp_job where
  id : Nat
  session : Nat
  frame_registers : List Nat
  perf_counter_src0 : Nat
  perf_counter_src1 : Nat
  has_vs_job : Bool
  has_plbu_job : Bool
  deriving DecidableEq, Repr

/-- A PP job descriptor: the attributes the group code reads through the accessors of
`mali_pp_job.h`. -/
structure maliggy_pp_job where
  id : Nat
  session : Nat
  addr_stack : List Nat
  deriving DecidableEq, Repr

/-- The fields of `struct maliggy_gp_core` besides the register window and the IRQ handle. -/
structure maliggy_gp_core where
  counter_src0_used : Nat
  counter_src1_used : Nat
  deriving DecidableEq, Repr

/-- The fields of `struct maliggy_pp_core` the group code reads. -/
structure maliggy_pp_core where
  core_id : Nat
  bcast_id : Nat
  deriving DecidableEq, Repr

/-- The broadcast unit (`struct maliggy_bcast_unit`). -/
structure maliggy_bcast_unit where
  current_mask : Nat
  deriving DecidableEq, Repr

/-- The fields of `struct maliggy_l2_cache_core` besides the register window and the locks. -/
structure maliggy_l2_cache_core where
  core_id : Nat
  counter_src0 : Nat
  counter_src1 : Nat
  last_invalidated_id : Nat
  deriving DecidableEq, Repr

/-- The group object (`struct maliggy_group`). The MMU, the lock, the timer and the work items are
owned one-to-one and carry no state of their own in this model. A child of a virtual group is
represented in `group_list` by its PP core, the only part of a child the modelled functions read. -/
structure maliggy_group where
  session : Option Nat
  page_dir_ref_count : Int
  power_is_on : Bool
  state : maliggy_group_core_state
  gp_core : Option maliggy_gp_core
  gp_running_job : Option maliggy_gp_job
  pp_core : Option maliggy_pp_core
  pp_running_job : Option maliggy_pp_job
  pp_running_sub_job : Nat
  l2_cache_core : Option Nat × Option Nat
  l2_cache_core_ref_count : Nat × Nat
  dlbu_core : Option Nat
  bcast_core : Option maliggy_bcast_unit
  group_list : List maliggy_pp_core
  parent_group : Option Nat
  core_timed_out : Bool
  deriving DecidableEq, Repr

/-- Functions whose calls are recorded in the log. The `maliggy_pp_*` functions that take a core,
`maliggy_dlbu_config_job`, the `_maliggy_osk_*` functions and the job setters are not part of these
sources: their call is all that is modelled. The others are driver functions whose entry (and
return, for some) is recorded next to the register writes they perform. -/
inductive Fn
  | maliggy_mmu_zap_tlb_without_stall
  | maliggy_mmu_zap_tlb
  | maliggy_mmu_activate_page_directory
  | maliggy_mmu_activate_empty_page_directory
  | maliggy_mmu_activate_fault_flush_page_directory
  | maliggy_mmu_page_fault_done
  | maliggy_mmu_reset
  | maliggy_l2_cache_invalidate_conditional
  | maliggy_l2_cache_invalidate
  | maliggy_gp_job_start
  | maliggy_gp_resume_with_new_heap
  | maliggy_gp_reset_async
  | maliggy_gp_reset_wait
  | maliggy_gp_stop_bus
  | maliggy_gp_stop_bus_wait
  | maliggy_gp_hard_reset
  | maliggy_gp_enable_interrupts
  | maliggy_gp_job_set_perf_counter_value0
  | maliggy_gp_job_set_perf_counter_value1
  | maliggy_gp_job_set_current_heap_addr
  | maliggy_pp_job_start
  | maliggy_pp_reset_async
  | maliggy_pp_reset_wait
  | maliggy_pp_stop_bus
  | maliggy_pp_stop_bus_wait
  | maliggy_pp_hard_reset
  | maliggy_pp_update_performance_counters
  | maliggy_dlbu_config_job
  | maliggy_bcast_disable
  | maliggy_bcast_enable
  | maliggy_group_activate_page_directory
  | maliggy_group_deactivate_page_directory
  | maliggy_group_complete_gp
  | maliggy_group_complete_pp
  | maliggy_group_recovery_reset
  | maliggy_group_mmu_page_fault
  | maliggy_group_lock
  | maliggy_group_unlock
  | _maliggy_osk_timer_mod
  | _maliggy_osk_timer_del_async
  | _maliggy_osk_timer_pending
  | _maliggy_osk_wq_schedule_work_gp
  | _maliggy_osk_wq_schedule_work_pp
  | _maliggy_osk_wq_schedule_work_mmu
  | maliggy_mmu_get_int_status
  | maliggy_mmu_mask_all_interrupts
  | maliggy_pm_domain_lock_state
  | maliggy_pm_domain_unlock_state
  | maliggy_dlbu_add_group
  | maliggy_dlbu_remove_group
  | maliggy_dlbu_update_mask
  | maliggy_pmu_lock
  | maliggy_pmu_unlock
  | _maliggy_osk_pm_dev_ref_add_no_power_on
  | _maliggy_osk_pm_dev_ref_dec_no_power_on
  | maliggy_mmu_get_table_page
  | maliggy_mmu_release_table_page
  | maliggy_l2_cache_invalidate_all
  | maliggy_l2_cache_invalidate_all_pages
  deriving DecidableEq, Repr

/-- Observable events. Arguments of `call` and the value of `ret` are numbers: a boolean is 0 or
1, an error code is 0 for `_MALI_OSK_ERR_OK`, a null session is 0 and session `s` is `s + 1`. -/
inductive Ev
  | reg_write (core : HwCore) (reg : Reg) (val : Nat)
  | reg_write_array (core : HwCore) (reg : Reg) (vals : List Nat)
  | write_mem_barrier
  | call (f : Fn) (args : List Nat)
  | ret (f : Fn) (val : Nat)
  | gp_scheduler_job_done (group : maliggy_group) (job : Option maliggy_gp_job) (success : Bool)
  | pp_scheduler_job_done (group : maliggy_group) (job : Option maliggy_pp_job) (sub_job : Nat)
      (success : Bool)
  | gp_scheduler_oom (group : maliggy_group) (job : Option maliggy_gp_job)
  deriving DecidableEq, Repr

/-- Everything outside the group object: the hardware oracle, the log, the global job id counter
`maliggy_job_autonumber` and the L2 cache objects, addressed by pointer. -/
structure World where
  reads : List Nat
  log : List Ev
  maliggy_job_autonumber : Nat
  l2 : Nat → maliggy_l2_cache_core

/-- Encoding of a C boolean as a number. -/
def b2n (b : Bool) : Nat := if b then 1 else 0

/-- Encoding of a session pointer as a number (0 is `NULL`). -/
def s2n : Option Nat → Nat
  | none => 0
  | some s => s + 1

/-- Take the next value of the oracle. -/
def World.read (w : World) : Nat × World :=
  (w.reads.headD 0 % 4294967296, { w with reads := w.reads.tail })

/-- Append an event to the log. -/
def World.emit (w : World) (e : Ev) : World := { w with log := w.log ++ [e] }

/-- Events appended to the log between two worlds. -/
def new_events (w w' : World) : List Ev := w'.log.drop w.log.length

/-- Register read (`maliggy_hw_core_register_read`). -/
def maliggy_hw_core_register_read (_core : HwCore) (_reg : Reg) (w : World) : Nat × World :=
  w.read

/-- Register write (`maliggy_hw_core_register_write` and its relaxed variant). -/
def maliggy_hw_core_register_write (core : HwCore) (reg : Reg) (val : Nat) (w : World) : World :=
  w.emit (.reg_write core reg val)

/-- The loop `for (i = 0; i < n; i++) { v = read(reg); if (stop v) break; }`. Returns whether
the loop was left by `break` (that is `i != n` afterwards), the last value read (`last` when
none was read) and the world. -/
def poll_register (core : HwCore) (reg : Reg) (stop : Nat → Bool) :
    Nat → Nat → World → Bool × Nat × World
  | 0, last, w => (false, last, w)
  | n + 1, _, w =>
    let r := maliggy_hw_core_register_read core reg w
    if stop r.1 then (true, r.1, r.2) else poll_register core reg stop n r.1 r.2

/-! ## MMU core (`mali_mmu.c`) -/

/-- Loop exit test of the poll in `maliggy_mmu_enable_stall`. -/
def enable_stall_stop (cfg : Config) (mmu_status : Nat) : Bool :=
  (mmu_status &&& cfg.MALI_MMU_STATUS_BIT_PAGE_FAULT_ACTIVE != 0)
  || ((mmu_status &&& cfg.MALI_MMU_STATUS_BIT_STALL_ACTIVE != 0)
      && (mmu_status &&& cfg.MALI_MMU_STATUS_BIT_STALL_NOT_ACTIVE == 0))
  || (mmu_status &&& cfg.MALI_MMU_STATUS_BIT_PAGING_ENABLED == 0)

/-- Stall request (`maliggy_mmu_enable_stall`): true when the MMU is stalled or paging is off,
false when it is in page-fault state or the poll ran out. -/
def maliggy_mmu_enable_stall (cfg : Config) (w : World) : Bool × World :=
  let r := maliggy_hw_core_register_read .mmu .MALI_MMU_REGISTER_STATUS w
  if r.1 &&& cfg.MALI_MMU_STATUS_BIT_PAGING_ENABLED = 0 then (true, r.2)
  else if r.1 &&& cfg.MALI_MMU_STATUS_BIT_PAGE_FAULT_ACTIVE ≠ 0 then (false, r.2)
  else
    let w1 := maliggy_hw_core_register_write .mmu .MALI_MMU_REGISTER_COMMAND
      MALI_MMU_COMMAND_ENABLE_STALL r.2
    let p := poll_register .mmu .MALI_MMU_REGISTER_STATUS (enable_stall_stop cfg)
      cfg.MALI_REG_POLL_COUNT_FAST r.1 w1
    if p.1 = false then (false, p.2.2)
    else if p.2.1 &&& cfg.MALI_MMU_STATUS_BIT_PAGE_FAULT_ACTIVE ≠ 0 then (false, p.2.2)
    else (true, p.2.2)

/-- Loop exit test of the poll in `maliggy_mmu_disable_stall`; the third test of the source reads
the status taken at entry (`mmu_status`), not the one just polled. -/
def disable_stall_stop (cfg : Config) (mmu_status : Nat) (status : Nat) : Bool :=
  (status &&& cfg.MALI_MMU_STATUS_BIT_STALL_ACTIVE == 0)
  || (status &&& cfg.MALI_MMU_STATUS_BIT_PAGE_FAULT_ACTIVE != 0)
  || (mmu_status &&& cfg.MALI_MMU_STATUS_BIT_PAGING_ENABLED == 0)

/-- Release of a stall (`maliggy_mmu_disable_stall`). -/
def maliggy_mmu_disable_stall (cfg : Config) (w : World) : World :=
  let r := maliggy_hw_core_register_read .mmu .MALI_MMU_REGISTER_STATUS w
  if r.1 &&& cfg.MALI_MMU_STATUS_BIT_PAGING_ENABLED = 0 then r.2
  else if r.1 &&& cfg.MALI_MMU_STATUS_BIT_PAGE_FAULT_ACTIVE ≠ 0 then r.2
  else
    let w1 := maliggy_hw_core_register_write .mmu .MALI_MMU_REGISTER_COMMAND
      MALI_MMU_COMMAND_DISABLE_STALL r.2
    (poll_register .mmu .MALI_MMU_REGISTER_STATUS (disable_stall_stop cfg r.1)
      cfg.MALI_REG_POLL_COUNT_FAST r.1 w1).2.2

/-- Leave page-fault mode (`maliggy_mmu_page_fault_done`). -/
def maliggy_mmu_page_fault_done (w : World) : World :=
  maliggy_hw_core_register_write .mmu .MALI_MMU_REGISTER_COMMAND MALI_MMU_COMMAND_PAGE_FAULT_DONE
    (w.emit (.call .maliggy_mmu_page_fault_done []))

/-- Raw hard reset of the MMU (`maliggy_mmu_raw_reset`): true stands for `_MALI_OSK_ERR_OK`. -/
def maliggy_mmu_raw_reset (cfg : Config) (w : World) : Bool × World :=
  let w1 := maliggy_hw_core_register_write .mmu .MALI_MMU_REGISTER_DTE_ADDR 0xCAFEBABE w
  let w2 := maliggy_hw_core_register_write .mmu .MALI_MMU_REGISTER_COMMAND
    MALI_MMU_COMMAND_HARD_RESET w1
  let p := poll_register .mmu .MALI_MMU_REGISTER_DTE_ADDR (fun v => v == 0)
    cfg.MALI_REG_POLL_COUNT_FAST 0 w2
  if p.1 = false then
    (false, (maliggy_hw_core_register_read .mmu .MALI_MMU_REGISTER_STATUS p.2.2).2)
  else (true, p.2.2)

/-- Switch paging on (`maliggy_mmu_enable_paging`). -/
def maliggy_mmu_enable_paging (cfg : Config) (w : World) : World :=
  let w1 := maliggy_hw_core_register_write .mmu .MALI_MMU_REGISTER_COMMAND
    MALI_MMU_COMMAND_ENABLE_PAGING w
  let p := poll_register .mmu .MALI_MMU_REGISTER_STATUS
    (fun v => v &&& cfg.MALI_MMU_STATUS_BIT_PAGING_ENABLED != 0) cfg.MALI_REG_POLL_COUNT_FAST 0 w1
  if p.1 = false then (maliggy_hw_core_register_read .mmu .MALI_MMU_REGISTER_STATUS p.2.2).2
  else p.2.2

/-- Full MMU reset (`maliggy_mmu_reset`): true stands for `_MALI_OSK_ERR_OK`. -/
def maliggy_mmu_reset (cfg : Config) (w : World) : Bool × World :=
  let w0 := w.emit (.call .maliggy_mmu_reset [])
  let s := maliggy_mmu_enable_stall cfg w0
  let rr := maliggy_mmu_raw_reset cfg s.2
  if rr.1 then
    let w1 := maliggy_hw_core_register_write .mmu .MALI_MMU_REGISTER_INT_MASK
      (cfg.MALI_MMU_INTERRUPT_PAGE_FAULT ||| cfg.MALI_MMU_INTERRUPT_READ_BUS_ERROR) rr.2
    let w2 := maliggy_hw_core_register_write .mmu .MALI_MMU_REGISTER_DTE_ADDR
      cfg.maliggy_empty_page_directory w1
    let w3 := maliggy_mmu_enable_paging cfg w2
    (true, maliggy_mmu_disable_stall cfg w3)
  else (false, maliggy_mmu_disable_stall cfg rr.2)

/-- TLB flush under stall (`maliggy_mmu_zap_tlb`). -/
def maliggy_mmu_zap_tlb (cfg : Config) (w : World) : Bool × World :=
  let w0 := w.emit (.call .maliggy_mmu_zap_tlb [])
  let s := maliggy_mmu_enable_stall cfg w0
  let w1 := maliggy_hw_core_register_write .mmu .MALI_MMU_REGISTER_COMMAND
    MALI_MMU_COMMAND_ZAP_CACHE s.2
  if s.1 = false then (false, w1) else (true, maliggy_mmu_disable_stall cfg w1)

/-- TLB flush without stall (`maliggy_mmu_zap_tlb_without_stall`). -/
def maliggy_mmu_zap_tlb_without_stall (w : World) : World :=
  maliggy_hw_core_register_write .mmu .MALI_MMU_REGISTER_COMMAND MALI_MMU_COMMAND_ZAP_CACHE
    (w.emit (.call .maliggy_mmu_zap_tlb_without_stall []))

/-- Write of the page directory pointer followed by a zap (`maliggy_mmu_activate_address_space`). -/
def maliggy_mmu_activate_address_space (page_directory : Nat) (w : World) : World :=
  let w1 := maliggy_hw_core_register_write .mmu .MALI_MMU_REGISTER_DTE_ADDR page_directory w
  maliggy_hw_core_register_write .mmu .MALI_MMU_REGISTER_COMMAND MALI_MMU_COMMAND_ZAP_CACHE w1

/-- Activation of a page directory on the MMU (`maliggy_mmu_activate_page_directory`); the
argument is the physical address `pagedir->page_directory`. -/
def maliggy_mmu_activate_page_directory (cfg : Config) (pagedir : Nat) (w : World) :
    Bool × World :=
  let w0 := w.emit (.call .maliggy_mmu_activate_page_directory [pagedir])
  let s := maliggy_mmu_enable_stall cfg w0
  if s.1 = false then (false, s.2)
  else
    let w1 := maliggy_mmu_activate_address_space pagedir s.2
    (true, maliggy_mmu_disable_stall cfg w1)

/-- Activation of the empty page directory (`maliggy_mmu_activate_empty_page_directory`). -/
def maliggy_mmu_activate_empty_page_directory (cfg : Config) (w : World) : World :=
  let w0 := w.emit (.call .maliggy_mmu_activate_empty_page_directory [])
  let s := maliggy_mmu_enable_stall cfg w0
  let w1 := maliggy_mmu_activate_address_space cfg.maliggy_empty_page_directory s.2
  maliggy_mmu_disable_stall cfg w1

/-- Activation of the fault flush page directory
(`maliggy_mmu_activate_fault_flush_page_directory`). -/
def maliggy_mmu_activate_fault_flush_page_directory (cfg : Config) (w : World) : World :=
  let w0 := w.emit (.call .maliggy_mmu_activate_fault_flush_page_directory [])
  let s := maliggy_mmu_enable_stall cfg w0
  let w1 := maliggy_mmu_activate_address_space cfg.maliggy_page_fault_flush_page_directory s.2
  if s.1 then maliggy_mmu_disable_stall cfg w1 else w1

/-- Raw MMU interrupt status (`maliggy_mmu_get_rawstat`, declared in `mali_mmu.h`). -/
def maliggy_mmu_get_rawstat (w : World) : Nat × World :=
  maliggy_hw_core_register_read .mmu .MALI_MMU_REGISTER_INT_RAWSTAT w

/-- Address of the page fault (`maliggy_mmu_get_page_fault_addr`, declared in `mali_mmu.h`). -/
def maliggy_mmu_get_page_fault_addr (w : World) : Nat × World :=
  maliggy_hw_core_register_read .mmu .MALI_MMU_REGISTER_PAGE_FAULT_ADDR w

/-! ## Job id counter (`mali_scheduler.c`) and L2 cache core (`mali_l2_cache.c`) -/

/-- New job id (`maliggy_scheduler_get_new_id`): atomic increment of the 32-bit counter. -/
def maliggy_scheduler_get_new_id (w : World) : Nat × World :=
  let job_id := (w.maliggy_job_autonumber + 1) % 4294967296
  (job_id, { w with maliggy_job_autonumber := job_id })

/-- Send a command to the L2 cache (`maliggy_l2_cache_send_command`): true stands for
`_MALI_OSK_ERR_OK`; when the command interface stays busy nothing is written. -/
def maliggy_l2_cache_send_command (cfg : Config) (cache : Nat) (reg : Reg) (val : Nat)
    (w : World) : Bool × World :=
  let p := poll_register (.l2 (w.l2 cache).core_id) .MALI400_L2_CACHE_REGISTER_STATUS
    (fun v => v &&& cfg.MALI400_L2_CACHE_STATUS_COMMAND_BUSY == 0) l2_loop_count 0 w
  if p.1 = false then (false, p.2.2)
  else (true, maliggy_hw_core_register_write (.l2 (w.l2 cache).core_id) reg val p.2.2)

/-- Store a new `last_invalidated_id` in a cache object. -/
def World.set_last_invalidated_id (w : World) (cache : Nat) (id : Nat) : World :=
  { w with l2 := Function.update w.l2 cache { w.l2 cache with last_invalidated_id := id } }

/-- Unconditional invalidation (`maliggy_l2_cache_invalidate`). -/
def maliggy_l2_cache_invalidate (cfg : Config) (cache : Option Nat) (w : World) : World :=
  match cache with
  | none => w
  | some c =>
    let w0 := w.emit (.call .maliggy_l2_cache_invalidate [c])
    let n := maliggy_scheduler_get_new_id w0
    let w1 := n.2.set_last_invalidated_id c n.1
    (maliggy_l2_cache_send_command cfg c .MALI400_L2_CACHE_REGISTER_COMMAND
      cfg.MALI400_L2_CACHE_COMMAND_CLEAR_ALL w1).2

/-- Invalidation unless a later job already invalidated
(`maliggy_l2_cache_invalidate_conditional`). -/
def maliggy_l2_cache_invalidate_conditional (cfg : Config) (cache : Option Nat) (id : Nat)
    (w : World) : Bool × World :=
  match cache with
  | none => (true, w)
  | some c =>
    let w0 := w.emit (.call .maliggy_l2_cache_invalidate_conditional [c, id])
    if to_s32 id ≤ to_s32 (w0.l2 c).last_invalidated_id then (false, w0)
    else
      let n := maliggy_scheduler_get_new_id w0
      let w1 := n.2.set_last_invalidated_id c n.1
      (true, (maliggy_l2_cache_send_command cfg c .MALI400_L2_CACHE_REGISTER_COMMAND
        cfg.MALI400_L2_CACHE_COMMAND_CLEAR_ALL w1).2)

/-! ## Broadcast unit (`mali_broadcast.c`) -/

/-- Write the stored mask to the unit (`maliggy_bcast_reset`). -/
def maliggy_bcast_reset (bcast_unit : maliggy_bcast_unit) (w : World) : World :=
  let w1 := maliggy_hw_core_register_write .bcast .bcast_unit_addr_broadcast_mask
    bcast_unit.current_mask w
  maliggy_hw_core_register_write .bcast .bcast_unit_addr_irq_override_mask
    (bcast_unit.current_mask &&& 0xFF) w1

/-- Disable the unit (`maliggy_bcast_disable`). -/
def maliggy_bcast_disable (_bcast_unit : maliggy_bcast_unit) (w : World) : World :=
  let w0 := w.emit (.call .maliggy_bcast_disable [])
  let w1 := maliggy_hw_core_register_write .bcast .bcast_unit_addr_broadcast_mask 0 w0
  maliggy_hw_core_register_write .bcast .bcast_unit_addr_irq_override_mask 0 w1

/-- Enable the unit again (`maliggy_bcast_enable`). -/
def maliggy_bcast_enable (bcast_unit : maliggy_bcast_unit) (w : World) : World :=
  maliggy_bcast_reset bcast_unit (w.emit (.call .maliggy_bcast_enable []))

/-! ## GP core (`mali_gp.c`, `mali_gp.h`) -/

/-- Stop-bus command (`maliggy_gp_stop_bus`). -/
def maliggy_gp_stop_bus (cfg : Config) (w : World) : World :=
  maliggy_hw_core_register_write .gp .MALIGP2_REG_ADDR_MGMT_CMD cfg.MALIGP2_REG_VAL_CMD_STOP_BUS
    (w.emit (.call .maliggy_gp_stop_bus []))

/-- Stop the bus and wait (`maliggy_gp_stop_bus_wait`): true stands for `_MALI_OSK_ERR_OK`. -/
def maliggy_gp_stop_bus_wait (cfg : Config) (w : World) : Bool × World :=
  let w0 := w.emit (.call .maliggy_gp_stop_bus_wait [])
  let w1 := maliggy_gp_stop_bus cfg w0
  let p := poll_register .gp .MALIGP2_REG_ADDR_MGMT_STATUS
    (fun v => v &&& cfg.MALIGP2_REG_VAL_STATUS_BUS_STOPPED != 0) cfg.MALI_REG_POLL_COUNT_FAST 0 w1
  (p.1, p.2.2)

/-- The loop of `maliggy_gp_hard_reset`: write the check value, read it back, leave when it
reads back. -/
def maliggy_gp_hard_reset_loop : Nat → World → World
  | 0, w => w
  | n + 1, w =>
    let w1 := maliggy_hw_core_register_write .gp .MALIGP2_REG_ADDR_MGMT_WRITE_BOUND_LOW 0xC01A0000 w
    let r := maliggy_hw_core_register_read .gp .MALIGP2_REG_ADDR_MGMT_WRITE_BOUND_LOW w1
    if r.1 = 0xC01A0000 then r.2 else maliggy_gp_hard_reset_loop n r.2

/-- Hard reset of the GP core (`maliggy_gp_hard_reset`). -/
def maliggy_gp_hard_reset (cfg : Config) (w : World) : World :=
  let w0 := w.emit (.call .maliggy_gp_hard_reset [])
  let w1 := maliggy_hw_core_register_write .gp .MALIGP2_REG_ADDR_MGMT_WRITE_BOUND_LOW 0xC0FFE000 w0
  let w2 := maliggy_hw_core_register_write .gp .MALIGP2_REG_ADDR_MGMT_CMD
    cfg.MALIGP2_REG_VAL_CMD_RESET w1
  let w3 := maliggy_gp_hard_reset_loop cfg.MALI_REG_POLL_COUNT_FAST w2
  let w4 := maliggy_hw_core_register_write .gp .MALIGP2_REG_ADDR_MGMT_WRITE_BOUND_LOW 0 w3
  let w5 := maliggy_hw_core_register_write .gp .MALIGP2_REG_ADDR_MGMT_INT_CLEAR
    cfg.MALIGP2_REG_VAL_IRQ_MASK_ALL w4
  maliggy_hw_core_register_write .gp .MALIGP2_REG_ADDR_MGMT_INT_MASK
    cfg.MALIGP2_REG_VAL_IRQ_MASK_USED w5

/-- Start of a soft reset (`maliggy_gp_reset_async`). -/
def maliggy_gp_reset_async (cfg : Config) (w : World) : World :=
  let w0 := w.emit (.call .maliggy_gp_reset_async [])
  let w1 := maliggy_hw_core_register_write .gp .MALIGP2_REG_ADDR_MGMT_INT_MASK 0 w0
  let w2 := maliggy_hw_core_register_write .gp .MALIGP2_REG_ADDR_MGMT_INT_CLEAR
    cfg.MALI400GP_REG_VAL_IRQ_RESET_COMPLETED w1
  maliggy_hw_core_register_write .gp .MALIGP2_REG_ADDR_MGMT_CMD
    cfg.MALI400GP_REG_VAL_CMD_SOFT_RESET w2

/-- Wait for the soft reset (`maliggy_gp_reset_wait`): true stands for `_MALI_OSK_ERR_OK`. The
result is recorded in the log (0 for OK, 1 for `_MALI_OSK_ERR_FAULT`). -/
def maliggy_gp_reset_wait (cfg : Config) (w : World) : Bool × World :=
  let p := poll_register .gp .MALIGP2_REG_ADDR_MGMT_INT_RAWSTAT
    (fun v => v &&& cfg.MALI400GP_REG_VAL_IRQ_RESET_COMPLETED != 0) cfg.MALI_REG_POLL_COUNT_FAST 0 w
  if p.1 = false then (false, p.2.2.emit (.ret .maliggy_gp_reset_wait 1))
  else
    let w1 := maliggy_hw_core_register_write .gp .MALIGP2_REG_ADDR_MGMT_INT_CLEAR
      cfg.MALIGP2_REG_VAL_IRQ_MASK_ALL p.2.2
    let w2 := maliggy_hw_core_register_write .gp .MALIGP2_REG_ADDR_MGMT_INT_MASK
      cfg.MALIGP2_REG_VAL_IRQ_MASK_USED w1
    (true, w2.emit (.ret .maliggy_gp_reset_wait 0))

/-- Start of a job on the GP core (`maliggy_gp_job_start`). -/
def maliggy_gp_job_start (cfg : Config) (core : maliggy_gp_core) (job : maliggy_gp_job)
    (w : World) : maliggy_gp_core × World :=
  let w0 := w.emit (.call .maliggy_gp_job_start [job.id])
  let core1 : maliggy_gp_core :=
    { core with counter_src0_used := job.perf_counter_src0,
                counter_src1_used := job.perf_counter_src1 }
  let startcmd := (if job.has_vs_job then cfg.MALIGP2_REG_VAL_CMD_START_VS else 0)
    ||| (if job.has_plbu_job then cfg.MALIGP2_REG_VAL_CMD_START_PLBU else 0)
  let w1 := w0.emit (.reg_write_array .gp .MALIGP2_REG_ADDR_MGMT_VSCL_START_ADDR
    job.frame_registers)
  let w2 := if cfg.MALI_HW_CORE_NO_COUNTER ≠ core1.counter_src0_used then
      maliggy_hw_core_register_write .gp .MALIGP2_REG_ADDR_MGMT_PERF_CNT_0_ENABLE
        cfg.MALIGP2_REG_VAL_PERF_CNT_ENABLE
        (maliggy_hw_core_register_write .gp .MALIGP2_REG_ADDR_MGMT_PERF_CNT_0_SRC
          core1.counter_src0_used w1)
    else w1
  let w3 := if cfg.MALI_HW_CORE_NO_COUNTER ≠ core1.counter_src1_used then
      maliggy_hw_core_register_write .gp .MALIGP2_REG_ADDR_MGMT_PERF_CNT_1_ENABLE
        cfg.MALIGP2_REG_VAL_PERF_CNT_ENABLE
        (maliggy_hw_core_register_write .gp .MALIGP2_REG_ADDR_MGMT_PERF_CNT_1_SRC
          core1.counter_src1_used w2)
    else w2
  let w4 := w3.emit .write_mem_barrier
  let w5 := maliggy_hw_core_register_write .gp .MALIGP2_REG_ADDR_MGMT_CMD startcmd w4
  (core1, w5.emit .write_mem_barrier)

/-- Resume after out-of-memory (`maliggy_gp_resume_with_new_heap`). -/
def maliggy_gp_resume_with_new_heap (cfg : Config) (start_addr end_addr : Nat) (w : World) :
    World :=
  let w0 := w.emit (.call .maliggy_gp_resume_with_new_heap [start_addr, end_addr])
  let r := maliggy_hw_core_register_read .gp .MALIGP2_REG_ADDR_MGMT_INT_RAWSTAT w0
  if r.1 &&& cfg.MALIGP2_REG_VAL_IRQ_PLBU_OUT_OF_MEM ≠ 0 then
    let w1 := maliggy_hw_core_register_write .gp .MALIGP2_REG_ADDR_MGMT_INT_CLEAR
      (cfg.MALIGP2_REG_VAL_IRQ_PLBU_OUT_OF_MEM ||| cfg.MALIGP2_REG_VAL_IRQ_HANG) r.2
    let w2 := maliggy_hw_core_register_write .gp .MALIGP2_REG_ADDR_MGMT_INT_MASK
      cfg.MALIGP2_REG_VAL_IRQ_MASK_USED w1
    let w3 := maliggy_hw_core_register_write .gp .MALIGP2_REG_ADDR_MGMT_PLBU_ALLOC_START_ADDR
      start_addr w2
    let w4 := maliggy_hw_core_register_write .gp .MALIGP2_REG_ADDR_MGMT_PLBU_ALLOC_END_ADDR
      end_addr w3
    let w5 := maliggy_hw_core_register_write .gp .MALIGP2_REG_ADDR_MGMT_CMD
      cfg.MALIGP2_REG_VAL_CMD_UPDATE_PLBU_ALLOC w4
    w5.emit .write_mem_barrier
  else r.2

/-- Copy the hardware counters to the job (`maliggy_gp_update_performance_counters`). -/
def maliggy_gp_update_performance_counters (cfg : Config) (core : maliggy_gp_core)
    (job : maliggy_gp_job) (w : World) : World :=
  let w1 := if cfg.MALI_HW_CORE_NO_COUNTER ≠ core.counter_src0_used then
      let r := maliggy_hw_core_register_read .gp .MALIGP2_REG_ADDR_MGMT_PERF_CNT_0_VALUE w
      r.2.emit (.call .maliggy_gp_job_set_perf_counter_value0 [job.id, r.1])
    else w
  if cfg.MALI_HW_CORE_NO_COUNTER ≠ core.counter_src1_used then
    let r := maliggy_hw_core_register_read .gp .MALIGP2_REG_ADDR_MGMT_PERF_CNT_1_VALUE w1
    r.2.emit (.call .maliggy_gp_job_set_perf_counter_value1 [job.id, r.1])
  else w1

/-- Raw interrupt status restricted to the used bits (`maliggy_gp_read_rawstat`). -/
def maliggy_gp_read_rawstat (cfg : Config) (w : World) : Nat × World :=
  let r := maliggy_hw_core_register_read .gp .MALIGP2_REG_ADDR_MGMT_INT_RAWSTAT w
  (r.1 &&& cfg.MALIGP2_REG_VAL_IRQ_MASK_USED, r.2)

/-- Core status (`maliggy_gp_read_core_status`). -/
def maliggy_gp_read_core_status (w : World) : Nat × World :=
  maliggy_hw_core_register_read .gp .MALIGP2_REG_ADDR_MGMT_STATUS w

/-- Enable all used interrupts but the given ones (`maliggy_gp_enable_interrupts`). -/
def maliggy_gp_enable_interrupts (cfg : Config) (irq_exceptions : Nat) (w : World) : World :=
  maliggy_hw_core_register_write .gp .MALIGP2_REG_ADDR_MGMT_INT_MASK
    (cfg.MALIGP2_REG_VAL_IRQ_MASK_USED &&& u32_not irq_exceptions)
    (w.emit (.call .maliggy_gp_enable_interrupts [irq_exceptions]))

/-- Start address of the PLBU heap (`maliggy_gp_read_plbu_alloc_start_addr`). -/
def maliggy_gp_read_plbu_alloc_start_addr (w : World) : Nat × World :=
  maliggy_hw_core_register_read .gp .MALIGP2_REG_ADDR_MGMT_PLBU_ALLOC_START_ADDR w

/-! ## PP core: inline accessors of `mali_pp.h`, and calls into `mali_pp.c` -/

/-- Raw interrupt status restricted to the used bits (`maliggy_pp_read_rawstat`). -/
def maliggy_pp_read_rawstat (cfg : Config) (core : maliggy_pp_core) (w : World) : Nat × World :=
  let r := maliggy_hw_core_register_read (.pp core.core_id) .MALI200_REG_ADDR_MGMT_INT_RAWSTAT w
  (r.1 &&& cfg.MALI200_REG_VAL_IRQ_MASK_USED, r.2)

/-- Core status (`maliggy_pp_read_status`). -/
def maliggy_pp_read_status (core : maliggy_pp_core) (w : World) : Nat × World :=
  maliggy_hw_core_register_read (.pp core.core_id) .MALI200_REG_ADDR_MGMT_STATUS w

/-- Enable the used interrupts (`maliggy_pp_enable_interrupts`). -/
def maliggy_pp_enable_interrupts (cfg : Config) (core : maliggy_pp_core) (w : World) : World :=
  maliggy_hw_core_register_write (.pp core.core_id) .MALI200_REG_ADDR_MGMT_INT_MASK
    cfg.MALI200_REG_VAL_IRQ_MASK_USED w

/-- Write the stack address of the job for this core (`maliggy_pp_write_addr_stack`). -/
def maliggy_pp_write_addr_stack (core : maliggy_pp_core) (job : maliggy_pp_job) (w : World) :
    World :=
  maliggy_hw_core_register_write (.pp core.core_id) .MALI200_REG_ADDR_STACK
    (job.addr_stack.getD core.core_id 0) w

/-- Call of `maliggy_pp_job_start` (defined in `mali_pp.c`). -/
def maliggy_pp_job_start (core : maliggy_pp_core) (job : maliggy_pp_job) (sub_job : Nat)
    (restart_virtual : Bool) (w : World) : World :=
  w.emit (.call .maliggy_pp_job_start [core.core_id, job.id, sub_job, b2n restart_virtual])

/-- Call of `maliggy_pp_reset_async` (defined in `mali_pp.c`). -/
def maliggy_pp_reset_async (core : maliggy_pp_core) (w : World) : World :=
  w.emit (.call .maliggy_pp_reset_async [core.core_id])

/-- Call of `maliggy_pp_reset_wait` (defined in `mali_pp.c`); its error code is the next value of
the oracle, 0 being `_MALI_OSK_ERR_OK`. True stands for `_MALI_OSK_ERR_OK`. -/
def maliggy_pp_reset_wait (core : maliggy_pp_core) (w : World) : Bool × World :=
  let r := (w.emit (.call .maliggy_pp_reset_wait [core.core_id])).read
  (r.1 == 0, r.2.emit (.ret .maliggy_pp_reset_wait r.1))

/-- Call of `maliggy_pp_stop_bus` (defined in `mali_pp.c`). -/
def maliggy_pp_stop_bus (core : maliggy_pp_core) (w : World) : World :=
  w.emit (.call .maliggy_pp_stop_bus [core.core_id])

/-- Call of `maliggy_pp_stop_bus_wait` (defined in `mali_pp.c`); the group ignores its result. -/
def maliggy_pp_stop_bus_wait (core : maliggy_pp_core) (w : World) : World :=
  w.emit (.call .maliggy_pp_stop_bus_wait [core.core_id])

/-- Call of `maliggy_pp_hard_reset` (defined in `mali_pp.c`); the group ignores its result. -/
def maliggy_pp_hard_reset (core : maliggy_pp_core) (w : World) : World :=
  w.emit (.call .maliggy_pp_hard_reset [core.core_id])

/-- Call of `maliggy_pp_update_performance_counters` (defined in `mali_pp.c`). -/
def maliggy_pp_update_performance_counters (parent child : maliggy_pp_core)
    (job : maliggy_pp_job) (subjob : Nat) (w : World) : World :=
  w.emit (.call .maliggy_pp_update_performance_counters
    [parent.core_id, child.core_id, job.id, subjob])

/-- Call of `maliggy_dlbu_config_job` (defined in `mali_dlbu.c`). -/
def maliggy_dlbu_config_job (job : maliggy_pp_job) (w : World) : World :=
  w.emit (.call .maliggy_dlbu_config_job [job.id])

/-! ## Operating system services -/

/-- Arm the timer (`_maliggy_osk_timer_mod`); the argument recorded is the runtime in ms. -/
def _maliggy_osk_timer_mod (ms : Nat) (w : World) : World :=
  w.emit (.call ._maliggy_osk_timer_mod [ms])

/-- Disarm the timer (`_maliggy_osk_timer_del_async`). -/
def _maliggy_osk_timer_del_async (w : World) : World :=
  w.emit (.call ._maliggy_osk_timer_del_async [])

/-- Whether the timer is armed (`_maliggy_osk_timer_pending`): the next value of the oracle, 0
being false. -/
def _maliggy_osk_timer_pending (w : World) : Bool × World :=
  let r := w.read
  (r.1 != 0, r.2.emit (.ret ._maliggy_osk_timer_pending r.1))

/-- Take the group lock (`maliggy_group_lock`). -/
def maliggy_group_lock (w : World) : World := w.emit (.call .maliggy_group_lock [])

/-- Release the group lock (`maliggy_group_unlock`). -/
def maliggy_group_unlock (w : World) : World := w.emit (.call .maliggy_group_unlock [])

/-! ## The group (`mali_group.c`, `mali_group.h`) -/

open maliggy_group_core_state maliggy_group_activate_pd_status

/-- A core object standing in for the target of a null `gp_core` pointer. The source dereferences
`group->gp_core` without a test; the theorems assume the core is present wherever it is used. -/
def null_gp_core : maliggy_gp_core := { counter_src0_used := 0, counter_src1_used := 0 }

/-- A core object standing in for the target of a null `pp_core` pointer (see `null_gp_core`). -/
def null_pp_core : maliggy_pp_core := { core_id := 0, bcast_id := 0 }

/-- Whether the group is a virtual group (`maliggy_group_is_virtual`). -/
def maliggy_group_is_virtual (group : maliggy_group) : Bool := group.dlbu_core.isSome

/-- Whether the group is, is becoming or stops being a member of a virtual group
(`maliggy_group_is_in_virtual`). -/
def maliggy_group_is_in_virtual (group : maliggy_group) : Bool :=
  group.state == MALI_GROUP_STATE_IN_VIRTUAL
  || group.state == MALI_GROUP_STATE_JOINING_VIRTUAL
  || group.state == MALI_GROUP_STATE_LEAVING_VIRTUAL

/-- The group object built by `maliggy_group_create(core, dlbu, bcast)` (the memory comes from
`_maliggy_osk_calloc`, so every field not assigned is zero). -/
def maliggy_group_create (core : Option Nat) (dlbu : Option Nat)
    (bcast : Option maliggy_bcast_unit) : maliggy_group :=
  { session := none, page_dir_ref_count := 0, power_is_on := true,
    state := MALI_GROUP_STATE_IDLE, gp_core := none, gp_running_job := none, pp_core := none,
    pp_running_job := none, pp_running_sub_job := 0, l2_cache_core := (core, none),
    l2_cache_core_ref_count := (0, 0), dlbu_core := dlbu, bcast_core := bcast, group_list := [],
    parent_group := none, core_timed_out := false }

/-- The group takes ownership of a GP core (`maliggy_group_add_gp_core`). -/
def maliggy_group_add_gp_core (group : maliggy_group) (gp_core : maliggy_gp_core) :
    maliggy_group :=
  { group with gp_core := some gp_core }

/-- The group takes ownership of a PP core (`maliggy_group_add_pp_core`). -/
def maliggy_group_add_pp_core (group : maliggy_group) (pp_core : maliggy_pp_core) :
    maliggy_group :=
  { group with pp_core := some pp_core }

/-- Page directory activation (`maliggy_group_activate_page_directory`). Entry and result are
recorded in the log. -/
def maliggy_group_activate_page_directory (cfg : Config) (group : maliggy_group) (session : Nat)
    (w : World) : maliggy_group_activate_pd_status × maliggy_group × World :=
  let w0 := w.emit (.call .maliggy_group_activate_page_directory [session])
  if group.page_dir_ref_count ≠ 0 then
    if group.session ≠ some session then
      (MALI_GROUP_ACTIVATE_PD_STATUS_FAILED, group,
        w0.emit (.ret .maliggy_group_activate_page_directory 0))
    else
      (MALI_GROUP_ACTIVATE_PD_STATUS_OK_KEPT_PD,
        { group with page_dir_ref_count := group.page_dir_ref_count + 1 },
        w0.emit (.ret .maliggy_group_activate_page_directory 1))
  else
    if group.session ≠ some session then
      let a := maliggy_mmu_activate_page_directory cfg (cfg.session_page_directory session) w0
      if a.1 = false then
        (MALI_GROUP_ACTIVATE_PD_STATUS_FAILED, group,
          a.2.emit (.ret .maliggy_group_activate_page_directory 0))
      else
        (MALI_GROUP_ACTIVATE_PD_STATUS_OK_SWITCHED_PD,
          { group with session := some session,
                       page_dir_ref_count := group.page_dir_ref_count + 1 },
          a.2.emit (.ret .maliggy_group_activate_page_directory 2))
    else
      (MALI_GROUP_ACTIVATE_PD_STATUS_OK_KEPT_PD,
        { group with page_dir_ref_count := group.page_dir_ref_count + 1 },
        w0.emit (.ret .maliggy_group_activate_page_directory 1))

/-- Page directory deactivation (`maliggy_group_deactivate_page_directory`). The log records the
session passed and the session of the group at the call. -/
def maliggy_group_deactivate_page_directory (group : maliggy_group) (session : Option Nat)
    (w : World) : maliggy_group × World :=
  ({ group with page_dir_ref_count := group.page_dir_ref_count - 1 },
    w.emit (.call .maliggy_group_deactivate_page_directory [s2n session, s2n group.session]))

/-- Drop an unused session (`maliggy_group_remove_session_if_unused`). -/
def maliggy_group_remove_session_if_unused (cfg : Config) (group : maliggy_group)
    (session : Nat) (w : World) : maliggy_group × World :=
  if group.page_dir_ref_count = 0 then
    if group.session = some session then
      ({ group with session := none }, maliggy_mmu_activate_empty_page_directory cfg w)
    else (group, w)
  else (group, w)

/-- Recovery reset (`maliggy_group_recovery_reset`). -/
def maliggy_group_recovery_reset (cfg : Config) (group : maliggy_group) (w : World) :
    maliggy_group × World :=
  let w0 := w.emit (.call .maliggy_group_recovery_reset [])
  let w1 := match group.pp_core with
    | some pp => maliggy_pp_stop_bus pp w0
    | none => maliggy_gp_stop_bus cfg w0
  let w2 := maliggy_mmu_activate_fault_flush_page_directory cfg w1
  let w3 := maliggy_mmu_page_fault_done w2
  let w4 := match group.pp_core with
    | some pp =>
      if maliggy_group_is_virtual group then
        let wa := maliggy_bcast_disable (group.bcast_core.getD ⟨0⟩) w3
        let wb := group.group_list.foldl
          (fun w child => maliggy_pp_hard_reset child (maliggy_pp_stop_bus_wait child w)) wa
        maliggy_bcast_enable (group.bcast_core.getD ⟨0⟩) wb
      else maliggy_pp_hard_reset pp (maliggy_pp_stop_bus_wait pp w3)
    | none => maliggy_gp_hard_reset cfg (maliggy_gp_stop_bus_wait cfg w3).2
  let w5 := (maliggy_mmu_reset cfg w4).2
  ({ group with session := none }, w5)

/-- Post-processing of a GP job (`maliggy_group_post_process_job_gp` with `suspend` false). -/
def maliggy_group_post_process_job_gp (cfg : Config) (group : maliggy_group) (w : World) :
    World :=
  let w0 := _maliggy_osk_timer_del_async w
  match group.gp_running_job with
  | none => w0
  | some job =>
    let w1 := maliggy_gp_update_performance_counters cfg (group.gp_core.getD null_gp_core) job w0
    let r := maliggy_gp_read_plbu_alloc_start_addr w1
    r.2.emit (.call .maliggy_gp_job_set_current_heap_addr [job.id, r.1])

/-- Post-processing of a PP job (`maliggy_group_post_process_job_pp`). -/
def maliggy_group_post_process_job_pp (group : maliggy_group) (w : World) : World :=
  let w0 := _maliggy_osk_timer_del_async w
  match group.pp_running_job with
  | none => w0
  | some job =>
    let pp := group.pp_core.getD null_pp_core
    if maliggy_group_is_virtual group then
      group.group_list.foldl
        (fun w child => maliggy_pp_update_performance_counters pp child job child.core_id w) w0
    else maliggy_pp_update_performance_counters pp pp job group.pp_running_sub_job w0

/-- Completion of the running PP job (`maliggy_group_complete_pp`). -/
def maliggy_group_complete_pp (cfg : Config) (group : maliggy_group) (success : Bool)
    (w : World) : maliggy_group × World :=
  let pp := group.pp_core.getD null_pp_core
  let w0 := w.emit (.call .maliggy_group_complete_pp [b2n success])
  let w1 := maliggy_group_post_process_job_pp group w0
  let w2 := if success then maliggy_pp_reset_async pp w1 else w1
  let pp_job_to_return := group.pp_running_job
  let pp_sub_job_to_return := group.pp_running_sub_job
  let g1 := { group with state := MALI_GROUP_STATE_IDLE, pp_running_job := none }
  let d := maliggy_group_deactivate_page_directory g1 g1.session w2
  let rw := if success then maliggy_pp_reset_wait pp d.2 else (false, d.2)
  let r := if !success || rw.1 = false then maliggy_group_recovery_reset cfg d.1 rw.2
    else (d.1, rw.2)
  (r.1, r.2.emit (.pp_scheduler_job_done r.1 pp_job_to_return pp_sub_job_to_return success))

/-- Completion of the running GP job (`maliggy_group_complete_gp`). -/
def maliggy_group_complete_gp (cfg : Config) (group : maliggy_group) (success : Bool)
    (w : World) : maliggy_group × World :=
  let w0 := w.emit (.call .maliggy_group_complete_gp [b2n success])
  let w1 := maliggy_group_post_process_job_gp cfg group w0
  let w2 := maliggy_gp_reset_async cfg w1
  let gp_job_to_return := group.gp_running_job
  let g1 := { group with state := MALI_GROUP_STATE_IDLE, gp_running_job := none }
  let d := maliggy_group_deactivate_page_directory g1 g1.session w2
  let rw := maliggy_gp_reset_wait cfg d.2
  let r := if rw.1 = false then maliggy_group_recovery_reset cfg d.1 rw.2 else (d.1, rw.2)
  (r.1, r.2.emit (.gp_scheduler_job_done r.1 gp_job_to_return success))

/-- Start of a GP job (`maliggy_group_start_gp_job`). -/
def maliggy_group_start_gp_job (cfg : Config) (group : maliggy_group) (job : maliggy_gp_job)
    (w : World) : maliggy_group × World :=
  let session := job.session
  let w1 := match group.l2_cache_core.1 with
    | some c => (maliggy_l2_cache_invalidate_conditional cfg (some c) job.id w).2
    | none => w
  let a := maliggy_group_activate_page_directory cfg group session w1
  let r : maliggy_group × World :=
    if a.1 ≠ MALI_GROUP_ACTIVATE_PD_STATUS_FAILED then
      let w2 := if a.1 = MALI_GROUP_ACTIVATE_PD_STATUS_OK_KEPT_PD then
          maliggy_mmu_zap_tlb_without_stall a.2.2
        else a.2.2
      let js := maliggy_gp_job_start cfg (a.2.1.gp_core.getD null_gp_core) job w2
      ({ a.2.1 with gp_core := a.2.1.gp_core.map (fun _ => js.1), gp_running_job := some job,
                    state := MALI_GROUP_STATE_WORKING }, js.2)
    else (a.2.1, a.2.2)
  (r.1, _maliggy_osk_timer_mod cfg.maliggy_max_job_runtime r.2)

/-- Start of a PP job (`maliggy_group_start_pp_job`). -/
def maliggy_group_start_pp_job (cfg : Config) (group : maliggy_group) (job : maliggy_pp_job)
    (sub_job : Nat) (w : World) : maliggy_group × World :=
  let session := job.session
  let w1 := match group.l2_cache_core.1 with
    | some c => (maliggy_l2_cache_invalidate_conditional cfg (some c) job.id w).2
    | none => w
  let w2 := match group.l2_cache_core.2 with
    | some c => (maliggy_l2_cache_invalidate_conditional cfg (some c) job.id w1).2
    | none => w1
  let a := maliggy_group_activate_page_directory cfg group session w2
  let r : maliggy_group × World :=
    if a.1 ≠ MALI_GROUP_ACTIVATE_PD_STATUS_FAILED then
      let w3 := if a.1 = MALI_GROUP_ACTIVATE_PD_STATUS_OK_KEPT_PD then
          maliggy_mmu_zap_tlb_without_stall a.2.2
        else a.2.2
      let w4 := if maliggy_group_is_virtual a.2.1 then
          a.2.1.group_list.foldl (fun w child => maliggy_pp_write_addr_stack child job w)
            (maliggy_dlbu_config_job job w3)
        else w3
      let w5 := maliggy_pp_job_start (a.2.1.pp_core.getD null_pp_core) job sub_job false w4
      ({ a.2.1 with pp_running_job := some job, pp_running_sub_job := sub_job,
                    state := MALI_GROUP_STATE_WORKING }, w5)
    else (a.2.1, a.2.2)
  (r.1, _maliggy_osk_timer_mod cfg.maliggy_max_job_runtime r.2)

/-- Resume of a GP job that ran out of heap (`maliggy_group_resume_gp_with_new_heap`). The outer
`none` is a dereference of a null `gp_running_job`; the job returned is `none` for `NULL`. -/
def maliggy_group_resume_gp_with_new_heap (cfg : Config) (group : maliggy_group)
    (job_id start_addr end_addr : Nat) (w : World) :
    Option (Option maliggy_gp_job × maliggy_group × World) :=
  if group.state ≠ MALI_GROUP_STATE_OOM then some (none, group, w)
  else
    match group.gp_running_job with
    | none => none
    | some job =>
      if job.id ≠ job_id then some (none, group, w)
      else
        let w1 := match group.l2_cache_core.1 with
          | some c => maliggy_l2_cache_invalidate cfg (some c) w
          | none => w
        let w2 := maliggy_mmu_zap_tlb_without_stall w1
        let w3 := maliggy_gp_resume_with_new_heap cfg start_addr end_addr w2
        some (some job, { group with state := MALI_GROUP_STATE_WORKING }, w3)

/-- Abort of a GP job (`maliggy_group_abort_gp_job`); `none` is a dereference of a null
`gp_running_job`. -/
def maliggy_group_abort_gp_job (cfg : Config) (group : maliggy_group) (job_id : Nat)
    (w : World) : Option (maliggy_group × World) :=
  if group.state = MALI_GROUP_STATE_IDLE then some (group, w)
  else
    match group.gp_running_job with
    | none => none
    | some job =>
      if job.id ≠ job_id then some (group, w)
      else some (maliggy_group_complete_gp cfg group false w)

/-- Abort of a PP job (`maliggy_group_abort_pp_job`); `none` is a dereference of a null
`pp_running_job`. -/
def maliggy_group_abort_pp_job (cfg : Config) (group : maliggy_group) (job_id : Nat)
    (w : World) : Option (maliggy_group × World) :=
  if group.state = MALI_GROUP_STATE_IDLE then some (group, w)
  else
    match group.pp_running_job with
    | none => none
    | some job =>
      if job.id ≠ job_id then some (group, w)
      else some (maliggy_group_complete_pp cfg group false w)

/-- Abort of the jobs of a session (`maliggy_group_abort_session`); `none` is a dereference of a
null running job inside one of the aborts. -/
def maliggy_group_abort_session (cfg : Config) (group : maliggy_group) (session : Nat)
    (w : World) : Option (maliggy_group × World) :=
  let w0 := maliggy_group_lock w
  if maliggy_group_is_in_virtual group then some (group, maliggy_group_unlock w0)
  else
    let gp_job := group.gp_running_job
    let pp_job := group.pp_running_job
    let abort_gp : Option Nat :=
      match gp_job with
      | some j => if j.session = session then some j.id else none
      | none => none
    let abort_pp : Option Nat :=
      match pp_job with
      | some j => if j.session = session then some j.id else none
      | none => none
    let r1 : Option (maliggy_group × World) :=
      match abort_gp with
      | some gp_job_id => maliggy_group_abort_gp_job cfg group gp_job_id w0
      | none => some (group, w0)
    r1.bind fun s1 =>
      let r2 : Option (maliggy_group × World) :=
        match abort_pp with
        | some pp_job_id => maliggy_group_abort_pp_job cfg s1.1 pp_job_id s1.2
        | none => some s1
      r2.map fun s2 =>
        let s3 := maliggy_group_remove_session_if_unused cfg s2.1 session s2.2
        (s3.1, maliggy_group_unlock s3.2)

/-- Page fault handling (`maliggy_group_mmu_page_fault`). -/
def maliggy_group_mmu_page_fault (cfg : Config) (group : maliggy_group) (w : World) :
    maliggy_group × World :=
  let w0 := w.emit (.call .maliggy_group_mmu_page_fault [])
  match group.pp_core with
  | some _ =>
    let w1 := maliggy_group_post_process_job_pp group w0
    let pp_job_to_return := group.pp_running_job
    let pp_sub_job_to_return := group.pp_running_sub_job
    let g1 := { group with state := MALI_GROUP_STATE_IDLE, pp_running_job := none }
    let d := maliggy_group_deactivate_page_directory g1 g1.session w1
    let r := maliggy_group_recovery_reset cfg d.1 d.2
    (r.1, r.2.emit (.pp_scheduler_job_done r.1 pp_job_to_return pp_sub_job_to_return false))
  | none =>
    let w1 := maliggy_group_post_process_job_gp cfg group w0
    let gp_job_to_return := group.gp_running_job
    let g1 := { group with state := MALI_GROUP_STATE_IDLE, gp_running_job := none }
    let d := maliggy_group_deactivate_page_directory g1 g1.session w1
    let r := maliggy_group_recovery_reset cfg d.1 d.2
    (r.1, r.2.emit (.gp_scheduler_job_done r.1 gp_job_to_return false))

/-- Bottom half of the MMU interrupt (`maliggy_group_bottom_half_mmu`). -/
def maliggy_group_bottom_half_mmu (cfg : Config) (group : maliggy_group) (w : World) :
    maliggy_group × World :=
  let w0 := maliggy_group_lock w
  if group.power_is_on = false then (group, maliggy_group_unlock w0)
  else
    let r := maliggy_mmu_get_rawstat w0
    if r.1 &&& (cfg.MALI_MMU_INTERRUPT_PAGE_FAULT ||| cfg.MALI_MMU_INTERRUPT_READ_BUS_ERROR) ≠ 0
    then
      let fa := maliggy_mmu_get_page_fault_addr r.2
      let pf := maliggy_group_mmu_page_fault cfg group fa.2
      (pf.1, maliggy_group_unlock pf.2)
    else (group, maliggy_group_unlock r.2)

/-- The part of `maliggy_group_bottom_half_gp` after the test for a clean completion (source
lines 1448 to 1497): error interrupt, software timeout, out of memory, or a single one of the two
completion interrupts. `irq_readout` is the raw status read before. -/
def maliggy_group_bottom_half_gp_rest (cfg : Config) (group : maliggy_group) (irq_readout : Nat)
    (w : World) : maliggy_group × World :=
  let irq_errors := irq_readout &&& u32_not (cfg.MALIGP2_REG_VAL_IRQ_VS_END_CMD_LST
    ||| cfg.MALIGP2_REG_VAL_IRQ_PLBU_END_CMD_LST ||| cfg.MALIGP2_REG_VAL_IRQ_HANG
    ||| cfg.MALIGP2_REG_VAL_IRQ_PLBU_OUT_OF_MEM)
  if irq_errors ≠ 0 then
    let c := maliggy_group_complete_gp cfg { group with core_timed_out := false } false w
    (c.1, maliggy_group_unlock c.2)
  else
    let fall (g : maliggy_group) (w : World) : maliggy_group × World :=
      (g, maliggy_group_unlock (maliggy_gp_enable_interrupts cfg
        (irq_readout &&& (cfg.MALIGP2_REG_VAL_IRQ_PLBU_END_CMD_LST
          ||| cfg.MALIGP2_REG_VAL_IRQ_VS_END_CMD_LST)) w))
    if group.core_timed_out then
      let g1 := { group with core_timed_out := false }
      let tp := _maliggy_osk_timer_pending w
      if !tp.1 && g1.gp_running_job.isSome then
        let c := maliggy_group_complete_gp cfg g1 false tp.2
        (c.1, maliggy_group_unlock c.2)
      else fall g1 tp.2
    else if irq_readout &&& cfg.MALIGP2_REG_VAL_IRQ_PLBU_OUT_OF_MEM ≠ 0 then
      let g1 := { group with state := MALI_GROUP_STATE_OOM }
      let w1 := maliggy_group_unlock w
      (g1, w1.emit (.gp_scheduler_oom g1 g1.gp_running_job))
    else fall group w

/-- Bottom half of the GP interrupt (`maliggy_group_bottom_half_gp`). -/
def maliggy_group_bottom_half_gp (cfg : Config) (group : maliggy_group) (w : World) :
    maliggy_group × World :=
  let w0 := maliggy_group_lock w
  if group.power_is_on = false then (group, maliggy_group_unlock w0)
  else
    let rs := maliggy_gp_read_rawstat cfg w0
    let irq_readout := rs.1
    let cs := if irq_readout &&& (cfg.MALIGP2_REG_VAL_IRQ_VS_END_CMD_LST
        ||| cfg.MALIGP2_REG_VAL_IRQ_PLBU_END_CMD_LST) ≠ 0
      then (maliggy_gp_read_core_status rs.2).map some id else (none, rs.2)
    if cs.1.any (fun core_status => core_status &&& cfg.MALIGP2_REG_VAL_STATUS_MASK_ACTIVE == 0)
    then
      let c := maliggy_group_complete_gp cfg { group with core_timed_out := false } true cs.2
      (c.1, maliggy_group_unlock c.2)
    else maliggy_group_bottom_half_gp_rest cfg group irq_readout cs.2

/-- Bottom half of the PP interrupt (`maliggy_group_bottom_half_pp`). -/
def maliggy_group_bottom_half_pp (cfg : Config) (group : maliggy_group) (w : World) :
    maliggy_group × World :=
  let core := group.pp_core.getD null_pp_core
  let w0 := maliggy_group_lock w
  if maliggy_group_is_in_virtual group then
    (group, maliggy_group_unlock (maliggy_pp_enable_interrupts cfg core w0))
  else if group.power_is_on = false then (group, maliggy_group_unlock w0)
  else
    let rs := maliggy_pp_read_rawstat cfg core w0
    let irq_readout := rs.1
    let st := if cfg.MALI200_REG_VAL_IRQ_END_OF_FRAME = irq_readout
        && maliggy_group_is_virtual group
      then (maliggy_pp_read_status core rs.2).map some id else (none, rs.2)
    if cfg.MALI200_REG_VAL_IRQ_END_OF_FRAME = irq_readout then
      if st.1.any (fun status_readout =>
          status_readout &&& cfg.MALI200_REG_VAL_STATUS_RENDERING_ACTIVE != 0) then
        (group, maliggy_group_unlock (maliggy_pp_enable_interrupts cfg core st.2))
      else
        let c := maliggy_group_complete_pp cfg { group with core_timed_out := false } true st.2
        (c.1, maliggy_group_unlock c.2)
    else
      let irq_errors := irq_readout &&& u32_not (cfg.MALI200_REG_VAL_IRQ_END_OF_FRAME
        ||| cfg.MALI200_REG_VAL_IRQ_HANG)
      if irq_errors ≠ 0 then
        let c := maliggy_group_complete_pp cfg { group with core_timed_out := false } false st.2
        (c.1, maliggy_group_unlock c.2)
      else if group.core_timed_out then
        let g1 := { group with core_timed_out := false }
        let tp := _maliggy_osk_timer_pending st.2
        if !tp.1 && g1.pp_running_job.isSome then
          let c := maliggy_group_complete_pp cfg g1 false tp.2
          (c.1, maliggy_group_unlock c.2)
        else (g1, maliggy_group_unlock tp.2)
      else (group, maliggy_group_unlock (maliggy_pp_enable_interrupts cfg core st.2))

/-- Timer callback (`maliggy_group_timeout`). -/
def maliggy_group_timeout (group : maliggy_group) (w : World) : maliggy_group × World :=
  let g1 := { group with core_timed_out := true }
  match group.gp_core with
  | some _ => (g1, w.emit (.call ._maliggy_osk_wq_schedule_work_gp []))
  | none => (g1, w.emit (.call ._maliggy_osk_wq_schedule_work_pp []))

/-- TLB flush for a session (`maliggy_group_zap_session`). -/
def maliggy_group_zap_session (cfg : Config) (group : maliggy_group) (session : Nat)
    (w : World) : maliggy_group × World :=
  if group.session ≠ some session then (group, w)
  else
    let w0 := maliggy_group_lock w
    let r := maliggy_group_remove_session_if_unused cfg group session w0
    if r.1.session = some session then
      let z := maliggy_mmu_zap_tlb cfg r.2
      if z.1 ≠ true then
        let pf := maliggy_group_mmu_page_fault cfg r.1 z.2
        (pf.1, maliggy_group_unlock pf.2)
      else (r.1, maliggy_group_unlock z.2)
    else (r.1, maliggy_group_unlock r.2)

/-- Number of iterations the loop of `maliggy_gp_hard_reset` performs. -/
def maliggy_gp_hard_reset_loop_count : Nat → World → Nat
  | 0, _ => 0
  | n + 1, w =>
    let w1 := maliggy_hw_core_register_write .gp .MALIGP2_REG_ADDR_MGMT_WRITE_BOUND_LOW 0xC01A0000 w
    let r := maliggy_hw_core_register_read .gp .MALIGP2_REG_ADDR_MGMT_WRITE_BOUND_LOW w1
    if r.1 = 0xC01A0000 then 1 else maliggy_gp_hard_reset_loop_count n r.2 + 1

/-! ## Projections of the log -/

/-- Events below the level of the group protocol: register writes, barriers, and the setters
and counter updates of job objects. -/
def Ev.low : Ev → Bool
  | .reg_write _ _ _ => true
  | .reg_write_array _ _ _ => true
  | .write_mem_barrier => true
  | .call .maliggy_gp_job_set_perf_counter_value0 _ => true
  | .call .maliggy_gp_job_set_perf_counter_value1 _ => true
  | .call .maliggy_gp_job_set_current_heap_addr _ => true
  | .call .maliggy_pp_update_performance_counters _ => true
  | _ => false

/-- The log without its low-level events. -/
def obs (l : List Ev) : List Ev := l.filter (fun e => !e.low)

/-- Scheduler callbacks. -/
def Ev.is_callback : Ev → Bool
  | .gp_scheduler_job_done _ _ _ => true
  | .pp_scheduler_job_done _ _ _ _ => true
  | .gp_scheduler_oom _ _ => true
  | _ => false

/-- Completion callbacks (`maliggy_gp_scheduler_job_done`, `maliggy_pp_scheduler_job_done`). -/
def Ev.is_job_done : Ev → Bool
  | .gp_scheduler_job_done _ _ _ => true
  | .pp_scheduler_job_done _ _ _ _ => true
  | _ => false

/-- Writes of the MMU page directory pointer register. -/
def Ev.is_dte_write : Ev → Bool
  | .reg_write .mmu .MALI_MMU_REGISTER_DTE_ADDR _ => true
  | _ => false

/-- Calls made inside `maliggy_group_recovery_reset`. -/
def Ev.is_reset_detail : Ev → Bool
  | .call .maliggy_pp_stop_bus _ => true
  | .call .maliggy_gp_stop_bus _ => true
  | .call .maliggy_mmu_activate_fault_flush_page_directory _ => true
  | .call .maliggy_mmu_page_fault_done _ => true
  | .call .maliggy_pp_stop_bus_wait _ => true
  | .call .maliggy_pp_hard_reset _ => true
  | .call .maliggy_gp_stop_bus_wait _ => true
  | .call .maliggy_gp_hard_reset _ => true
  | .call .maliggy_bcast_disable _ => true
  | .call .maliggy_bcast_enable _ => true
  | .call .maliggy_mmu_reset _ => true
  | _ => false

/-- Issue of a soft reset of the core (`maliggy_gp_reset_async`, `maliggy_pp_reset_async`). -/
def Ev.is_soft_reset : Ev → Bool
  | .call .maliggy_gp_reset_async _ => true
  | .call .maliggy_pp_reset_async _ => true
  | _ => false

/-- The writes of the MMU page directory pointer register recorded in a log. -/
def dte_writes (l : List Ev) : List Ev := l.filter Ev.is_dte_write

/-- Completion callbacks that report a failure (`success` false). -/
def Ev.reports_failure : Ev → Bool
  | .gp_scheduler_job_done _ _ false => true
  | .pp_scheduler_job_done _ _ _ false => true
  | _ => false

/-! ## Runs of a group -/

/-- The operations on a group, with their arguments. -/
inductive Op
  | start_gp_job (job : maliggy_gp_job)
  | start_pp_job (job : maliggy_pp_job) (sub_job : Nat)
  | bottom_half_gp
  | bottom_half_pp
  | bottom_half_mmu
  | timeout
  | resume_gp_with_new_heap (job_id start_addr end_addr : Nat)
  | abort_gp_job (job_id : Nat)
  | abort_pp_job (job_id : Nat)
  | abort_session (session : Nat)
  | zap_session (session : Nat)
  | complete_gp (success : Bool)
  | complete_pp (success : Bool)
  | mmu_page_fault

/-- The effect of an operation; `none` when it dereferences a null running job. -/
def Op.apply (cfg : Config) (op : Op) (group : maliggy_group) (w : World) :
    Option (maliggy_group × World) :=
  match op with
  | .start_gp_job job => some (maliggy_group_start_gp_job cfg group job w)
  | .start_pp_job job sub_job => some (maliggy_group_start_pp_job cfg group job sub_job w)
  | .bottom_half_gp => some (maliggy_group_bottom_half_gp cfg group w)
  | .bottom_half_pp => some (maliggy_group_bottom_half_pp cfg group w)
  | .bottom_half_mmu => some (maliggy_group_bottom_half_mmu cfg group w)
  | .timeout => some (maliggy_group_timeout group w)
  | .resume_gp_with_new_heap job_id start_addr end_addr =>
    (maliggy_group_resume_gp_with_new_heap cfg group job_id start_addr end_addr w).map
      fun r => r.2
  | .abort_gp_job job_id => maliggy_group_abort_gp_job cfg group job_id w
  | .abort_pp_job job_id => maliggy_group_abort_pp_job cfg group job_id w
  | .abort_session session => maliggy_group_abort_session cfg group session w
  | .zap_session session => some (maliggy_group_zap_session cfg group session w)
  | .complete_gp success => some (maliggy_group_complete_gp cfg group success w)
  | .complete_pp success => some (maliggy_group_complete_pp cfg group success w)
  | .mmu_page_fault => some (maliggy_group_mmu_page_fault cfg group w)

/-- What the source requires of the caller of an operation as far as the kind of the group goes:
a job start finds the group `IDLE` (asserted at lines 594 and 645) and a core of its kind; the
bottom half and the completion of a core kind run on a group owning such a core (the work item
is created by `maliggy_group_add_gp_core` / `maliggy_group_add_pp_core`; asserted at lines 846
and 881). -/
def Op.guard_kind (op : Op) (group : maliggy_group) : Prop :=
  match op with
  | .start_gp_job _ => group.state = MALI_GROUP_STATE_IDLE ∧ group.gp_core.isSome
  | .start_pp_job _ _ => group.state = MALI_GROUP_STATE_IDLE ∧ group.pp_core.isSome
  | .bottom_half_gp => group.gp_core.isSome
  | .bottom_half_pp => group.pp_core.isSome
  | .complete_gp _ => group.gp_core.isSome
  | .complete_pp _ => group.pp_core.isSome
  | _ => True

/-- A job is running on the core the group owns. -/
def job_running (group : maliggy_group) : Prop :=
  (group.pp_core.isSome ∧ group.pp_running_job.isSome)
  ∨ (group.pp_core = none ∧ group.gp_running_job.isSome)

/-- What the debug build asserts on top of `Op.guard_kind`: a completion, a page fault or an
interrupt is handled only while a job is running (the running job is asserted non-null at lines
847, 882, 1250 and 1269). The release build does not check it, and the interrupt handlers can
run on a group without a job; runs restricted by this guard are the runs in which they do
not. -/
def Op.guard_running (op : Op) (group : maliggy_group) : Prop :=
  op.guard_kind group ∧
  match op with
  | .bottom_half_gp => job_running group
  | .bottom_half_pp => job_running group
  | .bottom_half_mmu => job_running group
  | .complete_gp _ => job_running group
  | .complete_pp _ => job_running group
  | .mmu_page_fault => job_running group
  | _ => True

/-- A group as it is after `maliggy_group_create` and the registration of its one core: a GP
group, or a PP group (physical or virtual, the latter possibly with its children attached). -/
def Fresh (group : maliggy_group) : Prop :=
  (∃ l2 core, group = maliggy_group_add_gp_core (maliggy_group_create l2 none none) core)
  ∨ (∃ l2 dlbu bcast core children,
      group = { maliggy_group_add_pp_core (maliggy_group_create l2 dlbu bcast) core with
                group_list := children })

/-- States reached from `(g0, w0)` by operations that respect `guard`. -/
inductive Reachable (cfg : Config) (guard : Op → maliggy_group → Prop)
    (g0 : maliggy_group) (w0 : World) : maliggy_group → World → Prop
  | init : Reachable cfg guard g0 w0 g0 w0
  | step {g : maliggy_group} {w : World} (op : Op) {g1 : maliggy_group} {w1 : World} :
      Reachable cfg guard g0 w0 g w → guard op g → op.apply cfg g w = some (g1, w1) →
      Reachable cfg guard g0 w0 g1 w1

/-- Number of successful returns of `maliggy_group_activate_page_directory` in a log. -/
def count_activations (l : List Ev) : Nat :=
  l.countP fun e => e == .ret .maliggy_group_activate_page_directory 1
    || e == .ret .maliggy_group_activate_page_directory 2

/-- Number of calls of `maliggy_group_deactivate_page_directory` in a log. -/
def count_deactivations (l : List Ev) : Nat :=
  l.countP fun e =>
    match e with
    | .call .maliggy_group_deactivate_page_directory _ => true
    | _ => false

/-! ## Concrete inputs -/

/-- The constants of the Mali-400 register map and the defaults of the driver (poll count 1000,
watchdog 5000 ms); page directories at `0x1000 * (session + 1)`. -/
def cfg_mali400 : Config :=
  { MALI_REG_POLL_COUNT_FAST := 1000
    MALI_REG_POLL_COUNT_SLOW := 1000000
    MALI_HW_CORE_NO_COUNTER := 0xFFFFFFFF
    MALIGP2_REG_VAL_IRQ_VS_END_CMD_LST := 0x1
    MALIGP2_REG_VAL_IRQ_PLBU_END_CMD_LST := 0x2
    MALIGP2_REG_VAL_IRQ_PLBU_OUT_OF_MEM := 0x4
    MALIGP2_REG_VAL_IRQ_HANG := 0x20
    MALIGP2_REG_VAL_IRQ_MASK_USED := 0x706E47
    MALIGP2_REG_VAL_IRQ_MASK_ALL := 0x787FFF
    MALI400GP_REG_VAL_IRQ_RESET_COMPLETED := 0x80000
    MALIGP2_REG_VAL_STATUS_MASK_ACTIVE := 0x6
    MALIGP2_REG_VAL_STATUS_BUS_STOPPED := 0x200
    MALIGP2_REG_VAL_CMD_START_VS := 0x1
    MALIGP2_REG_VAL_CMD_START_PLBU := 0x2
    MALIGP2_REG_VAL_CMD_UPDATE_PLBU_ALLOC := 0x10
    MALIGP2_REG_VAL_CMD_RESET := 0x20
    MALIGP2_REG_VAL_CMD_STOP_BUS := 0x200
    MALI400GP_REG_VAL_CMD_SOFT_RESET := 0x400
    MALIGP2_REG_VAL_PERF_CNT_ENABLE := 0x1
    MALI200_REG_VAL_IRQ_END_OF_FRAME := 0x1
    MALI200_REG_VAL_IRQ_HANG := 0x4
    MALI200_REG_VAL_IRQ_MASK_USED := 0xF19
    MALI200_REG_VAL_STATUS_RENDERING_ACTIVE := 0x1
    MALI_MMU_STATUS_BIT_PAGING_ENABLED := 0x1
    MALI_MMU_STATUS_BIT_PAGE_FAULT_ACTIVE := 0x2
    MALI_MMU_STATUS_BIT_STALL_ACTIVE := 0x4
    MALI_MMU_STATUS_BIT_STALL_NOT_ACTIVE := 0x80000000
    MALI_MMU_INTERRUPT_PAGE_FAULT := 0x1
    MALI_MMU_INTERRUPT_READ_BUS_ERROR := 0x2
    MALI400_L2_CACHE_STATUS_COMMAND_BUSY := 0x1
    MALI400_L2_CACHE_COMMAND_CLEAR_ALL := 0x1
    maliggy_empty_page_directory := 0x100000
    maliggy_page_fault_flush_page_directory := 0x200000
    maliggy_max_job_runtime := 5000
    session_page_directory := fun s => 0x1000 * (s + 1) }

/-- A world with the given oracle, an empty log, job counter 0 and pristine caches. -/
def world_of (reads : List Nat) : World :=
  { reads := reads, log := [], maliggy_job_autonumber := 0,
    l2 := fun c => { core_id := c, counter_src0 := 0xFFFFFFFF, counter_src1 := 0xFFFFFFFF,
                     last_invalidated_id := 0 } }

/-- A GP group fresh from creation, without an L2 cache. -/
def gp_group0 : maliggy_group :=
  maliggy_group_add_gp_core (maliggy_group_create none none none)
    { counter_src0_used := 0xFFFFFFFF, counter_src1_used := 0xFFFFFFFF }

/-- A physical PP group fresh from creation, without an L2 cache. -/
def pp_group0 : maliggy_group :=
  maliggy_group_add_pp_core (maliggy_group_create none none none) { core_id := 0, bcast_id := 1 }

/-- A GP job of session 7 with id 1. -/
def gp_job1 : maliggy_gp_job :=
  { id := 1, session := 7, frame_registers := [], perf_counter_src0 := 0xFFFFFFFF,
    perf_counter_src1 := 0xFFFFFFFF, has_vs_job := true, has_plbu_job := true }

/-- A PP job of session 7 with id 3. -/
def pp_job1 : maliggy_pp_job := { id := 3, session := 7, addr_stack := [] }

/-- The GP group `gp_group0` after the start of `gp_job1` with an all-zero oracle. -/
def gp_group_working : maliggy_group :=
  (maliggy_group_start_gp_job cfg_mali400 gp_group0 gp_job1 (world_of [])).1

/-- The PP group `pp_group0` after the start of `pp_job1` with an all-zero oracle. -/
def pp_group_working : maliggy_group :=
  (maliggy_group_start_pp_job cfg_mali400 pp_group0 pp_job1 0 (world_of [])).1

/-- The working GP group after its timer fired (`core_timed_out` set). -/
def gp_group_timed_out : maliggy_group := (maliggy_group_timeout gp_group_working (world_of [])).1

/-! ## The scheduling state of a group and its transitions -/

open maliggy_group_core_state maliggy_group_activate_pd_status

/-- What the invariants of a group speak about: the state, which cores the group owns, which job
slots are occupied, and the reference count of the page directory. -/
structure Shape where
  state : maliggy_group_core_state
  gp_core : Bool
  pp_core : Bool
  gp_job : Bool
  pp_job : Bool
  ref : Int

/-- The shape of a group. -/
def maliggy_group.shape (g : maliggy_group) : Shape :=
  { state := g.state, gp_core := g.gp_core.isSome, pp_core := g.pp_core.isSome,
    gp_job := g.gp_running_job.isSome, pp_job := g.pp_running_job.isSome,
    ref := g.page_dir_ref_count }

/-- The ways an operation changes the shape of a group. -/
inductive Tr
  | same
  | done_gp
  | done_pp
  | start_gp
  | start_pp
  | oom
  | resume

/-- The shape after a transition. -/
def Tr.apply : Tr → Shape → Shape
  | .same, s => s
  | .done_gp, s => { s with state := MALI_GROUP_STATE_IDLE, gp_job := false, ref := s.ref - 1 }
  | .done_pp, s => { s with state := MALI_GROUP_STATE_IDLE, pp_job := false, ref := s.ref - 1 }
  | .start_gp, s => { s with state := MALI_GROUP_STATE_WORKING, gp_job := true, ref := s.ref + 1 }
  | .start_pp, s => { s with state := MALI_GROUP_STATE_WORKING, pp_job := true, ref := s.ref + 1 }
  | .oom, s => { s with state := MALI_GROUP_STATE_OOM }
  | .resume, s => { s with state := MALI_GROUP_STATE_WORKING }

/-- The transition a page fault causes: the job of the core the group owns is completed. -/
def maliggy_group.fault_tr (g : maliggy_group) : Tr :=
  if g.pp_core.isSome then .done_pp else .done_gp

/-- What is known of the shape before a transition from the tests of the code and from
`Op.guard_kind`. -/
def Tr.pre_kind : Tr → Shape → Prop
  | .same, _ => True
  | .done_gp, s => s.gp_core = true ∨ s.gp_job = true ∨ s.pp_core = false
  | .done_pp, s => s.pp_core = true ∨ s.pp_job = true
  | .start_gp, s => s.state = MALI_GROUP_STATE_IDLE ∧ s.gp_core = true
  | .start_pp, s => s.state = MALI_GROUP_STATE_IDLE ∧ s.pp_core = true
  | .oom, s => s.gp_core = true
  | .resume, s => s.state = MALI_GROUP_STATE_OOM ∧ s.gp_job = true

/-- A job is running, read off the shape (`job_running`). -/
def Shape.job_running (s : Shape) : Prop :=
  (s.pp_core = true ∧ s.pp_job = true) ∨ (s.pp_core = false ∧ s.gp_job = true)

/-- What is known of the shape before a transition when `Op.guard_running` holds too. -/
def Tr.pre_run : Tr → Shape → Prop
  | .done_gp, s => s.job_running ∨ s.gp_job = true ∨ s.ref ≠ 0
  | .done_pp, s => s.job_running ∨ s.pp_job = true ∨ s.ref ≠ 0
  | .oom, s => s.job_running
  | _, _ => True

/-- The invariant of the job slots: a group is a GP group or a PP group; only the slot of its
kind is ever occupied; `WORKING` implies an occupied slot, and an occupied slot implies `WORKING`
or, on a GP group, `OOM`. -/
def Shape.slots_ok (s : Shape) : Prop :=
  (s.gp_core = true ∧ s.pp_core = false ∧ s.pp_job = false
    ∧ (s.gp_job = true → s.state = MALI_GROUP_STATE_WORKING ∨ s.state = MALI_GROUP_STATE_OOM)
    ∧ (s.state = MALI_GROUP_STATE_WORKING → s.gp_job = true)
    ∧ (s.state = MALI_GROUP_STATE_IDLE ∨ s.state = MALI_GROUP_STATE_WORKING
        ∨ s.state = MALI_GROUP_STATE_OOM))
  ∨ (s.pp_core = true ∧ s.gp_core = false ∧ s.gp_job = false
    ∧ (s.pp_job = true ↔ s.state = MALI_GROUP_STATE_WORKING)
    ∧ (s.state = MALI_GROUP_STATE_IDLE ∨ s.state = MALI_GROUP_STATE_WORKING))

/-- The invariant of the reference count: it is 1 while a job occupies a slot and 0 otherwise,
and on a GP group `OOM` implies an occupied slot. -/
def Shape.ref_ok (s : Shape) : Prop :=
  s.ref = (if s.gp_job = true ∨ s.pp_job = true then 1 else 0)
  ∧ (s.state = MALI_GROUP_STATE_OOM → s.gp_job = true)

/-- Whether a call of `maliggy_group_deactivate_page_directory` recorded in the log passed the
session of the group (true of every other event). -/
def Ev.deact_ok : Ev → Bool
  | .call .maliggy_group_deactivate_page_directory args =>
    match args with
    | [s, gs] => s == gs
    | _ => false
  | _ => true

/-- The events of the page-directory accounting: returns of
`maliggy_group_activate_page_directory` and calls of `maliggy_group_deactivate_page_directory`.
-/
def Ev.is_pd : Ev → Bool
  | .ret .maliggy_group_activate_page_directory _ => true
  | .call .maliggy_group_deactivate_page_directory _ => true
  | _ => false

/-- The events of the page-directory accounting recorded in a log. -/
def pd_events (l : List Ev) : List Ev := l.filter Ev.is_pd

/-- The accounting events `l1` extend `l` while the reference count goes from `r` to `r1`: the
events added hold as many successful activations more than deactivations as the count grew, and
every deactivation added passed the session of the group. -/
def PdRel (r : Int) (l : List Ev) (r1 : Int) (l1 : List Ev) : Prop :=
  ∃ t, l1 = l ++ t
    ∧ (count_activations t : Int) + r = count_deactivations t + r1
    ∧ ∀ e ∈ t, e.deact_ok = true

/-- The step of the page-directory accounting from `(g, w)` to `(g1, w1)`. -/
def PdStep (g : maliggy_group) (w : World) (g1 : maliggy_group) (w1 : World) : Prop :=
  PdRel g.page_dir_ref_count (pd_events (obs w.log))
    g1.page_dir_ref_count (pd_events (obs w1.log))

/-- Exactly one of the two job slots of the group is occupied. -/
def one_job_running (g : maliggy_group) : Prop :=
  (g.gp_running_job ≠ none ∧ g.pp_running_job = none)
  ∨ (g.gp_running_job = none ∧ g.pp_running_job ≠ none)

/-- The oracle of the run "start a GP job, then an interrupt with PLBU_OUT_OF_MEM": two MMU
status reads for the start, then the raw status `0x4`. -/
def reads_oom_run : List Nat := [0, 0, 0x4]

/-- The state after the start of `gp_job1` on `gp_group0` in the run `reads_oom_run`. -/
def oom_run_started : maliggy_group × World :=
  maliggy_group_start_gp_job cfg_mali400 gp_group0 gp_job1 (world_of reads_oom_run)

/-- The state after the GP bottom half that follows in the run `reads_oom_run`. -/
def oom_run_suspended : maliggy_group × World :=
  maliggy_group_bottom_half_gp cfg_mali400 oom_run_started.1 oom_run_started.2

/-- The oracle of the run "start a GP job, then the interrupt of its clean completion": two MMU
status reads for the start, the raw status `0x3` (both END_CMD_LST bits), the core status `0`
(not active), the heap address `0`, and the raw status `0x80000` (RESET_COMPLETED) for the wait
of the soft reset. -/
def reads_done_run : List Nat := [0, 0, 0x3, 0, 0, 0x80000]

/-- The state after the start of `gp_job1` on `gp_group0` in the run `reads_done_run`. -/
def done_run_started : maliggy_group × World :=
  maliggy_group_start_gp_job cfg_mali400 gp_group0 gp_job1 (world_of reads_done_run)

/-- The state after the GP bottom half that follows in the run `reads_done_run`. -/
def done_run_completed : maliggy_group × World :=
  maliggy_group_bottom_half_gp cfg_mali400 done_run_started.1 done_run_started.2

/-! ## Virtual groups (`mali_group.h`, `mali_group.c`, `mali_broadcast.c`) -/

/-- Disable a virtual group that has no child (`maliggy_group_virtual_disable_if_empty`): the
result is `empty` and the group. -/
def maliggy_group_virtual_disable_if_empty (group : maliggy_group) : Bool × maliggy_group :=
  if group.group_list.isEmpty then
    (true, { group with state := MALI_GROUP_STATE_DISABLED, session := none })
  else (false, group)

/-- Enable a virtual group that has no child yet (`maliggy_group_virtual_enable_if_empty`): the
result is `empty` and the group. -/
def maliggy_group_virtual_enable_if_empty (group : maliggy_group) : Bool × maliggy_group :=
  if group.group_list.isEmpty then (true, { group with state := MALI_GROUP_STATE_IDLE })
  else (false, group)

/-- An empty virtual group in state `DISABLED`, with a broadcast unit and a DLBU. -/
def vgroup0 : maliggy_group :=
  { maliggy_group_add_pp_core (maliggy_group_create none (some 0) (some { current_mask := 0 }))
      { core_id := 8, bcast_id := 0 } with state := MALI_GROUP_STATE_DISABLED }

/-- The GP group `oom_run_suspended.1`: state `OOM`, running job `gp_job1`. -/
def gp_group_oom : maliggy_group := oom_run_suspended.1

/-! ## L2 caches: power state and the global functions (`mali_l2_cache.c`) -/

/-- Call of `maliggy_pm_domain_lock_state` (its definition is not part of these sources): the
`maliggy_bool` it returns is the next value of the oracle. -/
def maliggy_pm_domain_lock_state (w : World) : Nat × World :=
  let r := (w.emit (.call .maliggy_pm_domain_lock_state [])).read
  (r.1, r.2.emit (.ret .maliggy_pm_domain_lock_state r.1))

/-- Call of `maliggy_pm_domain_unlock_state` (its definition is not part of these sources). -/
def maliggy_pm_domain_unlock_state (w : World) : World :=
  w.emit (.call .maliggy_pm_domain_unlock_state [])

/-- Lock the power state of a cache (`maliggy_l2_cache_lock_power_state`). -/
def maliggy_l2_cache_lock_power_state (_cache : Nat) (w : World) : Nat × World :=
  maliggy_pm_domain_lock_state w

/-- Unlock the power state of a cache (`maliggy_l2_cache_unlock_power_state`). -/
def maliggy_l2_cache_unlock_power_state (_cache : Nat) (w : World) : World :=
  maliggy_pm_domain_unlock_state w

/-- Invalidate every cache that is powered (`maliggy_l2_cache_invalidate_all`); `caches` is the
array `maliggy_global_l2_cache_cores`, and 1 is `MALI_TRUE`. -/
def maliggy_l2_cache_invalidate_all (cfg : Config) (caches : List Nat) (w : World) : World :=
  caches.foldl (fun w cache =>
    let p := maliggy_l2_cache_lock_power_state cache w
    let w1 :=
      if p.1 = 1 then
        let n := maliggy_scheduler_get_new_id p.2
        (maliggy_l2_cache_send_command cfg cache .MALI400_L2_CACHE_REGISTER_COMMAND
          cfg.MALI400_L2_CACHE_COMMAND_CLEAR_ALL (n.2.set_last_invalidated_id cache n.1)).2
      else p.2
    maliggy_l2_cache_unlock_power_state cache w1) w

/-- The invalidation functions of the L2 cache module, with their arguments. -/
inductive L2Op
  | invalidate (cache : Nat)
  | invalidate_conditional (cache : Nat) (id : Nat)
  | invalidate_all

/-- The effect of an invalidation function; `caches` is the global array of caches. -/
def L2Op.apply (cfg : Config) (caches : List Nat) : L2Op → World → World
  | .invalidate cache, w => maliggy_l2_cache_invalidate cfg (some cache) w
  | .invalidate_conditional cache id, w =>
    (maliggy_l2_cache_invalidate_conditional cfg (some cache) id w).2
  | .invalidate_all, w => maliggy_l2_cache_invalidate_all cfg caches w

/-- A sequence of invalidation calls. -/
def l2_run (cfg : Config) (caches : List Nat) (ops : List L2Op) (w : World) : World :=
  ops.foldl (fun w op => op.apply cfg caches w) w

/-- A world whose L2 command interface reads busy for 100000 polls; cache 0 has
`last_invalidated_id` 0. -/
def world_l2_busy : World := world_of (List.replicate 100000 1)

/-- A world in which cache 0 has `last_invalidated_id = 0x7FFFFFFF`. -/
def world_l2_max : World :=
  (world_of []).set_last_invalidated_id 0 0x7FFFFFFF

/-- Whether the status polls of `maliggy_l2_cache_send_command`, started in `w`, find the command
interface of the cache idle before the bound of 100000 reads. -/
def l2_command_idle (cfg : Config) (w : World) : Bool :=
  (poll_register (.l2 0) .MALI400_L2_CACHE_REGISTER_STATUS
    (fun v => v &&& cfg.MALI400_L2_CACHE_STATUS_COMMAND_BUSY == 0) l2_loop_count 0 w).1

/-- From `w` to `w'` no cache lost ground: every `last_invalidated_id` is at least what it was
and at most the job counter, which itself advanced by at most `k`. -/
def l2_mono (w w' : World) (k : Nat) : Prop :=
  (∀ c, (w.l2 c).last_invalidated_id ≤ (w'.l2 c).last_invalidated_id)
  ∧ (∀ c, (w'.l2 c).last_invalidated_id ≤ w'.maliggy_job_autonumber)
  ∧ w.maliggy_job_autonumber ≤ w'.maliggy_job_autonumber
  ∧ w'.maliggy_job_autonumber ≤ w.maliggy_job_autonumber + k

/-- The world after `n` job ids were drawn from the global counter by
`maliggy_scheduler_get_new_id`, starting with the counter at 0. -/
def world_after_draws (n : Nat) : World :=
  Nat.iterate (fun w => (maliggy_scheduler_get_new_id w).2) n (world_of [])

/-! ## Interrupt upper halves (`mali_group.c`) -/

/-- Build options and constants of the upper halves that these sources do not fix: the two
preprocessor switches, and the values `MALIGP2_REG_VAL_IRQ_MASK_NONE` and
`MALI200_REG_VAL_IRQ_MASK_NONE` of the register headers. -/
structure BuildConfig where
  CONFIG_MALI_SHARED_INTERRUPTS : Bool
  MALI_UPPER_HALF_SCHEDULING : Bool
  MALIGP2_REG_VAL_IRQ_MASK_NONE : Nat
  MALI200_REG_VAL_IRQ_MASK_NONE : Nat

/-- The default build: no shared interrupt lines, no upper-half scheduling, mask value 0. -/
def build_default : BuildConfig :=
  { CONFIG_MALI_SHARED_INTERRUPTS := false, MALI_UPPER_HALF_SCHEDULING := false,
    MALIGP2_REG_VAL_IRQ_MASK_NONE := 0, MALI200_REG_VAL_IRQ_MASK_NONE := 0 }

/-- Masked interrupt status of the GP (`maliggy_gp_get_int_stat`). -/
def maliggy_gp_get_int_stat (w : World) : Nat × World :=
  maliggy_hw_core_register_read .gp .MALIGP2_REG_ADDR_MGMT_INT_STAT w

/-- Mask every GP interrupt (`maliggy_gp_mask_all_interrupts`). -/
def maliggy_gp_mask_all_interrupts (bc : BuildConfig) (w : World) : World :=
  maliggy_hw_core_register_write .gp .MALIGP2_REG_ADDR_MGMT_INT_MASK
    bc.MALIGP2_REG_VAL_IRQ_MASK_NONE w

/-- Masked interrupt status of a PP core (`maliggy_pp_get_int_stat`). -/
def maliggy_pp_get_int_stat (core : maliggy_pp_core) (w : World) : Nat × World :=
  maliggy_hw_core_register_read (.pp core.core_id) .MALI200_REG_ADDR_MGMT_INT_STATUS w

/-- Mask every interrupt of a PP core (`maliggy_pp_mask_all_interrupts`). -/
def maliggy_pp_mask_all_interrupts (bc : BuildConfig) (core : maliggy_pp_core) (w : World) :
    World :=
  maliggy_hw_core_register_write (.pp core.core_id) .MALI200_REG_ADDR_MGMT_INT_MASK
    bc.MALI200_REG_VAL_IRQ_MASK_NONE w

/-- Call of `maliggy_mmu_get_int_status` (declared in `mali_mmu.h`, which is not part of these
sources): the status is the next value of the oracle. -/
def maliggy_mmu_get_int_status (w : World) : Nat × World :=
  let r := (w.emit (.call .maliggy_mmu_get_int_status [])).read
  (r.1, r.2.emit (.ret .maliggy_mmu_get_int_status r.1))

/-- Call of `maliggy_mmu_mask_all_interrupts` (declared in `mali_mmu.h`). -/
def maliggy_mmu_mask_all_interrupts (w : World) : World :=
  w.emit (.call .maliggy_mmu_mask_all_interrupts [])

/-- Entry of an upper half: with shared interrupt lines the state of the power domain is locked
and the handler gives up when the domain is off. Returns whether the handler goes on. -/
def upper_half_enter (bc : BuildConfig) (w : World) : Bool × World :=
  if bc.CONFIG_MALI_SHARED_INTERRUPTS then
    let p := maliggy_pm_domain_lock_state w
    (p.1 != 0, p.2)
  else (true, w)

/-- The label `out` of an upper half: with shared interrupt lines the state of the power domain
is unlocked. -/
def upper_half_leave (bc : BuildConfig) (w : World) : World :=
  if bc.CONFIG_MALI_SHARED_INTERRUPTS then maliggy_pm_domain_unlock_state w else w

/-- Upper half of the MMU interrupt (`maliggy_group_upper_half_mmu`); true stands for
`_MALI_OSK_ERR_OK`, false for `_MALI_OSK_ERR_FAULT`. The work scheduled is the MMU bottom half of
the group, or of its parent when it has one (recorded as the argument). -/
def maliggy_group_upper_half_mmu (bc : BuildConfig) (group : maliggy_group) (w : World) :
    Bool × World :=
  let e := upper_half_enter bc w
  if e.1 = false then (false, upper_half_leave bc e.2)
  else
    let int_stat := maliggy_mmu_get_int_status e.2
    if int_stat.1 ≠ 0 then
      let w1 := maliggy_mmu_mask_all_interrupts int_stat.2
      let w2 := w1.emit (.call ._maliggy_osk_wq_schedule_work_mmu [s2n group.parent_group])
      (true, upper_half_leave bc w2)
    else (false, upper_half_leave bc int_stat.2)

/-- Upper half of the GP interrupt (`maliggy_group_upper_half_gp`). -/
def maliggy_group_upper_half_gp (bc : BuildConfig) (_group : maliggy_group) (w : World) :
    Bool × World :=
  let e := upper_half_enter bc w
  if e.1 = false then (false, upper_half_leave bc e.2)
  else
    let irq_readout := maliggy_gp_get_int_stat e.2
    if bc.MALIGP2_REG_VAL_IRQ_MASK_NONE ≠ irq_readout.1 then
      let w1 := maliggy_gp_mask_all_interrupts bc irq_readout.2
      let w2 := w1.emit (.call ._maliggy_osk_wq_schedule_work_gp [])
      (true, upper_half_leave bc w2)
    else (false, upper_half_leave bc irq_readout.2)

/-- Upper half of the PP interrupt (`maliggy_group_upper_half_pp`), with both settings of
`MALI_UPPER_HALF_SCHEDULING`. -/
def maliggy_group_upper_half_pp (cfg : Config) (bc : BuildConfig) (group : maliggy_group)
    (w : World) : Bool × maliggy_group × World :=
  let core := group.pp_core.getD null_pp_core
  let e := upper_half_enter bc w
  if e.1 = false then (false, group, upper_half_leave bc e.2)
  else if !bc.MALI_UPPER_HALF_SCHEDULING && maliggy_group_is_in_virtual group then
    (true, group, upper_half_leave bc e.2)
  else
    let irq_readout := maliggy_pp_get_int_stat core e.2
    if bc.MALI200_REG_VAL_IRQ_MASK_NONE ≠ irq_readout.1 then
      let w1 := maliggy_pp_mask_all_interrupts bc core irq_readout.2
      if bc.MALI_UPPER_HALF_SCHEDULING
          && cfg.MALI200_REG_VAL_IRQ_END_OF_FRAME == irq_readout.1 then
        let w2 := maliggy_group_lock w1
        let rs := maliggy_pp_read_rawstat cfg core w2
        if cfg.MALI200_REG_VAL_IRQ_END_OF_FRAME ≠ rs.1 then
          (true, group, upper_half_leave bc
            (maliggy_group_unlock (maliggy_pp_enable_interrupts cfg core rs.2)))
        else
          let st := if maliggy_group_is_virtual group
            then (maliggy_pp_read_status core rs.2).map some id else (none, rs.2)
          if st.1.any (fun status_readout =>
              status_readout &&& cfg.MALI200_REG_VAL_STATUS_RENDERING_ACTIVE != 0) then
            (true, group, upper_half_leave bc
              (maliggy_group_unlock (maliggy_pp_enable_interrupts cfg core st.2)))
          else if maliggy_group_is_in_virtual group then
            (false, group, upper_half_leave bc
              (maliggy_group_unlock (maliggy_pp_enable_interrupts cfg core st.2)))
          else
            let c := maliggy_group_complete_pp cfg { group with core_timed_out := false } true
              st.2
            (true, c.1, upper_half_leave bc (maliggy_group_unlock c.2))
      else
        let w2 := w1.emit (.call ._maliggy_osk_wq_schedule_work_pp [])
        (true, group, upper_half_leave bc w2)
    else (false, group, upper_half_leave bc irq_readout.2)

/-- A physical PP group that is a member of the virtual group 1. -/
def pp_child_in_virtual : maliggy_group :=
  { pp_group0 with state := MALI_GROUP_STATE_IN_VIRTUAL, parent_group := some 1 }

/-! ## Membership of virtual groups (`mali_group.c`, `mali_broadcast.c`) -/

/-- Add the PP core and the MMU of a group to the broadcast mask (`maliggy_bcast_add_group`). -/
def maliggy_bcast_add_group (bcast_unit : maliggy_bcast_unit) (group : maliggy_group) :
    maliggy_bcast_unit :=
  let bcast_id := (group.pp_core.getD null_pp_core).bcast_id
  let broadcast_mask := bcast_unit.current_mask
  let broadcast_mask := broadcast_mask ||| bcast_id
  let broadcast_mask := broadcast_mask ||| ((bcast_id <<< 16) % 4294967296)
  { current_mask := broadcast_mask }

/-- Remove the PP core and the MMU of a group from the broadcast mask
(`maliggy_bcast_remove_group`). -/
def maliggy_bcast_remove_group (bcast_unit : maliggy_bcast_unit) (group : maliggy_group) :
    maliggy_bcast_unit :=
  let bcast_id := (group.pp_core.getD null_pp_core).bcast_id
  { current_mask := bcast_unit.current_mask
      &&& u32_not (((bcast_id <<< 16) % 4294967296) ||| bcast_id) }

/-- Call of `maliggy_dlbu_add_group` (defined in `mali_dlbu.c`); the argument recorded is the id of
the PP core of the group. -/
def maliggy_dlbu_add_group (group : maliggy_group) (w : World) : World :=
  w.emit (.call .maliggy_dlbu_add_group [(group.pp_core.getD null_pp_core).core_id])

/-- Call of `maliggy_dlbu_remove_group` (defined in `mali_dlbu.c`). -/
def maliggy_dlbu_remove_group (group : maliggy_group) (w : World) : World :=
  w.emit (.call .maliggy_dlbu_remove_group [(group.pp_core.getD null_pp_core).core_id])

/-- Call of `maliggy_dlbu_update_mask` (defined in `mali_dlbu.c`): the DLBU mask goes to the
hardware. -/
def maliggy_dlbu_update_mask (w : World) : World :=
  w.emit (.call .maliggy_dlbu_update_mask [])

/-- The group objects, addressed by pointer, and for each group the entries of the list headed
by its `group_list`, as pointers to the children in list order. The field `group_list` of a
group object keeps the PP cores of these children. -/
structure GroupTable where
  group : Nat → maliggy_group
  members : Nat → List Nat

/-- The PP core of a group (`maliggy_group_get_pp_core`), the null core standing in for `NULL`. -/
def GroupTable.core_of (t : GroupTable) (g : Nat) : maliggy_pp_core :=
  (t.group g).pp_core.getD null_pp_core

/-- The parent after `maliggy_group_add_group` has linked the child and counted its L2 cache
(source lines 352 to 397): the loop over the two slots compares each slot with the cache of the
child; when neither matches the cache goes to slot 0 if that is empty and to slot 1 otherwise.
The counters are `u32`. -/
def add_group_l2 (parent child : maliggy_group) : maliggy_group :=
  let c0 := child.l2_cache_core.1
  let m0 : Bool := parent.l2_cache_core.1 == c0
  let m1 : Bool := parent.l2_cache_core.2 == c0
  let rc0 := if m0 then (parent.l2_cache_core_ref_count.1 + 1) % 4294967296
    else parent.l2_cache_core_ref_count.1
  let rc1 := if m1 then (parent.l2_cache_core_ref_count.2 + 1) % 4294967296
    else parent.l2_cache_core_ref_count.2
  if m0 || m1 then { parent with l2_cache_core_ref_count := (rc0, rc1) }
  else if parent.l2_cache_core.1 = none then
    { parent with l2_cache_core := (c0, parent.l2_cache_core.2),
                  l2_cache_core_ref_count := ((rc0 + 1) % 4294967296, rc1) }
  else
    { parent with l2_cache_core := (parent.l2_cache_core.1, c0),
                  l2_cache_core_ref_count := (rc0, (rc1 + 1) % 4294967296) }

/-- The child after lines 359 and 360 of `maliggy_group_add_group`. -/
def add_group_child (c : maliggy_group) (parent : Nat) : maliggy_group :=
  { c with state := MALI_GROUP_STATE_IN_VIRTUAL, parent_group := some parent }

/-- The parent at the point where `maliggy_group_add_group` tests `update_hw`: the child is at
the tail of the list, its L2 cache is counted and its bits are in the broadcast mask. -/
def add_group_parent (p c : maliggy_group) (parent : Nat) : maliggy_group :=
  let c1 := add_group_child c parent
  let p1 := add_group_l2 { p with group_list := p.group_list ++ [c.pp_core.getD null_pp_core] } c1
  { p1 with bcast_core := p1.bcast_core.map fun b => maliggy_bcast_add_group b c1 }

/-- The table at the point where `maliggy_group_add_group` tests `update_hw`. -/
def add_group_sw (t : GroupTable) (parent child : Nat) : GroupTable :=
  { group := Function.update
      (Function.update t.group parent (add_group_parent (t.group parent) (t.group child) parent))
      child { add_group_child (t.group child) parent with session := none },
    members := Function.update t.members parent (t.members parent ++ [child]) }

/-- Add a child to a virtual group (`maliggy_group_add_group`). The MMU operated on after the
software state is the MMU of the child. -/
def maliggy_group_add_group (cfg : Config) (t : GroupTable) (parent child : Nat)
    (update_hw : Bool) (w : World) : GroupTable × World :=
  let c1 := add_group_child (t.group child) parent
  let p2 := add_group_parent (t.group parent) (t.group child) parent
  let w1 := maliggy_dlbu_add_group c1 w
  let child_session := c1.session
  let c2 := { c1 with session := none }
  let t1 := add_group_sw t parent child
  if !update_hw then (t1, w1)
  else
    let w2 :=
      if p2.session = child_session then (maliggy_mmu_zap_tlb cfg w1).2
      else
        match p2.session with
        | none => maliggy_mmu_activate_empty_page_directory cfg w1
        | some s =>
          (maliggy_mmu_activate_page_directory cfg (cfg.session_page_directory s) w1).2
    let w3 := maliggy_bcast_reset (p2.bcast_core.getD ⟨0⟩) w2
    let w4 := maliggy_dlbu_update_mask w3
    let w5 :=
      match p2.pp_running_job with
      | some job =>
        maliggy_pp_job_start (c2.pp_core.getD null_pp_core) job
          (c2.pp_core.getD null_pp_core).core_id true w4
      | none => w4
    (t1, w5)

/-- Remove a child from a virtual group (`maliggy_group_remove_group`); `power_on` is the result
of `maliggy_pm_is_power_on()`. Unlinking the child removes it from the list it is on. -/
def maliggy_group_remove_group (t : GroupTable) (power_on : Bool) (parent child : Nat)
    (w : World) : GroupTable × World :=
  let p := t.group parent
  let c := t.group child
  let w1 := maliggy_group_lock w
  let p1 := { p with bcast_core := p.bcast_core.map fun b => maliggy_bcast_remove_group b c }
  let w2 := maliggy_dlbu_remove_group c w1
  let w3 := if power_on then
      maliggy_dlbu_update_mask (maliggy_bcast_reset (p1.bcast_core.getD ⟨0⟩) w2)
    else w2
  let members1 : Nat → List Nat := fun q => (t.members q).filter (fun x => x != child)
  let c1 := { c with session := p1.session, parent_group := none,
                     state := MALI_GROUP_STATE_LEAVING_VIRTUAL }
  let rc := p1.l2_cache_core_ref_count
  let p2 :=
    if c1.l2_cache_core.1 = p1.l2_cache_core.1 then
      let n := (rc.1 + 4294967295) % 4294967296
      { p1 with l2_cache_core_ref_count := (n, rc.2),
                l2_cache_core := (if n = 0 then none else p1.l2_cache_core.1,
                                  p1.l2_cache_core.2) }
    else
      let n := (rc.2 + 4294967295) % 4294967296
      { p1 with l2_cache_core_ref_count := (rc.1, n),
                l2_cache_core := (p1.l2_cache_core.1,
                                  if n = 0 then none else p1.l2_cache_core.2) }
  let p3 := { p2 with group_list := (members1 parent).map t.core_of }
  ({ group := Function.update (Function.update t.group parent p3) child c1,
     members := members1 }, maliggy_group_unlock w3)

/-- Take the last child out of a virtual group (`maliggy_group_acquire_group`); `none` when the
list is empty (asserted not to happen). -/
def maliggy_group_acquire_group (t : GroupTable) (power_on : Bool) (parent : Nat) (w : World) :
    Option (Nat × GroupTable × World) :=
  match (t.members parent).getLast? with
  | none => none
  | some child => some (child, maliggy_group_remove_group t power_on parent child w)

/-- The steps that change the membership of virtual groups: the three functions of the group
module, and the two assignments of the caller (`JOINING_VIRTUAL` before the group is added,
`IDLE` after it was removed). -/
inductive VOp
  | set_joining (child : Nat)
  | add_group (parent child : Nat) (update_hw : Bool)
  | remove_group (parent child : Nat)
  | acquire_group (parent : Nat)
  | set_idle (child : Nat)

/-- The effect of a membership step. -/
def VOp.apply (cfg : Config) (power_on : Bool) (op : VOp) (t : GroupTable) (w : World) :
    Option (GroupTable × World) :=
  match op with
  | .set_joining child =>
    some ({ t with group := (Function.update t.group child
              { (t.group child) with state := MALI_GROUP_STATE_JOINING_VIRTUAL }) }, w)
  | .add_group parent child update_hw =>
    some (maliggy_group_add_group cfg t parent child update_hw w)
  | .remove_group parent child => some (maliggy_group_remove_group t power_on parent child w)
  | .acquire_group parent =>
    (maliggy_group_acquire_group t power_on parent w).map fun r => r.2
  | .set_idle child =>
    some ({ t with group := (Function.update t.group child
              { (t.group child) with state := MALI_GROUP_STATE_IDLE }) }, w)

/-- What the source asserts at the entry of a membership step (lines 352 to 355, 482 to 487 and
530 to 531), and what the caller does: a physical group that is `IDLE` is marked
`JOINING_VIRTUAL`, and a group that is `LEAVING_VIRTUAL` is marked `IDLE`. -/
def VOp.guard (op : VOp) (t : GroupTable) : Prop :=
  match op with
  | .set_joining child =>
    maliggy_group_is_virtual (t.group child) = false
    ∧ (t.group child).state = MALI_GROUP_STATE_IDLE
  | .add_group parent child _ =>
    maliggy_group_is_virtual (t.group parent) = true
    ∧ maliggy_group_is_virtual (t.group child) = false
    ∧ (t.group child).parent_group = none
    ∧ (t.group child).state = MALI_GROUP_STATE_JOINING_VIRTUAL
  | .remove_group parent child =>
    maliggy_group_is_virtual (t.group parent) = true
    ∧ maliggy_group_is_virtual (t.group child) = false
    ∧ (t.group child).parent_group = some parent
    ∧ (t.group child).state = MALI_GROUP_STATE_IN_VIRTUAL
    ∧ (t.group parent).state = MALI_GROUP_STATE_IDLE
  | .acquire_group parent =>
    maliggy_group_is_virtual (t.group parent) = true
    ∧ t.members parent ≠ []
    ∧ (t.group parent).state = MALI_GROUP_STATE_IDLE
  | .set_idle child => (t.group child).state = MALI_GROUP_STATE_LEAVING_VIRTUAL

/-- A table as it is before any group joined a virtual group: no group has a parent or is in
one of the three membership states, and every child list is empty. -/
def GroupTable.initial (t : GroupTable) : Prop :=
  (∀ g, (t.group g).parent_group = none)
  ∧ (∀ g, maliggy_group_is_in_virtual (t.group g) = false)
  ∧ (∀ g, t.members g = [])

/-- Tables reached from `(t0, w0)` by membership steps. -/
inductive VReachable (cfg : Config) (power_on : Bool) (t0 : GroupTable) (w0 : World) :
    GroupTable → World → Prop
  | init : VReachable cfg power_on t0 w0 t0 w0
  | step {t : GroupTable} {w : World} (op : VOp) {t1 : GroupTable} {w1 : World} :
      VReachable cfg power_on t0 w0 t w → op.guard t → op.apply cfg power_on t w = some (t1, w1)
      → VReachable cfg power_on t0 w0 t1 w1

/-- Events of the MMU driver: writes to MMU registers and the entry markers of the MMU functions
called by `maliggy_group_add_group`. -/
def Ev.is_mmu : Ev → Bool
  | .reg_write .mmu _ _ => true
  | .call .maliggy_mmu_zap_tlb _ => true
  | .call .maliggy_mmu_activate_page_directory _ => true
  | .call .maliggy_mmu_activate_empty_page_directory _ => true
  | _ => false

/-- The log without the events of the MMU driver. -/
def non_mmu (l : List Ev) : List Ev := l.filter (fun e => !e.is_mmu)

/-- Writes to hardware registers. -/
def Ev.is_reg_write : Ev → Bool
  | .reg_write _ _ _ => true
  | .reg_write_array _ _ _ => true
  | _ => false

/-- The parent of the sample table: a virtual group that is `IDLE`, with an empty broadcast
mask. -/
def vparent0 : maliggy_group := { vgroup0 with state := MALI_GROUP_STATE_IDLE }

/-- A physical PP group that is `IDLE`, with L2 cache 1 and broadcast id 1. -/
def pp_child0 : maliggy_group := { pp_group0 with l2_cache_core := (some 1, none) }

/-- A table in which group 1 is the virtual group `vparent0` and every other group is the
physical group `pp_child0`; no group is a child. -/
def vtable0 : GroupTable :=
  { group := fun g => if g = 1 then vparent0 else pp_child0, members := fun _ => [] }

/-- The table `vtable0` after the caller marked group 0 as `JOINING_VIRTUAL`. -/
def vtable_joining : GroupTable :=
  { group := Function.update vtable0.group 0
      { pp_child0 with state := MALI_GROUP_STATE_JOINING_VIRTUAL },
    members := vtable0.members }

/-- The table `vtable_joining` in which the parent runs the PP job `pp_job1`. -/
def vtable_running : GroupTable :=
  { group := Function.update vtable_joining.group 1
      { vparent0 with state := MALI_GROUP_STATE_WORKING, pp_running_job := some pp_job1 },
    members := vtable_joining.members }

/-! ## Sessions and running jobs -/

/-- The session of the group is the session of the job it runs. -/
def maliggy_group.sess_ok (g : maliggy_group) : Prop :=
  (∀ j, g.gp_running_job = some j → g.session = some j.session)
  ∧ (∀ j, g.pp_running_job = some j → g.session = some j.session)

/-- How an operation that starts no job changes the session and the running jobs: a job slot
keeps its job or is emptied, and the session changes only if both slots end up empty. -/
def SessDec (g g1 : maliggy_group) : Prop :=
  (g1.gp_running_job = g.gp_running_job ∨ g1.gp_running_job = none)
  ∧ (g1.pp_running_job = g.pp_running_job ∨ g1.pp_running_job = none)
  ∧ (g1.session = g.session ∨ (g1.gp_running_job = none ∧ g1.pp_running_job = none))

/-- The scheduler callbacks recorded in a log. -/
def callbacks (l : List Ev) : List Ev := l.filter Ev.is_callback

/-- The PP group `pp_group0` after the start of `pp_job1` (session 7) with an all-zero oracle. -/
def pp_done_run_started : maliggy_group × World :=
  maliggy_group_start_pp_job cfg_mali400 pp_group0 pp_job1 0 (world_of [])

/-- The state after the successful completion of that job; the soft reset succeeds. -/
def pp_done_run_completed : maliggy_group × World :=
  maliggy_group_complete_pp cfg_mali400 pp_done_run_started.1 true pp_done_run_started.2

/-- The group of `pp_done_run_completed` once the caller of `maliggy_group_add_group` has marked
it `JOINING_VIRTUAL`. -/
def pp_group_joining : maliggy_group :=
  { pp_done_run_completed.1 with state := MALI_GROUP_STATE_JOINING_VIRTUAL }

/-! ## Branches of the bottom halves (`mali_group.c`) -/

/-- What the GP bottom half of a powered group has read when it reaches its first test: the raw
interrupt status and, when a completion bit is set in it, the core status (source lines 1424 to
1429). -/
def bottom_half_gp_reads (cfg : Config) (w : World) : Nat × Option Nat × World :=
  let rs := maliggy_gp_read_rawstat cfg (maliggy_group_lock w)
  if rs.1 &&& (cfg.MALIGP2_REG_VAL_IRQ_VS_END_CMD_LST
      ||| cfg.MALIGP2_REG_VAL_IRQ_PLBU_END_CMD_LST) ≠ 0
  then (rs.1, some (maliggy_gp_read_core_status rs.2).1, (maliggy_gp_read_core_status rs.2).2)
  else (rs.1, none, rs.2)

/-- The GP bottom half reads a clean completion: a completion bit is set in the raw status and
the core status read after it shows the core no longer active. -/
def bottom_half_gp_clean (cfg : Config) (w : World) : Prop :=
  ∃ core_status, (bottom_half_gp_reads cfg w).2.1 = some core_status
    ∧ core_status &&& cfg.MALIGP2_REG_VAL_STATUS_MASK_ACTIVE = 0

/-- The error bits of a raw GP interrupt status (`irq_errors`, source line 1447). -/
def gp_irq_errors (cfg : Config) (irq_readout : Nat) : Nat :=
  irq_readout &&& u32_not (cfg.MALIGP2_REG_VAL_IRQ_VS_END_CMD_LST
    ||| cfg.MALIGP2_REG_VAL_IRQ_PLBU_END_CMD_LST ||| cfg.MALIGP2_REG_VAL_IRQ_HANG
    ||| cfg.MALIGP2_REG_VAL_IRQ_PLBU_OUT_OF_MEM)

/-- Every test of the GP bottom half before its final branch sends control on: the group is
powered, the completion is not clean, there is no error bit, and either the timer flag is set and
the timer is pending again or no job is running, or the flag is clear and the raw status has no
`PLBU_OUT_OF_MEM` bit. -/
def bottom_half_gp_falls_through (cfg : Config) (g : maliggy_group) (w : World) : Prop :=
  g.power_is_on = true
  ∧ ¬ bottom_half_gp_clean cfg w
  ∧ gp_irq_errors cfg (bottom_half_gp_reads cfg w).1 = 0
  ∧ (if g.core_timed_out = true then
      (_maliggy_osk_timer_pending (bottom_half_gp_reads cfg w).2.2).1 = true
        ∨ g.gp_running_job = none
     else (bottom_half_gp_reads cfg w).1 &&& cfg.MALIGP2_REG_VAL_IRQ_PLBU_OUT_OF_MEM = 0)

/-- Calls of `maliggy_gp_enable_interrupts`, which the group code makes in the final branch of the
GP bottom half only. -/
def Ev.is_gp_enable_interrupts : Ev → Bool
  | .call .maliggy_gp_enable_interrupts _ => true
  | _ => false

/-- The calls of `maliggy_gp_enable_interrupts` recorded in a log. -/
def gp_enables (l : List Ev) : List Ev := l.filter Ev.is_gp_enable_interrupts

/-- What the PP bottom half of a powered group outside virtual membership has read when it
reaches its first test: the raw interrupt status and, on a virtual group whose raw status is
exactly `END_OF_FRAME`, the core status (source lines 1718 to 1727). -/
def bottom_half_pp_reads (cfg : Config) (g : maliggy_group) (w : World) :
    Nat × Option Nat × World :=
  let core := g.pp_core.getD null_pp_core
  let rs := maliggy_pp_read_rawstat cfg core (maliggy_group_lock w)
  if cfg.MALI200_REG_VAL_IRQ_END_OF_FRAME = rs.1 ∧ maliggy_group_is_virtual g = true
  then (rs.1, some (maliggy_pp_read_status core rs.2).1, (maliggy_pp_read_status core rs.2).2)
  else (rs.1, none, rs.2)

/-- The PP bottom half reads a clean completion: the raw status is exactly `END_OF_FRAME` and, on
a virtual group, the status read after it has the rendering-active bit clear. -/
def bottom_half_pp_clean (cfg : Config) (g : maliggy_group) (w : World) : Prop :=
  cfg.MALI200_REG_VAL_IRQ_END_OF_FRAME = (bottom_half_pp_reads cfg g w).1
  ∧ ∀ status_readout, (bottom_half_pp_reads cfg g w).2.1 = some status_readout →
      status_readout &&& cfg.MALI200_REG_VAL_STATUS_RENDERING_ACTIVE = 0

/-- The error bits of a raw PP interrupt status (`irq_errors`, source line 1753). -/
def pp_irq_errors (cfg : Config) (irq_readout : Nat) : Nat :=
  irq_readout &&& u32_not (cfg.MALI200_REG_VAL_IRQ_END_OF_FRAME ||| cfg.MALI200_REG_VAL_IRQ_HANG)

/-- The working PP group after its timer fired (`core_timed_out` set). -/
def pp_group_timed_out : maliggy_group := (maliggy_group_timeout pp_group_working (world_of [])).1

/-! ## Power management unit (`mali_pmu.c`) -/

/-- Error codes of the OS abstraction layer (`_maliggy_osk_errcode_t`) that the modelled code
returns. -/
inductive _maliggy_osk_errcode_t
  | _MALI_OSK_ERR_OK
  | _MALI_OSK_ERR_FAULT
  | _MALI_OSK_ERR_INVALID_ARGS
  | _MALI_OSK_ERR_NOMEM
  | _MALI_OSK_ERR_TIMEOUT
  | _MALI_OSK_ERR_BUSY
  deriving DecidableEq, Repr

open _maliggy_osk_errcode_t

/-- The fields of `struct maliggy_pmu_core` besides the register window and the lock. -/
structure maliggy_pmu_core where
  registered_cores_mask : Nat
  active_cores_mask : Nat
  switch_delay : Nat
  deriving DecidableEq, Repr

/-- Interrupt bit of the PMU raw status (`PMU_REG_VAL_IRQ`). -/
def PMU_REG_VAL_IRQ : Nat := 1

/-- Take the PMU lock (`maliggy_pmu_lock`). -/
def maliggy_pmu_lock (w : World) : World := w.emit (.call .maliggy_pmu_lock [])

/-- Release the PMU lock (`maliggy_pmu_unlock`). -/
def maliggy_pmu_unlock (w : World) : World := w.emit (.call .maliggy_pmu_unlock [])

/-- Call of `_maliggy_osk_pm_dev_ref_add_no_power_on`; the PMU code ignores its result. -/
def _maliggy_osk_pm_dev_ref_add_no_power_on (w : World) : World :=
  w.emit (.call ._maliggy_osk_pm_dev_ref_add_no_power_on [])

/-- Call of `_maliggy_osk_pm_dev_ref_dec_no_power_on`. -/
def _maliggy_osk_pm_dev_ref_dec_no_power_on (w : World) : World :=
  w.emit (.call ._maliggy_osk_pm_dev_ref_dec_no_power_on [])

/-- The loop `do { rawstat = read(INT_RAWSTAT); --timeout; } while (0 == (rawstat & IRQ) &&
0 < timeout)` of `maliggy_pmu_send_command_internal`. The argument is the value `timeout` has
after the decrement of the first iteration; the result is the value it has when the loop is
left. -/
def maliggy_pmu_wait : Nat → World → Nat × World
  | 0, w => (0, (maliggy_hw_core_register_read .pmu .PMU_REG_ADDR_MGMT_INT_RAWSTAT w).2)
  | k + 1, w =>
    let r := maliggy_hw_core_register_read .pmu .PMU_REG_ADDR_MGMT_INT_RAWSTAT w
    if r.1 &&& PMU_REG_VAL_IRQ = 0 then maliggy_pmu_wait k r.2 else (k + 1, r.2)

/-- Send a command and wait for its completion (`maliggy_pmu_send_command_internal`); `command`
is the register the mask is written to. The counter `timeout` is a `u32`. -/
def maliggy_pmu_send_command_internal (cfg : Config) (command : Reg) (mask : Nat) (w : World) :
    _maliggy_osk_errcode_t × World :=
  let w1 := maliggy_hw_core_register_write .pmu command mask w
  let p := maliggy_pmu_wait ((cfg.MALI_REG_POLL_COUNT_SLOW + 4294967295) % 4294967296) w1
  if p.1 = 0 then (_MALI_OSK_ERR_TIMEOUT, p.2)
  else (_MALI_OSK_ERR_OK,
    maliggy_hw_core_register_write .pmu .PMU_REG_ADDR_MGMT_INT_CLEAR PMU_REG_VAL_IRQ p.2)

/-- Send a command unless the cores already are in the state asked for
(`maliggy_pmu_send_command`). The result of `maliggy_pmu_send_command_internal` is not used. -/
def maliggy_pmu_send_command (cfg : Config) (pmu : maliggy_pmu_core) (command : Reg)
    (mask : Nat) (w : World) : _maliggy_osk_errcode_t × World :=
  if mask = 0 then (_MALI_OSK_ERR_OK, w)
  else
    let r := maliggy_hw_core_register_read .pmu .PMU_REG_ADDR_MGMT_STATUS w
    let stat := r.1 &&& pmu.registered_cores_mask
    let done : Bool :=
      match command with
      | .PMU_REG_ADDR_MGMT_POWER_DOWN => mask == stat
      | .PMU_REG_ADDR_MGMT_POWER_UP => 0 == (stat &&& mask)
      | _ => false
    if done then (_MALI_OSK_ERR_OK, r.2)
    else (_MALI_OSK_ERR_OK, (maliggy_pmu_send_command_internal cfg command mask r.2).2)

/-- Power down the cores of a mask (`maliggy_pmu_power_down`); `power_on` is the result of
`maliggy_pm_is_power_on()`. -/
def maliggy_pmu_power_down (cfg : Config) (power_on : Bool) (pmu : maliggy_pmu_core)
    (mask : Nat) (w : World) : _maliggy_osk_errcode_t × maliggy_pmu_core × World :=
  if mask > pmu.registered_cores_mask then (_MALI_OSK_ERR_INVALID_ARGS, pmu, w)
  else
    let w1 := maliggy_pmu_lock w
    let pmu1 := { pmu with active_cores_mask := pmu.active_cores_mask &&& u32_not mask }
    let w2 := _maliggy_osk_pm_dev_ref_add_no_power_on w1
    if !power_on then
      (_MALI_OSK_ERR_BUSY, pmu1, maliggy_pmu_unlock (_maliggy_osk_pm_dev_ref_dec_no_power_on w2))
    else
      let r := maliggy_pmu_send_command cfg pmu1 .PMU_REG_ADDR_MGMT_POWER_DOWN mask w2
      (r.1, pmu1, maliggy_pmu_unlock (_maliggy_osk_pm_dev_ref_dec_no_power_on r.2))

/-- Power up the cores of a mask (`maliggy_pmu_power_up`). -/
def maliggy_pmu_power_up (cfg : Config) (power_on : Bool) (pmu : maliggy_pmu_core)
    (mask : Nat) (w : World) : _maliggy_osk_errcode_t × maliggy_pmu_core × World :=
  if mask &&& u32_not pmu.registered_cores_mask ≠ 0 then (_MALI_OSK_ERR_INVALID_ARGS, pmu, w)
  else
    let w1 := maliggy_pmu_lock w
    let pmu1 := { pmu with active_cores_mask := pmu.active_cores_mask ||| mask }
    let w2 := _maliggy_osk_pm_dev_ref_add_no_power_on w1
    if !power_on then
      (_MALI_OSK_ERR_BUSY, pmu1, maliggy_pmu_unlock (_maliggy_osk_pm_dev_ref_dec_no_power_on w2))
    else
      let r := maliggy_pmu_send_command cfg pmu1 .PMU_REG_ADDR_MGMT_POWER_UP mask w2
      (r.1, pmu1, maliggy_pmu_unlock (_maliggy_osk_pm_dev_ref_dec_no_power_on r.2))

/-- The two register writes that open `maliggy_pmu_power_down_all` and
`maliggy_pmu_power_up_all` ("setup the desired defaults"). -/
def maliggy_pmu_setup_defaults (pmu : maliggy_pmu_core) (w : World) : World :=
  maliggy_hw_core_register_write .pmu .PMU_REG_ADDR_MGMT_SW_DELAY pmu.switch_delay
    (maliggy_hw_core_register_write .pmu .PMU_REG_ADDR_MGMT_INT_MASK 0 w)

/-- Power down every registered core (`maliggy_pmu_power_down_all`). -/
def maliggy_pmu_power_down_all (cfg : Config) (pmu : maliggy_pmu_core) (w : World) :
    _maliggy_osk_errcode_t × World :=
  let w1 := maliggy_pmu_setup_defaults pmu (maliggy_pmu_lock w)
  let r := maliggy_pmu_send_command cfg pmu .PMU_REG_ADDR_MGMT_POWER_DOWN
    pmu.registered_cores_mask w1
  (r.1, maliggy_pmu_unlock r.2)

/-- Power up every active core (`maliggy_pmu_power_up_all`). -/
def maliggy_pmu_power_up_all (cfg : Config) (pmu : maliggy_pmu_core) (w : World) :
    _maliggy_osk_errcode_t × World :=
  let w1 := maliggy_pmu_setup_defaults pmu (maliggy_pmu_lock w)
  let r := maliggy_pmu_send_command cfg pmu .PMU_REG_ADDR_MGMT_POWER_UP pmu.active_cores_mask w1
  (r.1, maliggy_pmu_unlock r.2)

/-- The mask of the power domains of a configuration (`maliggy_pmu_detect_mask`). The shifts are
made on `int` constants and stored in a `u32`; with at most 8 PP cores no shift reaches bit 10. -/
def maliggy_pmu_detect_mask (number_of_pp_cores number_of_l2_caches : Nat) : Nat :=
  if number_of_l2_caches = 1 then
    (List.range number_of_pp_cores).foldl
      (fun mask i => mask ||| ((0x01 <<< (i + 2)) % 4294967296)) (0x01 ||| (0x01 <<< 1))
  else if number_of_l2_caches > 1 then
    let mask := 0x01 ||| (0x01 <<< 1)
    let mask := if number_of_pp_cores ≥ 2 then mask ||| (0x01 <<< 2) else mask
    let mask := if number_of_pp_cores ≥ 5 then mask ||| (0x01 <<< 3) else mask
    mask
  else 0

/-- The PMU object `maliggy_pmu_create` builds: every registered core active. -/
def maliggy_pmu_create (number_of_pp_cores number_of_l2_caches switch_delay : Nat) :
    maliggy_pmu_core :=
  { registered_cores_mask := maliggy_pmu_detect_mask number_of_pp_cores number_of_l2_caches,
    active_cores_mask := maliggy_pmu_detect_mask number_of_pp_cores number_of_l2_caches,
    switch_delay := switch_delay }

/-- A Mali-400 MP4 PMU: GP, L2 and four PP cores (mask `0x3F`). -/
def pmu_mp4 : maliggy_pmu_core := maliggy_pmu_create 4 1 0xFF


/-! ## L2 caches of the children of a virtual group -/

/-- The slots and counters of a parent after its loop over the two slots has counted a child with
cache `c` (the effect of `add_group_l2` on the two arrays). -/
def l2_slots_add (s : Option Nat × Option Nat) (n : Nat × Nat) (c : Option Nat) :
    (Option Nat × Option Nat) × (Nat × Nat) :=
  if s.1 = c ∨ s.2 = c then
    (s, (if s.1 = c then (n.1 + 1) % 4294967296 else n.1,
         if s.2 = c then (n.2 + 1) % 4294967296 else n.2))
  else if s.1 = none then ((c, s.2), ((n.1 + 1) % 4294967296, n.2))
  else ((s.1, c), (n.1, (n.2 + 1) % 4294967296))

/-- The slots and counters of a parent after `maliggy_group_remove_group` has released the cache
`c` of a child. -/
def l2_slots_remove (s : Option Nat × Option Nat) (n : Nat × Nat) (c : Option Nat) :
    (Option Nat × Option Nat) × (Nat × Nat) :=
  if c = s.1 then
    ((if (n.1 + 4294967295) % 4294967296 = 0 then none else s.1, s.2),
      ((n.1 + 4294967295) % 4294967296, n.2))
  else
    ((s.1, if (n.2 + 4294967295) % 4294967296 = 0 then none else s.2),
      (n.1, (n.2 + 4294967295) % 4294967296))

/-- The slots `s` and counters `n` of a parent count the caches `L` of its children, all of which
are `a` or `b`. -/
def l2_slots_ok (a b : Nat) (s : Option Nat × Option Nat) (n : Nat × Nat)
    (L : List (Option Nat)) : Prop :=
  L.length < 4294967296
  ∧ (∀ x ∈ L, (x = some a ∨ x = some b) ∧ (x = s.1 ∨ x = s.2))
  ∧ (s.1 = none ∨ s.1 = some a ∨ s.1 = some b)
  ∧ (s.2 = none ∨ s.2 = some a ∨ s.2 = some b)
  ∧ (s.1 ≠ none → s.1 ≠ s.2)
  ∧ n.1 = L.count s.1
  ∧ n.2 = L.count s.2
  ∧ n.1 + n.2 = L.length
  ∧ (s.1 = none ↔ n.1 = 0)
  ∧ (s.2 = none ↔ n.2 = 0)

/-- The L2 caches of the children on the list of `parent`, in list order. -/
def GroupTable.child_caches (t : GroupTable) (parent : Nat) : List (Option Nat) :=
  (t.members parent).map fun g => (t.group g).l2_cache_core.1

/-- Number of children on the list of `parent` whose L2 cache is `c`. -/
def GroupTable.l2_users (t : GroupTable) (parent : Nat) (c : Option Nat) : Nat :=
  (t.child_caches parent).count c

/-- What is required of a membership step for the L2 bookkeeping of `parent`: a child added to
`parent` has an L2 cache (asserted at line 362), which is `a` or `b`, and the list of `parent`
holds fewer than `2^32 - 1` children (the counters are `u32`; the registry holds at most
`MALI_MAX_NUMBER_OF_GROUPS` groups). -/
def VOp.l2_guard (parent a b : Nat) (op : VOp) (t : GroupTable) : Prop :=
  match op with
  | .add_group p c _ =>
    p = parent →
      ((t.group c).l2_cache_core.1 = some a ∨ (t.group c).l2_cache_core.1 = some b)
      ∧ (t.members parent).length + 1 < 4294967296
  | _ => True

/-- Tables reached from `(t0, w0)` by membership steps in which the children added to `parent`
use the L2 caches `a` and `b` only. -/
inductive VReachableL2 (cfg : Config) (power_on : Bool) (parent a b : Nat) (t0 : GroupTable)
    (w0 : World) : GroupTable → World → Prop
  | init : VReachableL2 cfg power_on parent a b t0 w0 t0 w0
  | step {t : GroupTable} {w : World} (op : VOp) {t1 : GroupTable} {w1 : World} :
      VReachableL2 cfg power_on parent a b t0 w0 t w → op.guard t → op.l2_guard parent a b t
      → op.apply cfg power_on t w = some (t1, w1)
      → VReachableL2 cfg power_on parent a b t0 w0 t1 w1

/-- The invariant of the L2 bookkeeping of `parent`: the membership invariant, children are
physical groups, `parent` is virtual, no child is twice on its list, and its slots and counters
count the caches of its children. -/
def GroupTable.l2_inv (t : GroupTable) (parent a b : Nat) : Prop :=
  (∀ g, (t.group g).parent_group ≠ none ↔ (t.group g).state = MALI_GROUP_STATE_IN_VIRTUAL)
  ∧ (∀ p g, g ∈ t.members p ↔ (t.group g).parent_group = some p)
  ∧ (∀ g, (t.group g).parent_group ≠ none → maliggy_group_is_virtual (t.group g) = false)
  ∧ maliggy_group_is_virtual (t.group parent) = true
  ∧ (t.members parent).Nodup
  ∧ l2_slots_ok a b (t.group parent).l2_cache_core (t.group parent).l2_cache_core_ref_count
      (t.child_caches parent)

/-! ## The registry of groups (`maliggy_global_groups`, `mali_group.c`) -/

/-- The size of the array `maliggy_global_groups` (`mali_group.h`). -/
def MALI_MAX_NUMBER_OF_GROUPS : Nat := 10

/-- The registry of group objects: the array `maliggy_global_groups` of pointers (`none` is
`NULL`) and the counter `maliggy_global_num_groups`. -/
structure GroupRegistry where
  maliggy_global_groups : Nat → Option Nat
  maliggy_global_num_groups : Nat

/-- The registry before any group is created (`{ NULL, }` and 0). -/
def GroupRegistry.empty : GroupRegistry :=
  { maliggy_global_groups := fun _ => none, maliggy_global_num_groups := 0 }

/-- The effect of `maliggy_group_create` on the registry and its result. `alloc` is the result
of `_maliggy_osk_calloc`, `timer` and `lock` say whether `_maliggy_osk_timer_init` and
`_maliggy_osk_lock_init` returned an object. -/
def GroupRegistry.maliggy_group_create (r : GroupRegistry) (alloc : Option Nat)
    (timer lock : Bool) : Option Nat × GroupRegistry :=
  if r.maliggy_global_num_groups ≥ MALI_MAX_NUMBER_OF_GROUPS then (none, r)
  else
    match alloc with
    | none => (none, r)
    | some group =>
      if timer then
        if lock then
          (some group,
            { maliggy_global_groups :=
                Function.update r.maliggy_global_groups r.maliggy_global_num_groups (some group),
              maliggy_global_num_groups := (r.maliggy_global_num_groups + 1) % 4294967296 })
        else (none, r)
      else (none, r)

/-- The loop that closes `maliggy_group_delete`: the first entry below
`maliggy_global_num_groups` that is `group` is cleared, the counter is decremented, and if the
entry was not the last one the last entry is moved to its place. -/
def GroupRegistry.remove (r : GroupRegistry) (group : Nat) : GroupRegistry :=
  match (List.range r.maliggy_global_num_groups).find?
      (fun i => r.maliggy_global_groups i == some group) with
  | none => r
  | some i =>
    let n := (r.maliggy_global_num_groups + 4294967295) % 4294967296
    let g1 := Function.update r.maliggy_global_groups i none
    if i ≠ n then
      { maliggy_global_groups := Function.update (Function.update g1 i (g1 n)) n none,
        maliggy_global_num_groups := n }
    else { maliggy_global_groups := g1, maliggy_global_num_groups := n }

/-- Result of `maliggy_group_get_glob_group`. -/
def GroupRegistry.maliggy_group_get_glob_group (r : GroupRegistry) (index : Nat) : Option Nat :=
  if r.maliggy_global_num_groups > index then r.maliggy_global_groups index else none

/-- Result of `maliggy_group_get_glob_num_groups`. -/
def GroupRegistry.maliggy_group_get_glob_num_groups (r : GroupRegistry) : Nat :=
  r.maliggy_global_num_groups

/-- The group `p` is in the registry. -/
def GroupRegistry.registered (r : GroupRegistry) (p : Nat) : Prop :=
  ∃ i, i < r.maliggy_global_num_groups ∧ r.maliggy_global_groups i = some p

/-- The shape of the registry: at most `MALI_MAX_NUMBER_OF_GROUPS` entries, the entries below
the counter non-null and pairwise distinct, the others null. -/
def GroupRegistry.ok (r : GroupRegistry) : Prop :=
  r.maliggy_global_num_groups ≤ MALI_MAX_NUMBER_OF_GROUPS
  ∧ (∀ i, i < r.maliggy_global_num_groups → r.maliggy_global_groups i ≠ none)
  ∧ (∀ i j, i < r.maliggy_global_num_groups → j < r.maliggy_global_num_groups →
      r.maliggy_global_groups i = r.maliggy_global_groups j → i = j)
  ∧ (∀ i, r.maliggy_global_num_groups ≤ i → r.maliggy_global_groups i = none)

/-- The effect of `maliggy_group_delete` on the registry; the first argument bounds the depth of
the recursion. The cores, the timer and the memory of the group are given back to code outside
the group module, which does not touch the registry. For a virtual group the function first
deletes every child on the list (in the table `t`), then its own entry is taken out of the
registry. -/
def GroupRegistry.maliggy_group_delete :
    Nat → GroupTable → Nat → GroupRegistry → Option GroupRegistry
  | 0, _, _, _ => none
  | fuel + 1, t, group, r =>
    let r1 : Option GroupRegistry :=
      if maliggy_group_is_virtual (t.group group) then
        (t.members group).foldlM
          (fun r2 child => GroupRegistry.maliggy_group_delete fuel t child r2) r
      else some r
    r1.map fun r2 => r2.remove group

/-- The groups `maliggy_group_delete(group)` is called on, the recursive calls included, when
the children are physical groups: the group and, if it is virtual, the children on its list. -/
def GroupTable.deleted_with (t : GroupTable) (group : Nat) : List Nat :=
  group :: (if maliggy_group_is_virtual (t.group group) then t.members group else [])

/-- Calls that change the registry: `maliggy_group_create` with the results of the three
allocations, and `maliggy_group_delete` with the group objects as they are at the call. -/
inductive RegOp
  | create (alloc : Option Nat) (timer lock : Bool)
  | delete (t : GroupTable) (group : Nat)

/-- What a call may rely on: `_maliggy_osk_calloc` returns memory that is not in use, so not a
registered group; the group to delete has no parent (asserted at line 241) and its children are
physical groups (asserted when they were added, line 353). -/
def RegOp.guard (op : RegOp) (r : GroupRegistry) : Prop :=
  match op with
  | .create alloc _ _ => ∀ p, alloc = some p → ¬ r.registered p
  | .delete t group =>
    (t.group group).parent_group = none
    ∧ ∀ c ∈ t.members group, maliggy_group_is_virtual (t.group c) = false

/-- The effect of a call on the registry and on the list of live groups (created and not
deleted). -/
def RegOp.apply (op : RegOp) (s : GroupRegistry × List Nat) :
    Option (GroupRegistry × List Nat) :=
  match op with
  | .create alloc timer lock =>
    let c := s.1.maliggy_group_create alloc timer lock
    some (c.2, match c.1 with | some p => s.2 ++ [p] | none => s.2)
  | .delete t group =>
    (s.1.maliggy_group_delete 2 t group).map fun r =>
      (r, s.2.filter fun p => !(t.deleted_with group).contains p)

/-- Registries and lists of live groups reached from the empty registry. -/
inductive RegReachable : GroupRegistry × List Nat → Prop
  | init : RegReachable (GroupRegistry.empty, [])
  | step {s : GroupRegistry × List Nat} (op : RegOp) {s1 : GroupRegistry × List Nat} :
      RegReachable s → op.guard s.1 → op.apply s = some s1 → RegReachable s1

/-- The registry after groups 0 and 1 were created. -/
def registry_two : GroupRegistry :=
  ((GroupRegistry.empty.maliggy_group_create (some 0) true true).2.maliggy_group_create
    (some 1) true true).2

/-- The table `vtable_joining` after group 0 was added to the virtual group 1. -/
def vtable_joined : GroupTable :=
  (maliggy_group_add_group cfg_mali400 vtable_joining 1 0 false (world_of [])).1

/-! ## The PP upper half with `MALI_UPPER_HALF_SCHEDULING` -/

/-- A build with upper-half scheduling: no shared interrupt lines, mask value 0. -/
def build_upper_half_scheduling : BuildConfig :=
  { build_default with MALI_UPPER_HALF_SCHEDULING := true }

/-- The interrupt status the PP upper half reads once it is past its entry. -/
def upper_half_pp_status (bc : BuildConfig) (g : maliggy_group) (w : World) : Nat × World :=
  maliggy_pp_get_int_stat (g.pp_core.getD null_pp_core) (upper_half_enter bc w).2

/-- What the PP upper half built with `MALI_UPPER_HALF_SCHEDULING` has read when, after a
status `END_OF_FRAME`, it has masked the interrupts and taken the group lock: the raw status
and, on a virtual group whose raw status is `END_OF_FRAME`, the core status (source lines 1611
to 1627). -/
def upper_half_pp_inline_reads (cfg : Config) (bc : BuildConfig) (g : maliggy_group)
    (w : World) : Nat × Option Nat × World :=
  bottom_half_pp_reads cfg g
    (maliggy_pp_mask_all_interrupts bc (g.pp_core.getD null_pp_core)
      (upper_half_pp_status bc g w).2)

/-- Requests to run the PP bottom half (`_maliggy_osk_wq_schedule_work` on
`bottom_half_work_pp`). -/
def Ev.is_schedule_work_pp : Ev → Bool
  | .call ._maliggy_osk_wq_schedule_work_pp _ => true
  | _ => false

/-- The requests to run the PP bottom half recorded in a log. -/
def pp_schedules (l : List Ev) : List Ev := l.filter Ev.is_schedule_work_pp

/-! ## Runs in which a handler meets a group without a running job -/

/-- The oracle of the run "start a GP job, abort it, then the MMU bottom half of a page fault
that the soft reset of the abort left pending": two MMU status reads for the start; the heap
address and the raw status `0x80000` (RESET_COMPLETED) for the abort; the MMU raw status `0x1`
(page fault), the fault address and two MMU status reads; the GP status `0x200` (bus stopped) and
the check value `0xC01A0000` for the hard reset. -/
def reads_fault_run : List Nat := [0, 0, 0, 0x80000, 0x1, 0, 0, 0, 0x200, 0xC01A0000]

/-- The state after the start of `gp_job1` on `gp_group0` in the run `reads_fault_run`. -/
def fault_run_started : maliggy_group × World :=
  maliggy_group_start_gp_job cfg_mali400 gp_group0 gp_job1 (world_of reads_fault_run)

/-- The state after `maliggy_group_abort_gp_job` of that job. -/
def fault_run_aborted : maliggy_group × World :=
  (maliggy_group_abort_gp_job cfg_mali400 fault_run_started.1 1 fault_run_started.2).getD
    fault_run_started

/-- The state after the MMU bottom half that follows. -/
def fault_run_faulted : maliggy_group × World :=
  maliggy_group_bottom_half_mmu cfg_mali400 fault_run_aborted.1 fault_run_aborted.2

/-- The oracle of the run "start a GP job, the GP bottom half of its clean completion, then a
second GP bottom half that reads the same status": the reads of `reads_done_run`, then again the
raw status `0x3`, the core status `0` and the raw status `0x80000` for the wait of the soft
reset. -/
def reads_stale_run : List Nat := [0, 0, 0x3, 0, 0, 0x80000, 0x3, 0, 0x80000]

/-- The state after the start of `gp_job1` on `gp_group0` in the run `reads_stale_run`. -/
def stale_run_started : maliggy_group × World :=
  maliggy_group_start_gp_job cfg_mali400 gp_group0 gp_job1 (world_of reads_stale_run)

/-- The state after the GP bottom half of the clean completion. -/
def stale_run_completed : maliggy_group × World :=
  maliggy_group_bottom_half_gp cfg_mali400 stale_run_started.1 stale_run_started.2

/-- The state after the second GP bottom half. -/
def stale_run_repeated : maliggy_group × World :=
  maliggy_group_bottom_half_gp cfg_mali400 stale_run_completed.1 stale_run_completed.2

/-! ## Sessions and running jobs when handlers meet a group without a job -/

/-- The session of the group is null or the session of the job it runs. -/
def maliggy_group.sess_weak (g : maliggy_group) : Prop :=
  (∀ j, g.gp_running_job = some j → g.session = none ∨ g.session = some j.session)
  ∧ (∀ j, g.pp_running_job = some j → g.session = none ∨ g.session = some j.session)

/-- How an operation that starts no job changes the session and the running jobs, whatever the
reference count: a job slot keeps its job or is emptied, and the session is kept or set to null
unless both slots end up empty. -/
def SessKeep (g g1 : maliggy_group) : Prop :=
  (g1.gp_running_job = g.gp_running_job ∨ g1.gp_running_job = none)
  ∧ (g1.pp_running_job = g.pp_running_job ∨ g1.pp_running_job = none)
  ∧ (g1.session = g.session ∨ g1.session = none
      ∨ (g1.gp_running_job = none ∧ g1.pp_running_job = none))

/-! ## The page directory (`mali_mmu_page_directory.c`) -/

/-- `MALI_MMU_VIRTUAL_PAGE_SIZE`: the size of the address space one page table covers. -/
def MALI_MMU_VIRTUAL_PAGE_SIZE : Nat := 0x400000

/-- `MALI_MMU_PDE_ENTRY`: the index of the page directory entry of an address. -/
def MALI_MMU_PDE_ENTRY (address : Nat) : Nat := (address >>> 22) &&& 0x03FF

/-- `MALI_MMU_PTE_ENTRY`: the index of the page table entry of an address. -/
def MALI_MMU_PTE_ENTRY (address : Nat) : Nat := (address >>> 12) &&& 0x03FF

/-- `MALI_MMU_ENTRY_ADDRESS`: the address held in a directory or table entry. -/
def MALI_MMU_ENTRY_ADDRESS (value : Nat) : Nat := value &&& 0xFFFFFC00

/-- `MALI_MMU_FLAGS_PRESENT`. -/
def MALI_MMU_FLAGS_PRESENT : Nat := 0x01

/-- `MALI_MMU_FLAGS_MASK`. -/
def MALI_MMU_FLAGS_MASK : Nat := 0x1FF

/-- `struct maliggy_page_directory`. Pointers to mapped pages are numbers, 0 is `NULL`; the two
arrays have 1024 entries and are indexed below 1024 only. -/
structure maliggy_page_directory where
  page_directory : Nat
  page_directory_mapped : Nat
  page_entries_mapped : Nat → Nat
  page_entries_usage_count : Nat → Nat

/-- Calls from the page directory code into other modules. -/
inductive PageCall
  | maliggy_mmu_release_table_page (address : Nat)
  | _maliggy_osk_write_mem_barrier
  | maliggy_l2_cache_invalidate_all
  | maliggy_l2_cache_invalidate_all_pages (pages : List Nat)
  deriving DecidableEq, Repr

/-- What the page directory code works on besides the structure: the 32-bit words of the mapped
pages (by mapping pointer and byte offset), the results of the coming calls of
`maliggy_mmu_get_table_page` (error code, physical address, mapping; the function is not part
of the sources), and the log of the calls into other modules. -/
structure PageWorld where
  mem : Nat → Nat → Nat
  table_pages : List (_maliggy_osk_errcode_t × Nat × Nat)
  log : List PageCall

/-- Append a call to the log. -/
def PageWorld.call (w : PageWorld) (c : PageCall) : PageWorld := { w with log := w.log ++ [c] }

/-- Read of a word of a mapped page (`_maliggy_osk_mem_ioread32`). -/
def _maliggy_osk_mem_ioread32 (mapping offset : Nat) (w : PageWorld) : Nat :=
  w.mem mapping offset % 4294967296

/-- Write of a word of a mapped page (`_maliggy_osk_mem_iowrite32_relaxed`). -/
def _maliggy_osk_mem_iowrite32_relaxed (mapping offset val : Nat) (w : PageWorld) : PageWorld :=
  let page := Function.update (w.mem mapping) offset (val % 4294967296)
  { w with mem := Function.update w.mem mapping page }

/-- Allocation of a table page (`maliggy_mmu_get_table_page`): the next result of the oracle;
an exhausted oracle answers `_MALI_OSK_ERR_NOMEM`. The result is the error code, the physical
address and the mapping. -/
def maliggy_mmu_get_table_page (w : PageWorld) :
    _maliggy_osk_errcode_t × Nat × Nat × PageWorld :=
  match w.table_pages with
  | [] => (_MALI_OSK_ERR_NOMEM, 0, 0, w)
  | r :: rest => (r.1, r.2.1 % 4294967296, r.2.2, { w with table_pages := rest })

/-- The values of `i` in `for (i = first; i <= last; i++)`. -/
def pde_range (first last : Nat) : List Nat := List.range' first (last + 1 - first)

/-- The loop of `maliggy_mmu_pagedir_map` over the directory entries still to visit, and the
barrier and `MALI_SUCCESS` that follow it. An entry that is not marked present gets a new table
page, the present flag and usage count 1; a present entry has its usage count incremented. When
the allocation fails the function returns the error at once. -/
def maliggy_mmu_pagedir_map_loop :
    List Nat → maliggy_page_directory → PageWorld →
      _maliggy_osk_errcode_t × maliggy_page_directory × PageWorld
  | [], pagedir, w => (_MALI_OSK_ERR_OK, pagedir, w.call ._maliggy_osk_write_mem_barrier)
  | i :: rest, pagedir, w =>
    if _maliggy_osk_mem_ioread32 pagedir.page_directory_mapped (i * 4) w
        &&& MALI_MMU_FLAGS_PRESENT = 0 then
      let r := maliggy_mmu_get_table_page w
      if r.1 ≠ _MALI_OSK_ERR_OK then (r.1, pagedir, r.2.2.2)
      else
        maliggy_mmu_pagedir_map_loop rest
          { pagedir with
            page_entries_mapped := Function.update pagedir.page_entries_mapped i r.2.2.1,
            page_entries_usage_count := Function.update pagedir.page_entries_usage_count i 1 }
          (_maliggy_osk_mem_iowrite32_relaxed pagedir.page_directory_mapped (i * 4)
            (r.2.1 ||| MALI_MMU_FLAGS_PRESENT) r.2.2.2)
    else
      maliggy_mmu_pagedir_map_loop rest
        { pagedir with
          page_entries_usage_count := Function.update pagedir.page_entries_usage_count i
            ((pagedir.page_entries_usage_count i + 1) % 4294967296) } w

/-- Model of `maliggy_mmu_pagedir_map`. -/
def maliggy_mmu_pagedir_map (pagedir : maliggy_page_directory) (maliggy_address size : Nat)
    (w : PageWorld) : _maliggy_osk_errcode_t × maliggy_page_directory × PageWorld :=
  maliggy_mmu_pagedir_map_loop
    (pde_range (MALI_MMU_PDE_ENTRY maliggy_address)
      (MALI_MMU_PDE_ENTRY ((maliggy_address + size + 4294967295) % 4294967296)))
    pagedir w

/-- Model of `maliggy_mmu_zero_pte`: the entries of the page table that cover the range are
set to 0. -/
def maliggy_mmu_zero_pte (page_table maliggy_address size : Nat) (w : PageWorld) : PageWorld :=
  (pde_range (MALI_MMU_PTE_ENTRY maliggy_address)
      (MALI_MMU_PTE_ENTRY ((maliggy_address + size + 4294967295) % 4294967296))).foldl
    (fun w1 i => _maliggy_osk_mem_iowrite32_relaxed page_table (i * 4) 0 w1) w

/-- Model of `maliggy_page_directory_get_phys_address`. -/
def maliggy_page_directory_get_phys_address (pagedir : maliggy_page_directory) (index : Nat)
    (w : PageWorld) : Nat :=
  _maliggy_osk_mem_ioread32 pagedir.page_directory_mapped (index * 4) w
    &&& u32_not MALI_MMU_FLAGS_MASK

/-- The local variables of `maliggy_mmu_pagedir_unmap` that change in its loop; the array
`pages_to_invalidate` with its fill count `num_pages_inv` is a list. -/
structure pagedir_unmap_locals where
  left : Nat
  maliggy_address : Nat
  pd_changed : Bool
  pages_to_invalidate : List Nat
  invalidate_all : Bool
  deriving DecidableEq, Repr

/-- The loop of `maliggy_mmu_pagedir_unmap` over the directory entries still to visit: the
usage count is decremented; at 0 the table page is released, the mapping cleared and the entry
zeroed; otherwise the page is noted for invalidation and the table entries of the range are
zeroed. -/
def maliggy_mmu_pagedir_unmap_loop :
    List Nat → pagedir_unmap_locals → maliggy_page_directory → PageWorld →
      pagedir_unmap_locals × maliggy_page_directory × PageWorld
  | [], v, pagedir, w => (v, pagedir, w)
  | i :: rest, v, pagedir, w =>
    let offset := v.maliggy_address &&& (MALI_MMU_VIRTUAL_PAGE_SIZE - 1)
    let size_in_pde :=
      if v.left < MALI_MMU_VIRTUAL_PAGE_SIZE - offset then v.left
      else MALI_MMU_VIRTUAL_PAGE_SIZE - offset
    let pagedir1 : maliggy_page_directory :=
      { pagedir with
        page_entries_usage_count := Function.update pagedir.page_entries_usage_count i
          ((pagedir.page_entries_usage_count i + 4294967295) % 4294967296) }
    if pagedir1.page_entries_usage_count i = 0 then
      let page_address := MALI_MMU_ENTRY_ADDRESS
        (_maliggy_osk_mem_ioread32 pagedir.page_directory_mapped (i * 4) w)
      maliggy_mmu_pagedir_unmap_loop rest
        { v with
          left := v.left - size_in_pde,
          maliggy_address := (v.maliggy_address + size_in_pde) % 4294967296,
          pd_changed := true }
        { pagedir1 with
          page_entries_mapped := Function.update pagedir1.page_entries_mapped i 0 }
        ((_maliggy_osk_mem_iowrite32_relaxed pagedir.page_directory_mapped (i * 4) 0 w).call
          (.maliggy_mmu_release_table_page page_address))
    else
      maliggy_mmu_pagedir_unmap_loop rest
        { left := v.left - size_in_pde,
          maliggy_address := (v.maliggy_address + size_in_pde) % 4294967296,
          pd_changed := v.pd_changed,
          pages_to_invalidate :=
            if v.pages_to_invalidate.length < 2 then
              v.pages_to_invalidate ++ [maliggy_page_directory_get_phys_address pagedir1 i w]
            else v.pages_to_invalidate,
          invalidate_all :=
            if v.pages_to_invalidate.length < 2 then v.invalidate_all else true }
        pagedir1
        (maliggy_mmu_zero_pte (pagedir1.page_entries_mapped i) v.maliggy_address size_in_pde w)

/-- Model of `maliggy_mmu_pagedir_unmap`: the loop, the barrier, and the invalidation of the L2
caches (all of them, or the pages noted and, if an entry was freed, the page directory page).
The result is always `_MALI_OSK_ERR_OK`. -/
def maliggy_mmu_pagedir_unmap (pagedir : maliggy_page_directory) (maliggy_address size : Nat)
    (w : PageWorld) : _maliggy_osk_errcode_t × maliggy_page_directory × PageWorld :=
  let r := maliggy_mmu_pagedir_unmap_loop
    (pde_range (MALI_MMU_PDE_ENTRY maliggy_address)
      (MALI_MMU_PDE_ENTRY ((maliggy_address + size + 4294967295) % 4294967296)))
    { left := size, maliggy_address := maliggy_address, pd_changed := false,
      pages_to_invalidate := [], invalidate_all := false }
    pagedir w
  let w1 := r.2.2.call ._maliggy_osk_write_mem_barrier
  let pages :=
    if r.1.pd_changed = true ∧ r.1.pages_to_invalidate.length < 3 then
      r.1.pages_to_invalidate ++ [r.2.1.page_directory]
    else r.1.pages_to_invalidate
  let invalidate_all :=
    if r.1.pd_changed = true ∧ ¬ r.1.pages_to_invalidate.length < 3 then true
    else r.1.invalidate_all
  (_MALI_OSK_ERR_OK, r.2.1,
    if invalidate_all = true then w1.call .maliggy_l2_cache_invalidate_all
    else w1.call (.maliggy_l2_cache_invalidate_all_pages pages))

/-- The word of directory entry `i` in the mapped page directory. -/
def maliggy_page_directory.entry (pagedir : maliggy_page_directory) (w : PageWorld) (i : Nat) :
    Nat :=
  w.mem pagedir.page_directory_mapped (i * 4)

/-- Directory entry `i` is marked present. -/
def maliggy_page_directory.present (pagedir : maliggy_page_directory) (w : PageWorld)
    (i : Nat) : Bool :=
  _maliggy_osk_mem_ioread32 pagedir.page_directory_mapped (i * 4) w
    &&& MALI_MMU_FLAGS_PRESENT != 0

/-- The addresses passed to `maliggy_mmu_release_table_page` in a log, in order. -/
def released_table_pages (l : List PageCall) : List Nat :=
  l.filterMap fun c =>
    match c with
    | .maliggy_mmu_release_table_page address => some address
    | _ => none

/-- A page directory without page tables: every entry 0, no mapping, every usage count 0; the
directory page is mapped at 100. -/
def pagedir_empty : maliggy_page_directory :=
  { page_directory := 0x8000, page_directory_mapped := 100,
    page_entries_mapped := fun _ => 0, page_entries_usage_count := fun _ => 0 }

/-- A world in which all mapped memory is 0 and `maliggy_mmu_get_table_page` answers with the
given results. -/
def page_world_of (table_pages : List (_maliggy_osk_errcode_t × Nat × Nat)) : PageWorld :=
  { mem := fun _ _ => 0, table_pages := table_pages, log := [] }

/-- A world in which the word at offset 0 of the page mapped at 100 is `0x1001` (a present
entry 0 of the directory `pagedir_empty`) and all other mapped memory is 0. -/
def page_world_present (table_pages : List (_maliggy_osk_errcode_t × Nat × Nat)) : PageWorld :=
  { mem := fun m o => if m = 100 ∧ o = 0 then 0x1001 else 0, table_pages := table_pages,
    log := [] }

/-- A page directory whose entry 0 is absent although its usage count is 5. -/
def pagedir_stale_count : maliggy_page_directory :=
  { pagedir_empty with page_entries_usage_count := fun i => if i = 0 then 5 else 0 }

/-- A page directory whose entry 0 has the page table mapped at 200 and the largest usage
count. -/
def pagedir_full_count : maliggy_page_directory :=
  { pagedir_empty with
    page_entries_mapped := fun i => if i = 0 then 200 else 0,
    page_entries_usage_count := fun i => if i = 0 then 0xFFFFFFFF else 0 }

/-- A page directory whose entry 0 is in use once and has the page of the directory itself as
its page table. -/
def pagedir_self_mapped : maliggy_page_directory :=
  { pagedir_empty with
    page_entries_mapped := fun i => if i = 0 then 100 else 0,
    page_entries_usage_count := fun i => if i = 0 then 1 else 0 }
/-! ## The log of the hardware layer -/

@[simp]
theorem World.emit_log (w : World) (e : Ev) : (w.emit e).log = w.log ++ [e] := rfl

@[simp]
theorem World.emit_reads (w : World) (e : Ev) : (w.emit e).reads = w.reads := rfl

@[simp]
theorem World.emit_l2 (w : World) (e : Ev) : (w.emit e).l2 = w.l2 := rfl

@[simp]
theorem World.emit_autonumber (w : World) (e : Ev) :
    (w.emit e).maliggy_job_autonumber = w.maliggy_job_autonumber := rfl

@[simp]
theorem World.read_log (w : World) : w.read.2.log = w.log := rfl

@[simp]
theorem World.read_l2 (w : World) : w.read.2.l2 = w.l2 := rfl

@[simp]
theorem register_read_log (c : HwCore) (r : Reg) (w : World) :
    (maliggy_hw_core_register_read c r w).2.log = w.log := rfl

@[simp]
theorem register_write_log (c : HwCore) (r : Reg) (v : Nat) (w : World) :
    (maliggy_hw_core_register_write c r v w).log = w.log ++ [.reg_write c r v] := rfl

@[simp]
theorem poll_register_log (c : HwCore) (r : Reg) (stop : Nat → Bool) (n last : Nat) (w : World) :
    (poll_register c r stop n last w).2.2.log = w.log := by
  induction n generalizing last w with
  | zero => rfl
  | succ n ih =>
    simp only [poll_register]
    split
    · rfl
    · rw [ih]; rfl

theorem gp_hard_reset_loop_log (n : Nat) (w : World) :
    (maliggy_gp_hard_reset_loop n w).log = w.log ++ List.replicate
      (maliggy_gp_hard_reset_loop_count n w)
      (.reg_write .gp .MALIGP2_REG_ADDR_MGMT_WRITE_BOUND_LOW 0xC01A0000) := by
  induction n generalizing w with
  | zero => simp [maliggy_gp_hard_reset_loop, maliggy_gp_hard_reset_loop_count]
  | succ n ih =>
    simp only [maliggy_gp_hard_reset_loop, maliggy_gp_hard_reset_loop_count]
    split
    · simp
    · rw [ih]; simp [List.replicate_succ]

theorem mmu_enable_stall_log (cfg : Config) (w : World) :
    (maliggy_mmu_enable_stall cfg w).2.log = w.log ++
      (if w.read.1 &&& cfg.MALI_MMU_STATUS_BIT_PAGING_ENABLED = 0
          ∨ w.read.1 &&& cfg.MALI_MMU_STATUS_BIT_PAGE_FAULT_ACTIVE ≠ 0 then []
        else [.reg_write .mmu .MALI_MMU_REGISTER_COMMAND MALI_MMU_COMMAND_ENABLE_STALL]) := by
  unfold maliggy_mmu_enable_stall
  simp only [maliggy_hw_core_register_read]
  split_ifs <;> simp_all

theorem mmu_disable_stall_log (cfg : Config) (w : World) :
    (maliggy_mmu_disable_stall cfg w).log = w.log ++
      (if w.read.1 &&& cfg.MALI_MMU_STATUS_BIT_PAGING_ENABLED = 0
          ∨ w.read.1 &&& cfg.MALI_MMU_STATUS_BIT_PAGE_FAULT_ACTIVE ≠ 0 then []
        else [.reg_write .mmu .MALI_MMU_REGISTER_COMMAND MALI_MMU_COMMAND_DISABLE_STALL]) := by
  unfold maliggy_mmu_disable_stall
  simp only [maliggy_hw_core_register_read]
  split_ifs <;> simp_all

/-! ## The observable log of the hardware layer -/

@[simp]
theorem obs_nil : obs [] = [] := rfl

@[simp]
theorem obs_append (a b : List Ev) : obs (a ++ b) = obs a ++ obs b := by
  simp [obs]

@[simp]
theorem obs_cons (e : Ev) (l : List Ev) :
    obs (e :: l) = if e.low then obs l else e :: obs l := by
  simp only [obs, List.filter_cons]
  cases e.low <;> simp

@[simp]
theorem obs_replicate_low (n : Nat) (e : Ev) (h : e.low = true) :
    obs (List.replicate n e) = [] := by
  induction n with
  | zero => rfl
  | succ n ih => simp [List.replicate_succ, h, ih]

theorem World.emit_read (w : World) (e : Ev) : (w.emit e).read.1 = w.read.1 := rfl

@[simp]
theorem obs_register_read (c : HwCore) (r : Reg) (w : World) :
    obs (maliggy_hw_core_register_read c r w).2.log = obs w.log := rfl

@[simp]
theorem low_reg_write (c : HwCore) (r : Reg) (v : Nat) : (Ev.reg_write c r v).low = true := rfl

@[simp]
theorem obs_register_write (c : HwCore) (r : Reg) (v : Nat) (w : World) :
    obs (maliggy_hw_core_register_write c r v w).log = obs w.log := by
  simp

@[simp]
theorem obs_poll_register (c : HwCore) (r : Reg) (stop : Nat → Bool) (n last : Nat)
    (w : World) : obs (poll_register c r stop n last w).2.2.log = obs w.log := by
  rw [poll_register_log]

@[simp]
theorem obs_mmu_enable_stall (cfg : Config) (w : World) :
    obs (maliggy_mmu_enable_stall cfg w).2.log = obs w.log := by
  rw [mmu_enable_stall_log]; split_ifs <;> simp [Ev.low]

@[simp]
theorem obs_mmu_disable_stall (cfg : Config) (w : World) :
    obs (maliggy_mmu_disable_stall cfg w).log = obs w.log := by
  rw [mmu_disable_stall_log]; split_ifs <;> simp [Ev.low]

@[simp]
theorem obs_mmu_page_fault_done (w : World) :
    obs (maliggy_mmu_page_fault_done w).log
      = obs w.log ++ [.call .maliggy_mmu_page_fault_done []] := by
  simp [maliggy_mmu_page_fault_done, Ev.low]

@[simp]
theorem obs_mmu_raw_reset (cfg : Config) (w : World) :
    obs (maliggy_mmu_raw_reset cfg w).2.log = obs w.log := by
  unfold maliggy_mmu_raw_reset
  simp only []
  split_ifs <;> simp [Ev.low]

@[simp]
theorem obs_mmu_enable_paging (cfg : Config) (w : World) :
    obs (maliggy_mmu_enable_paging cfg w).log = obs w.log := by
  unfold maliggy_mmu_enable_paging
  simp only []
  split_ifs <;> simp [Ev.low]

@[simp]
theorem obs_mmu_reset (cfg : Config) (w : World) :
    obs (maliggy_mmu_reset cfg w).2.log = obs w.log ++ [.call .maliggy_mmu_reset []] := by
  unfold maliggy_mmu_reset
  simp only []
  split_ifs <;> simp [Ev.low]

@[simp]
theorem obs_mmu_zap_tlb (cfg : Config) (w : World) :
    obs (maliggy_mmu_zap_tlb cfg w).2.log = obs w.log ++ [.call .maliggy_mmu_zap_tlb []] := by
  unfold maliggy_mmu_zap_tlb
  simp only []
  split_ifs <;> simp [Ev.low]

@[simp]
theorem obs_mmu_zap_tlb_without_stall (w : World) :
    obs (maliggy_mmu_zap_tlb_without_stall w).log
      = obs w.log ++ [.call .maliggy_mmu_zap_tlb_without_stall []] := by
  simp [maliggy_mmu_zap_tlb_without_stall, Ev.low]

@[simp]
theorem obs_mmu_activate_address_space (pd : Nat) (w : World) :
    obs (maliggy_mmu_activate_address_space pd w).log = obs w.log := by
  simp [maliggy_mmu_activate_address_space]

@[simp]
theorem obs_mmu_activate_page_directory (cfg : Config) (pd : Nat) (w : World) :
    obs (maliggy_mmu_activate_page_directory cfg pd w).2.log
      = obs w.log ++ [.call .maliggy_mmu_activate_page_directory [pd]] := by
  unfold maliggy_mmu_activate_page_directory
  simp only []
  split_ifs <;> simp [Ev.low]

@[simp]
theorem obs_mmu_activate_empty_page_directory (cfg : Config) (w : World) :
    obs (maliggy_mmu_activate_empty_page_directory cfg w).log
      = obs w.log ++ [.call .maliggy_mmu_activate_empty_page_directory []] := by
  simp [maliggy_mmu_activate_empty_page_directory, Ev.low]

@[simp]
theorem obs_mmu_activate_fault_flush_page_directory (cfg : Config) (w : World) :
    obs (maliggy_mmu_activate_fault_flush_page_directory cfg w).log
      = obs w.log ++ [.call .maliggy_mmu_activate_fault_flush_page_directory []] := by
  unfold maliggy_mmu_activate_fault_flush_page_directory
  simp only []
  split_ifs <;> simp [Ev.low]

@[simp]
theorem obs_l2_cache_send_command (cfg : Config) (c : Nat) (r : Reg) (v : Nat) (w : World) :
    obs (maliggy_l2_cache_send_command cfg c r v w).2.log = obs w.log := by
  unfold maliggy_l2_cache_send_command
  simp only []
  split_ifs <;> simp [Ev.low]

@[simp]
theorem obs_l2_cache_invalidate (cfg : Config) (c : Nat) (w : World) :
    obs (maliggy_l2_cache_invalidate cfg (some c) w).log
      = obs w.log ++ [.call .maliggy_l2_cache_invalidate [c]] := by
  simp [maliggy_l2_cache_invalidate, maliggy_scheduler_get_new_id,
    World.set_last_invalidated_id, World.emit, Ev.low]

@[simp]
theorem obs_l2_cache_invalidate_conditional (cfg : Config) (c id : Nat) (w : World) :
    obs (maliggy_l2_cache_invalidate_conditional cfg (some c) id w).2.log
      = obs w.log ++ [.call .maliggy_l2_cache_invalidate_conditional [c, id]] := by
  unfold maliggy_l2_cache_invalidate_conditional
  simp only []
  split_ifs <;>
    simp [maliggy_scheduler_get_new_id, World.set_last_invalidated_id, World.emit, Ev.low]

@[simp]
theorem obs_bcast_reset (b : maliggy_bcast_unit) (w : World) :
    obs (maliggy_bcast_reset b w).log = obs w.log := by
  simp [maliggy_bcast_reset]

@[simp]
theorem obs_bcast_disable (b : maliggy_bcast_unit) (w : World) :
    obs (maliggy_bcast_disable b w).log = obs w.log ++ [.call .maliggy_bcast_disable []] := by
  simp [maliggy_bcast_disable, Ev.low]

@[simp]
theorem obs_bcast_enable (b : maliggy_bcast_unit) (w : World) :
    obs (maliggy_bcast_enable b w).log = obs w.log ++ [.call .maliggy_bcast_enable []] := by
  simp [maliggy_bcast_enable, Ev.low]

@[simp]
theorem obs_gp_stop_bus (cfg : Config) (w : World) :
    obs (maliggy_gp_stop_bus cfg w).log = obs w.log ++ [.call .maliggy_gp_stop_bus []] := by
  simp [maliggy_gp_stop_bus, Ev.low]

@[simp]
theorem obs_gp_stop_bus_wait (cfg : Config) (w : World) :
    obs (maliggy_gp_stop_bus_wait cfg w).2.log
      = obs w.log ++ [.call .maliggy_gp_stop_bus_wait [], .call .maliggy_gp_stop_bus []] := by
  simp [maliggy_gp_stop_bus_wait, Ev.low]

@[simp]
theorem obs_gp_hard_reset_loop (n : Nat) (w : World) :
    obs (maliggy_gp_hard_reset_loop n w).log = obs w.log := by
  rw [gp_hard_reset_loop_log]; simp [Ev.low]

@[simp]
theorem obs_gp_hard_reset (cfg : Config) (w : World) :
    obs (maliggy_gp_hard_reset cfg w).log = obs w.log ++ [.call .maliggy_gp_hard_reset []] := by
  simp [maliggy_gp_hard_reset, Ev.low]

@[simp]
theorem obs_gp_reset_async (cfg : Config) (w : World) :
    obs (maliggy_gp_reset_async cfg w).log = obs w.log ++ [.call .maliggy_gp_reset_async []] := by
  simp [maliggy_gp_reset_async, Ev.low]

@[simp]
theorem obs_gp_reset_wait (cfg : Config) (w : World) :
    obs (maliggy_gp_reset_wait cfg w).2.log = obs w.log ++
      [.ret .maliggy_gp_reset_wait (if (maliggy_gp_reset_wait cfg w).1 then 0 else 1)] := by
  unfold maliggy_gp_reset_wait
  simp only []
  cases h : (poll_register .gp .MALIGP2_REG_ADDR_MGMT_INT_RAWSTAT
    (fun v => v &&& cfg.MALI400GP_REG_VAL_IRQ_RESET_COMPLETED != 0)
    cfg.MALI_REG_POLL_COUNT_FAST 0 w).1 <;> simp [Ev.low]

@[simp]
theorem obs_gp_job_start (cfg : Config) (core : maliggy_gp_core) (job : maliggy_gp_job)
    (w : World) :
    obs (maliggy_gp_job_start cfg core job w).2.log
      = obs w.log ++ [.call .maliggy_gp_job_start [job.id]] := by
  unfold maliggy_gp_job_start
  simp only []
  split_ifs <;> simp [Ev.low]

@[simp]
theorem obs_gp_resume_with_new_heap (cfg : Config) (a b : Nat) (w : World) :
    obs (maliggy_gp_resume_with_new_heap cfg a b w).log
      = obs w.log ++ [.call .maliggy_gp_resume_with_new_heap [a, b]] := by
  unfold maliggy_gp_resume_with_new_heap
  simp only []
  split_ifs <;> simp [Ev.low]

@[simp]
theorem obs_gp_update_performance_counters (cfg : Config) (core : maliggy_gp_core)
    (job : maliggy_gp_job) (w : World) :
    obs (maliggy_gp_update_performance_counters cfg core job w).log = obs w.log := by
  unfold maliggy_gp_update_performance_counters
  simp only []
  split_ifs <;> simp [Ev.low]

@[simp]
theorem obs_gp_read_rawstat (cfg : Config) (w : World) :
    obs (maliggy_gp_read_rawstat cfg w).2.log = obs w.log := rfl

@[simp]
theorem obs_gp_read_core_status (w : World) :
    obs (maliggy_gp_read_core_status w).2.log = obs w.log := rfl

@[simp]
theorem obs_gp_enable_interrupts (cfg : Config) (x : Nat) (w : World) :
    obs (maliggy_gp_enable_interrupts cfg x w).log
      = obs w.log ++ [.call .maliggy_gp_enable_interrupts [x]] := by
  simp [maliggy_gp_enable_interrupts, Ev.low]

@[simp]
theorem obs_gp_read_plbu_alloc_start_addr (w : World) :
    obs (maliggy_gp_read_plbu_alloc_start_addr w).2.log = obs w.log := rfl

@[simp]
theorem obs_pp_read_rawstat (cfg : Config) (core : maliggy_pp_core) (w : World) :
    obs (maliggy_pp_read_rawstat cfg core w).2.log = obs w.log := rfl

@[simp]
theorem obs_pp_read_status (core : maliggy_pp_core) (w : World) :
    obs (maliggy_pp_read_status core w).2.log = obs w.log := rfl

@[simp]
theorem obs_pp_enable_interrupts (cfg : Config) (core : maliggy_pp_core) (w : World) :
    obs (maliggy_pp_enable_interrupts cfg core w).log = obs w.log := by
  simp [maliggy_pp_enable_interrupts]

@[simp]
theorem obs_pp_write_addr_stack (core : maliggy_pp_core) (job : maliggy_pp_job) (w : World) :
    obs (maliggy_pp_write_addr_stack core job w).log = obs w.log := by
  simp [maliggy_pp_write_addr_stack]

@[simp]
theorem obs_pp_job_start (core : maliggy_pp_core) (job : maliggy_pp_job) (s : Nat) (b : Bool)
    (w : World) :
    obs (maliggy_pp_job_start core job s b w).log
      = obs w.log ++ [.call .maliggy_pp_job_start [core.core_id, job.id, s, b2n b]] := by
  simp [maliggy_pp_job_start, Ev.low]

@[simp]
theorem obs_pp_reset_async (core : maliggy_pp_core) (w : World) :
    obs (maliggy_pp_reset_async core w).log
      = obs w.log ++ [.call .maliggy_pp_reset_async [core.core_id]] := by
  simp [maliggy_pp_reset_async, Ev.low]

@[simp]
theorem obs_pp_reset_wait (core : maliggy_pp_core) (w : World) :
    obs (maliggy_pp_reset_wait core w).2.log = obs w.log ++
      [.call .maliggy_pp_reset_wait [core.core_id], .ret .maliggy_pp_reset_wait w.read.1] := by
  simp [maliggy_pp_reset_wait, Ev.low, World.emit_read]

@[simp]
theorem obs_pp_stop_bus (core : maliggy_pp_core) (w : World) :
    obs (maliggy_pp_stop_bus core w).log
      = obs w.log ++ [.call .maliggy_pp_stop_bus [core.core_id]] := by
  simp [maliggy_pp_stop_bus, Ev.low]

@[simp]
theorem obs_pp_stop_bus_wait (core : maliggy_pp_core) (w : World) :
    obs (maliggy_pp_stop_bus_wait core w).log
      = obs w.log ++ [.call .maliggy_pp_stop_bus_wait [core.core_id]] := by
  simp [maliggy_pp_stop_bus_wait, Ev.low]

@[simp]
theorem obs_pp_hard_reset (core : maliggy_pp_core) (w : World) :
    obs (maliggy_pp_hard_reset core w).log
      = obs w.log ++ [.call .maliggy_pp_hard_reset [core.core_id]] := by
  simp [maliggy_pp_hard_reset, Ev.low]

@[simp]
theorem obs_pp_update_performance_counters (p c : maliggy_pp_core) (job : maliggy_pp_job)
    (s : Nat) (w : World) :
    obs (maliggy_pp_update_performance_counters p c job s w).log = obs w.log := by
  simp [maliggy_pp_update_performance_counters, Ev.low]

@[simp]
theorem obs_dlbu_config_job (job : maliggy_pp_job) (w : World) :
    obs (maliggy_dlbu_config_job job w).log
      = obs w.log ++ [.call .maliggy_dlbu_config_job [job.id]] := by
  simp [maliggy_dlbu_config_job, Ev.low]

@[simp]
theorem obs_timer_mod (ms : Nat) (w : World) :
    obs (_maliggy_osk_timer_mod ms w).log = obs w.log ++ [.call ._maliggy_osk_timer_mod [ms]] := by
  simp [_maliggy_osk_timer_mod, Ev.low]

@[simp]
theorem obs_timer_del_async (w : World) :
    obs (_maliggy_osk_timer_del_async w).log
      = obs w.log ++ [.call ._maliggy_osk_timer_del_async []] := by
  simp [_maliggy_osk_timer_del_async, Ev.low]

@[simp]
theorem obs_timer_pending (w : World) :
    obs (_maliggy_osk_timer_pending w).2.log
      = obs w.log ++ [.ret ._maliggy_osk_timer_pending w.read.1] := by
  simp [_maliggy_osk_timer_pending, Ev.low]

@[simp]
theorem obs_group_lock (w : World) :
    obs (maliggy_group_lock w).log = obs w.log ++ [.call .maliggy_group_lock []] := by
  simp [maliggy_group_lock, Ev.low]

@[simp]
theorem obs_group_unlock (w : World) :
    obs (maliggy_group_unlock w).log = obs w.log ++ [.call .maliggy_group_unlock []] := by
  simp [maliggy_group_unlock, Ev.low]


/-! ## The observable log of the group functions -/

theorem obs_foldl_low {α : Type} (f : World → α → World) (l : List α) (w : World)
    (h : ∀ w a, obs (f w a).log = obs w.log) : obs (l.foldl f w).log = obs w.log := by
  induction l generalizing w with
  | nil => rfl
  | cons a l ih => simp [List.foldl_cons, ih, h]

theorem obs_foldl_detail {α : Type} (f : World → α → World) (P : Ev → Prop) (l : List α)
    (w : World) (h : ∀ w a, ∃ t, obs (f w a).log = obs w.log ++ t ∧ ∀ e ∈ t, P e) :
    ∃ t, obs (l.foldl f w).log = obs w.log ++ t ∧ ∀ e ∈ t, P e := by
  induction l generalizing w with
  | nil => exact ⟨[], by simp, by simp⟩
  | cons a l ih =>
    obtain ⟨t1, h1, p1⟩ := h w a
    obtain ⟨t2, h2, p2⟩ := ih (f w a)
    refine ⟨t1 ++ t2, ?_, ?_⟩
    · simp [List.foldl_cons, h2, h1]
    · intro e he
      rcases List.mem_append.1 he with h' | h'
      · exact p1 e h'
      · exact p2 e h'

theorem obs_group_activate_page_directory (cfg : Config) (g : maliggy_group) (s : Nat)
    (w : World) :
    obs (maliggy_group_activate_page_directory cfg g s w).2.2.log = obs w.log ++
      .call .maliggy_group_activate_page_directory [s] ::
        ((if g.page_dir_ref_count = 0 ∧ g.session ≠ some s then
            [.call .maliggy_mmu_activate_page_directory [cfg.session_page_directory s]]
          else []) ++
        [.ret .maliggy_group_activate_page_directory
          (maliggy_group_activate_page_directory cfg g s w).1.toNat]) := by
  unfold maliggy_group_activate_page_directory
  simp only []
  split_ifs <;> simp_all [Ev.low, maliggy_group_activate_pd_status.toNat]

@[simp]
theorem obs_group_deactivate_page_directory (g : maliggy_group) (s : Option Nat) (w : World) :
    obs (maliggy_group_deactivate_page_directory g s w).2.log = obs w.log ++
      [.call .maliggy_group_deactivate_page_directory [s2n s, s2n g.session]] := by
  simp [maliggy_group_deactivate_page_directory, Ev.low]

@[simp]
theorem obs_group_remove_session_if_unused (cfg : Config) (g : maliggy_group) (s : Nat)
    (w : World) :
    obs (maliggy_group_remove_session_if_unused cfg g s w).2.log = obs w.log ++
      (if g.page_dir_ref_count = 0 ∧ g.session = some s then
        [.call .maliggy_mmu_activate_empty_page_directory []] else []) := by
  unfold maliggy_group_remove_session_if_unused
  split_ifs <;> simp_all

@[simp]
theorem obs_group_post_process_job_gp (cfg : Config) (g : maliggy_group) (w : World) :
    obs (maliggy_group_post_process_job_gp cfg g w).log
      = obs w.log ++ [.call ._maliggy_osk_timer_del_async []] := by
  unfold maliggy_group_post_process_job_gp
  cases g.gp_running_job <;> simp [Ev.low]

@[simp]
theorem obs_group_post_process_job_pp (g : maliggy_group) (w : World) :
    obs (maliggy_group_post_process_job_pp g w).log
      = obs w.log ++ [.call ._maliggy_osk_timer_del_async []] := by
  unfold maliggy_group_post_process_job_pp
  cases g.pp_running_job with
  | none => simp
  | some job =>
    simp only []
    split_ifs
    · rw [obs_foldl_low _ _ _ (by intro w a; simp)]; simp
    · simp

theorem obs_group_recovery_reset (cfg : Config) (g : maliggy_group) (w : World) :
    ∃ t, obs (maliggy_group_recovery_reset cfg g w).2.log
        = obs w.log ++ .call .maliggy_group_recovery_reset [] :: t
      ∧ ∀ e ∈ t, e.is_reset_detail = true := by
  unfold maliggy_group_recovery_reset
  cases hpp : g.pp_core with
  | none =>
    refine ⟨[.call .maliggy_gp_stop_bus [],
      .call .maliggy_mmu_activate_fault_flush_page_directory [],
      .call .maliggy_mmu_page_fault_done [], .call .maliggy_gp_stop_bus_wait [],
      .call .maliggy_gp_stop_bus [], .call .maliggy_gp_hard_reset [],
      .call .maliggy_mmu_reset []], ?_, ?_⟩
    · simp [Ev.low]
    · simp [Ev.is_reset_detail]
  | some pp =>
    by_cases hv : maliggy_group_is_virtual g = true
    · obtain ⟨t, ht, hp⟩ := obs_foldl_detail
        (fun w child => maliggy_pp_hard_reset child (maliggy_pp_stop_bus_wait child w))
        (fun e => e.is_reset_detail = true) g.group_list
        (maliggy_bcast_disable (g.bcast_core.getD ⟨0⟩)
          (maliggy_mmu_page_fault_done (maliggy_mmu_activate_fault_flush_page_directory cfg
            (maliggy_pp_stop_bus pp (w.emit (.call .maliggy_group_recovery_reset []))))))
        (by
          intro w a
          exact ⟨[.call .maliggy_pp_stop_bus_wait [a.core_id],
            .call .maliggy_pp_hard_reset [a.core_id]], by simp, by simp [Ev.is_reset_detail]⟩)
      refine ⟨[.call .maliggy_pp_stop_bus [pp.core_id],
        .call .maliggy_mmu_activate_fault_flush_page_directory [],
        .call .maliggy_mmu_page_fault_done [], .call .maliggy_bcast_disable []] ++ t ++
        [.call .maliggy_bcast_enable [], .call .maliggy_mmu_reset []], ?_, ?_⟩
      · simp [hv, ht, Ev.low]
      · intro e he
        simp at he
        rcases he with h | h | h | h | h | h | h
        all_goals first | exact hp e h | (subst h; rfl)
    · refine ⟨[.call .maliggy_pp_stop_bus [pp.core_id],
        .call .maliggy_mmu_activate_fault_flush_page_directory [],
        .call .maliggy_mmu_page_fault_done [], .call .maliggy_pp_stop_bus_wait [pp.core_id],
        .call .maliggy_pp_hard_reset [pp.core_id], .call .maliggy_mmu_reset []], ?_, ?_⟩
      · simp [hv, Ev.low]
      · simp [Ev.is_reset_detail]

@[simp]
theorem group_recovery_reset_fst (cfg : Config) (g : maliggy_group) (w : World) :
    (maliggy_group_recovery_reset cfg g w).1 = { g with session := none } := rfl

@[simp]
theorem group_deactivate_page_directory_fst (g : maliggy_group) (s : Option Nat) (w : World) :
    (maliggy_group_deactivate_page_directory g s w).1
      = { g with page_dir_ref_count := g.page_dir_ref_count - 1 } := rfl

/-- What `maliggy_group_complete_gp` does: `ok` is the result of the soft-reset wait, `t` the
calls of the recovery reset. -/
theorem group_complete_gp_spec (cfg : Config) (g : maliggy_group) (success : Bool) (w : World) :
    ∃ (ok : Bool) (t : List Ev),
      (maliggy_group_complete_gp cfg g success w).1 =
        { g with state := MALI_GROUP_STATE_IDLE, gp_running_job := none,
                 page_dir_ref_count := g.page_dir_ref_count - 1,
                 session := if ok then g.session else none } ∧
      obs (maliggy_group_complete_gp cfg g success w).2.log = obs w.log ++
        [.call .maliggy_group_complete_gp [b2n success], .call ._maliggy_osk_timer_del_async [],
         .call .maliggy_gp_reset_async [],
         .call .maliggy_group_deactivate_page_directory [s2n g.session, s2n g.session],
         .ret .maliggy_gp_reset_wait (if ok then 0 else 1)] ++ t ++
        [.gp_scheduler_job_done (maliggy_group_complete_gp cfg g success w).1 g.gp_running_job
          success] ∧
      (ok = true → t = []) ∧
      (ok = false → ∃ t', t = .call .maliggy_group_recovery_reset [] :: t'
        ∧ ∀ e ∈ t', e.is_reset_detail = true) := by
  unfold maliggy_group_complete_gp
  simp only []
  generalize hD : maliggy_group_deactivate_page_directory _ _ _ = D
  have h1 : D.1 = { g with state := MALI_GROUP_STATE_IDLE, gp_running_job := none,
                            page_dir_ref_count := g.page_dir_ref_count - 1 } := by
    rw [← hD]; rfl
  have h2 : obs D.2.log = obs w.log ++
      [.call .maliggy_group_complete_gp [b2n success], .call ._maliggy_osk_timer_del_async [],
       .call .maliggy_gp_reset_async [],
       .call .maliggy_group_deactivate_page_directory [s2n g.session, s2n g.session]] := by
    rw [← hD]; simp [Ev.low]
  cases hok : (maliggy_gp_reset_wait cfg D.2).1 with
  | true =>
    refine ⟨true, [], ?_, ?_, by simp, by simp⟩
    · simp [h1]
    · simp [hok, h2, Ev.low]
  | false =>
    obtain ⟨t', ht, hp⟩ := obs_group_recovery_reset cfg D.1 (maliggy_gp_reset_wait cfg D.2).2
    refine ⟨false, _, ?_, ?_, by simp, fun _ => ⟨t', rfl, hp⟩⟩
    · simp [h1]
    · simp [ht, hok, h2, Ev.low]

/-- What `maliggy_group_complete_pp` does: `v` is the error code of the soft-reset wait (when
there is one), `t` the calls of the recovery reset. -/
theorem group_complete_pp_spec (cfg : Config) (g : maliggy_group) (success : Bool) (w : World) :
    ∃ (v : Nat) (t : List Ev),
      (maliggy_group_complete_pp cfg g success w).1 =
        { g with state := MALI_GROUP_STATE_IDLE, pp_running_job := none,
                 page_dir_ref_count := g.page_dir_ref_count - 1,
                 session := if success = true ∧ v = 0 then g.session else none } ∧
      obs (maliggy_group_complete_pp cfg g success w).2.log = obs w.log ++
        [.call .maliggy_group_complete_pp [b2n success], .call ._maliggy_osk_timer_del_async []]
        ++ (if success then
              [.call .maliggy_pp_reset_async [(g.pp_core.getD null_pp_core).core_id]] else [])
        ++ [.call .maliggy_group_deactivate_page_directory [s2n g.session, s2n g.session]]
        ++ (if success then
              [.call .maliggy_pp_reset_wait [(g.pp_core.getD null_pp_core).core_id],
               .ret .maliggy_pp_reset_wait v] else [])
        ++ t ++
        [.pp_scheduler_job_done (maliggy_group_complete_pp cfg g success w).1 g.pp_running_job
          g.pp_running_sub_job success] ∧
      (success = true ∧ v = 0 → t = []) ∧
      (¬(success = true ∧ v = 0) → ∃ t', t = .call .maliggy_group_recovery_reset [] :: t'
        ∧ ∀ e ∈ t', e.is_reset_detail = true) := by
  unfold maliggy_group_complete_pp
  simp only []
  generalize hD : maliggy_group_deactivate_page_directory _ _ _ = D
  have h1 : D.1 = { g with state := MALI_GROUP_STATE_IDLE, pp_running_job := none,
                            page_dir_ref_count := g.page_dir_ref_count - 1 } := by
    rw [← hD]; rfl
  cases success with
  | false =>
    have h2 : obs D.2.log = obs w.log ++
        [.call .maliggy_group_complete_pp [b2n false], .call ._maliggy_osk_timer_del_async [],
         .call .maliggy_group_deactivate_page_directory [s2n g.session, s2n g.session]] := by
      rw [← hD]; simp [Ev.low]
    obtain ⟨t', ht, hp⟩ := obs_group_recovery_reset cfg D.1 D.2
    refine ⟨0, _, ?_, ?_, by simp, fun _ => ⟨t', rfl, hp⟩⟩
    · simp [h1]
    · simp [ht, h2, Ev.low]
  | true =>
    have h2 : obs D.2.log = obs w.log ++
        [.call .maliggy_group_complete_pp [b2n true], .call ._maliggy_osk_timer_del_async [],
         .call .maliggy_pp_reset_async [(g.pp_core.getD null_pp_core).core_id],
         .call .maliggy_group_deactivate_page_directory [s2n g.session, s2n g.session]] := by
      rw [← hD]; simp [Ev.low]
    have h3 : (maliggy_pp_reset_wait (g.pp_core.getD null_pp_core) D.2).1
        = (D.2.read.1 == 0) := rfl
    by_cases hv : D.2.read.1 = 0
    · refine ⟨D.2.read.1, [], ?_, ?_, by simp, by simp [hv]⟩
      · simp [h1, h3, hv]
      · simp [h2, h3, hv, Ev.low]
    · obtain ⟨t', ht, hp⟩ := obs_group_recovery_reset cfg D.1
        (maliggy_pp_reset_wait (g.pp_core.getD null_pp_core) D.2).2
      refine ⟨D.2.read.1, _, ?_, ?_, by simp [hv], fun _ => ⟨t', rfl, hp⟩⟩
      · simp [h1, h3, hv]
      · simp [ht, h2, h3, hv, Ev.low]

theorem group_mmu_page_fault_pp (cfg : Config) (g : maliggy_group) (w : World)
    (h : g.pp_core.isSome = true) :
    ∃ t, (∀ e ∈ t, e.is_reset_detail = true) ∧
      (maliggy_group_mmu_page_fault cfg g w).1 =
        { g with state := MALI_GROUP_STATE_IDLE, pp_running_job := none,
                 page_dir_ref_count := g.page_dir_ref_count - 1, session := none } ∧
      obs (maliggy_group_mmu_page_fault cfg g w).2.log = obs w.log ++
        [.call .maliggy_group_mmu_page_fault [], .call ._maliggy_osk_timer_del_async [],
         .call .maliggy_group_deactivate_page_directory [s2n g.session, s2n g.session],
         .call .maliggy_group_recovery_reset []] ++ t ++
        [.pp_scheduler_job_done (maliggy_group_mmu_page_fault cfg g w).1 g.pp_running_job
          g.pp_running_sub_job false] := by
  unfold maliggy_group_mmu_page_fault
  cases hpp : g.pp_core with
  | none => simp [hpp] at h
  | some pp =>
    simp only []
    generalize hD : maliggy_group_deactivate_page_directory _ _ _ = D
    have h1 : D.1 = { g with state := MALI_GROUP_STATE_IDLE, pp_running_job := none,
                              page_dir_ref_count := g.page_dir_ref_count - 1 } := by
      rw [← hD]; simp [hpp]
    have h2 : obs D.2.log = obs w.log ++
        [.call .maliggy_group_mmu_page_fault [], .call ._maliggy_osk_timer_del_async [],
         .call .maliggy_group_deactivate_page_directory [s2n g.session, s2n g.session]] := by
      rw [← hD]; simp [Ev.low]
    obtain ⟨t', ht, hp⟩ := obs_group_recovery_reset cfg D.1 D.2
    refine ⟨t', hp, ?_, ?_⟩
    · simp [h1, hpp]
    · simp [ht, h2, hpp, Ev.low]

theorem group_mmu_page_fault_gp (cfg : Config) (g : maliggy_group) (w : World)
    (h : g.pp_core = none) :
    ∃ t, (∀ e ∈ t, e.is_reset_detail = true) ∧
      (maliggy_group_mmu_page_fault cfg g w).1 =
        { g with state := MALI_GROUP_STATE_IDLE, gp_running_job := none,
                 page_dir_ref_count := g.page_dir_ref_count - 1, session := none } ∧
      obs (maliggy_group_mmu_page_fault cfg g w).2.log = obs w.log ++
        [.call .maliggy_group_mmu_page_fault [], .call ._maliggy_osk_timer_del_async [],
         .call .maliggy_group_deactivate_page_directory [s2n g.session, s2n g.session],
         .call .maliggy_group_recovery_reset []] ++ t ++
        [.gp_scheduler_job_done (maliggy_group_mmu_page_fault cfg g w).1 g.gp_running_job
          false] := by
  unfold maliggy_group_mmu_page_fault
  simp only [h]
  generalize hD : maliggy_group_deactivate_page_directory _ _ _ = D
  have h1 : D.1 = { g with state := MALI_GROUP_STATE_IDLE, gp_running_job := none,
                            page_dir_ref_count := g.page_dir_ref_count - 1 } := by
    rw [← hD]; simp [h]
  have h2 : obs D.2.log = obs w.log ++
      [.call .maliggy_group_mmu_page_fault [], .call ._maliggy_osk_timer_del_async [],
       .call .maliggy_group_deactivate_page_directory [s2n g.session, s2n g.session]] := by
    rw [← hD]; simp [Ev.low]
  obtain ⟨t', ht, hp⟩ := obs_group_recovery_reset cfg D.1 D.2
  refine ⟨t', hp, ?_, ?_⟩
  · simp [h1, h]
  · simp [ht, h2, h, Ev.low]

theorem reset_detail_not_callback (e : Ev) (h : e.is_reset_detail = true) :
    e.is_callback = false := by
  cases e <;> first | rfl | simp [Ev.is_reset_detail] at h

theorem reset_detail_not_soft_reset (e : Ev) (h : e.is_reset_detail = true) :
    e.is_soft_reset = false := by
  cases e with
  | call f a => cases f <;> first | rfl | simp [Ev.is_reset_detail] at h
  | _ => rfl

/-- In a completion by `maliggy_group_complete_gp` everything before the callback is no callback. -/
theorem group_complete_gp_callback (cfg : Config) (g : maliggy_group) (success : Bool)
    (w : World) :
    ∃ pre, obs (maliggy_group_complete_gp cfg g success w).2.log = obs w.log ++ pre ++
        [.gp_scheduler_job_done (maliggy_group_complete_gp cfg g success w).1 g.gp_running_job
          success]
      ∧ (∀ e ∈ pre, e.is_callback = false)
      ∧ (maliggy_group_complete_gp cfg g success w).1.state = MALI_GROUP_STATE_IDLE
      ∧ (maliggy_group_complete_gp cfg g success w).1.gp_running_job = none := by
  obtain ⟨ok, t, hg, hl, h1, h2⟩ := group_complete_gp_spec cfg g success w
  refine ⟨[.call .maliggy_group_complete_gp [b2n success],
    .call ._maliggy_osk_timer_del_async [], .call .maliggy_gp_reset_async [],
    .call .maliggy_group_deactivate_page_directory [s2n g.session, s2n g.session],
    .ret .maliggy_gp_reset_wait (if ok then 0 else 1)] ++ t,
    by rw [hl]; simp only [List.append_assoc], ?_, by rw [hg], by rw [hg]⟩
  intro e he
  cases ok with
  | true =>
    rw [h1 rfl] at he
    simp at he
    rcases he with h | h | h | h | h <;> subst h <;> rfl
  | false =>
    obtain ⟨t', ht, hp⟩ := h2 rfl
    rw [ht] at he
    simp at he
    rcases he with h | h | h | h | h | h | h
    all_goals first | exact reset_detail_not_callback e (hp e h) | (subst h; rfl)

/-- In a completion by `maliggy_group_complete_pp` everything before the callback is no callback. -/
theorem group_complete_pp_callback (cfg : Config) (g : maliggy_group) (success : Bool)
    (w : World) :
    ∃ pre, obs (maliggy_group_complete_pp cfg g success w).2.log = obs w.log ++ pre ++
        [.pp_scheduler_job_done (maliggy_group_complete_pp cfg g success w).1 g.pp_running_job
          g.pp_running_sub_job success]
      ∧ (∀ e ∈ pre, e.is_callback = false)
      ∧ (maliggy_group_complete_pp cfg g success w).1.state = MALI_GROUP_STATE_IDLE
      ∧ (maliggy_group_complete_pp cfg g success w).1.pp_running_job = none := by
  obtain ⟨v, t, hg, hl, h1, h2⟩ := group_complete_pp_spec cfg g success w
  refine ⟨[.call .maliggy_group_complete_pp [b2n success],
      .call ._maliggy_osk_timer_del_async []]
    ++ (if success then
          [.call .maliggy_pp_reset_async [(g.pp_core.getD null_pp_core).core_id]] else [])
    ++ [.call .maliggy_group_deactivate_page_directory [s2n g.session, s2n g.session]]
    ++ (if success then
          [.call .maliggy_pp_reset_wait [(g.pp_core.getD null_pp_core).core_id],
           .ret .maliggy_pp_reset_wait v] else [])
    ++ t, by rw [hl]; simp only [List.append_assoc], ?_, by rw [hg], by rw [hg]⟩
  intro e he
  by_cases hc : success = true ∧ v = 0
  · rw [h1 hc] at he
    simp [hc.1] at he
    rcases he with h | h | h | h | h | h <;> subst h <;> rfl
  · obtain ⟨t', ht, hp⟩ := h2 hc
    rw [ht] at he
    cases success <;> simp at he
    · rcases he with h | h | h | h | h
      all_goals first | exact reset_detail_not_callback e (hp e h) | (subst h; rfl)
    · rcases he with h | h | h | h | h | h | h | h
      all_goals first | exact reset_detail_not_callback e (hp e h) | (subst h; rfl)

/-! ## Writes of the page directory pointer, and independence of the log -/

@[simp]
theorem dte_writes_nil : dte_writes [] = [] := rfl

@[simp]
theorem dte_writes_append (a b : List Ev) : dte_writes (a ++ b) = dte_writes a ++ dte_writes b := by
  simp [dte_writes]

@[simp]
theorem dte_writes_cons (e : Ev) (l : List Ev) :
    dte_writes (e :: l) = if e.is_dte_write then e :: dte_writes l else dte_writes l := by
  simp only [dte_writes, List.filter_cons]

theorem World.read_congr (w w' : World) (h : w.reads = w'.reads) :
    w.read.1 = w'.read.1 ∧ w.read.2.reads = w'.read.2.reads := by
  simp [World.read, h]

theorem poll_register_congr (c : HwCore) (r : Reg) (stop : Nat → Bool) (n last : Nat)
    (w w' : World) (h : w.reads = w'.reads) :
    (poll_register c r stop n last w).1 = (poll_register c r stop n last w').1
    ∧ (poll_register c r stop n last w).2.1 = (poll_register c r stop n last w').2.1
    ∧ (poll_register c r stop n last w).2.2.reads
        = (poll_register c r stop n last w').2.2.reads := by
  induction n generalizing last w w' with
  | zero => exact ⟨rfl, rfl, h⟩
  | succ n ih =>
    obtain ⟨h1, h2⟩ := World.read_congr w w' h
    simp only [poll_register, maliggy_hw_core_register_read, h1]
    split
    · exact ⟨rfl, rfl, h2⟩
    · exact ih _ _ _ h2

theorem mmu_enable_stall_congr (cfg : Config) (w w' : World) (h : w.reads = w'.reads) :
    (maliggy_mmu_enable_stall cfg w).1 = (maliggy_mmu_enable_stall cfg w').1
    ∧ (maliggy_mmu_enable_stall cfg w).2.reads = (maliggy_mmu_enable_stall cfg w').2.reads := by
  obtain ⟨h1, h2⟩ := World.read_congr w w' h
  unfold maliggy_mmu_enable_stall
  simp only [maliggy_hw_core_register_read, h1]
  obtain ⟨p1, p2, p3⟩ := poll_register_congr .mmu .MALI_MMU_REGISTER_STATUS
    (enable_stall_stop cfg) cfg.MALI_REG_POLL_COUNT_FAST w'.read.1
    (maliggy_hw_core_register_write .mmu .MALI_MMU_REGISTER_COMMAND
      MALI_MMU_COMMAND_ENABLE_STALL w.read.2)
    (maliggy_hw_core_register_write .mmu .MALI_MMU_REGISTER_COMMAND
      MALI_MMU_COMMAND_ENABLE_STALL w'.read.2) h2
  split_ifs <;> simp_all

theorem dte_writes_mmu_enable_stall (cfg : Config) (w : World) :
    dte_writes (maliggy_mmu_enable_stall cfg w).2.log = dte_writes w.log := by
  rw [mmu_enable_stall_log]; split_ifs <;> simp [Ev.is_dte_write]

theorem dte_writes_mmu_disable_stall (cfg : Config) (w : World) :
    dte_writes (maliggy_mmu_disable_stall cfg w).log = dte_writes w.log := by
  rw [mmu_disable_stall_log]; split_ifs <;> simp [Ev.is_dte_write]

theorem dte_writes_mmu_activate_page_directory (cfg : Config) (pd : Nat) (w : World) :
    dte_writes (maliggy_mmu_activate_page_directory cfg pd w).2.log = dte_writes w.log ++
      (if (maliggy_mmu_activate_page_directory cfg pd w).1 then
        [.reg_write .mmu .MALI_MMU_REGISTER_DTE_ADDR pd] else []) := by
  unfold maliggy_mmu_activate_page_directory
  simp only []
  cases h : (maliggy_mmu_enable_stall cfg
      (w.emit (.call .maliggy_mmu_activate_page_directory [pd]))).1
  · simp [dte_writes_mmu_enable_stall, Ev.is_dte_write]
  · simp [dte_writes_mmu_disable_stall, maliggy_mmu_activate_address_space,
      dte_writes_mmu_enable_stall, Ev.is_dte_write]

theorem mmu_activate_page_directory_fst (cfg : Config) (pd : Nat) (w : World) :
    (maliggy_mmu_activate_page_directory cfg pd w).1 = (maliggy_mmu_enable_stall cfg w).1 := by
  unfold maliggy_mmu_activate_page_directory
  simp only []
  rw [(mmu_enable_stall_congr cfg (w.emit (.call .maliggy_mmu_activate_page_directory [pd])) w
    rfl).1]
  cases (maliggy_mmu_enable_stall cfg w).1 <;> rfl

/-- The four paths of `maliggy_group_activate_page_directory`. -/
theorem group_activate_page_directory_spec (cfg : Config) (g : maliggy_group) (session : Nat)
    (w : World) :
    (g.page_dir_ref_count ≠ 0 ∧ g.session ≠ some session →
      (maliggy_group_activate_page_directory cfg g session w).1
          = MALI_GROUP_ACTIVATE_PD_STATUS_FAILED
        ∧ (maliggy_group_activate_page_directory cfg g session w).2.1 = g
        ∧ dte_writes (maliggy_group_activate_page_directory cfg g session w).2.2.log
            = dte_writes w.log)
    ∧ (g.session = some session →
      (maliggy_group_activate_page_directory cfg g session w).1
          = MALI_GROUP_ACTIVATE_PD_STATUS_OK_KEPT_PD
        ∧ (maliggy_group_activate_page_directory cfg g session w).2.1
            = { g with page_dir_ref_count := g.page_dir_ref_count + 1 }
        ∧ dte_writes (maliggy_group_activate_page_directory cfg g session w).2.2.log
            = dte_writes w.log)
    ∧ (g.page_dir_ref_count = 0 ∧ g.session ≠ some session
        ∧ (maliggy_mmu_enable_stall cfg w).1 = true →
      (maliggy_group_activate_page_directory cfg g session w).1
          = MALI_GROUP_ACTIVATE_PD_STATUS_OK_SWITCHED_PD
        ∧ (maliggy_group_activate_page_directory cfg g session w).2.1
            = { g with session := some session,
                       page_dir_ref_count := g.page_dir_ref_count + 1 }
        ∧ dte_writes (maliggy_group_activate_page_directory cfg g session w).2.2.log
            = dte_writes w.log ++
              [.reg_write .mmu .MALI_MMU_REGISTER_DTE_ADDR (cfg.session_page_directory session)])
    ∧ (g.page_dir_ref_count = 0 ∧ g.session ≠ some session
        ∧ (maliggy_mmu_enable_stall cfg w).1 = false →
      (maliggy_group_activate_page_directory cfg g session w).1
          = MALI_GROUP_ACTIVATE_PD_STATUS_FAILED
        ∧ (maliggy_group_activate_page_directory cfg g session w).2.1 = g
        ∧ dte_writes (maliggy_group_activate_page_directory cfg g session w).2.2.log
            = dte_writes w.log) := by
  have hs := mmu_activate_page_directory_fst cfg (cfg.session_page_directory session)
    (w.emit (.call .maliggy_group_activate_page_directory [session]))
  rw [(mmu_enable_stall_congr cfg (w.emit (.call .maliggy_group_activate_page_directory
    [session])) w rfl).1] at hs
  have hd := dte_writes_mmu_activate_page_directory cfg (cfg.session_page_directory session)
    (w.emit (.call .maliggy_group_activate_page_directory [session]))
  rw [hs] at hd
  unfold maliggy_group_activate_page_directory
  refine ⟨?_, ?_, ?_, ?_⟩
  · rintro ⟨h1, h2⟩
    simp [h1, h2, Ev.is_dte_write]
  · intro h1
    by_cases h0 : g.page_dir_ref_count = 0 <;> simp [h0, h1, Ev.is_dte_write]
  · rintro ⟨h1, h2, h3⟩
    simp [h1, h2, h3, hs, hd, Ev.is_dte_write]
  · rintro ⟨h1, h2, h3⟩
    simp [h1, h2, h3, hs, hd, Ev.is_dte_write]

theorem mem_obs_of_mem (e : Ev) (l : List Ev) (h : e ∈ l) (hl : e.low = false) : e ∈ obs l := by
  simp [obs, List.mem_filter, h, hl]

theorem obs_l2_cache_invalidate_conditional_opt (cfg : Config) (c : Option Nat) (id : Nat)
    (w : World) :
    obs (maliggy_l2_cache_invalidate_conditional cfg c id w).2.log = obs w.log ++
      (match c with
       | some c => [.call .maliggy_l2_cache_invalidate_conditional [c, id]]
       | none => []) := by
  cases c with
  | none => simp [maliggy_l2_cache_invalidate_conditional]
  | some c => simp

theorem dte_writes_gp_job_start (cfg : Config) (core : maliggy_gp_core) (job : maliggy_gp_job)
    (w : World) :
    dte_writes (maliggy_gp_job_start cfg core job w).2.log = dte_writes w.log := by
  unfold maliggy_gp_job_start
  simp only []
  split_ifs <;> simp [Ev.is_dte_write]

/-- `maliggy_group_start_gp_job` in terms of the activation it performs. -/
theorem group_start_gp_job_eq (cfg : Config) (g : maliggy_group) (job : maliggy_gp_job)
    (w : World) :
    maliggy_group_start_gp_job cfg g job w =
      (let a := maliggy_group_activate_page_directory cfg g job.session
          (maliggy_l2_cache_invalidate_conditional cfg g.l2_cache_core.1 job.id w).2
       let r : maliggy_group × World :=
        if a.1 ≠ MALI_GROUP_ACTIVATE_PD_STATUS_FAILED then
          let w2 := if a.1 = MALI_GROUP_ACTIVATE_PD_STATUS_OK_KEPT_PD then
              maliggy_mmu_zap_tlb_without_stall a.2.2
            else a.2.2
          let js := maliggy_gp_job_start cfg (a.2.1.gp_core.getD null_gp_core) job w2
          ({ a.2.1 with gp_core := a.2.1.gp_core.map (fun _ => js.1),
                        gp_running_job := some job, state := MALI_GROUP_STATE_WORKING }, js.2)
        else (a.2.1, a.2.2)
       (r.1, _maliggy_osk_timer_mod cfg.maliggy_max_job_runtime r.2)) := by
  unfold maliggy_group_start_gp_job
  cases h : g.l2_cache_core.1 <;> simp [maliggy_l2_cache_invalidate_conditional]

/-- The start of a GP job after each result of the activation `a`. -/
theorem group_start_gp_job_spec (cfg : Config) (g : maliggy_group) (job : maliggy_gp_job)
    (w : World) :
    (((maliggy_group_activate_page_directory cfg g job.session
        (maliggy_l2_cache_invalidate_conditional cfg g.l2_cache_core.1 job.id w).2).1
        = MALI_GROUP_ACTIVATE_PD_STATUS_FAILED →
      (maliggy_group_start_gp_job cfg g job w).1 = g
      ∧ obs (maliggy_group_start_gp_job cfg g job w).2.log =
          obs (maliggy_group_activate_page_directory cfg g job.session
            (maliggy_l2_cache_invalidate_conditional cfg g.l2_cache_core.1 job.id w).2).2.2.log
          ++ [.call ._maliggy_osk_timer_mod [cfg.maliggy_max_job_runtime]])
    ∧ ((maliggy_group_activate_page_directory cfg g job.session
        (maliggy_l2_cache_invalidate_conditional cfg g.l2_cache_core.1 job.id w).2).1
        = MALI_GROUP_ACTIVATE_PD_STATUS_OK_KEPT_PD →
      (maliggy_group_start_gp_job cfg g job w).1.state = MALI_GROUP_STATE_WORKING
      ∧ (maliggy_group_start_gp_job cfg g job w).1.gp_running_job = some job
      ∧ (maliggy_group_start_gp_job cfg g job w).1.session = g.session
      ∧ (maliggy_group_start_gp_job cfg g job w).1.page_dir_ref_count
          = g.page_dir_ref_count + 1
      ∧ obs (maliggy_group_start_gp_job cfg g job w).2.log =
          obs (maliggy_group_activate_page_directory cfg g job.session
            (maliggy_l2_cache_invalidate_conditional cfg g.l2_cache_core.1 job.id w).2).2.2.log
          ++ [.call .maliggy_mmu_zap_tlb_without_stall [], .call .maliggy_gp_job_start [job.id],
              .call ._maliggy_osk_timer_mod [cfg.maliggy_max_job_runtime]]
      ∧ dte_writes (maliggy_group_start_gp_job cfg g job w).2.log =
          dte_writes (maliggy_group_activate_page_directory cfg g job.session
            (maliggy_l2_cache_invalidate_conditional cfg g.l2_cache_core.1 job.id w).2).2.2.log)
    ∧ ((maliggy_group_activate_page_directory cfg g job.session
        (maliggy_l2_cache_invalidate_conditional cfg g.l2_cache_core.1 job.id w).2).1
        = MALI_GROUP_ACTIVATE_PD_STATUS_OK_SWITCHED_PD →
      (maliggy_group_start_gp_job cfg g job w).1.state = MALI_GROUP_STATE_WORKING
      ∧ (maliggy_group_start_gp_job cfg g job w).1.gp_running_job = some job
      ∧ (maliggy_group_start_gp_job cfg g job w).1.session = some job.session
      ∧ (maliggy_group_start_gp_job cfg g job w).1.page_dir_ref_count
          = g.page_dir_ref_count + 1
      ∧ obs (maliggy_group_start_gp_job cfg g job w).2.log =
          obs (maliggy_group_activate_page_directory cfg g job.session
            (maliggy_l2_cache_invalidate_conditional cfg g.l2_cache_core.1 job.id w).2).2.2.log
          ++ [.call .maliggy_gp_job_start [job.id],
              .call ._maliggy_osk_timer_mod [cfg.maliggy_max_job_runtime]]
      ∧ dte_writes (maliggy_group_start_gp_job cfg g job w).2.log =
          dte_writes (maliggy_group_activate_page_directory cfg g job.session
            (maliggy_l2_cache_invalidate_conditional cfg g.l2_cache_core.1 job.id
              w).2).2.2.log)) := by
  rw [group_start_gp_job_eq]
  generalize hw1 : (maliggy_l2_cache_invalidate_conditional cfg g.l2_cache_core.1 job.id w).2 = w1
  obtain ⟨s1, s2, s3, s4⟩ := group_activate_page_directory_spec cfg g job.session w1
  have hcase : (g.page_dir_ref_count ≠ 0 ∧ g.session ≠ some job.session)
      ∨ g.session = some job.session
      ∨ (g.page_dir_ref_count = 0 ∧ g.session ≠ some job.session
          ∧ (maliggy_mmu_enable_stall cfg w1).1 = true)
      ∨ (g.page_dir_ref_count = 0 ∧ g.session ≠ some job.session
          ∧ (maliggy_mmu_enable_stall cfg w1).1 = false) := by
    by_cases h1 : g.session = some job.session
    · exact Or.inr (Or.inl h1)
    · by_cases h2 : g.page_dir_ref_count = 0
      · cases h3 : (maliggy_mmu_enable_stall cfg w1).1
        · exact Or.inr (Or.inr (Or.inr ⟨h2, h1, rfl⟩))
        · exact Or.inr (Or.inr (Or.inl ⟨h2, h1, rfl⟩))
      · exact Or.inl ⟨h2, h1⟩
  rcases hcase with h | h | h | h
  · obtain ⟨a1, a2, _⟩ := s1 h
    simp [a1, a2, Ev.low]
  · obtain ⟨a1, a2, _⟩ := s2 h
    simp [a1, a2, Ev.low, Ev.is_dte_write, _maliggy_osk_timer_mod, dte_writes_gp_job_start,
      maliggy_mmu_zap_tlb_without_stall, h]
  · obtain ⟨a1, a2, _⟩ := s3 h
    simp [a1, a2, Ev.low, Ev.is_dte_write, _maliggy_osk_timer_mod, dte_writes_gp_job_start]
  · obtain ⟨a1, a2, _⟩ := s4 h
    simp [a1, a2, Ev.low]

theorem u32_not_testBit (m i : Nat) (hi : i < 32) : (u32_not m).testBit i = !m.testBit i := by
  unfold u32_not
  have h1 : (4294967296 : Nat) = 2 ^ 32 := by norm_num
  have h2 : (4294967295 : Nat) = 2 ^ 32 - 1 := by norm_num
  rw [Nat.testBit_xor, h1, h2, Nat.testBit_mod_two_pow, Nat.testBit_two_pow_sub_one]
  simp [hi]

theorem testBit_lt_of_lt (x i : Nat) (hx : x < 4294967296) (h : x.testBit i = true) : i < 32 := by
  by_contra hc
  have h1 : x < 2 ^ i := by
    calc x < 2 ^ 32 := by norm_num; exact hx
      _ ≤ 2 ^ i := Nat.pow_le_pow_right (by norm_num) (by omega)
  rw [Nat.testBit_lt_two_pow h1] at h
  exact absurd h (by decide)

/-- On 32-bit words the test `x & ~m != 0` of the source says that `x` has a bit outside `m`. -/
theorem and_not_ne_zero_iff (x m : Nat) (hx : x < 4294967296) :
    x &&& u32_not m ≠ 0 ↔ has_bit_outside x m := by
  constructor
  · intro h
    obtain ⟨i, hi⟩ := Nat.ne_zero_implies_bit_true h
    rw [Nat.testBit_and] at hi
    simp only [Bool.and_eq_true] at hi
    have hlt := testBit_lt_of_lt x i hx hi.1
    rw [u32_not_testBit m i hlt] at hi
    exact ⟨i, hi.1, by simpa using hi.2⟩
  · rintro ⟨i, h1, h2⟩ h0
    have hlt := testBit_lt_of_lt x i hx h1
    have : (x &&& u32_not m).testBit i = true := by
      rw [Nat.testBit_and, u32_not_testBit m i hlt, h1, h2]; rfl
    rw [h0] at this
    simp at this

theorem and_lt_of_lt (x m : Nat) (hx : x < 4294967296) : x &&& m < 4294967296 :=
  lt_of_le_of_lt Nat.and_le_left hx

theorem World.read_lt (w : World) : w.read.1 < 4294967296 := by
  simp only [World.read]
  exact Nat.mod_lt _ (by norm_num)

theorem gp_read_rawstat_lt (cfg : Config) (w : World) :
    (maliggy_gp_read_rawstat cfg w).1 < 4294967296 :=
  and_lt_of_lt _ _ (World.read_lt w)

/-! ## The bottom half of the GP interrupt -/

/-- When the group is powered and the completion is not clean, the bottom half is its second
part, run in a world whose observable log holds the lock taken. -/
theorem group_bottom_half_gp_not_clean (cfg : Config) (g : maliggy_group) (w : World)
    (hpow : g.power_is_on = true)
    (hnc : ¬ ((maliggy_gp_read_rawstat cfg w).1 &&& (cfg.MALIGP2_REG_VAL_IRQ_VS_END_CMD_LST
          ||| cfg.MALIGP2_REG_VAL_IRQ_PLBU_END_CMD_LST) ≠ 0
        ∧ (maliggy_gp_read_core_status (maliggy_gp_read_rawstat cfg w).2).1
          &&& cfg.MALIGP2_REG_VAL_STATUS_MASK_ACTIVE = 0)) :
    ∃ W, obs W.log = obs w.log ++ [.call .maliggy_group_lock []]
      ∧ maliggy_group_bottom_half_gp cfg g w
        = maliggy_group_bottom_half_gp_rest cfg g (maliggy_gp_read_rawstat cfg w).1 W := by
  have e1 : (maliggy_gp_read_rawstat cfg (maliggy_group_lock w)).1
      = (maliggy_gp_read_rawstat cfg w).1 := rfl
  have e2 : (maliggy_gp_read_core_status (maliggy_gp_read_rawstat cfg (maliggy_group_lock w)).2).1
      = (maliggy_gp_read_core_status (maliggy_gp_read_rawstat cfg w).2).1 := rfl
  unfold maliggy_group_bottom_half_gp
  simp only [hpow, e1]
  by_cases hb : (maliggy_gp_read_rawstat cfg w).1 &&& (cfg.MALIGP2_REG_VAL_IRQ_VS_END_CMD_LST
      ||| cfg.MALIGP2_REG_VAL_IRQ_PLBU_END_CMD_LST) ≠ 0
  · have hc : ¬ ((maliggy_gp_read_core_status (maliggy_gp_read_rawstat cfg w).2).1
        &&& cfg.MALIGP2_REG_VAL_STATUS_MASK_ACTIVE = 0) := fun h => hnc ⟨hb, h⟩
    refine ⟨(maliggy_gp_read_core_status (maliggy_gp_read_rawstat cfg
      (maliggy_group_lock w)).2).2, by simp, ?_⟩
    simp [hb, e2, hc]
  · refine ⟨(maliggy_gp_read_rawstat cfg (maliggy_group_lock w)).2, by simp, ?_⟩
    simp [hb]

/-- The error branch of the second part of the GP bottom half. -/
theorem group_bottom_half_gp_rest_error (cfg : Config) (g : maliggy_group) (irq : Nat)
    (W : World)
    (herr : irq &&& u32_not (cfg.MALIGP2_REG_VAL_IRQ_VS_END_CMD_LST
      ||| cfg.MALIGP2_REG_VAL_IRQ_PLBU_END_CMD_LST ||| cfg.MALIGP2_REG_VAL_IRQ_HANG
      ||| cfg.MALIGP2_REG_VAL_IRQ_PLBU_OUT_OF_MEM) ≠ 0) :
    maliggy_group_bottom_half_gp_rest cfg g irq W =
      ((maliggy_group_complete_gp cfg { g with core_timed_out := false } false W).1,
        maliggy_group_unlock
          (maliggy_group_complete_gp cfg { g with core_timed_out := false } false W).2) := by
  unfold maliggy_group_bottom_half_gp_rest
  simp [herr]

/-- The out-of-memory branch of the second part of the GP bottom half. -/
theorem group_bottom_half_gp_rest_oom (cfg : Config) (g : maliggy_group) (irq : Nat)
    (W : World)
    (herr : irq &&& u32_not (cfg.MALIGP2_REG_VAL_IRQ_VS_END_CMD_LST
      ||| cfg.MALIGP2_REG_VAL_IRQ_PLBU_END_CMD_LST ||| cfg.MALIGP2_REG_VAL_IRQ_HANG
      ||| cfg.MALIGP2_REG_VAL_IRQ_PLBU_OUT_OF_MEM) = 0)
    (hto : g.core_timed_out = false)
    (hoom : irq &&& cfg.MALIGP2_REG_VAL_IRQ_PLBU_OUT_OF_MEM ≠ 0) :
    maliggy_group_bottom_half_gp_rest cfg g irq W =
      ({ g with state := MALI_GROUP_STATE_OOM },
        (maliggy_group_unlock W).emit
          (.gp_scheduler_oom { g with state := MALI_GROUP_STATE_OOM } g.gp_running_job)) := by
  unfold maliggy_group_bottom_half_gp_rest
  simp [herr, hto, hoom]

/-! ## Shape of the results -/

@[simp]
theorem shape_deactivate_page_directory (g : maliggy_group) (s : Option Nat) (w : World) :
    (maliggy_group_deactivate_page_directory g s w).1.shape
      = { g.shape with ref := g.shape.ref - 1 } := rfl

@[simp]
theorem shape_recovery_reset (cfg : Config) (g : maliggy_group) (w : World) :
    (maliggy_group_recovery_reset cfg g w).1.shape = g.shape := rfl

@[simp]
theorem shape_remove_session_if_unused (cfg : Config) (g : maliggy_group) (s : Nat)
    (w : World) : (maliggy_group_remove_session_if_unused cfg g s w).1.shape = g.shape := by
  unfold maliggy_group_remove_session_if_unused
  split_ifs <;> rfl

@[simp]
theorem shape_complete_gp (cfg : Config) (g : maliggy_group) (success : Bool) (w : World) :
    (maliggy_group_complete_gp cfg g success w).1.shape = Tr.done_gp.apply g.shape := by
  unfold maliggy_group_complete_gp
  simp only []
  split_ifs <;> rfl

@[simp]
theorem shape_complete_pp (cfg : Config) (g : maliggy_group) (success : Bool) (w : World) :
    (maliggy_group_complete_pp cfg g success w).1.shape = Tr.done_pp.apply g.shape := by
  unfold maliggy_group_complete_pp
  simp only []
  split_ifs <;> rfl

theorem shape_mmu_page_fault (cfg : Config) (g : maliggy_group) (w : World) :
    (maliggy_group_mmu_page_fault cfg g w).1.shape
      = g.fault_tr.apply g.shape := by
  unfold maliggy_group_mmu_page_fault
  cases h : g.pp_core <;>
    simp [maliggy_group.shape, maliggy_group.fault_tr, Tr.apply, h, maliggy_group_recovery_reset,
      maliggy_group_deactivate_page_directory]

theorem shape_activate_page_directory (cfg : Config) (g : maliggy_group) (s : Nat) (w : World) :
    (maliggy_group_activate_page_directory cfg g s w).2.1.shape
      = if (maliggy_group_activate_page_directory cfg g s w).1
            = MALI_GROUP_ACTIVATE_PD_STATUS_FAILED
        then g.shape else { g.shape with ref := g.shape.ref + 1 } := by
  unfold maliggy_group_activate_page_directory
  simp only []
  split_ifs <;> first | rfl | simp_all

theorem group_start_pp_job_eq (cfg : Config) (g : maliggy_group) (job : maliggy_pp_job)
    (sub_job : Nat) (w : World) :
    maliggy_group_start_pp_job cfg g job sub_job w =
      (let a := maliggy_group_activate_page_directory cfg g job.session
          (maliggy_l2_cache_invalidate_conditional cfg g.l2_cache_core.2 job.id
            (maliggy_l2_cache_invalidate_conditional cfg g.l2_cache_core.1 job.id w).2).2
       let r : maliggy_group × World :=
        if a.1 ≠ MALI_GROUP_ACTIVATE_PD_STATUS_FAILED then
          let w3 := if a.1 = MALI_GROUP_ACTIVATE_PD_STATUS_OK_KEPT_PD then
              maliggy_mmu_zap_tlb_without_stall a.2.2
            else a.2.2
          let w4 := if maliggy_group_is_virtual a.2.1 then
              a.2.1.group_list.foldl (fun w child => maliggy_pp_write_addr_stack child job w)
                (maliggy_dlbu_config_job job w3)
            else w3
          let w5 := maliggy_pp_job_start (a.2.1.pp_core.getD null_pp_core) job sub_job false w4
          ({ a.2.1 with pp_running_job := some job, pp_running_sub_job := sub_job,
                        state := MALI_GROUP_STATE_WORKING }, w5)
        else (a.2.1, a.2.2)
       (r.1, _maliggy_osk_timer_mod cfg.maliggy_max_job_runtime r.2)) := by
  unfold maliggy_group_start_pp_job
  cases h1 : g.l2_cache_core.1 <;> cases h2 : g.l2_cache_core.2 <;>
    simp [maliggy_l2_cache_invalidate_conditional]

theorem shape_start_gp_job (cfg : Config) (g : maliggy_group) (job : maliggy_gp_job)
    (w : World) :
    (maliggy_group_start_gp_job cfg g job w).1.shape
      = if (maliggy_group_activate_page_directory cfg g job.session
            (maliggy_l2_cache_invalidate_conditional cfg g.l2_cache_core.1 job.id w).2).1
            = MALI_GROUP_ACTIVATE_PD_STATUS_FAILED
        then g.shape else Tr.start_gp.apply g.shape := by
  rw [group_start_gp_job_eq]
  simp only []
  have hs := shape_activate_page_directory cfg g job.session
    (maliggy_l2_cache_invalidate_conditional cfg g.l2_cache_core.1 job.id w).2
  generalize maliggy_group_activate_page_directory cfg g job.session _ = a at hs ⊢
  by_cases hf : a.1 = MALI_GROUP_ACTIVATE_PD_STATUS_FAILED
  · simp only [hf, if_true] at hs ⊢
    simpa using hs
  · simp only [hf, if_false] at hs ⊢
    simp only [maliggy_group.shape, Shape.mk.injEq] at hs
    simp [maliggy_group.shape, Tr.apply, hs, hf]

theorem shape_start_pp_job (cfg : Config) (g : maliggy_group) (job : maliggy_pp_job)
    (sub_job : Nat) (w : World) :
    (maliggy_group_start_pp_job cfg g job sub_job w).1.shape
      = if (maliggy_group_activate_page_directory cfg g job.session
            (maliggy_l2_cache_invalidate_conditional cfg g.l2_cache_core.2 job.id
              (maliggy_l2_cache_invalidate_conditional cfg g.l2_cache_core.1 job.id w).2).2).1
            = MALI_GROUP_ACTIVATE_PD_STATUS_FAILED
        then g.shape else Tr.start_pp.apply g.shape := by
  rw [group_start_pp_job_eq]
  simp only []
  have hs := shape_activate_page_directory cfg g job.session
    (maliggy_l2_cache_invalidate_conditional cfg g.l2_cache_core.2 job.id
      (maliggy_l2_cache_invalidate_conditional cfg g.l2_cache_core.1 job.id w).2).2
  generalize maliggy_group_activate_page_directory cfg g job.session _ = a at hs ⊢
  by_cases hf : a.1 = MALI_GROUP_ACTIVATE_PD_STATUS_FAILED
  · simp only [hf, if_true] at hs ⊢
    simpa using hs
  · simp only [hf, if_false] at hs ⊢
    simp only [maliggy_group.shape, Shape.mk.injEq] at hs
    simp [maliggy_group.shape, Tr.apply, hs, hf]

@[simp]
theorem shape_core_timed_out (g : maliggy_group) (b : Bool) :
    ({ g with core_timed_out := b } : maliggy_group).shape = g.shape := rfl

theorem shape_bottom_half_gp (cfg : Config) (g : maliggy_group) (w : World) :
    (maliggy_group_bottom_half_gp cfg g w).1.shape = g.shape
    ∨ (maliggy_group_bottom_half_gp cfg g w).1.shape = Tr.done_gp.apply g.shape
    ∨ (maliggy_group_bottom_half_gp cfg g w).1.shape = Tr.oom.apply g.shape := by
  unfold maliggy_group_bottom_half_gp maliggy_group_bottom_half_gp_rest
  simp only []
  split_ifs <;> simp <;> (right; right; rfl)

theorem shape_bottom_half_pp (cfg : Config) (g : maliggy_group) (w : World) :
    (maliggy_group_bottom_half_pp cfg g w).1.shape = g.shape
    ∨ (maliggy_group_bottom_half_pp cfg g w).1.shape = Tr.done_pp.apply g.shape := by
  unfold maliggy_group_bottom_half_pp
  simp only []
  split_ifs <;> simp

theorem shape_bottom_half_mmu (cfg : Config) (g : maliggy_group) (w : World) :
    (maliggy_group_bottom_half_mmu cfg g w).1.shape = g.shape
    ∨ (maliggy_group_bottom_half_mmu cfg g w).1.shape
        = g.fault_tr.apply g.shape := by
  unfold maliggy_group_bottom_half_mmu
  simp only []
  split_ifs <;> simp [shape_mmu_page_fault]

theorem shape_timeout (g : maliggy_group) (w : World) :
    (maliggy_group_timeout g w).1.shape = g.shape := by
  unfold maliggy_group_timeout
  cases h : g.gp_core <;> simp [maliggy_group.shape, h]

theorem shape_zap_session (cfg : Config) (g : maliggy_group) (s : Nat) (w : World) :
    (maliggy_group_zap_session cfg g s w).1.shape = g.shape
    ∨ (g.page_dir_ref_count ≠ 0
        ∧ (maliggy_group_zap_session cfg g s w).1.shape
          = g.fault_tr.apply g.shape) := by
  unfold maliggy_group_zap_session
  by_cases hs : g.session = some s
  · by_cases hr : g.page_dir_ref_count = 0
    · left
      simp [hs, hr, maliggy_group_remove_session_if_unused, maliggy_group.shape]
    · have hrm : maliggy_group_remove_session_if_unused cfg g s (maliggy_group_lock w)
          = (g, maliggy_group_lock w) := by
        simp [maliggy_group_remove_session_if_unused, hr]
      simp only [hrm, hs]
      simp only [ne_eq, not_true_eq_false, if_false, if_true]
      split_ifs
      · left; rfl
      · right
        exact ⟨hr, by simp [shape_mmu_page_fault]⟩
  · left
    simp [hs]

theorem shape_resume_gp_with_new_heap (cfg : Config) (g : maliggy_group)
    (job_id start_addr end_addr : Nat) (w : World) (r : Option maliggy_gp_job × maliggy_group × World)
    (h : maliggy_group_resume_gp_with_new_heap cfg g job_id start_addr end_addr w = some r) :
    r.2.1.shape = g.shape
    ∨ (g.state = MALI_GROUP_STATE_OOM ∧ g.gp_running_job.isSome = true
        ∧ r.2.1.shape = Tr.resume.apply g.shape) := by
  unfold maliggy_group_resume_gp_with_new_heap at h
  by_cases hs : g.state = MALI_GROUP_STATE_OOM
  · cases hj : g.gp_running_job with
    | none => simp [hs, hj] at h
    | some job =>
      simp only [hs, hj, ne_eq, not_true_eq_false, if_false] at h
      split_ifs at h
      · right
        simp at h
        rw [← h]
        exact ⟨hs, by simp, by simp [maliggy_group.shape, Tr.apply, hj]⟩
      · left
        simp at h
        rw [← h]
  · left
    simp [hs] at h
    rw [← h]

theorem shape_abort_gp_job (cfg : Config) (g : maliggy_group) (job_id : Nat) (w : World)
    (r : maliggy_group × World) (h : maliggy_group_abort_gp_job cfg g job_id w = some r) :
    r.1.shape = g.shape
    ∨ (g.gp_running_job.isSome = true ∧ r.1.shape = Tr.done_gp.apply g.shape) := by
  unfold maliggy_group_abort_gp_job at h
  split_ifs at h with h1
  · left
    simp at h
    rw [← h]
  · cases hj : g.gp_running_job with
    | none => simp [hj] at h
    | some job =>
      simp only [hj] at h
      split_ifs at h
      · left
        simp at h
        rw [← h]
      · right
        simp at h
        rw [← h]
        exact ⟨rfl, by simp⟩

theorem shape_abort_pp_job (cfg : Config) (g : maliggy_group) (job_id : Nat) (w : World)
    (r : maliggy_group × World) (h : maliggy_group_abort_pp_job cfg g job_id w = some r) :
    r.1.shape = g.shape
    ∨ (g.pp_running_job.isSome = true ∧ r.1.shape = Tr.done_pp.apply g.shape) := by
  unfold maliggy_group_abort_pp_job at h
  split_ifs at h with h1
  · left
    simp at h
    rw [← h]
  · cases hj : g.pp_running_job with
    | none => simp [hj] at h
    | some job =>
      simp only [hj] at h
      split_ifs at h
      · left
        simp at h
        rw [← h]
      · right
        simp at h
        rw [← h]
        exact ⟨rfl, by simp⟩

theorem shape_abort_session (cfg : Config) (g : maliggy_group) (s : Nat) (w : World)
    (r : maliggy_group × World) (h : maliggy_group_abort_session cfg g s w = some r) :
    r.1.shape = g.shape
    ∨ (g.gp_running_job.isSome = true ∧ r.1.shape = Tr.done_gp.apply g.shape)
    ∨ (g.pp_running_job.isSome = true ∧ r.1.shape = Tr.done_pp.apply g.shape)
    ∨ (g.gp_running_job.isSome = true ∧ g.pp_running_job.isSome = true) := by
  unfold maliggy_group_abort_session at h
  simp only [] at h
  split_ifs at h with hv
  · left
    simp at h
    rw [← h]
  · simp only [Option.bind_eq_some, Option.map_eq_some'] at h
    obtain ⟨s1, h1, s2, h2, h3⟩ := h
    have e3 : r.1.shape = s2.1.shape := by rw [← h3]; simp
    have k1 : s1.1.shape = g.shape
        ∨ (g.gp_running_job.isSome = true ∧ s1.1.shape = Tr.done_gp.apply g.shape) := by
      generalize (match g.gp_running_job with
        | some j => if j.session = s then some j.id else none
        | none => none) = A at h1
      cases A with
      | none =>
        simp at h1
        left
        rw [← h1]
      | some id => exact shape_abort_gp_job cfg g id _ s1 h1
    have k2 : s2.1.shape = s1.1.shape
        ∨ (g.pp_running_job.isSome = true ∧ s2.1.shape = Tr.done_pp.apply s1.1.shape) := by
      cases hp : g.pp_running_job with
      | none =>
        simp [hp] at h2
        left
        rw [← h2]
      | some j =>
        simp only [hp] at h2
        split_ifs at h2
        · rcases shape_abort_pp_job _ _ _ _ _ h2 with e | ⟨_, e⟩
          · left; exact e
          · right; exact ⟨rfl, e⟩
        · simp at h2
          left
          rw [← h2]
    rcases k1 with a | ⟨a1, a⟩ <;> rcases k2 with b | ⟨b1, b⟩
    · left; rw [e3, b, a]
    · right; right; left
      exact ⟨b1, by rw [e3, b, a]⟩
    · right; left
      exact ⟨a1, by rw [e3, b, a]⟩
    · right; right; right
      exact ⟨a1, b1⟩

theorem job_running_iff (g : maliggy_group) : job_running g ↔ g.shape.job_running := by
  unfold job_running Shape.job_running maliggy_group.shape
  cases g.pp_core <;> simp

theorem fault_tr_spec (g : maliggy_group) :
    g.fault_tr.pre_kind g.shape
    ∧ (g.shape.job_running ∨ g.page_dir_ref_count ≠ 0 → g.fault_tr.pre_run g.shape) := by
  unfold maliggy_group.fault_tr
  cases h : g.pp_core <;>
    simp [Tr.pre_kind, Tr.pre_run, maliggy_group.shape, h, Shape.job_running]

/-- Every operation changes the shape of the group by one of the transitions. -/
theorem step_shape (cfg : Config) (op : Op) (g : maliggy_group) (w : World)
    (g1 : maliggy_group) (w1 : World) (hinv : g.shape.slots_ok) (hk : op.guard_kind g)
    (h : op.apply cfg g w = some (g1, w1)) :
    ∃ t : Tr, g1.shape = t.apply g.shape ∧ t.pre_kind g.shape
      ∧ (op.guard_running g → t.pre_run g.shape) := by
  cases op with
  | start_gp_job job =>
    simp only [Op.apply, Option.some.injEq] at h
    have e : g1 = (maliggy_group_start_gp_job cfg g job w).1 := by rw [h]
    rw [e, shape_start_gp_job]
    split_ifs
    · exact ⟨.same, rfl, trivial, fun _ => trivial⟩
    · exact ⟨.start_gp, rfl, hk, fun _ => trivial⟩
  | start_pp_job job sub_job =>
    simp only [Op.apply, Option.some.injEq] at h
    have e : g1 = (maliggy_group_start_pp_job cfg g job sub_job w).1 := by rw [h]
    rw [e, shape_start_pp_job]
    split_ifs
    · exact ⟨.same, rfl, trivial, fun _ => trivial⟩
    · exact ⟨.start_pp, rfl, hk, fun _ => trivial⟩
  | bottom_half_gp =>
    simp only [Op.apply, Option.some.injEq] at h
    have e : g1 = (maliggy_group_bottom_half_gp cfg g w).1 := by rw [h]
    rcases shape_bottom_half_gp cfg g w with a | a | a
    · exact ⟨.same, by rw [e, a]; rfl, trivial, fun _ => trivial⟩
    · exact ⟨.done_gp, by rw [e, a], Or.inl hk,
        fun hr => Or.inl ((job_running_iff g).1 hr.2)⟩
    · exact ⟨.oom, by rw [e, a], hk, fun hr => (job_running_iff g).1 hr.2⟩
  | bottom_half_pp =>
    simp only [Op.apply, Option.some.injEq] at h
    have e : g1 = (maliggy_group_bottom_half_pp cfg g w).1 := by rw [h]
    rcases shape_bottom_half_pp cfg g w with a | a
    · exact ⟨.same, by rw [e, a]; rfl, trivial, fun _ => trivial⟩
    · exact ⟨.done_pp, by rw [e, a], Or.inl hk,
        fun hr => Or.inl ((job_running_iff g).1 hr.2)⟩
  | bottom_half_mmu =>
    simp only [Op.apply, Option.some.injEq] at h
    have e : g1 = (maliggy_group_bottom_half_mmu cfg g w).1 := by rw [h]
    rcases shape_bottom_half_mmu cfg g w with a | a
    · exact ⟨.same, by rw [e, a]; rfl, trivial, fun _ => trivial⟩
    · exact ⟨g.fault_tr, by rw [e, a], (fault_tr_spec g).1,
        fun hr => (fault_tr_spec g).2 (Or.inl ((job_running_iff g).1 hr.2))⟩
  | timeout =>
    simp only [Op.apply, Option.some.injEq] at h
    have e : g1 = (maliggy_group_timeout g w).1 := by rw [h]
    exact ⟨.same, by rw [e, shape_timeout]; rfl, trivial, fun _ => trivial⟩
  | resume_gp_with_new_heap job_id start_addr end_addr =>
    simp only [Op.apply, Option.map_eq_some'] at h
    obtain ⟨r, hr, e⟩ := h
    have e1 : g1 = r.2.1 := by rw [e]
    rcases shape_resume_gp_with_new_heap cfg g job_id start_addr end_addr w r hr with a | ⟨a1, a2, a⟩
    · exact ⟨.same, by rw [e1, a]; rfl, trivial, fun _ => trivial⟩
    · exact ⟨.resume, by rw [e1, a], ⟨a1, a2⟩, fun _ => trivial⟩
  | abort_gp_job job_id =>
    simp only [Op.apply] at h
    rcases shape_abort_gp_job cfg g job_id w _ h with a | ⟨a1, a⟩
    · exact ⟨.same, a, trivial, fun _ => trivial⟩
    · exact ⟨.done_gp, a, Or.inr (Or.inl a1), fun _ => Or.inr (Or.inl a1)⟩
  | abort_pp_job job_id =>
    simp only [Op.apply] at h
    rcases shape_abort_pp_job cfg g job_id w _ h with a | ⟨a1, a⟩
    · exact ⟨.same, a, trivial, fun _ => trivial⟩
    · exact ⟨.done_pp, a, Or.inr a1, fun _ => Or.inr (Or.inl a1)⟩
  | abort_session session =>
    simp only [Op.apply] at h
    rcases shape_abort_session cfg g session w _ h with a | ⟨a1, a⟩ | ⟨a1, a⟩ | ⟨a1, a2⟩
    · exact ⟨.same, a, trivial, fun _ => trivial⟩
    · exact ⟨.done_gp, a, Or.inr (Or.inl a1), fun _ => Or.inr (Or.inl a1)⟩
    · exact ⟨.done_pp, a, Or.inr a1, fun _ => Or.inr (Or.inl a1)⟩
    · exfalso
      have b1 : g.shape.gp_job = true := a1
      have b2 : g.shape.pp_job = true := a2
      rcases hinv with ⟨_, _, c, _⟩ | ⟨_, _, c, _⟩
      · rw [c] at b2; exact absurd b2 (by decide)
      · rw [c] at b1; exact absurd b1 (by decide)
  | zap_session session =>
    simp only [Op.apply, Option.some.injEq] at h
    have e : g1 = (maliggy_group_zap_session cfg g session w).1 := by rw [h]
    rcases shape_zap_session cfg g session w with a | ⟨a1, a⟩
    · exact ⟨.same, by rw [e, a]; rfl, trivial, fun _ => trivial⟩
    · exact ⟨g.fault_tr, by rw [e, a], (fault_tr_spec g).1,
        fun _ => (fault_tr_spec g).2 (Or.inr a1)⟩
  | complete_gp success =>
    simp only [Op.apply, Option.some.injEq] at h
    have e : g1 = (maliggy_group_complete_gp cfg g success w).1 := by rw [h]
    exact ⟨.done_gp, by rw [e, shape_complete_gp], Or.inl hk,
      fun hr => Or.inl ((job_running_iff g).1 hr.2)⟩
  | complete_pp success =>
    simp only [Op.apply, Option.some.injEq] at h
    have e : g1 = (maliggy_group_complete_pp cfg g success w).1 := by rw [h]
    exact ⟨.done_pp, by rw [e, shape_complete_pp], Or.inl hk,
      fun hr => Or.inl ((job_running_iff g).1 hr.2)⟩
  | mmu_page_fault =>
    simp only [Op.apply, Option.some.injEq] at h
    have e : g1 = (maliggy_group_mmu_page_fault cfg g w).1 := by rw [h]
    exact ⟨g.fault_tr, by rw [e, shape_mmu_page_fault], (fault_tr_spec g).1,
      fun hr => (fault_tr_spec g).2 (Or.inl ((job_running_iff g).1 hr.2))⟩

theorem slots_step (s : Shape) (t : Tr) (h : s.slots_ok) (hp : t.pre_kind s) :
    (t.apply s).slots_ok := by
  obtain ⟨st, gc, pc, gj, pj, r⟩ := s
  cases t <;> cases gc <;> cases pc <;> cases gj <;> cases pj <;>
    simp_all [Shape.slots_ok, Tr.apply, Tr.pre_kind] <;> tauto

theorem ref_step (s : Shape) (t : Tr) (h : s.slots_ok) (hr : s.ref_ok) (hp : t.pre_kind s)
    (hq : t.pre_run s) : (t.apply s).ref_ok := by
  obtain ⟨st, gc, pc, gj, pj, r⟩ := s
  cases t <;> cases gc <;> cases pc <;> cases gj <;> cases pj <;>
    simp_all [Shape.slots_ok, Shape.ref_ok, Shape.job_running, Tr.apply, Tr.pre_kind, Tr.pre_run]

theorem fresh_shape (g : maliggy_group) (h : Fresh g) : g.shape.slots_ok ∧ g.shape.ref_ok := by
  rcases h with ⟨l2, core, e⟩ | ⟨l2, dlbu, bcast, core, children, e⟩
  · rw [e]
    simp [Shape.slots_ok, Shape.ref_ok, maliggy_group.shape, maliggy_group_add_gp_core,
      maliggy_group_create]
  · rw [e]
    simp [Shape.slots_ok, Shape.ref_ok, maliggy_group.shape, maliggy_group_add_pp_core,
      maliggy_group_create]

theorem reachable_slots_ok (cfg : Config) (g0 : maliggy_group) (w0 : World) (g : maliggy_group)
    (w : World) (hf : Fresh g0) (hr : Reachable cfg Op.guard_kind g0 w0 g w) :
    g.shape.slots_ok := by
  induction hr with
  | init => exact (fresh_shape g0 hf).1
  | step op _ hg ha ih =>
    obtain ⟨t, e, p, _⟩ := step_shape cfg op _ _ _ _ ih hg ha
    rw [e]
    exact slots_step _ t ih p

theorem reachable_mono (cfg : Config) (g0 : maliggy_group) (w0 : World) (g : maliggy_group)
    (w : World) (hr : Reachable cfg Op.guard_running g0 w0 g w) :
    Reachable cfg Op.guard_kind g0 w0 g w := by
  induction hr with
  | init => exact Reachable.init
  | step op _ hg ha ih => exact Reachable.step op ih hg.1 ha

theorem reachable_ref_ok (cfg : Config) (g0 : maliggy_group) (w0 : World) (g : maliggy_group)
    (w : World) (hf : Fresh g0) (hr : Reachable cfg Op.guard_running g0 w0 g w) :
    g.shape.slots_ok ∧ g.shape.ref_ok := by
  induction hr with
  | init => exact fresh_shape g0 hf
  | step op _ hg ha ih =>
    obtain ⟨t, e, p, q⟩ := step_shape cfg op _ _ _ _ ih.1 hg.1 ha
    rw [e]
    exact ⟨slots_step _ t ih.1 p, ref_step _ t ih.1 ih.2 p (q hg)⟩

theorem slots_ok_spec (g : maliggy_group) (h : g.shape.slots_ok) :
    ¬ (g.gp_running_job ≠ none ∧ g.pp_running_job ≠ none)
    ∧ (g.state = MALI_GROUP_STATE_WORKING → one_job_running g)
    ∧ (one_job_running g →
        g.state = MALI_GROUP_STATE_WORKING ∨ g.state = MALI_GROUP_STATE_OOM) := by
  unfold Shape.slots_ok maliggy_group.shape at h
  unfold one_job_running
  cases hg : g.gp_running_job <;> cases hp : g.pp_running_job <;> (simp_all; try tauto)

theorem oom_run_reachable :
    Reachable cfg_mali400 Op.guard_running gp_group0 (world_of reads_oom_run)
      oom_run_suspended.1 oom_run_suspended.2 := by
  have h1 : Reachable cfg_mali400 Op.guard_running gp_group0 (world_of reads_oom_run)
      oom_run_started.1 oom_run_started.2 :=
    Reachable.step (.start_gp_job gp_job1) Reachable.init ⟨⟨rfl, rfl⟩, trivial⟩ rfl
  have g1 : oom_run_started.1.gp_core.isSome = true := by decide
  have g2 : oom_run_started.1.pp_core = none := by decide
  have g3 : oom_run_started.1.gp_running_job.isSome = true := by decide
  exact Reachable.step .bottom_half_gp h1 ⟨g1, Or.inr ⟨g2, g3⟩⟩ rfl

/-! ## Page-directory accounting -/

@[simp]
theorem pd_events_nil : pd_events [] = [] := rfl

@[simp]
theorem pd_events_append (a b : List Ev) : pd_events (a ++ b) = pd_events a ++ pd_events b := by
  simp [pd_events]

theorem pd_events_cons (e : Ev) (l : List Ev) :
    pd_events (e :: l) = if e.is_pd then e :: pd_events l else pd_events l := by
  simp [pd_events, List.filter_cons]

theorem pd_events_quiet (t : List Ev) (h : ∀ e ∈ t, e.is_pd = false) : pd_events t = [] := by
  simp only [pd_events, List.filter_eq_nil_iff]
  intro e he
  simp [h e he]

theorem reset_detail_not_pd (e : Ev) (h : e.is_reset_detail = true) : e.is_pd = false := by
  cases e with
  | call f a => cases f <;> first | rfl | simp [Ev.is_reset_detail] at h
  | ret f a => simp [Ev.is_reset_detail] at h
  | _ => rfl

theorem pd_events_reset_detail (t : List Ev) (h : ∀ e ∈ t, e.is_reset_detail = true) :
    pd_events t = [] :=
  pd_events_quiet t fun e he => reset_detail_not_pd e (h e he)

theorem count_activations_append (a b : List Ev) :
    count_activations (a ++ b) = count_activations a + count_activations b := by
  simp [count_activations]

theorem count_deactivations_append (a b : List Ev) :
    count_deactivations (a ++ b) = count_deactivations a + count_deactivations b := by
  simp [count_deactivations]

theorem count_activations_pd (l : List Ev) :
    count_activations (pd_events (obs l)) = count_activations l := by
  induction l with
  | nil => rfl
  | cons e l ih =>
    have hc : ∀ (x : Ev) (m : List Ev),
        count_activations (x :: m) = count_activations m
          + (if (x == .ret .maliggy_group_activate_page_directory 1
              || x == .ret .maliggy_group_activate_page_directory 2) then 1 else 0) := by
      intro x m
      simp [count_activations, List.countP_cons]
    rw [hc e l, ← ih]
    by_cases h1 : (e == .ret .maliggy_group_activate_page_directory 1
        || e == .ret .maliggy_group_activate_page_directory 2) = true
    · have h2 : e.low = false := by
        simp only [Bool.or_eq_true, beq_iff_eq] at h1
        rcases h1 with h | h <;> rw [h] <;> rfl
      have h3 : e.is_pd = true := by
        simp only [Bool.or_eq_true, beq_iff_eq] at h1
        rcases h1 with h | h <;> rw [h] <;> rfl
      rw [obs_cons, h2]
      simp only [Bool.false_eq_true, if_false]
      rw [pd_events_cons, h3]
      simp only [if_true]
      rw [hc]
    · simp only [h1, if_false, Nat.add_zero, Bool.false_eq_true]
      rw [obs_cons]
      split_ifs
      · rfl
      · rw [pd_events_cons]
        split_ifs
        · rw [hc]
          simp [h1]
        · rfl

theorem count_deactivations_cons (x : Ev) (m : List Ev) :
    count_deactivations (x :: m) = count_deactivations m
      + (match x with
        | .call .maliggy_group_deactivate_page_directory _ => 1
        | _ => 0) := by
  cases x with
  | call f a => cases f <;> simp [count_deactivations, List.countP_cons]
  | _ => simp [count_deactivations, List.countP_cons]

theorem deactivation_is_pd (e : Ev) :
    (match e with
      | .call .maliggy_group_deactivate_page_directory _ => 1
      | _ => 0) = 0 ∨ (e.low = false ∧ e.is_pd = true) := by
  cases e with
  | call f a => cases f <;> first | (left; rfl) | (right; exact ⟨rfl, rfl⟩)
  | _ => left; rfl

theorem count_deactivations_pd (l : List Ev) :
    count_deactivations (pd_events (obs l)) = count_deactivations l := by
  induction l with
  | nil => rfl
  | cons e l ih =>
    rw [count_deactivations_cons e l, ← ih]
    rcases deactivation_is_pd e with h | ⟨h2, h3⟩
    · rw [h, obs_cons]
      split_ifs
      · rfl
      · rw [pd_events_cons]
        split_ifs
        · rw [count_deactivations_cons, h]
        · rfl
    · rw [obs_cons, h2]
      simp only [Bool.false_eq_true, if_false]
      rw [pd_events_cons, h3]
      simp only [if_true]
      rw [count_deactivations_cons]

theorem deact_ok_of_not_pd (e : Ev) (h : e.low = true ∨ e.is_pd = false) :
    e.deact_ok = true := by
  cases e with
  | call f a =>
    cases f <;> first | rfl | (rcases h with h | h <;> simp [Ev.low, Ev.is_pd] at h)
  | _ => rfl

theorem deact_ok_pd (l : List Ev) (h : ∀ e ∈ pd_events (obs l), e.deact_ok = true) :
    ∀ e ∈ l, e.deact_ok = true := by
  intro e he
  by_cases h1 : e.low = true
  · exact deact_ok_of_not_pd e (Or.inl h1)
  · by_cases h2 : e.is_pd = true
    · apply h
      simp only [pd_events, obs, List.mem_filter]
      exact ⟨⟨he, by simpa using h1⟩, h2⟩
    · exact deact_ok_of_not_pd e (Or.inr (by simpa using h2))

theorem PdRel.rel_refl (r : Int) (l : List Ev) : PdRel r l r l :=
  ⟨[], by simp, by simp [count_activations, count_deactivations], by simp⟩

theorem PdRel.rel_trans {r : Int} {l : List Ev} {r1 : Int} {l1 : List Ev} {r2 : Int}
    {l2 : List Ev} (h1 : PdRel r l r1 l1) (h2 : PdRel r1 l1 r2 l2) : PdRel r l r2 l2 := by
  obtain ⟨t1, e1, b1, o1⟩ := h1
  obtain ⟨t2, e2, b2, o2⟩ := h2
  refine ⟨t1 ++ t2, by rw [e2, e1, List.append_assoc], ?_, ?_⟩
  · rw [count_activations_append, count_deactivations_append]
    push_cast
    omega
  · intro e he
    rcases List.mem_append.1 he with h | h
    · exact o1 e h
    · exact o2 e h

theorem PdStep.step_refl (g : maliggy_group) (w : World) : PdStep g w g w := PdRel.rel_refl _ _

theorem PdStep.step_trans {g : maliggy_group} {w : World} {g1 : maliggy_group} {w1 : World}
    {g2 : maliggy_group} {w2 : World} (h1 : PdStep g w g1 w1) (h2 : PdStep g1 w1 g2 w2) :
    PdStep g w g2 w2 := PdRel.rel_trans h1 h2

/-- A step that adds no accounting event and keeps the reference count. -/
theorem PdStep.quiet (g : maliggy_group) (w : World) (g1 : maliggy_group) (w1 : World)
    (hl : pd_events (obs w1.log) = pd_events (obs w.log))
    (hr : g1.page_dir_ref_count = g.page_dir_ref_count) : PdStep g w g1 w1 := by
  unfold PdStep
  rw [hl, hr]
  exact PdRel.rel_refl _ _

/-- The accounting invariant carried along a step: successful activations are the deactivations
plus the reference count, and every deactivation passed the session of the group. -/
theorem PdStep.inv {g : maliggy_group} {w : World} {g1 : maliggy_group} {w1 : World}
    (h : PdStep g w g1 w1)
    (hc : (count_activations w.log : Int) = count_deactivations w.log + g.page_dir_ref_count)
    (ho : ∀ e ∈ w.log, e.deact_ok = true) :
    (count_activations w1.log : Int) = count_deactivations w1.log + g1.page_dir_ref_count
    ∧ ∀ e ∈ w1.log, e.deact_ok = true := by
  obtain ⟨t, e1, b1, o1⟩ := h
  constructor
  · rw [← count_activations_pd w1.log, ← count_deactivations_pd w1.log, e1,
      count_activations_append, count_deactivations_append, count_activations_pd,
      count_deactivations_pd]
    push_cast
    omega
  · apply deact_ok_pd
    rw [e1]
    intro e he
    rcases List.mem_append.1 he with h | h
    · apply ho
      simp only [pd_events, obs, List.mem_filter] at h
      exact h.1.1
    · exact o1 e h

theorem PdRel.of_append (r : Int) (l : List Ev) (r1 : Int) (t : List Ev)
    (hb : (count_activations t : Int) + r = count_deactivations t + r1)
    (ho : ∀ e ∈ t, e.deact_ok = true) : PdRel r l r1 (l ++ t) := ⟨t, rfl, hb, ho⟩

theorem pd_activate_page_directory (cfg : Config) (g : maliggy_group) (s : Nat) (w : World) :
    PdStep g w (maliggy_group_activate_page_directory cfg g s w).2.1
      (maliggy_group_activate_page_directory cfg g s w).2.2 := by
  unfold PdStep
  rw [obs_group_activate_page_directory]
  have hs := congrArg Shape.ref (shape_activate_page_directory cfg g s w)
  simp only [maliggy_group.shape] at hs
  have e : pd_events (obs w.log ++ .call .maliggy_group_activate_page_directory [s] ::
        ((if g.page_dir_ref_count = 0 ∧ g.session ≠ some s then
            [.call .maliggy_mmu_activate_page_directory [cfg.session_page_directory s]]
          else []) ++
        [.ret .maliggy_group_activate_page_directory
          (maliggy_group_activate_page_directory cfg g s w).1.toNat]))
      = pd_events (obs w.log) ++ [.ret .maliggy_group_activate_page_directory
          (maliggy_group_activate_page_directory cfg g s w).1.toNat] := by
    split_ifs <;> simp [pd_events_cons, Ev.is_pd]
  rw [e]
  apply PdRel.of_append
  · generalize maliggy_group_activate_page_directory cfg g s w = a at hs
    rw [hs]
    cases h : a.1 <;>
      (simp [maliggy_group_activate_pd_status.toNat, count_activations, count_deactivations]
       try omega)
  · simp [Ev.deact_ok]

theorem pd_complete_gp (cfg : Config) (g : maliggy_group) (success : Bool) (w : World) :
    PdStep g w (maliggy_group_complete_gp cfg g success w).1
      (maliggy_group_complete_gp cfg g success w).2 := by
  obtain ⟨ok, t, hg, hl, k1, k2⟩ := group_complete_gp_spec cfg g success w
  have ht : pd_events t = [] := by
    cases ok with
    | true => rw [k1 rfl]; rfl
    | false =>
      obtain ⟨t', e, hp⟩ := k2 rfl
      rw [e, pd_events_cons, pd_events_reset_detail t' hp]
      rfl
  have hr : (maliggy_group_complete_gp cfg g success w).1.page_dir_ref_count
      = g.page_dir_ref_count - 1 := by rw [hg]
  unfold PdStep
  rw [hl, hr]
  simp only [pd_events_append, ht, List.append_nil]
  simp only [pd_events_cons, Ev.is_pd, pd_events_nil, List.append_assoc]
  apply PdRel.of_append
  · simp [count_activations, count_deactivations]
  · simp [Ev.deact_ok]

theorem pd_complete_pp (cfg : Config) (g : maliggy_group) (success : Bool) (w : World) :
    PdStep g w (maliggy_group_complete_pp cfg g success w).1
      (maliggy_group_complete_pp cfg g success w).2 := by
  obtain ⟨v, t, hg, hl, k1, k2⟩ := group_complete_pp_spec cfg g success w
  have ht : pd_events t = [] := by
    by_cases hc : success = true ∧ v = 0
    · rw [k1 hc]; rfl
    · obtain ⟨t', e, hp⟩ := k2 hc
      rw [e, pd_events_cons, pd_events_reset_detail t' hp]
      rfl
  have hr : (maliggy_group_complete_pp cfg g success w).1.page_dir_ref_count
      = g.page_dir_ref_count - 1 := by rw [hg]
  unfold PdStep
  rw [hl, hr]
  have e : pd_events (obs w.log ++
        [.call .maliggy_group_complete_pp [b2n success], .call ._maliggy_osk_timer_del_async []]
        ++ (if success then
              [.call .maliggy_pp_reset_async [(g.pp_core.getD null_pp_core).core_id]] else [])
        ++ [.call .maliggy_group_deactivate_page_directory [s2n g.session, s2n g.session]]
        ++ (if success then
              [.call .maliggy_pp_reset_wait [(g.pp_core.getD null_pp_core).core_id],
               .ret .maliggy_pp_reset_wait v] else [])
        ++ t ++
        [.pp_scheduler_job_done (maliggy_group_complete_pp cfg g success w).1 g.pp_running_job
          g.pp_running_sub_job success])
      = pd_events (obs w.log) ++
        [.call .maliggy_group_deactivate_page_directory [s2n g.session, s2n g.session]] := by
    cases success <;> simp [pd_events_cons, Ev.is_pd, ht]
  rw [e]
  apply PdRel.of_append
  · simp [count_activations, count_deactivations]
  · simp [Ev.deact_ok]

theorem pd_mmu_page_fault (cfg : Config) (g : maliggy_group) (w : World) :
    PdStep g w (maliggy_group_mmu_page_fault cfg g w).1
      (maliggy_group_mmu_page_fault cfg g w).2 := by
  unfold PdStep
  cases hpp : g.pp_core with
  | some pp =>
    obtain ⟨t, hp, hg, hl⟩ := group_mmu_page_fault_pp cfg g w (by simp [hpp])
    have hr : (maliggy_group_mmu_page_fault cfg g w).1.page_dir_ref_count
        = g.page_dir_ref_count - 1 := by rw [hg]
    rw [hl, hr]
    simp only [pd_events_append, pd_events_reset_detail t hp, List.append_nil]
    simp only [pd_events_cons, Ev.is_pd, pd_events_nil, List.append_assoc]
    apply PdRel.of_append
    · simp [count_activations, count_deactivations]
    · simp [Ev.deact_ok]
  | none =>
    obtain ⟨t, hp, hg, hl⟩ := group_mmu_page_fault_gp cfg g w hpp
    have hr : (maliggy_group_mmu_page_fault cfg g w).1.page_dir_ref_count
        = g.page_dir_ref_count - 1 := by rw [hg]
    rw [hl, hr]
    simp only [pd_events_append, pd_events_reset_detail t hp, List.append_nil]
    simp only [pd_events_cons, Ev.is_pd, pd_events_nil, List.append_assoc]
    apply PdRel.of_append
    · simp [count_activations, count_deactivations]
    · simp [Ev.deact_ok]

@[simp]
theorem obs_mmu_get_rawstat (w : World) : obs (maliggy_mmu_get_rawstat w).2.log = obs w.log :=
  rfl

@[simp]
theorem obs_mmu_get_page_fault_addr (w : World) :
    obs (maliggy_mmu_get_page_fault_addr w).2.log = obs w.log := rfl

theorem PdStep.tail {g : maliggy_group} {w : World} {g1 : maliggy_group} {w1 : World}
    (g2 : maliggy_group) (w2 : World) (h : PdStep g w g1 w1)
    (hl : pd_events (obs w2.log) = pd_events (obs w1.log))
    (hr : g2.page_dir_ref_count = g1.page_dir_ref_count) : PdStep g w g2 w2 :=
  h.step_trans (PdStep.quiet g1 w1 g2 w2 hl hr)

theorem PdStep.head {g1 : maliggy_group} {w1 : World} (g : maliggy_group) (w : World)
    (g0 : maliggy_group) (w0 : World) (h : PdStep g0 w0 g1 w1)
    (hl : pd_events (obs w0.log) = pd_events (obs w.log))
    (hr : g0.page_dir_ref_count = g.page_dir_ref_count) : PdStep g w g1 w1 :=
  (PdStep.quiet g w g0 w0 hl hr).step_trans h

theorem pd_wrap_complete_gp (cfg : Config) (g g0 : maliggy_group) (success : Bool)
    (w w0 : World) (hl : pd_events (obs w0.log) = pd_events (obs w.log))
    (hr : g0.page_dir_ref_count = g.page_dir_ref_count) :
    PdStep g w (maliggy_group_complete_gp cfg g0 success w0).1
      (maliggy_group_unlock (maliggy_group_complete_gp cfg g0 success w0).2) :=
  PdStep.tail _ _ (PdStep.head g w g0 w0 (pd_complete_gp cfg g0 success w0) hl hr)
    (by simp [pd_events_cons, Ev.is_pd]) rfl

theorem pd_wrap_complete_pp (cfg : Config) (g g0 : maliggy_group) (success : Bool)
    (w w0 : World) (hl : pd_events (obs w0.log) = pd_events (obs w.log))
    (hr : g0.page_dir_ref_count = g.page_dir_ref_count) :
    PdStep g w (maliggy_group_complete_pp cfg g0 success w0).1
      (maliggy_group_unlock (maliggy_group_complete_pp cfg g0 success w0).2) :=
  PdStep.tail _ _ (PdStep.head g w g0 w0 (pd_complete_pp cfg g0 success w0) hl hr)
    (by simp [pd_events_cons, Ev.is_pd]) rfl

theorem pd_wrap_mmu_page_fault (cfg : Config) (g g0 : maliggy_group)
    (w w0 : World) (hl : pd_events (obs w0.log) = pd_events (obs w.log))
    (hr : g0.page_dir_ref_count = g.page_dir_ref_count) :
    PdStep g w (maliggy_group_mmu_page_fault cfg g0 w0).1
      (maliggy_group_unlock (maliggy_group_mmu_page_fault cfg g0 w0).2) :=
  PdStep.tail _ _ (PdStep.head g w g0 w0 (pd_mmu_page_fault cfg g0 w0) hl hr)
    (by simp [pd_events_cons, Ev.is_pd]) rfl

theorem pd_bottom_half_gp (cfg : Config) (g : maliggy_group) (w : World) :
    PdStep g w (maliggy_group_bottom_half_gp cfg g w).1
      (maliggy_group_bottom_half_gp cfg g w).2 := by
  unfold maliggy_group_bottom_half_gp maliggy_group_bottom_half_gp_rest
  simp only []
  split_ifs
  all_goals first
    | (apply PdStep.quiet
       · simp [pd_events_cons, Ev.is_pd, Ev.low]
       · rfl)
    | (apply pd_wrap_complete_gp
       · simp [pd_events_cons, Ev.is_pd, Ev.low]
       · rfl)

theorem pd_bottom_half_pp (cfg : Config) (g : maliggy_group) (w : World) :
    PdStep g w (maliggy_group_bottom_half_pp cfg g w).1
      (maliggy_group_bottom_half_pp cfg g w).2 := by
  unfold maliggy_group_bottom_half_pp
  simp only []
  split_ifs
  all_goals first
    | (apply PdStep.quiet
       · simp [pd_events_cons, Ev.is_pd, Ev.low]
       · rfl)
    | (apply pd_wrap_complete_pp
       · simp [pd_events_cons, Ev.is_pd, Ev.low]
       · rfl)

theorem pd_bottom_half_mmu (cfg : Config) (g : maliggy_group) (w : World) :
    PdStep g w (maliggy_group_bottom_half_mmu cfg g w).1
      (maliggy_group_bottom_half_mmu cfg g w).2 := by
  unfold maliggy_group_bottom_half_mmu
  simp only []
  split_ifs
  all_goals first
    | (apply PdStep.quiet
       · simp [pd_events_cons, Ev.is_pd, Ev.low]
       · rfl)
    | (apply pd_wrap_mmu_page_fault
       · simp [pd_events_cons, Ev.is_pd, Ev.low]
       · rfl)

theorem pd_start_gp_job (cfg : Config) (g : maliggy_group) (job : maliggy_gp_job) (w : World) :
    PdStep g w (maliggy_group_start_gp_job cfg g job w).1
      (maliggy_group_start_gp_job cfg g job w).2 := by
  rw [group_start_gp_job_eq]
  simp only []
  have ha := PdStep.head g w g _ (pd_activate_page_directory cfg g job.session
    (maliggy_l2_cache_invalidate_conditional cfg g.l2_cache_core.1 job.id w).2)
    (by rw [obs_l2_cache_invalidate_conditional_opt]
        cases g.l2_cache_core.1 <;> simp [pd_events_cons, Ev.is_pd]) rfl
  generalize maliggy_group_activate_page_directory cfg g job.session _ = a at ha ⊢
  split_ifs
  all_goals
    refine PdStep.tail _ _ ha ?_ rfl
    simp [pd_events_cons, Ev.is_pd, Ev.low]

theorem pd_start_pp_job (cfg : Config) (g : maliggy_group) (job : maliggy_pp_job)
    (sub_job : Nat) (w : World) :
    PdStep g w (maliggy_group_start_pp_job cfg g job sub_job w).1
      (maliggy_group_start_pp_job cfg g job sub_job w).2 := by
  rw [group_start_pp_job_eq]
  simp only []
  have ha := PdStep.head g w g _ (pd_activate_page_directory cfg g job.session
    (maliggy_l2_cache_invalidate_conditional cfg g.l2_cache_core.2 job.id
      (maliggy_l2_cache_invalidate_conditional cfg g.l2_cache_core.1 job.id w).2).2)
    (by rw [obs_l2_cache_invalidate_conditional_opt, obs_l2_cache_invalidate_conditional_opt]
        cases g.l2_cache_core.1 <;> cases g.l2_cache_core.2 <;>
          simp [pd_events_cons, Ev.is_pd]) rfl
  generalize maliggy_group_activate_page_directory cfg g job.session _ = a at ha ⊢
  split_ifs
  all_goals
    refine PdStep.tail _ _ ha ?_ rfl
    simp [pd_events_cons, Ev.is_pd, Ev.low, obs_foldl_low]

theorem pd_timeout (g : maliggy_group) (w : World) :
    PdStep g w (maliggy_group_timeout g w).1 (maliggy_group_timeout g w).2 := by
  unfold maliggy_group_timeout
  cases g.gp_core <;>
    exact PdStep.quiet _ _ _ _ (by simp [pd_events_cons, Ev.is_pd, Ev.low, obs_cons]) rfl

theorem pd_resume_gp_with_new_heap (cfg : Config) (g : maliggy_group)
    (job_id start_addr end_addr : Nat) (w : World)
    (r : Option maliggy_gp_job × maliggy_group × World)
    (h : maliggy_group_resume_gp_with_new_heap cfg g job_id start_addr end_addr w = some r) :
    PdStep g w r.2.1 r.2.2 := by
  unfold maliggy_group_resume_gp_with_new_heap at h
  split_ifs at h
  · simp at h
    rw [← h]
    exact PdStep.step_refl g w
  · cases hj : g.gp_running_job with
    | none => simp [hj] at h
    | some job =>
      simp only [hj] at h
      split_ifs at h
      · simp at h
        rw [← h]
        exact PdStep.step_refl g w
      · simp at h
        rw [← h]
        apply PdStep.quiet
        · cases g.l2_cache_core.1 <;> simp [pd_events_cons, Ev.is_pd, Ev.low]
        · rfl

theorem pd_abort_gp_job (cfg : Config) (g : maliggy_group) (job_id : Nat) (w : World)
    (r : maliggy_group × World) (h : maliggy_group_abort_gp_job cfg g job_id w = some r) :
    PdStep g w r.1 r.2 := by
  unfold maliggy_group_abort_gp_job at h
  split_ifs at h
  · simp at h
    rw [← h]
    exact PdStep.step_refl g w
  · cases hj : g.gp_running_job with
    | none => simp [hj] at h
    | some job =>
      simp only [hj] at h
      split_ifs at h
      · simp at h
        rw [← h]
        exact PdStep.step_refl g w
      · simp at h
        rw [← h]
        exact pd_complete_gp cfg g false w

theorem pd_abort_pp_job (cfg : Config) (g : maliggy_group) (job_id : Nat) (w : World)
    (r : maliggy_group × World) (h : maliggy_group_abort_pp_job cfg g job_id w = some r) :
    PdStep g w r.1 r.2 := by
  unfold maliggy_group_abort_pp_job at h
  split_ifs at h
  · simp at h
    rw [← h]
    exact PdStep.step_refl g w
  · cases hj : g.pp_running_job with
    | none => simp [hj] at h
    | some job =>
      simp only [hj] at h
      split_ifs at h
      · simp at h
        rw [← h]
        exact PdStep.step_refl g w
      · simp at h
        rw [← h]
        exact pd_complete_pp cfg g false w

theorem remove_session_if_unused_ref (cfg : Config) (g : maliggy_group) (s : Nat) (w : World) :
    (maliggy_group_remove_session_if_unused cfg g s w).1.page_dir_ref_count
      = g.page_dir_ref_count :=
  congrArg Shape.ref (shape_remove_session_if_unused cfg g s w)

theorem pd_remove_session_if_unused (cfg : Config) (g : maliggy_group) (s : Nat) (w : World) :
    pd_events (obs (maliggy_group_remove_session_if_unused cfg g s w).2.log)
      = pd_events (obs w.log) := by
  rw [obs_group_remove_session_if_unused]
  split_ifs <;> simp [pd_events_cons, Ev.is_pd]

theorem pd_abort_session (cfg : Config) (g : maliggy_group) (s : Nat) (w : World)
    (r : maliggy_group × World) (h : maliggy_group_abort_session cfg g s w = some r) :
    PdStep g w r.1 r.2 := by
  unfold maliggy_group_abort_session at h
  simp only [] at h
  split_ifs at h with hv
  · simp at h
    rw [← h]
    exact PdStep.quiet _ _ _ _ (by simp [pd_events_cons, Ev.is_pd]) rfl
  · simp only [Option.bind_eq_some, Option.map_eq_some'] at h
    obtain ⟨s1, h1, s2, h2, h3⟩ := h
    have k1 : PdStep g (maliggy_group_lock w) s1.1 s1.2 := by
      generalize (match g.gp_running_job with
        | some j => if j.session = s then some j.id else none
        | none => none) = A at h1
      cases A with
      | none =>
        simp at h1
        rw [← h1]
        exact PdStep.step_refl _ _
      | some id => exact pd_abort_gp_job cfg g id _ s1 h1
    have k2 : PdStep s1.1 s1.2 s2.1 s2.2 := by
      generalize (match g.pp_running_job with
        | some j => if j.session = s then some j.id else none
        | none => none) = A at h2
      cases A with
      | none =>
        simp at h2
        rw [← h2]
        exact PdStep.step_refl _ _
      | some id => exact pd_abort_pp_job cfg s1.1 id _ s2 h2
    rw [← h3]
    refine PdStep.tail _ _ ((PdStep.head g w g (maliggy_group_lock w) k1
      (by simp [pd_events_cons, Ev.is_pd]) rfl).step_trans k2) ?_ ?_
    · simp only [obs_group_unlock, pd_events_append, pd_remove_session_if_unused]
      simp [pd_events_cons, Ev.is_pd]
    · exact remove_session_if_unused_ref cfg s2.1 s s2.2

theorem pd_zap_session (cfg : Config) (g : maliggy_group) (s : Nat) (w : World) :
    PdStep g w (maliggy_group_zap_session cfg g s w).1
      (maliggy_group_zap_session cfg g s w).2 := by
  unfold maliggy_group_zap_session
  simp only []
  have hl : pd_events (obs (maliggy_group_remove_session_if_unused cfg g s
      (maliggy_group_lock w)).2.log) = pd_events (obs w.log) := by
    rw [pd_remove_session_if_unused]
    simp [pd_events_cons, Ev.is_pd]
  have hr := remove_session_if_unused_ref cfg g s (maliggy_group_lock w)
  generalize maliggy_group_remove_session_if_unused cfg g s (maliggy_group_lock w) = R
    at hl hr ⊢
  split_ifs
  · exact PdStep.step_refl g w
  · apply pd_wrap_mmu_page_fault
    · simpa [pd_events_cons, Ev.is_pd] using hl
    · exact hr
  · exact PdStep.quiet _ _ _ _ (by simpa [pd_events_cons, Ev.is_pd] using hl) hr
  · exact PdStep.quiet _ _ _ _ (by simpa [pd_events_cons, Ev.is_pd] using hl) hr

/-- Every operation is a step of the page-directory accounting. -/
theorem pd_step (cfg : Config) (op : Op) (g : maliggy_group) (w : World)
    (g1 : maliggy_group) (w1 : World) (h : op.apply cfg g w = some (g1, w1)) :
    PdStep g w g1 w1 := by
  cases op with
  | start_gp_job job =>
    simp only [Op.apply, Option.some.injEq] at h
    have e := pd_start_gp_job cfg g job w
    rw [h] at e
    exact e
  | start_pp_job job sub_job =>
    simp only [Op.apply, Option.some.injEq] at h
    have e := pd_start_pp_job cfg g job sub_job w
    rw [h] at e
    exact e
  | bottom_half_gp =>
    simp only [Op.apply, Option.some.injEq] at h
    have e := pd_bottom_half_gp cfg g w
    rw [h] at e
    exact e
  | bottom_half_pp =>
    simp only [Op.apply, Option.some.injEq] at h
    have e := pd_bottom_half_pp cfg g w
    rw [h] at e
    exact e
  | bottom_half_mmu =>
    simp only [Op.apply, Option.some.injEq] at h
    have e := pd_bottom_half_mmu cfg g w
    rw [h] at e
    exact e
  | timeout =>
    simp only [Op.apply, Option.some.injEq] at h
    have e := pd_timeout g w
    rw [h] at e
    exact e
  | resume_gp_with_new_heap job_id start_addr end_addr =>
    simp only [Op.apply, Option.map_eq_some'] at h
    obtain ⟨r, hr, e⟩ := h
    have k := pd_resume_gp_with_new_heap cfg g job_id start_addr end_addr w r hr
    rw [e] at k
    exact k
  | abort_gp_job job_id => exact pd_abort_gp_job cfg g job_id w _ h
  | abort_pp_job job_id => exact pd_abort_pp_job cfg g job_id w _ h
  | abort_session session => exact pd_abort_session cfg g session w _ h
  | zap_session session =>
    simp only [Op.apply, Option.some.injEq] at h
    have e := pd_zap_session cfg g session w
    rw [h] at e
    exact e
  | complete_gp success =>
    simp only [Op.apply, Option.some.injEq] at h
    have e := pd_complete_gp cfg g success w
    rw [h] at e
    exact e
  | complete_pp success =>
    simp only [Op.apply, Option.some.injEq] at h
    have e := pd_complete_pp cfg g success w
    rw [h] at e
    exact e
  | mmu_page_fault =>
    simp only [Op.apply, Option.some.injEq] at h
    have e := pd_mmu_page_fault cfg g w
    rw [h] at e
    exact e

theorem reachable_pd (cfg : Config) (guard : Op → maliggy_group → Prop) (g0 : maliggy_group)
    (w0 : World) (g : maliggy_group) (w : World) (h0 : g0.page_dir_ref_count = 0)
    (hlog : w0.log = []) (hr : Reachable cfg guard g0 w0 g w) :
    (count_activations w.log : Int) = count_deactivations w.log + g.page_dir_ref_count
    ∧ ∀ e ∈ w.log, e.deact_ok = true := by
  induction hr with
  | init =>
    rw [hlog, h0]
    exact ⟨rfl, by simp⟩
  | step op _ _ ha ih => exact (pd_step cfg op _ _ _ _ ha).inv ih.1 ih.2

theorem fresh_ref (g : maliggy_group) (h : Fresh g) : g.page_dir_ref_count = 0 := by
  rcases h with ⟨l2, core, e⟩ | ⟨l2, dlbu, bcast, core, children, e⟩ <;> rw [e] <;> rfl

theorem done_run_reachable :
    Reachable cfg_mali400 Op.guard_running gp_group0 (world_of reads_done_run)
      done_run_completed.1 done_run_completed.2 := by
  have h1 : Reachable cfg_mali400 Op.guard_running gp_group0 (world_of reads_done_run)
      done_run_started.1 done_run_started.2 :=
    Reachable.step (.start_gp_job gp_job1) Reachable.init ⟨⟨rfl, rfl⟩, trivial⟩ rfl
  have g1 : done_run_started.1.gp_core.isSome = true := by decide
  have g2 : done_run_started.1.pp_core = none := by decide
  have g3 : done_run_started.1.gp_running_job.isSome = true := by decide
  exact Reachable.step .bottom_half_gp h1 ⟨g1, Or.inr ⟨g2, g3⟩⟩ rfl

theorem done_run_counts :
    count_activations done_run_completed.2.log = 1
    ∧ count_deactivations done_run_completed.2.log = 1
    ∧ done_run_completed.1.page_dir_ref_count = 0 := by
  decide


/-! ## L2 caches -/

@[simp]
theorem World.read_autonumber (w : World) :
    w.read.2.maliggy_job_autonumber = w.maliggy_job_autonumber := rfl

@[simp]
theorem poll_register_l2 (c : HwCore) (r : Reg) (stop : Nat → Bool) (n last : Nat) (w : World) :
    (poll_register c r stop n last w).2.2.l2 = w.l2 := by
  induction n generalizing last w with
  | zero => rfl
  | succ n ih =>
    simp only [poll_register]
    split
    · rfl
    · rw [ih]; rfl

@[simp]
theorem poll_register_autonumber (c : HwCore) (r : Reg) (stop : Nat → Bool) (n last : Nat)
    (w : World) :
    (poll_register c r stop n last w).2.2.maliggy_job_autonumber = w.maliggy_job_autonumber := by
  induction n generalizing last w with
  | zero => rfl
  | succ n ih =>
    simp only [poll_register]
    split
    · rfl
    · rw [ih]; rfl

theorem l2_cache_send_command_spec (cfg : Config) (c : Nat) (r : Reg) (v : Nat) (w : World) :
    (maliggy_l2_cache_send_command cfg c r v w).2.l2 = w.l2
    ∧ (maliggy_l2_cache_send_command cfg c r v w).2.maliggy_job_autonumber
        = w.maliggy_job_autonumber
    ∧ (maliggy_l2_cache_send_command cfg c r v w).2.log = w.log ++
        (if (maliggy_l2_cache_send_command cfg c r v w).1 = true
          then [.reg_write (.l2 (w.l2 c).core_id) r v] else []) := by
  unfold maliggy_l2_cache_send_command
  simp only []
  split_ifs <;> simp_all [maliggy_hw_core_register_write, World.emit]

/-- The state of the caches and of the counter after an accepted invalidation of `c`. -/
theorem l2_set_new_id (c : Nat) (w : World) :
    (((maliggy_scheduler_get_new_id w).2.set_last_invalidated_id c
        (maliggy_scheduler_get_new_id w).1).l2 c).last_invalidated_id
      = (w.maliggy_job_autonumber + 1) % 4294967296
    ∧ (∀ d, d ≠ c → ((maliggy_scheduler_get_new_id w).2.set_last_invalidated_id c
        (maliggy_scheduler_get_new_id w).1).l2 d = w.l2 d)
    ∧ ((maliggy_scheduler_get_new_id w).2.set_last_invalidated_id c
        (maliggy_scheduler_get_new_id w).1).maliggy_job_autonumber
      = (w.maliggy_job_autonumber + 1) % 4294967296
    ∧ ((maliggy_scheduler_get_new_id w).2.set_last_invalidated_id c
        (maliggy_scheduler_get_new_id w).1).log = w.log
    ∧ ((maliggy_scheduler_get_new_id w).2.set_last_invalidated_id c
        (maliggy_scheduler_get_new_id w).1).reads = w.reads := by
  refine ⟨?_, ?_, rfl, rfl, rfl⟩
  · simp [World.set_last_invalidated_id, maliggy_scheduler_get_new_id]
  · intro d hd
    simp [World.set_last_invalidated_id, maliggy_scheduler_get_new_id, Function.update, hd]

theorem poll_register_core (c c' : HwCore) (r : Reg) (stop : Nat → Bool) (n last : Nat)
    (w : World) : poll_register c r stop n last w = poll_register c' r stop n last w := by
  induction n generalizing last w with
  | zero => rfl
  | succ n ih =>
    simp only [poll_register, maliggy_hw_core_register_read]
    split
    · rfl
    · exact ih _ _

theorem l2_cache_send_command_idle (cfg : Config) (c : Nat) (r : Reg) (v : Nat) (w w0 : World)
    (h : w.reads = w0.reads) :
    (maliggy_l2_cache_send_command cfg c r v w).1 = l2_command_idle cfg w0 := by
  have e := (poll_register_congr (.l2 (w.l2 c).core_id) .MALI400_L2_CACHE_REGISTER_STATUS
    (fun v => v &&& cfg.MALI400_L2_CACHE_STATUS_COMMAND_BUSY == 0) l2_loop_count 0 w w0 h).1
  rw [poll_register_core _ (.l2 0) _ _ _ _ w0] at e
  unfold maliggy_l2_cache_send_command l2_command_idle
  simp only []
  rw [← e]
  split_ifs with h1
  · exact h1.symm
  · simp at h1
    exact h1.symm

theorem l2_cache_invalidate_conditional_spec (cfg : Config) (c id : Nat) (w : World) :
    ((maliggy_l2_cache_invalidate_conditional cfg (some c) id w).1 = false
      ↔ to_s32 id ≤ to_s32 (w.l2 c).last_invalidated_id)
    ∧ (to_s32 id ≤ to_s32 (w.l2 c).last_invalidated_id →
        (maliggy_l2_cache_invalidate_conditional cfg (some c) id w).2.log
            = w.log ++ [.call .maliggy_l2_cache_invalidate_conditional [c, id]]
        ∧ (maliggy_l2_cache_invalidate_conditional cfg (some c) id w).2.l2 = w.l2
        ∧ (maliggy_l2_cache_invalidate_conditional cfg (some c) id w).2.maliggy_job_autonumber
            = w.maliggy_job_autonumber
        ∧ (maliggy_l2_cache_invalidate_conditional cfg (some c) id w).2.reads = w.reads)
    ∧ (¬ to_s32 id ≤ to_s32 (w.l2 c).last_invalidated_id →
        (maliggy_l2_cache_invalidate_conditional cfg (some c) id w).1 = true
        ∧ ((maliggy_l2_cache_invalidate_conditional cfg (some c) id w).2.l2 c).last_invalidated_id
            = (w.maliggy_job_autonumber + 1) % 4294967296
        ∧ (maliggy_l2_cache_invalidate_conditional cfg (some c) id w).2.log
            = w.log ++ [.call .maliggy_l2_cache_invalidate_conditional [c, id]]
              ++ (if l2_command_idle cfg w = true then
                    [.reg_write (.l2 (w.l2 c).core_id) .MALI400_L2_CACHE_REGISTER_COMMAND
                      cfg.MALI400_L2_CACHE_COMMAND_CLEAR_ALL]
                  else [])) := by
  unfold maliggy_l2_cache_invalidate_conditional
  simp only []
  by_cases h : to_s32 id ≤ to_s32 (w.l2 c).last_invalidated_id
  · have h' : to_s32 id ≤ to_s32
        ((w.emit (.call .maliggy_l2_cache_invalidate_conditional [c, id])).l2 c).last_invalidated_id
        := h
    simp only [h', if_true]
    exact ⟨by simp [h], fun _ => ⟨rfl, rfl, rfl, rfl⟩, fun hn => absurd h hn⟩
  · have h' : ¬ to_s32 id ≤ to_s32
        ((w.emit (.call .maliggy_l2_cache_invalidate_conditional [c, id])).l2 c).last_invalidated_id
        := h
    simp only [h', if_false]
    refine ⟨by simp [h], fun hp => absurd hp h, fun _ => ⟨trivial, ?_, ?_⟩⟩
    · obtain ⟨a1, _, _, _, _⟩ := l2_set_new_id c
        (w.emit (.call .maliggy_l2_cache_invalidate_conditional [c, id]))
      rw [(l2_cache_send_command_spec cfg c _ _ _).1, a1]
      rfl
    · obtain ⟨a1, a2, a3, a4, a5⟩ := l2_set_new_id c
        (w.emit (.call .maliggy_l2_cache_invalidate_conditional [c, id]))
      rw [(l2_cache_send_command_spec cfg c _ _ _).2.2, a4,
        l2_cache_send_command_idle cfg c _ _ _ w a5]
      simp [World.emit, World.set_last_invalidated_id, maliggy_scheduler_get_new_id,
        Function.update]

theorem poll_register_busy (c : HwCore) (r : Reg) (stop : Nat → Bool) (hs : stop 1 = false)
    (n m last : Nat) (w : World) (hn : n ≤ m) (hw : w.reads = List.replicate m 1) :
    (poll_register c r stop n last w).1 = false := by
  induction n generalizing m last w with
  | zero => rfl
  | succ n ih =>
    obtain ⟨k, rfl⟩ : ∃ k, m = k + 1 := ⟨m - 1, by omega⟩
    have h1 : w.read.1 = 1 := by simp [World.read, hw, List.replicate_succ]
    have h2 : w.read.2.reads = List.replicate k 1 := by
      simp [World.read, hw, List.replicate_succ]
    simp only [poll_register, maliggy_hw_core_register_read, h1, hs]
    exact ih k 1 _ (by omega) h2


theorem l2_command_idle_replicate (cfg : Config) (m : Nat)
    (hb : (1 &&& cfg.MALI400_L2_CACHE_STATUS_COMMAND_BUSY == 0) = false)
    (hm : l2_loop_count ≤ m) : l2_command_idle cfg (world_of (List.replicate m 1)) = false :=
  poll_register_busy _ _ _ hb _ m 0 _ hm rfl

theorem l2_command_idle_busy : l2_command_idle cfg_mali400 world_l2_busy = false :=
  l2_command_idle_replicate cfg_mali400 100000 (by decide) (Nat.le_refl _)

theorem l2_mono_same (w w' : World) (hl : w'.l2 = w.l2)
    (hc : w'.maliggy_job_autonumber = w.maliggy_job_autonumber)
    (hinv : ∀ c, (w.l2 c).last_invalidated_id ≤ w.maliggy_job_autonumber) : l2_mono w w' 0 := by
  refine ⟨fun c => by rw [hl], fun c => by rw [hl, hc]; exact hinv c, by rw [hc], by rw [hc]; rfl⟩

theorem l2_mono_trans {w w1 w2 : World} {a b : Nat} (h1 : l2_mono w w1 a)
    (h2 : l2_mono w1 w2 b) : l2_mono w w2 (a + b) := by
  obtain ⟨a1, _, a3, a4⟩ := h1
  obtain ⟨b1, b2, b3, b4⟩ := h2
  exact ⟨fun c => Nat.le_trans (a1 c) (b1 c), b2, Nat.le_trans a3 b3, by omega⟩

theorem l2_mono_weaken {w w' : World} {a b : Nat} (h : l2_mono w w' a) (hab : a ≤ b) :
    l2_mono w w' b := by
  obtain ⟨a1, a2, a3, a4⟩ := h
  exact ⟨a1, a2, a3, by omega⟩

/-- Drawing a new id for cache `c` and sending the command keeps the caches monotone while the
counter does not wrap. -/
theorem l2_mono_new_id (cfg : Config) (c : Nat) (r : Reg) (v : Nat) (w : World)
    (hinv : ∀ d, (w.l2 d).last_invalidated_id ≤ w.maliggy_job_autonumber)
    (hno : w.maliggy_job_autonumber + 1 < 4294967296) :
    l2_mono w (maliggy_l2_cache_send_command cfg c r v
      ((maliggy_scheduler_get_new_id w).2.set_last_invalidated_id c
        (maliggy_scheduler_get_new_id w).1)).2 1 := by
  obtain ⟨a1, a2, a3, _, _⟩ := l2_set_new_id c w
  obtain ⟨s1, s2, _⟩ := l2_cache_send_command_spec cfg c r v
    ((maliggy_scheduler_get_new_id w).2.set_last_invalidated_id c
      (maliggy_scheduler_get_new_id w).1)
  have hm : (w.maliggy_job_autonumber + 1) % 4294967296 = w.maliggy_job_autonumber + 1 :=
    Nat.mod_eq_of_lt hno
  rw [hm] at a1 a3
  unfold l2_mono
  rw [s1, s2, a3]
  refine ⟨fun d => ?_, fun d => ?_, by omega, by omega⟩
  · by_cases hd : d = c
    · rw [hd, a1]
      have := hinv c
      omega
    · rw [a2 d hd]
  · by_cases hd : d = c
    · rw [hd, a1]
    · rw [a2 d hd]
      have := hinv d
      omega

theorem l2_mono_invalidate (cfg : Config) (c : Nat) (w : World)
    (hinv : ∀ d, (w.l2 d).last_invalidated_id ≤ w.maliggy_job_autonumber)
    (hno : w.maliggy_job_autonumber + 1 < 4294967296) :
    l2_mono w (maliggy_l2_cache_invalidate cfg (some c) w) 1 :=
  l2_mono_new_id cfg c _ _ (w.emit (.call .maliggy_l2_cache_invalidate [c])) hinv hno

theorem l2_mono_invalidate_conditional (cfg : Config) (c id : Nat) (w : World)
    (hinv : ∀ d, (w.l2 d).last_invalidated_id ≤ w.maliggy_job_autonumber)
    (hno : w.maliggy_job_autonumber + 1 < 4294967296) :
    l2_mono w (maliggy_l2_cache_invalidate_conditional cfg (some c) id w).2 1 := by
  unfold maliggy_l2_cache_invalidate_conditional
  simp only []
  split_ifs
  · exact l2_mono_weaken (l2_mono_same _ _ rfl rfl hinv) (by omega)
  · exact l2_mono_new_id cfg c _ _
      (w.emit (.call .maliggy_l2_cache_invalidate_conditional [c, id])) hinv hno

theorem l2_mono_invalidate_all (cfg : Config) (caches : List Nat) (w : World)
    (hinv : ∀ d, (w.l2 d).last_invalidated_id ≤ w.maliggy_job_autonumber)
    (hno : w.maliggy_job_autonumber + caches.length < 4294967296) :
    l2_mono w (maliggy_l2_cache_invalidate_all cfg caches w) caches.length := by
  unfold maliggy_l2_cache_invalidate_all
  induction caches generalizing w with
  | nil => exact l2_mono_same _ _ rfl rfl hinv
  | cons c cs ih =>
    simp only [List.foldl_cons, List.length_cons]
    simp only [List.length_cons] at hno
    have h1 : l2_mono w (maliggy_l2_cache_unlock_power_state c
        (if (maliggy_l2_cache_lock_power_state c w).1 = 1 then
          (maliggy_l2_cache_send_command cfg c .MALI400_L2_CACHE_REGISTER_COMMAND
            cfg.MALI400_L2_CACHE_COMMAND_CLEAR_ALL
            ((maliggy_scheduler_get_new_id (maliggy_l2_cache_lock_power_state c w).2).2
              |>.set_last_invalidated_id c
              (maliggy_scheduler_get_new_id (maliggy_l2_cache_lock_power_state c w).2).1)).2
        else (maliggy_l2_cache_lock_power_state c w).2)) 1 := by
      split_ifs
      · exact l2_mono_new_id cfg c _ _ (maliggy_l2_cache_lock_power_state c w).2 hinv
          (by show w.maliggy_job_autonumber + 1 < 4294967296; omega)
      · exact l2_mono_weaken (l2_mono_same _ _ rfl rfl hinv) (by omega)
    have h2 := ih _ h1.2.1 (by have := h1.2.2.2; omega)
    have h3 := l2_mono_trans h1 h2
    rw [Nat.add_comm] at h3
    exact h3

theorem l2_op_mono (cfg : Config) (caches : List Nat) (op : L2Op) (w : World)
    (hinv : ∀ d, (w.l2 d).last_invalidated_id ≤ w.maliggy_job_autonumber)
    (hno : w.maliggy_job_autonumber + (caches.length + 1) < 4294967296) :
    l2_mono w (op.apply cfg caches w) (caches.length + 1) := by
  cases op with
  | invalidate c => exact l2_mono_weaken (l2_mono_invalidate cfg c w hinv (by omega)) (by omega)
  | invalidate_conditional c id =>
    exact l2_mono_weaken (l2_mono_invalidate_conditional cfg c id w hinv (by omega)) (by omega)
  | invalidate_all =>
    exact l2_mono_weaken (l2_mono_invalidate_all cfg caches w hinv (by omega)) (by omega)

theorem l2_run_mono (cfg : Config) (caches : List Nat) (ops : List L2Op) (w : World)
    (hinv : ∀ d, (w.l2 d).last_invalidated_id ≤ w.maliggy_job_autonumber)
    (hno : w.maliggy_job_autonumber + ops.length * (caches.length + 1) < 4294967296) :
    l2_mono w (l2_run cfg caches ops w) (ops.length * (caches.length + 1)) := by
  unfold l2_run
  induction ops generalizing w with
  | nil => exact l2_mono_weaken (l2_mono_same _ _ rfl rfl hinv) (by omega)
  | cons op ops ih =>
    simp only [List.foldl_cons, List.length_cons, Nat.succ_mul] at hno ⊢
    generalize hK : caches.length + 1 = K at hno ih ⊢
    generalize hM : ops.length * K = M at hno ih ⊢
    have h1 := l2_op_mono cfg caches op w hinv (by rw [hK]; omega)
    rw [hK] at h1
    have h2 := ih _ h1.2.1 (by have := h1.2.2.2; omega)
    have h3 := l2_mono_trans h1 h2
    rw [Nat.add_comm] at h3
    exact h3

theorem l2_run_append (cfg : Config) (caches : List Nat) (a b : List L2Op) (w : World) :
    l2_run cfg caches (a ++ b) w = l2_run cfg caches b (l2_run cfg caches a w) := by
  simp [l2_run, List.foldl_append]

theorem world_after_draws_succ (n : Nat) :
    world_after_draws (n + 1) = (maliggy_scheduler_get_new_id (world_after_draws n)).2 := by
  unfold world_after_draws
  rw [Function.iterate_succ_apply']

theorem world_after_draws_spec (n : Nat) :
    (world_after_draws n).maliggy_job_autonumber = n % 4294967296
    ∧ (∀ c, ((world_after_draws n).l2 c).last_invalidated_id = 0) := by
  induction n with
  | zero => exact ⟨rfl, fun _ => rfl⟩
  | succ n ih =>
    rw [world_after_draws_succ]
    refine ⟨?_, fun c => ih.2 c⟩
    show ((world_after_draws n).maliggy_job_autonumber + 1) % 4294967296 = _
    rw [ih.1]
    omega

theorem l2_cache_invalidate_spec (cfg : Config) (c : Nat) (w : World) :
    ((maliggy_l2_cache_invalidate cfg (some c) w).l2 c).last_invalidated_id
      = (w.maliggy_job_autonumber + 1) % 4294967296
    ∧ (maliggy_l2_cache_invalidate cfg (some c) w).maliggy_job_autonumber
      = (w.maliggy_job_autonumber + 1) % 4294967296 := by
  obtain ⟨a1, _, a3, _, _⟩ := l2_set_new_id c (w.emit (.call .maliggy_l2_cache_invalidate [c]))
  obtain ⟨s1, s2, _⟩ := l2_cache_send_command_spec cfg c
    .MALI400_L2_CACHE_REGISTER_COMMAND cfg.MALI400_L2_CACHE_COMMAND_CLEAR_ALL
    ((maliggy_scheduler_get_new_id (w.emit (.call .maliggy_l2_cache_invalidate [c]))).2
      |>.set_last_invalidated_id c
      (maliggy_scheduler_get_new_id (w.emit (.call .maliggy_l2_cache_invalidate [c]))).1)
  unfold maliggy_l2_cache_invalidate
  simp only []
  rw [s1, s2]
  exact ⟨a1, a3⟩

theorem l2_run_one (cfg : Config) (caches : List Nat) (a : L2Op) (w : World) :
    l2_run cfg caches [a] w = a.apply cfg caches w := rfl

theorem l2_run_two (cfg : Config) (caches : List Nat) (a b : L2Op) (w : World) :
    l2_run cfg caches [a, b] w = b.apply cfg caches (a.apply cfg caches w) := rfl

theorem l2_apply_invalidate (cfg : Config) (caches : List Nat) (c : Nat) (w : World) :
    (L2Op.invalidate c).apply cfg caches w = maliggy_l2_cache_invalidate cfg (some c) w := rfl

theorem l2_run_invalidate_twice (cfg : Config) (caches : List Nat) (c : Nat) (w : World) :
    ((l2_run cfg caches [.invalidate c] w).l2 c).last_invalidated_id
      = (w.maliggy_job_autonumber + 1) % 4294967296
    ∧ ((l2_run cfg caches [.invalidate c, .invalidate c] w).l2 c).last_invalidated_id
      = ((w.maliggy_job_autonumber + 1) % 4294967296 + 1) % 4294967296 := by
  rw [l2_run_one, l2_run_two, l2_apply_invalidate]
  have h1 := l2_cache_invalidate_spec cfg c w
  have h2 := l2_cache_invalidate_spec cfg c (maliggy_l2_cache_invalidate cfg (some c) w)
  rw [h1.2] at h2
  exact ⟨h1.1, h2.1⟩

/-! ## Interrupt upper halves -/

theorem upper_half_pp_eq (cfg : Config) (bc : BuildConfig) (g : maliggy_group) (w : World)
    (hu : bc.MALI_UPPER_HALF_SCHEDULING = false) (hpp : bc.MALI200_REG_VAL_IRQ_MASK_NONE = 0)
    (he : (upper_half_enter bc w).1 = true) :
    maliggy_group_upper_half_pp cfg bc g w =
      if maliggy_group_is_in_virtual g = true then
        (true, g, upper_half_leave bc (upper_half_enter bc w).2)
      else if (maliggy_pp_get_int_stat (g.pp_core.getD null_pp_core)
          (upper_half_enter bc w).2).1 = 0 then
        (false, g, upper_half_leave bc
          (maliggy_pp_get_int_stat (g.pp_core.getD null_pp_core) (upper_half_enter bc w).2).2)
      else
        (true, g, upper_half_leave bc
          (((maliggy_pp_get_int_stat (g.pp_core.getD null_pp_core)
              (upper_half_enter bc w).2).2.emit
              (.reg_write (.pp (g.pp_core.getD null_pp_core).core_id)
                .MALI200_REG_ADDR_MGMT_INT_MASK 0)).emit
            (.call ._maliggy_osk_wq_schedule_work_pp []))) := by
  unfold maliggy_group_upper_half_pp
  simp only []
  generalize upper_half_enter bc w = e at he ⊢
  simp only [hu, he, hpp]
  by_cases hv : maliggy_group_is_in_virtual g = true
  · simp [hv]
  · by_cases h : (maliggy_pp_get_int_stat (g.pp_core.getD null_pp_core) e.2).1 = 0
    · simp [hv, h]
    · have h' : ¬ 0 = (maliggy_pp_get_int_stat (g.pp_core.getD null_pp_core) e.2).1 :=
        fun x => h x.symm
      simp only [Bool.not_false, Bool.true_and, hv, Bool.false_eq_true, if_false, ne_eq, h',
        not_false_eq_true, if_true, Bool.false_and, h]
      simp [maliggy_pp_mask_all_interrupts, maliggy_hw_core_register_write, hpp]

/-! ## Membership of virtual groups -/

theorem bcast_mask_low (m b x : Nat) : (m ||| b ||| x) &&& b = b := by
  apply Nat.eq_of_testBit_eq
  intro i
  simp only [Nat.testBit_and, Nat.testBit_or]
  cases m.testBit i <;> cases b.testBit i <;> cases x.testBit i <;> rfl

theorem bcast_mask_high (m b : Nat) (hb : b < 65536) :
    ((m ||| b ||| ((b <<< 16) % 4294967296)) >>> 16) &&& b = b := by
  have h1 : (b <<< 16) % 4294967296 = b <<< 16 := by
    apply Nat.mod_eq_of_lt
    rw [Nat.shiftLeft_eq]
    omega
  rw [h1]
  apply Nat.eq_of_testBit_eq
  intro i
  simp only [Nat.testBit_and, Nat.testBit_or, Nat.testBit_shiftRight, Nat.testBit_shiftLeft]
  have h2 : 16 + i - 16 = i := by omega
  have h3 : 16 + i ≥ 16 := by omega
  simp only [h2, h3, decide_True, Bool.true_and]
  cases m.testBit (16 + i) <;> cases b.testBit (16 + i) <;> cases b.testBit i <;> rfl

theorem bcast_add_group_mask (u : maliggy_bcast_unit) (g : maliggy_group)
    (hb : (g.pp_core.getD null_pp_core).bcast_id < 65536) :
    (maliggy_bcast_add_group u g).current_mask &&& (g.pp_core.getD null_pp_core).bcast_id
        = (g.pp_core.getD null_pp_core).bcast_id
    ∧ ((maliggy_bcast_add_group u g).current_mask >>> 16)
        &&& (g.pp_core.getD null_pp_core).bcast_id
        = (g.pp_core.getD null_pp_core).bcast_id :=
  ⟨bcast_mask_low _ _ _, bcast_mask_high _ _ hb⟩

theorem add_group_table (cfg : Config) (t : GroupTable) (parent child : Nat) (update_hw : Bool)
    (w : World) :
    (maliggy_group_add_group cfg t parent child update_hw w).1 = add_group_sw t parent child := by
  unfold maliggy_group_add_group
  cases update_hw <;> rfl

theorem add_group_l2_other (p c : maliggy_group) :
    (add_group_l2 p c).bcast_core = p.bcast_core
    ∧ (add_group_l2 p c).group_list = p.group_list
    ∧ (add_group_l2 p c).session = p.session
    ∧ (add_group_l2 p c).pp_running_job = p.pp_running_job
    ∧ (add_group_l2 p c).state = p.state
    ∧ (add_group_l2 p c).parent_group = p.parent_group
    ∧ (add_group_l2 p c).dlbu_core = p.dlbu_core := by
  unfold add_group_l2
  simp only
  split_ifs <;> simp

theorem add_group_parent_l2 (p c : maliggy_group) (parent : Nat) :
    ((add_group_parent p c parent).l2_cache_core,
      (add_group_parent p c parent).l2_cache_core_ref_count) =
      if p.l2_cache_core.1 = c.l2_cache_core.1 ∨ p.l2_cache_core.2 = c.l2_cache_core.1 then
        (p.l2_cache_core,
          (if p.l2_cache_core.1 = c.l2_cache_core.1
              then (p.l2_cache_core_ref_count.1 + 1) % 4294967296
              else p.l2_cache_core_ref_count.1,
           if p.l2_cache_core.2 = c.l2_cache_core.1
              then (p.l2_cache_core_ref_count.2 + 1) % 4294967296
              else p.l2_cache_core_ref_count.2))
      else if p.l2_cache_core.1 = none then
        ((c.l2_cache_core.1, p.l2_cache_core.2),
          ((p.l2_cache_core_ref_count.1 + 1) % 4294967296, p.l2_cache_core_ref_count.2))
      else
        ((p.l2_cache_core.1, c.l2_cache_core.1),
          (p.l2_cache_core_ref_count.1, (p.l2_cache_core_ref_count.2 + 1) % 4294967296)) := by
  simp only [add_group_parent, add_group_l2, add_group_child]
  by_cases h1 : p.l2_cache_core.1 = c.l2_cache_core.1
    <;> by_cases h2 : p.l2_cache_core.2 = c.l2_cache_core.1
    <;> by_cases h3 : p.l2_cache_core.1 = none
    <;> first
      | (simp [h1, h2, h3]; done)
      | (have h4 := h1; rw [h3] at h4; simp [h1, h2, h3, h4])

theorem add_group_parent_other (p c : maliggy_group) (parent : Nat) :
    (add_group_parent p c parent).bcast_core
        = p.bcast_core.map (fun b => maliggy_bcast_add_group b (add_group_child c parent))
    ∧ (add_group_parent p c parent).group_list = p.group_list ++ [c.pp_core.getD null_pp_core]
    ∧ (add_group_parent p c parent).session = p.session
    ∧ (add_group_parent p c parent).pp_running_job = p.pp_running_job
    ∧ (add_group_parent p c parent).state = p.state
    ∧ (add_group_parent p c parent).parent_group = p.parent_group
    ∧ (add_group_parent p c parent).dlbu_core = p.dlbu_core := by
  simp only [add_group_parent, add_group_l2, add_group_child]
  split_ifs <;> simp

@[simp]
theorem non_mmu_append (a b : List Ev) : non_mmu (a ++ b) = non_mmu a ++ non_mmu b := by
  simp [non_mmu]

@[simp]
theorem non_mmu_nil : non_mmu [] = [] := rfl

@[simp]
theorem non_mmu_cons (e : Ev) (l : List Ev) :
    non_mmu (e :: l) = if e.is_mmu then non_mmu l else e :: non_mmu l := by
  cases h : e.is_mmu <;> simp [non_mmu, h]

@[simp]
theorem non_mmu_emit (w : World) (e : Ev) :
    non_mmu (w.emit e).log = non_mmu w.log ++ (if e.is_mmu then [] else [e]) := by
  rw [World.emit_log, non_mmu_append]
  cases h : e.is_mmu <;> simp [h]

@[simp]
theorem non_mmu_register_write_mmu (r : Reg) (v : Nat) (w : World) :
    non_mmu (maliggy_hw_core_register_write .mmu r v w).log = non_mmu w.log := by
  simp [maliggy_hw_core_register_write, Ev.is_mmu]

@[simp]
theorem non_mmu_enable_stall (cfg : Config) (w : World) :
    non_mmu (maliggy_mmu_enable_stall cfg w).2.log = non_mmu w.log := by
  rw [mmu_enable_stall_log]; split_ifs <;> simp [Ev.is_mmu]

@[simp]
theorem non_mmu_disable_stall (cfg : Config) (w : World) :
    non_mmu (maliggy_mmu_disable_stall cfg w).log = non_mmu w.log := by
  rw [mmu_disable_stall_log]; split_ifs <;> simp [Ev.is_mmu]

@[simp]
theorem non_mmu_zap_tlb (cfg : Config) (w : World) :
    non_mmu (maliggy_mmu_zap_tlb cfg w).2.log = non_mmu w.log := by
  unfold maliggy_mmu_zap_tlb
  simp only []
  split_ifs <;> simp [Ev.is_mmu]

@[simp]
theorem non_mmu_activate_page_directory (cfg : Config) (pd : Nat) (w : World) :
    non_mmu (maliggy_mmu_activate_page_directory cfg pd w).2.log = non_mmu w.log := by
  unfold maliggy_mmu_activate_page_directory
  simp only []
  split_ifs <;> simp [maliggy_mmu_activate_address_space, Ev.is_mmu]

@[simp]
theorem non_mmu_activate_empty_page_directory (cfg : Config) (w : World) :
    non_mmu (maliggy_mmu_activate_empty_page_directory cfg w).log = non_mmu w.log := by
  simp [maliggy_mmu_activate_empty_page_directory, maliggy_mmu_activate_address_space, Ev.is_mmu]

theorem add_group_fields (cfg : Config) (t : GroupTable) (parent child : Nat) (update_hw : Bool)
    (w : World) (g : Nat) :
    ((maliggy_group_add_group cfg t parent child update_hw w).1.group g).parent_group
        = (if g = child then some parent else (t.group g).parent_group)
    ∧ ((maliggy_group_add_group cfg t parent child update_hw w).1.group g).state
        = (if g = child then MALI_GROUP_STATE_IN_VIRTUAL else (t.group g).state)
    ∧ (maliggy_group_add_group cfg t parent child update_hw w).1.members g
        = (if g = parent then t.members parent ++ [child] else t.members g) := by
  rw [add_group_table]
  obtain ⟨-, -, -, -, o5, o6, -⟩ := add_group_parent_other (t.group parent) (t.group child) parent
  by_cases h1 : g = child
  · subst h1
    refine ⟨by simp [add_group_sw, add_group_child], by simp [add_group_sw, add_group_child], ?_⟩
    by_cases h2 : g = parent
    · subst h2; simp [add_group_sw]
    · simp [add_group_sw, Function.update_noteq h2, h2]
  · by_cases h2 : g = parent
    · subst h2
      simp [add_group_sw, Function.update_noteq h1, h1, o5, o6]
    · simp [add_group_sw, Function.update_noteq h1, Function.update_noteq h2, h1, h2]

theorem remove_group_fields (t : GroupTable) (power_on : Bool) (parent child : Nat) (w : World)
    (g : Nat) :
    ((maliggy_group_remove_group t power_on parent child w).1.group g).parent_group
        = (if g = child then none else (t.group g).parent_group)
    ∧ ((maliggy_group_remove_group t power_on parent child w).1.group g).state
        = (if g = child then MALI_GROUP_STATE_LEAVING_VIRTUAL else (t.group g).state)
    ∧ (maliggy_group_remove_group t power_on parent child w).1.members g
        = (t.members g).filter (fun x => x != child) := by
  unfold maliggy_group_remove_group
  simp only []
  by_cases h1 : g = child
  · subst h1
    simp
  · by_cases h2 : g = parent
    · subst h2
      simp only [Function.update_noteq h1, Function.update_same, h1, if_false]
      split_ifs <;> simp
    · simp [Function.update_noteq h1, Function.update_noteq h2, h1]

/-- Membership invariant: a group has a parent exactly when it is `IN_VIRTUAL`, and it is on the
child list of a group exactly when that group is its parent. -/
theorem vmember_step (cfg : Config) (power_on : Bool) (op : VOp) (t t1 : GroupTable)
    (w w1 : World) (hg : op.guard t) (ha : op.apply cfg power_on t w = some (t1, w1))
    (h1 : ∀ g, (t.group g).parent_group ≠ none ↔ (t.group g).state = MALI_GROUP_STATE_IN_VIRTUAL)
    (h2 : ∀ p g, g ∈ t.members p ↔ (t.group g).parent_group = some p) :
    (∀ g, (t1.group g).parent_group ≠ none ↔ (t1.group g).state = MALI_GROUP_STATE_IN_VIRTUAL)
    ∧ (∀ p g, g ∈ t1.members p ↔ (t1.group g).parent_group = some p) := by
  have hrem : ∀ parent child,
      (∀ g, ((maliggy_group_remove_group t power_on parent child w).1.group g).parent_group
          ≠ none ↔
        ((maliggy_group_remove_group t power_on parent child w).1.group g).state
          = MALI_GROUP_STATE_IN_VIRTUAL)
      ∧ (∀ p g, g ∈ (maliggy_group_remove_group t power_on parent child w).1.members p ↔
        ((maliggy_group_remove_group t power_on parent child w).1.group g).parent_group
          = some p) := by
    intro parent child
    constructor
    · intro g
      obtain ⟨e1, e2, -⟩ := remove_group_fields t power_on parent child w g
      rw [e1, e2]
      by_cases hgc : g = child
      · simp [hgc]
      · simp only [hgc, if_false]; exact h1 g
    · intro p g
      obtain ⟨e1, -, -⟩ := remove_group_fields t power_on parent child w g
      obtain ⟨-, -, e3⟩ := remove_group_fields t power_on parent child w p
      rw [e1, e3]
      by_cases hgc : g = child
      · simp [hgc]
      · simp only [hgc, if_false, List.mem_filter, bne_iff_ne, ne_eq, not_false_eq_true,
          and_true]
        exact h2 p g
  cases op with
  | set_joining child =>
    simp only [VOp.apply, Option.some.injEq, Prod.mk.injEq] at ha
    obtain ⟨rfl, -⟩ := ha
    obtain ⟨-, hs⟩ := hg
    have hp : (t.group child).parent_group = none := by
      by_contra hn
      have := (h1 child).mp hn
      rw [hs] at this
      exact maliggy_group_core_state.noConfusion this
    constructor
    · intro g
      by_cases hgc : g = child
      · subst hgc; simp [hp]
      · simp only [Function.update_noteq hgc]; exact h1 g
    · intro p g
      by_cases hgc : g = child
      · subst hgc; simpa using h2 p g
      · simp only [Function.update_noteq hgc]; exact h2 p g
  | add_group parent child update_hw =>
    simp only [VOp.apply, Option.some.injEq] at ha
    obtain ⟨-, -, hp, -⟩ := hg
    have e : t1 = (maliggy_group_add_group cfg t parent child update_hw w).1 := by rw [ha]
    subst e
    constructor
    · intro g
      obtain ⟨e1, e2, -⟩ := add_group_fields cfg t parent child update_hw w g
      rw [e1, e2]
      by_cases hgc : g = child
      · simp [hgc]
      · simp only [hgc, if_false]; exact h1 g
    · intro p g
      obtain ⟨e1, -, -⟩ := add_group_fields cfg t parent child update_hw w g
      obtain ⟨-, -, e3⟩ := add_group_fields cfg t parent child update_hw w p
      rw [e1, e3]
      by_cases hgc : g = child
      · subst hgc
        by_cases hpp : p = parent
        · simp [hpp]
        · have hno : g ∉ t.members p := by
            intro hm
            have := (h2 p g).mp hm
            rw [hp] at this
            exact Option.noConfusion this
          simp only [hpp, if_false, if_true, Option.some.injEq]
          constructor
          · intro hm; exact absurd hm hno
          · intro hq; exact absurd hq.symm hpp
      · by_cases hpp : p = parent
        · subst hpp
          simp only [if_true, hgc, if_false, List.mem_append, List.mem_singleton, or_false]
          exact h2 p g
        · simp only [hpp, hgc, if_false]; exact h2 p g
  | remove_group parent child =>
    simp only [VOp.apply, Option.some.injEq] at ha
    have e : t1 = (maliggy_group_remove_group t power_on parent child w).1 := by rw [ha]
    subst e
    exact hrem parent child
  | acquire_group parent =>
    simp only [VOp.apply, maliggy_group_acquire_group] at ha
    cases hl : (t.members parent).getLast? with
    | none => rw [hl] at ha; simp at ha
    | some child =>
      rw [hl] at ha
      simp only [Option.map_some', Option.some.injEq] at ha
      have e : t1 = (maliggy_group_remove_group t power_on parent child w).1 := by rw [ha]
      subst e
      exact hrem parent child
  | set_idle child =>
    simp only [VOp.apply, Option.some.injEq, Prod.mk.injEq] at ha
    obtain ⟨rfl, -⟩ := ha
    have hs : (t.group child).state = MALI_GROUP_STATE_LEAVING_VIRTUAL := hg
    have hp : (t.group child).parent_group = none := by
      by_contra hn
      have := (h1 child).mp hn
      rw [hs] at this
      exact maliggy_group_core_state.noConfusion this
    constructor
    · intro g
      by_cases hgc : g = child
      · subst hgc; simp [hp]
      · simp only [Function.update_noteq hgc]; exact h1 g
    · intro p g
      by_cases hgc : g = child
      · subst hgc; simpa using h2 p g
      · simp only [Function.update_noteq hgc]; exact h2 p g

theorem vtable0_initial : vtable0.initial := by
  refine ⟨?_, ?_, fun _ => rfl⟩
  · intro g
    by_cases h : g = 1 <;> simp [vtable0, h] <;> rfl
  · intro g
    by_cases h : g = 1 <;> simp [vtable0, h] <;> rfl

theorem vtable_joining_reachable (cfg : Config) (power_on : Bool) :
    VReachable cfg power_on vtable0 (world_of []) vtable_joining (world_of []) :=
  VReachable.step (.set_joining 0) VReachable.init ⟨rfl, rfl⟩ rfl

/-! ## Sessions and running jobs -/

theorem SessDec.dec_refl (g : maliggy_group) : SessDec g g :=
  ⟨Or.inl rfl, Or.inl rfl, Or.inl rfl⟩

theorem SessDec.dec_trans {a b c : maliggy_group} (h1 : SessDec a b) (h2 : SessDec b c) :
    SessDec a c := by
  obtain ⟨a1, a2, a3⟩ := h1
  obtain ⟨b1, b2, b3⟩ := h2
  refine ⟨?_, ?_, ?_⟩
  · rcases b1 with h | h
    · rw [h]; exact a1
    · exact Or.inr h
  · rcases b2 with h | h
    · rw [h]; exact a2
    · exact Or.inr h
  · rcases b3 with h | h
    · rcases a3 with k | k
      · left; rw [h, k]
      · right
        constructor
        · rcases b1 with e | e
          · rw [e]; exact k.1
          · exact e
        · rcases b2 with e | e
          · rw [e]; exact k.2
          · exact e
    · exact Or.inr h

theorem SessDec.sess_ok {g g1 : maliggy_group} (h : SessDec g g1) (hk : g.sess_ok) :
    g1.sess_ok := by
  obtain ⟨a1, a2, a3⟩ := h
  constructor
  · intro j hj
    rcases a1 with e | e
    · rcases a3 with k | k
      · rw [k]; exact hk.1 j (by rw [← e]; exact hj)
      · rw [k.1] at hj; exact Option.noConfusion hj
    · rw [e] at hj; exact Option.noConfusion hj
  · intro j hj
    rcases a2 with e | e
    · rcases a3 with k | k
      · rw [k]; exact hk.2 j (by rw [← e]; exact hj)
      · rw [k.2] at hj; exact Option.noConfusion hj
    · rw [e] at hj; exact Option.noConfusion hj

theorem SessDec.of_none (g g1 : maliggy_group) (h1 : g1.gp_running_job = none)
    (h2 : g1.pp_running_job = none) : SessDec g g1 :=
  ⟨Or.inr h1, Or.inr h2, Or.inr ⟨h1, h2⟩⟩

theorem SessDec.of_same (g g1 : maliggy_group) (h1 : g1.gp_running_job = g.gp_running_job)
    (h2 : g1.pp_running_job = g.pp_running_job) (h3 : g1.session = g.session) : SessDec g g1 :=
  ⟨Or.inl h1, Or.inl h2, Or.inl h3⟩

/-- What the invariants of the shape say about the job slots. -/
theorem slots_jobs (g : maliggy_group) (h : g.shape.slots_ok) :
    (g.gp_core.isSome = true → g.pp_running_job = none)
    ∧ (g.pp_core.isSome = true → g.gp_running_job = none)
    ∧ (g.pp_core = none → g.pp_running_job = none)
    ∧ (g.gp_running_job ≠ none → g.pp_running_job = none)
    ∧ (g.pp_running_job ≠ none → g.gp_running_job = none)
    ∧ (g.state = MALI_GROUP_STATE_IDLE → g.gp_running_job = none ∧ g.pp_running_job = none)
    ∧ (g.gp_running_job ≠ none → g.state ≠ MALI_GROUP_STATE_IDLE)
    ∧ (g.pp_running_job ≠ none → g.state ≠ MALI_GROUP_STATE_IDLE)
    ∧ maliggy_group_is_in_virtual g = false := by
  unfold Shape.slots_ok maliggy_group.shape at h
  unfold maliggy_group_is_in_virtual
  cases hg : g.gp_running_job <;> cases hp : g.pp_running_job <;> cases hc : g.pp_core
    <;> cases hd : g.gp_core <;> cases hs : g.state <;> simp_all

theorem ref_jobs (g : maliggy_group) (h : g.shape.ref_ok) :
    (g.page_dir_ref_count = 0 → g.gp_running_job = none ∧ g.pp_running_job = none)
    ∧ (g.gp_running_job ≠ none ∨ g.pp_running_job ≠ none → g.page_dir_ref_count = 1) := by
  unfold Shape.ref_ok maliggy_group.shape at h
  cases hg : g.gp_running_job <;> cases hp : g.pp_running_job <;> simp_all

theorem complete_gp_jobs (cfg : Config) (g : maliggy_group) (success : Bool) (w : World) :
    (maliggy_group_complete_gp cfg g success w).1.gp_running_job = none
    ∧ (maliggy_group_complete_gp cfg g success w).1.pp_running_job = g.pp_running_job
    ∧ (maliggy_group_complete_gp cfg g success w).1.page_dir_ref_count
        = g.page_dir_ref_count - 1 := by
  obtain ⟨ok, t, hg, -⟩ := group_complete_gp_spec cfg g success w
  rw [hg]
  exact ⟨rfl, rfl, rfl⟩

theorem complete_pp_jobs (cfg : Config) (g : maliggy_group) (success : Bool) (w : World) :
    (maliggy_group_complete_pp cfg g success w).1.pp_running_job = none
    ∧ (maliggy_group_complete_pp cfg g success w).1.gp_running_job = g.gp_running_job
    ∧ (maliggy_group_complete_pp cfg g success w).1.page_dir_ref_count
        = g.page_dir_ref_count - 1 := by
  obtain ⟨ok, t, hg, -⟩ := group_complete_pp_spec cfg g success w
  rw [hg]
  exact ⟨rfl, rfl, rfl⟩

theorem dec_complete_gp (cfg : Config) (g0 g : maliggy_group) (success : Bool) (w : World)
    (h : g.pp_running_job = none) : SessDec g0 (maliggy_group_complete_gp cfg g success w).1 := by
  obtain ⟨a, b, -⟩ := complete_gp_jobs cfg g success w
  exact SessDec.of_none _ _ a (by rw [b, h])

theorem dec_complete_pp (cfg : Config) (g0 g : maliggy_group) (success : Bool) (w : World)
    (h : g.gp_running_job = none) : SessDec g0 (maliggy_group_complete_pp cfg g success w).1 := by
  obtain ⟨a, b, -⟩ := complete_pp_jobs cfg g success w
  exact SessDec.of_none _ _ (by rw [b, h]) a

theorem dec_mmu_page_fault (cfg : Config) (g0 g : maliggy_group) (w : World)
    (h1 : g.pp_core.isSome = true → g.gp_running_job = none)
    (h2 : g.pp_core = none → g.pp_running_job = none) :
    SessDec g0 (maliggy_group_mmu_page_fault cfg g w).1 := by
  cases hc : g.pp_core with
  | none =>
    obtain ⟨t, -, hg, -⟩ := group_mmu_page_fault_gp cfg g w hc
    rw [hg]
    exact SessDec.of_none _ _ rfl (h2 hc)
  | some c =>
    obtain ⟨t, -, hg, -⟩ := group_mmu_page_fault_pp cfg g w (by rw [hc]; rfl)
    rw [hg]
    exact SessDec.of_none _ _ (h1 (by rw [hc]; rfl)) rfl

theorem dec_remove_session_if_unused (cfg : Config) (g : maliggy_group) (s : Nat) (w : World)
    (h : g.page_dir_ref_count = 0 → g.gp_running_job = none ∧ g.pp_running_job = none) :
    SessDec g (maliggy_group_remove_session_if_unused cfg g s w).1 := by
  unfold maliggy_group_remove_session_if_unused
  split_ifs with h1 h2
  · exact SessDec.of_none _ _ (h h1).1 (h h1).2
  · exact SessDec.dec_refl g
  · exact SessDec.dec_refl g

/-- The result of `maliggy_group_abort_session` on a group that satisfies the invariants of the
job slots: nothing to abort, a GP job aborted, or a PP job aborted. -/
theorem abort_session_spec (cfg : Config) (g : maliggy_group) (s : Nat) (w : World)
    (hs : g.shape.slots_ok) :
    ((∀ j, g.gp_running_job = some j → j.session ≠ s)
      → (∀ j, g.pp_running_job = some j → j.session ≠ s)
      → maliggy_group_abort_session cfg g s w = some
          ((maliggy_group_remove_session_if_unused cfg g s (maliggy_group_lock w)).1,
            maliggy_group_unlock
              (maliggy_group_remove_session_if_unused cfg g s (maliggy_group_lock w)).2))
    ∧ (∀ j, g.gp_running_job = some j → j.session = s
      → maliggy_group_abort_session cfg g s w = some
          ((maliggy_group_remove_session_if_unused cfg
              (maliggy_group_complete_gp cfg g false (maliggy_group_lock w)).1 s
              (maliggy_group_complete_gp cfg g false (maliggy_group_lock w)).2).1,
            maliggy_group_unlock
              (maliggy_group_remove_session_if_unused cfg
                (maliggy_group_complete_gp cfg g false (maliggy_group_lock w)).1 s
                (maliggy_group_complete_gp cfg g false (maliggy_group_lock w)).2).2))
    ∧ (∀ j, g.pp_running_job = some j → j.session = s
      → maliggy_group_abort_session cfg g s w = some
          ((maliggy_group_remove_session_if_unused cfg
              (maliggy_group_complete_pp cfg g false (maliggy_group_lock w)).1 s
              (maliggy_group_complete_pp cfg g false (maliggy_group_lock w)).2).1,
            maliggy_group_unlock
              (maliggy_group_remove_session_if_unused cfg
                (maliggy_group_complete_pp cfg g false (maliggy_group_lock w)).1 s
                (maliggy_group_complete_pp cfg g false (maliggy_group_lock w)).2).2)) := by
  obtain ⟨-, -, -, f4, f5, -, f7, f8, f9⟩ := slots_jobs g hs
  refine ⟨?_, ?_, ?_⟩
  · intro h1 h2
    unfold maliggy_group_abort_session
    cases hg : g.gp_running_job with
    | none =>
      cases hp : g.pp_running_job with
      | none => simp [f9]
      | some jp => simp [f9, h2 jp hp]
    | some jg =>
      have hp : g.pp_running_job = none := f4 (by rw [hg]; simp)
      simp [f9, hp, h1 jg hg]
  · intro j hj hsj
    have hp : g.pp_running_job = none := f4 (by rw [hj]; simp)
    have hst := f7 (by rw [hj]; simp)
    unfold maliggy_group_abort_session
    simp [f9, hj, hp, hsj, maliggy_group_abort_gp_job, hst]
  · intro j hj hsj
    have hg : g.gp_running_job = none := f5 (by rw [hj]; simp)
    have hst := f8 (by rw [hj]; simp)
    unfold maliggy_group_abort_session
    simp [f9, hj, hg, hsj, maliggy_group_abort_pp_job, hst]

theorem dec_bottom_half_gp (cfg : Config) (g : maliggy_group) (w : World)
    (h : g.pp_running_job = none) : SessDec g (maliggy_group_bottom_half_gp cfg g w).1 := by
  have hc : ({ g with core_timed_out := false } : maliggy_group).pp_running_job = none := h
  unfold maliggy_group_bottom_half_gp maliggy_group_bottom_half_gp_rest
  simp only []
  split_ifs <;>
    first
    | exact dec_complete_gp cfg g _ _ _ hc
    | exact SessDec.of_same _ _ rfl rfl rfl

theorem dec_bottom_half_pp (cfg : Config) (g : maliggy_group) (w : World)
    (h : g.gp_running_job = none) : SessDec g (maliggy_group_bottom_half_pp cfg g w).1 := by
  have hc : ({ g with core_timed_out := false } : maliggy_group).gp_running_job = none := h
  unfold maliggy_group_bottom_half_pp
  simp only []
  split_ifs <;>
    first
    | exact dec_complete_pp cfg g _ _ _ hc
    | exact SessDec.of_same _ _ rfl rfl rfl

theorem dec_bottom_half_mmu (cfg : Config) (g : maliggy_group) (w : World)
    (h1 : g.pp_core.isSome = true → g.gp_running_job = none)
    (h2 : g.pp_core = none → g.pp_running_job = none) :
    SessDec g (maliggy_group_bottom_half_mmu cfg g w).1 := by
  unfold maliggy_group_bottom_half_mmu
  simp only []
  split_ifs <;>
    first
    | exact dec_mmu_page_fault cfg g g _ h1 h2
    | exact SessDec.dec_refl g

theorem dec_timeout (g : maliggy_group) (w : World) : SessDec g (maliggy_group_timeout g w).1 := by
  unfold maliggy_group_timeout
  cases g.gp_core <;> exact SessDec.of_same _ _ rfl rfl rfl

theorem dec_zap_session (cfg : Config) (g : maliggy_group) (s : Nat) (w : World)
    (h0 : g.page_dir_ref_count = 0 → g.gp_running_job = none ∧ g.pp_running_job = none)
    (h1 : g.pp_core.isSome = true → g.gp_running_job = none)
    (h2 : g.pp_core = none → g.pp_running_job = none) :
    SessDec g (maliggy_group_zap_session cfg g s w).1 := by
  have hd := dec_remove_session_if_unused cfg g s (maliggy_group_lock w) h0
  have hc : (maliggy_group_remove_session_if_unused cfg g s (maliggy_group_lock w)).1.pp_core
      = g.pp_core := by
    unfold maliggy_group_remove_session_if_unused
    split_ifs <;> rfl
  have hj : (maliggy_group_remove_session_if_unused cfg g s (maliggy_group_lock w)).1.gp_running_job
        = g.gp_running_job
      ∧ (maliggy_group_remove_session_if_unused cfg g s
          (maliggy_group_lock w)).1.pp_running_job = g.pp_running_job := by
    unfold maliggy_group_remove_session_if_unused
    split_ifs <;> exact ⟨rfl, rfl⟩
  unfold maliggy_group_zap_session
  simp only []
  split_ifs <;>
    first
    | exact SessDec.dec_refl g
    | exact hd
    | exact dec_mmu_page_fault cfg g _ _ (by rw [hc, hj.1]; exact h1) (by rw [hc, hj.2]; exact h2)

theorem dec_resume_gp_with_new_heap (cfg : Config) (g : maliggy_group)
    (job_id start_addr end_addr : Nat) (w : World)
    (r : Option maliggy_gp_job × maliggy_group × World)
    (h : maliggy_group_resume_gp_with_new_heap cfg g job_id start_addr end_addr w = some r) :
    SessDec g r.2.1 := by
  unfold maliggy_group_resume_gp_with_new_heap at h
  by_cases hs : g.state = MALI_GROUP_STATE_OOM
  · cases hj : g.gp_running_job with
    | none => simp [hs, hj] at h
    | some job =>
      simp only [hs, hj, ne_eq, not_true_eq_false, if_false] at h
      split_ifs at h <;> simp at h <;> rw [← h] <;>
        first
        | exact SessDec.dec_refl g
        | exact SessDec.of_same _ _ rfl rfl rfl
        | exact SessDec.of_same _ _ hj.symm rfl rfl
  · simp [hs] at h
    rw [← h]
    exact SessDec.dec_refl g

theorem dec_abort_gp_job (cfg : Config) (g : maliggy_group) (job_id : Nat) (w : World)
    (r : maliggy_group × World) (hp : g.gp_running_job ≠ none → g.pp_running_job = none)
    (h : maliggy_group_abort_gp_job cfg g job_id w = some r) : SessDec g r.1 := by
  unfold maliggy_group_abort_gp_job at h
  split_ifs at h with h1
  · simp at h
    rw [← h]
    exact SessDec.dec_refl g
  · cases hj : g.gp_running_job with
    | none => simp [hj] at h
    | some job =>
      simp only [hj] at h
      split_ifs at h <;> simp at h <;> rw [← h]
      · exact SessDec.dec_refl g
      · exact dec_complete_gp cfg g g _ _ (hp (by rw [hj]; simp))

theorem dec_abort_pp_job (cfg : Config) (g : maliggy_group) (job_id : Nat) (w : World)
    (r : maliggy_group × World) (hp : g.pp_running_job ≠ none → g.gp_running_job = none)
    (h : maliggy_group_abort_pp_job cfg g job_id w = some r) : SessDec g r.1 := by
  unfold maliggy_group_abort_pp_job at h
  split_ifs at h with h1
  · simp at h
    rw [← h]
    exact SessDec.dec_refl g
  · cases hj : g.pp_running_job with
    | none => simp [hj] at h
    | some job =>
      simp only [hj] at h
      split_ifs at h <;> simp at h <;> rw [← h]
      · exact SessDec.dec_refl g
      · exact dec_complete_pp cfg g g _ _ (hp (by rw [hj]; simp))

theorem activate_page_directory_view (cfg : Config) (g : maliggy_group) (session : Nat)
    (w : World) :
    (maliggy_group_activate_page_directory cfg g session w).2.1.gp_running_job
        = g.gp_running_job
    ∧ (maliggy_group_activate_page_directory cfg g session w).2.1.pp_running_job
        = g.pp_running_job
    ∧ ((maliggy_group_activate_page_directory cfg g session w).1
          ≠ MALI_GROUP_ACTIVATE_PD_STATUS_FAILED →
        (maliggy_group_activate_page_directory cfg g session w).2.1.session = some session)
    ∧ ((maliggy_group_activate_page_directory cfg g session w).1
          = MALI_GROUP_ACTIVATE_PD_STATUS_FAILED →
        (maliggy_group_activate_page_directory cfg g session w).2.1 = g) := by
  unfold maliggy_group_activate_page_directory
  simp only []
  split_ifs with h1 h2 h3 h4 <;> simp_all

theorem sess_start_gp_job (cfg : Config) (g : maliggy_group) (job : maliggy_gp_job) (w : World)
    (hk : g.sess_ok) (hp : g.pp_running_job = none) :
    (maliggy_group_start_gp_job cfg g job w).1.sess_ok := by
  rw [group_start_gp_job_eq]
  simp only []
  obtain ⟨-, a2, a3, a4⟩ := activate_page_directory_view cfg g job.session
    (maliggy_l2_cache_invalidate_conditional cfg g.l2_cache_core.1 job.id w).2
  generalize maliggy_group_activate_page_directory cfg g job.session _ = a at a2 a3 a4 ⊢
  by_cases h : a.1 = MALI_GROUP_ACTIVATE_PD_STATUS_FAILED
  · rw [if_neg (not_not.mpr h)]
    show a.2.1.sess_ok
    rw [a4 h]
    exact hk
  · rw [if_pos h]
    constructor
    · intro j hj
      simp only [Option.some.injEq] at hj
      subst hj
      exact a3 h
    · intro j hj
      have : a.2.1.pp_running_job = some j := hj
      rw [a2, hp] at this
      exact Option.noConfusion this

theorem sess_start_pp_job (cfg : Config) (g : maliggy_group) (job : maliggy_pp_job)
    (sub_job : Nat) (w : World) (hk : g.sess_ok) (hp : g.gp_running_job = none) :
    (maliggy_group_start_pp_job cfg g job sub_job w).1.sess_ok := by
  rw [group_start_pp_job_eq]
  simp only []
  obtain ⟨a1, -, a3, a4⟩ := activate_page_directory_view cfg g job.session
    (maliggy_l2_cache_invalidate_conditional cfg g.l2_cache_core.2 job.id
      (maliggy_l2_cache_invalidate_conditional cfg g.l2_cache_core.1 job.id w).2).2
  generalize maliggy_group_activate_page_directory cfg g job.session _ = a at a1 a3 a4 ⊢
  by_cases h : a.1 = MALI_GROUP_ACTIVATE_PD_STATUS_FAILED
  · rw [if_neg (not_not.mpr h)]
    show a.2.1.sess_ok
    rw [a4 h]
    exact hk
  · rw [if_pos h]
    constructor
    · intro j hj
      have : a.2.1.gp_running_job = some j := hj
      rw [a1, hp] at this
      exact Option.noConfusion this
    · intro j hj
      simp only [Option.some.injEq] at hj
      subst hj
      exact a3 h

theorem dec_abort_session (cfg : Config) (g : maliggy_group) (s : Nat) (w : World)
    (r : maliggy_group × World) (hs : g.shape.slots_ok) (hr : g.shape.ref_ok)
    (h : maliggy_group_abort_session cfg g s w = some r) : SessDec g r.1 := by
  obtain ⟨-, -, -, f4, f5, -⟩ := slots_jobs g hs
  obtain ⟨sa, sb, sc⟩ := abort_session_spec cfg g s w hs
  by_cases hg : ∃ j, g.gp_running_job = some j ∧ j.session = s
  · obtain ⟨j, hj, hjs⟩ := hg
    rw [sb j hj hjs] at h
    simp only [Option.some.injEq] at h
    rw [← h]
    obtain ⟨c1, c2, -⟩ := complete_gp_jobs cfg g false (maliggy_group_lock w)
    have hpn : g.pp_running_job = none := f4 (by rw [hj]; simp)
    exact SessDec.dec_trans (dec_complete_gp cfg g g false _ hpn)
      (dec_remove_session_if_unused cfg _ s _ (fun _ => ⟨c1, by rw [c2, hpn]⟩))
  · by_cases hp : ∃ j, g.pp_running_job = some j ∧ j.session = s
    · obtain ⟨j, hj, hjs⟩ := hp
      rw [sc j hj hjs] at h
      simp only [Option.some.injEq] at h
      rw [← h]
      obtain ⟨c1, c2, -⟩ := complete_pp_jobs cfg g false (maliggy_group_lock w)
      have hgn : g.gp_running_job = none := f5 (by rw [hj]; simp)
      exact SessDec.dec_trans (dec_complete_pp cfg g g false _ hgn)
        (dec_remove_session_if_unused cfg _ s _ (fun _ => ⟨by rw [c2, hgn], c1⟩))
    · rw [sa (fun j hj hjs => hg ⟨j, hj, hjs⟩) (fun j hj hjs => hp ⟨j, hj, hjs⟩)] at h
      simp only [Option.some.injEq] at h
      rw [← h]
      exact dec_remove_session_if_unused cfg g s _ (ref_jobs g hr).1

/-- One operation keeps the session of the group equal to the session of its running job. -/
theorem sess_step (cfg : Config) (op : Op) (g : maliggy_group) (w : World) (g1 : maliggy_group)
    (w1 : World) (hk : g.sess_ok) (hs : g.shape.slots_ok) (hr : g.shape.ref_ok)
    (hg : op.guard_running g) (h : op.apply cfg g w = some (g1, w1)) : g1.sess_ok := by
  obtain ⟨f1, f2, f3, f4, f5, f6, -⟩ := slots_jobs g hs
  have r0 := (ref_jobs g hr).1
  cases op with
  | start_gp_job job =>
    simp only [Op.apply, Option.some.injEq] at h
    have e : g1 = (maliggy_group_start_gp_job cfg g job w).1 := by rw [h]
    rw [e]
    exact sess_start_gp_job cfg g job w hk (f6 hg.1.1).2
  | start_pp_job job sub_job =>
    simp only [Op.apply, Option.some.injEq] at h
    have e : g1 = (maliggy_group_start_pp_job cfg g job sub_job w).1 := by rw [h]
    rw [e]
    exact sess_start_pp_job cfg g job sub_job w hk (f6 hg.1.1).1
  | bottom_half_gp =>
    simp only [Op.apply, Option.some.injEq] at h
    have e : g1 = (maliggy_group_bottom_half_gp cfg g w).1 := by rw [h]
    rw [e]
    exact (dec_bottom_half_gp cfg g w (f1 hg.1)).sess_ok hk
  | bottom_half_pp =>
    simp only [Op.apply, Option.some.injEq] at h
    have e : g1 = (maliggy_group_bottom_half_pp cfg g w).1 := by rw [h]
    rw [e]
    exact (dec_bottom_half_pp cfg g w (f2 hg.1)).sess_ok hk
  | bottom_half_mmu =>
    simp only [Op.apply, Option.some.injEq] at h
    have e : g1 = (maliggy_group_bottom_half_mmu cfg g w).1 := by rw [h]
    rw [e]
    exact (dec_bottom_half_mmu cfg g w f2 f3).sess_ok hk
  | timeout =>
    simp only [Op.apply, Option.some.injEq] at h
    have e : g1 = (maliggy_group_timeout g w).1 := by rw [h]
    rw [e]
    exact (dec_timeout g w).sess_ok hk
  | resume_gp_with_new_heap job_id start_addr end_addr =>
    simp only [Op.apply, Option.map_eq_some'] at h
    obtain ⟨r, h1, h2⟩ := h
    have e : g1 = r.2.1 := by rw [h2]
    rw [e]
    exact (dec_resume_gp_with_new_heap cfg g job_id start_addr end_addr w r h1).sess_ok hk
  | abort_gp_job job_id =>
    exact (dec_abort_gp_job cfg g job_id w (g1, w1) f4 h).sess_ok hk
  | abort_pp_job job_id =>
    exact (dec_abort_pp_job cfg g job_id w (g1, w1) f5 h).sess_ok hk
  | abort_session session =>
    exact (dec_abort_session cfg g session w (g1, w1) hs hr h).sess_ok hk
  | zap_session session =>
    simp only [Op.apply, Option.some.injEq] at h
    have e : g1 = (maliggy_group_zap_session cfg g session w).1 := by rw [h]
    rw [e]
    exact (dec_zap_session cfg g session w r0 f2 f3).sess_ok hk
  | complete_gp success =>
    simp only [Op.apply, Option.some.injEq] at h
    have e : g1 = (maliggy_group_complete_gp cfg g success w).1 := by rw [h]
    rw [e]
    exact (dec_complete_gp cfg g g success w (f1 hg.1)).sess_ok hk
  | complete_pp success =>
    simp only [Op.apply, Option.some.injEq] at h
    have e : g1 = (maliggy_group_complete_pp cfg g success w).1 := by rw [h]
    rw [e]
    exact (dec_complete_pp cfg g g success w (f2 hg.1)).sess_ok hk
  | mmu_page_fault =>
    simp only [Op.apply, Option.some.injEq] at h
    have e : g1 = (maliggy_group_mmu_page_fault cfg g w).1 := by rw [h]
    rw [e]
    exact (dec_mmu_page_fault cfg g g w f2 f3).sess_ok hk

theorem fresh_sess_ok (g : maliggy_group) (h : Fresh g) : g.sess_ok := by
  rcases h with ⟨l2, core, e⟩ | ⟨l2, dlbu, bcast, core, children, e⟩
  · rw [e]
    constructor <;> intro j hj <;> exact Option.noConfusion hj
  · rw [e]
    constructor <;> intro j hj <;> exact Option.noConfusion hj

theorem reachable_sess_ok (cfg : Config) (g0 : maliggy_group) (w0 : World) (g : maliggy_group)
    (w : World) (hf : Fresh g0) (hr : Reachable cfg Op.guard_running g0 w0 g w) :
    g.sess_ok := by
  induction hr with
  | init => exact fresh_sess_ok g0 hf
  | step op hprev hg ha ih =>
    obtain ⟨s1, s2⟩ := reachable_ref_ok cfg g0 w0 _ _ hf hprev
    exact sess_step cfg op _ _ _ _ ih s1 s2 hg ha

theorem callbacks_append (a b : List Ev) : callbacks (a ++ b) = callbacks a ++ callbacks b := by
  simp [callbacks]

theorem callbacks_obs (l : List Ev) : callbacks (obs l) = callbacks l := by
  unfold callbacks obs
  rw [List.filter_filter]
  congr 1
  funext e
  cases e <;> simp [Ev.is_callback, Ev.low]

theorem callbacks_eq_nil (l : List Ev) (h : ∀ e ∈ l, e.is_callback = false) :
    callbacks l = [] := by
  unfold callbacks
  rw [List.filter_eq_nil_iff]
  intro e he
  rw [h e he]
  simp

theorem callbacks_of_obs (l l0 x : List Ev) (h : obs l = obs l0 ++ x) :
    callbacks l = callbacks l0 ++ callbacks x := by
  rw [← callbacks_obs l, h, callbacks_append, callbacks_obs]

theorem callbacks_lock (w : World) : callbacks (maliggy_group_lock w).log = callbacks w.log := by
  rw [callbacks_of_obs _ w.log _ (obs_group_lock w)]
  simp [callbacks, Ev.is_callback]

theorem callbacks_unlock (w : World) :
    callbacks (maliggy_group_unlock w).log = callbacks w.log := by
  rw [callbacks_of_obs _ w.log _ (obs_group_unlock w)]
  simp [callbacks, Ev.is_callback]

theorem callbacks_remove_session_if_unused (cfg : Config) (g : maliggy_group) (s : Nat)
    (w : World) :
    callbacks (maliggy_group_remove_session_if_unused cfg g s w).2.log = callbacks w.log := by
  rw [callbacks_of_obs _ w.log _ (obs_group_remove_session_if_unused cfg g s w)]
  split_ifs <;> simp [callbacks, Ev.is_callback]

theorem remove_session_if_unused_session (cfg : Config) (g : maliggy_group) (s : Nat)
    (w : World) :
    (maliggy_group_remove_session_if_unused cfg g s w).1.gp_running_job = g.gp_running_job
    ∧ (maliggy_group_remove_session_if_unused cfg g s w).1.pp_running_job = g.pp_running_job
    ∧ (maliggy_group_remove_session_if_unused cfg g s w).1.state = g.state
    ∧ (g.page_dir_ref_count = 0 →
        (maliggy_group_remove_session_if_unused cfg g s w).1.session ≠ some s)
    ∧ (g.session ≠ some s →
        (maliggy_group_remove_session_if_unused cfg g s w).1.session ≠ some s) := by
  unfold maliggy_group_remove_session_if_unused
  split_ifs with h1 h2 <;> simp_all

/-! ## Bounded polls and the hardware oracle -/

theorem World.read_reads (w : World) :
    w.read.1 = w.reads.getD 0 0 % 4294967296 ∧ w.read.2.reads = w.reads.drop 1 := by
  cases h : w.reads <;> simp [World.read, h]

/-- A poll of at most `n` reads consumes `k <= n` values of the oracle; when it stops by `break`
it has read at least one value, the value it returns is the last one read and satisfies the exit
test; when it runs out it has read `n` values. -/
theorem poll_register_reads (c : HwCore) (r : Reg) (stop : Nat → Bool) (n last : Nat)
    (w : World) :
    ∃ k, k ≤ n ∧ (poll_register c r stop n last w).2.2.reads = w.reads.drop k
      ∧ ((poll_register c r stop n last w).1 = true →
          1 ≤ k ∧ (poll_register c r stop n last w).2.1 = w.reads.getD (k - 1) 0 % 4294967296
          ∧ stop (poll_register c r stop n last w).2.1 = true)
      ∧ ((poll_register c r stop n last w).1 = false → k = n) := by
  induction n generalizing last w with
  | zero => exact ⟨0, Nat.le_refl _, rfl, fun h => Bool.noConfusion h, fun _ => rfl⟩
  | succ n ih =>
    obtain ⟨r1, r2⟩ := World.read_reads w
    simp only [poll_register, maliggy_hw_core_register_read]
    by_cases hs : stop w.read.1 = true
    · rw [if_pos hs]
      exact ⟨1, by omega, r2, fun _ => ⟨Nat.le_refl _, r1, hs⟩, fun h => Bool.noConfusion h⟩
    · rw [if_neg hs]
      obtain ⟨k, hk, e, h1, h2⟩ := ih w.read.1 w.read.2
      refine ⟨k + 1, by omega, ?_, ?_, ?_⟩
      · rw [e, r2, List.drop_drop]
        congr 1
        omega
      · intro ht
        obtain ⟨a, b, d⟩ := h1 ht
        refine ⟨by omega, ?_, d⟩
        rw [b, r2]
        have : k + 1 - 1 = (k - 1) + 1 := by omega
        rw [this]
        cases hw : w.reads <;> simp [List.getD]
      · intro hf
        rw [h2 hf]

/-! ## Branches of the bottom halves -/

theorem bottom_half_gp_eq (cfg : Config) (g : maliggy_group) (w : World) :
    maliggy_group_bottom_half_gp cfg g w =
      if g.power_is_on = false then (g, maliggy_group_unlock (maliggy_group_lock w))
      else if (bottom_half_gp_reads cfg w).2.1.any
          (fun core_status => core_status &&& cfg.MALIGP2_REG_VAL_STATUS_MASK_ACTIVE == 0) then
        ((maliggy_group_complete_gp cfg { g with core_timed_out := false } true
            (bottom_half_gp_reads cfg w).2.2).1,
          maliggy_group_unlock (maliggy_group_complete_gp cfg { g with core_timed_out := false }
            true (bottom_half_gp_reads cfg w).2.2).2)
      else maliggy_group_bottom_half_gp_rest cfg g (bottom_half_gp_reads cfg w).1
        (bottom_half_gp_reads cfg w).2.2 := by
  unfold maliggy_group_bottom_half_gp bottom_half_gp_reads
  simp only []
  split_ifs <;> simp_all

theorem bottom_half_gp_clean_iff (cfg : Config) (w : World) :
    (bottom_half_gp_reads cfg w).2.1.any
        (fun core_status => core_status &&& cfg.MALIGP2_REG_VAL_STATUS_MASK_ACTIVE == 0) = true
      ↔ bottom_half_gp_clean cfg w := by
  unfold bottom_half_gp_clean
  cases (bottom_half_gp_reads cfg w).2.1 <;> simp

theorem bottom_half_gp_reads_obs (cfg : Config) (w : World) :
    obs (bottom_half_gp_reads cfg w).2.2.log = obs w.log ++ [.call .maliggy_group_lock []] := by
  unfold bottom_half_gp_reads
  simp only []
  split_ifs <;> simp

theorem gp_enables_append (a b : List Ev) : gp_enables (a ++ b) = gp_enables a ++ gp_enables b := by
  simp [gp_enables]

theorem gp_enables_obs (l : List Ev) : gp_enables (obs l) = gp_enables l := by
  unfold gp_enables obs
  rw [List.filter_filter]
  congr 1
  funext e
  cases e with
  | call f args => cases f <;> simp [Ev.is_gp_enable_interrupts, Ev.low]
  | _ => simp [Ev.is_gp_enable_interrupts, Ev.low]

theorem gp_enables_of_obs (l l0 x : List Ev) (h : obs l = obs l0 ++ x) :
    gp_enables l = gp_enables l0 ++ gp_enables x := by
  rw [← gp_enables_obs l, h, gp_enables_append, gp_enables_obs]

theorem gp_enables_reset_detail (t : List Ev) (h : ∀ e ∈ t, e.is_reset_detail = true) :
    gp_enables t = [] := by
  unfold gp_enables
  rw [List.filter_eq_nil_iff]
  intro e he
  have := h e he
  cases e with
  | call f args => cases f <;> simp_all [Ev.is_gp_enable_interrupts, Ev.is_reset_detail]
  | _ => simp [Ev.is_gp_enable_interrupts]

theorem gp_enables_unlock (w : World) :
    gp_enables (maliggy_group_unlock w).log = gp_enables w.log := by
  simp [maliggy_group_unlock, World.emit, gp_enables, Ev.is_gp_enable_interrupts]

theorem gp_enables_complete_gp (cfg : Config) (g : maliggy_group) (success : Bool) (w : World) :
    gp_enables (maliggy_group_complete_gp cfg g success w).2.log = gp_enables w.log := by
  obtain ⟨ok, t, -, hl, h1, h2⟩ := group_complete_gp_spec cfg g success w
  rw [gp_enables_of_obs _ w.log _ (by rw [hl, List.append_assoc, List.append_assoc])]
  have ht : gp_enables t = [] := by
    cases ok with
    | true => rw [h1 rfl]; rfl
    | false =>
      obtain ⟨t', e, hp⟩ := h2 rfl
      rw [e]
      have := gp_enables_reset_detail t' hp
      simp [gp_enables, Ev.is_gp_enable_interrupts] at this ⊢
      exact this
  rw [gp_enables_append, gp_enables_append, ht]
  simp [gp_enables, Ev.is_gp_enable_interrupts]

theorem group_with_core_timed_out (g : maliggy_group) (h : g.core_timed_out = false) :
    ({ g with core_timed_out := false } : maliggy_group) = g := by
  cases g
  simp_all

theorem gp_enables_timer_pending (w : World) :
    gp_enables (_maliggy_osk_timer_pending w).2.log = gp_enables w.log := by
  simp [_maliggy_osk_timer_pending, World.emit, World.read, gp_enables,
    Ev.is_gp_enable_interrupts]

theorem gp_enables_enable_interrupts (cfg : Config) (x : Nat) (w : World) :
    gp_enables (maliggy_gp_enable_interrupts cfg x w).log
      = gp_enables w.log ++ [.call .maliggy_gp_enable_interrupts [x]] := by
  simp [maliggy_gp_enable_interrupts, maliggy_hw_core_register_write, World.emit, gp_enables,
    Ev.is_gp_enable_interrupts]

/-- The second part of the GP bottom half, branch by branch: it either falls through to the
final branch, in world `W` (the world it was entered in, or that world after the timer was
asked), or makes no call of `maliggy_gp_enable_interrupts`. -/
theorem bottom_half_gp_rest_branches (cfg : Config) (g : maliggy_group) (irq : Nat) (R : World) :
    let through := gp_irq_errors cfg irq = 0
      ∧ (if g.core_timed_out = true then
          (_maliggy_osk_timer_pending R).1 = true ∨ g.gp_running_job = none
         else irq &&& cfg.MALIGP2_REG_VAL_IRQ_PLBU_OUT_OF_MEM = 0)
    (through →
      maliggy_group_bottom_half_gp_rest cfg g irq R =
        ({ g with core_timed_out := false },
          maliggy_group_unlock (maliggy_gp_enable_interrupts cfg
            (irq &&& (cfg.MALIGP2_REG_VAL_IRQ_PLBU_END_CMD_LST
              ||| cfg.MALIGP2_REG_VAL_IRQ_VS_END_CMD_LST))
            (if g.core_timed_out = true then (_maliggy_osk_timer_pending R).2 else R))))
    ∧ (¬ through →
      gp_enables (maliggy_group_bottom_half_gp_rest cfg g irq R).2.log = gp_enables R.log) := by
  intro through
  unfold maliggy_group_bottom_half_gp_rest
  simp only []
  by_cases herr : gp_irq_errors cfg irq = 0
  · have herr' : ¬ (irq &&& u32_not (cfg.MALIGP2_REG_VAL_IRQ_VS_END_CMD_LST
        ||| cfg.MALIGP2_REG_VAL_IRQ_PLBU_END_CMD_LST ||| cfg.MALIGP2_REG_VAL_IRQ_HANG
        ||| cfg.MALIGP2_REG_VAL_IRQ_PLBU_OUT_OF_MEM) ≠ 0) := not_not.mpr herr
    rw [if_neg herr']
    by_cases hto : g.core_timed_out = true
    · rw [if_pos hto]
      by_cases hp : (_maliggy_osk_timer_pending R).1 = true ∨ g.gp_running_job = none
      · have hc : ¬ ((!(_maliggy_osk_timer_pending R).1
            && ({ g with core_timed_out := false } : maliggy_group).gp_running_job.isSome)
            = true) := by
          rcases hp with h | h
          · simp [h]
          · simp [h]
        rw [if_neg hc]
        refine ⟨fun _ => by rw [if_pos hto], fun hn => absurd ⟨herr, by rw [if_pos hto]; exact hp⟩ hn⟩
      · have hc : ((!(_maliggy_osk_timer_pending R).1
            && ({ g with core_timed_out := false } : maliggy_group).gp_running_job.isSome)
            = true) := by
          have h1 : (_maliggy_osk_timer_pending R).1 = false := by
            cases h : (_maliggy_osk_timer_pending R).1
            · rfl
            · exact absurd (Or.inl h) hp
          have h2 : g.gp_running_job ≠ none := fun h => hp (Or.inr h)
          cases hj : g.gp_running_job with
          | none => exact absurd hj h2
          | some j => simp [h1, hj]
        rw [if_pos hc]
        refine ⟨fun ht => ?_, fun _ => ?_⟩
        · have := ht.2
          rw [if_pos hto] at this
          exact absurd this hp
        · show gp_enables (maliggy_group_unlock _).log = _
          rw [gp_enables_unlock, gp_enables_complete_gp, gp_enables_timer_pending]
    · have hto' : g.core_timed_out = false := by simpa using hto
      have hb : ¬ ((g.core_timed_out : Bool) = true) := hto
      rw [if_neg hb]
      by_cases hoom : irq &&& cfg.MALIGP2_REG_VAL_IRQ_PLBU_OUT_OF_MEM = 0
      · rw [if_neg (not_not.mpr hoom)]
        refine ⟨fun _ => ?_, fun hn => absurd ⟨herr, by rw [if_neg hto]; exact hoom⟩ hn⟩
        rw [if_neg hto, group_with_core_timed_out g hto']
      · rw [if_pos hoom]
        refine ⟨fun ht => ?_, fun _ => ?_⟩
        · have := ht.2
          rw [if_neg hto] at this
          exact absurd this hoom
        · simp [maliggy_group_unlock, World.emit, gp_enables, Ev.is_gp_enable_interrupts]
  · have herr' : irq &&& u32_not (cfg.MALIGP2_REG_VAL_IRQ_VS_END_CMD_LST
        ||| cfg.MALIGP2_REG_VAL_IRQ_PLBU_END_CMD_LST ||| cfg.MALIGP2_REG_VAL_IRQ_HANG
        ||| cfg.MALIGP2_REG_VAL_IRQ_PLBU_OUT_OF_MEM) ≠ 0 := herr
    rw [if_pos herr']
    refine ⟨fun ht => absurd ht.1 herr, fun _ => ?_⟩
    show gp_enables (maliggy_group_unlock _).log = _
    rw [gp_enables_unlock, gp_enables_complete_gp]

theorem bottom_half_pp_eq (cfg : Config) (g : maliggy_group) (w : World)
    (hv : maliggy_group_is_in_virtual g = false) (hpow : g.power_is_on = true) :
    maliggy_group_bottom_half_pp cfg g w =
      if cfg.MALI200_REG_VAL_IRQ_END_OF_FRAME = (bottom_half_pp_reads cfg g w).1 then
        if (bottom_half_pp_reads cfg g w).2.1.any (fun status_readout =>
            status_readout &&& cfg.MALI200_REG_VAL_STATUS_RENDERING_ACTIVE != 0) then
          (g, maliggy_group_unlock (maliggy_pp_enable_interrupts cfg
            (g.pp_core.getD null_pp_core) (bottom_half_pp_reads cfg g w).2.2))
        else
          ((maliggy_group_complete_pp cfg { g with core_timed_out := false } true
              (bottom_half_pp_reads cfg g w).2.2).1,
            maliggy_group_unlock (maliggy_group_complete_pp cfg
              { g with core_timed_out := false } true (bottom_half_pp_reads cfg g w).2.2).2)
      else if pp_irq_errors cfg (bottom_half_pp_reads cfg g w).1 ≠ 0 then
        ((maliggy_group_complete_pp cfg { g with core_timed_out := false } false
            (bottom_half_pp_reads cfg g w).2.2).1,
          maliggy_group_unlock (maliggy_group_complete_pp cfg
            { g with core_timed_out := false } false (bottom_half_pp_reads cfg g w).2.2).2)
      else if g.core_timed_out = true then
        if (!(_maliggy_osk_timer_pending (bottom_half_pp_reads cfg g w).2.2).1
            && g.pp_running_job.isSome) = true then
          ((maliggy_group_complete_pp cfg { g with core_timed_out := false } false
              (_maliggy_osk_timer_pending (bottom_half_pp_reads cfg g w).2.2).2).1,
            maliggy_group_unlock (maliggy_group_complete_pp cfg
              { g with core_timed_out := false } false
              (_maliggy_osk_timer_pending (bottom_half_pp_reads cfg g w).2.2).2).2)
        else ({ g with core_timed_out := false },
          maliggy_group_unlock (_maliggy_osk_timer_pending (bottom_half_pp_reads cfg g w).2.2).2)
      else (g, maliggy_group_unlock (maliggy_pp_enable_interrupts cfg
        (g.pp_core.getD null_pp_core) (bottom_half_pp_reads cfg g w).2.2)) := by
  have e : bottom_half_pp_reads cfg g w =
      ((maliggy_pp_read_rawstat cfg (g.pp_core.getD null_pp_core) (maliggy_group_lock w)).1,
        (if (decide (cfg.MALI200_REG_VAL_IRQ_END_OF_FRAME
              = (maliggy_pp_read_rawstat cfg (g.pp_core.getD null_pp_core)
                  (maliggy_group_lock w)).1)
            && maliggy_group_is_virtual g) = true
          then (maliggy_pp_read_status (g.pp_core.getD null_pp_core)
            (maliggy_pp_read_rawstat cfg (g.pp_core.getD null_pp_core)
              (maliggy_group_lock w)).2).map some id
          else (none, (maliggy_pp_read_rawstat cfg (g.pp_core.getD null_pp_core)
              (maliggy_group_lock w)).2))) := by
    unfold bottom_half_pp_reads
    simp only []
    by_cases h1 : cfg.MALI200_REG_VAL_IRQ_END_OF_FRAME
        = (maliggy_pp_read_rawstat cfg (g.pp_core.getD null_pp_core) (maliggy_group_lock w)).1
    · cases hvv : maliggy_group_is_virtual g <;> simp [h1, hvv, Prod.map]
    · simp [h1]
  rw [e]
  unfold maliggy_group_bottom_half_pp pp_irq_errors
  simp only [hv, hpow]
  rfl

theorem bottom_half_pp_reads_obs (cfg : Config) (g : maliggy_group) (w : World) :
    obs (bottom_half_pp_reads cfg g w).2.2.log = obs w.log ++ [.call .maliggy_group_lock []] := by
  unfold bottom_half_pp_reads
  simp only []
  split_ifs <;> simp

theorem callbacks_complete_gp (cfg : Config) (g : maliggy_group) (success : Bool) (w : World) :
    callbacks (maliggy_group_complete_gp cfg g success w).2.log = callbacks w.log ++
      [.gp_scheduler_job_done (maliggy_group_complete_gp cfg g success w).1 g.gp_running_job
        success] := by
  obtain ⟨pre, hl, hpre, -⟩ := group_complete_gp_callback cfg g success w
  rw [callbacks_of_obs _ w.log _ (by rw [hl, List.append_assoc]), callbacks_append,
    callbacks_eq_nil pre hpre]
  rfl

theorem callbacks_complete_pp (cfg : Config) (g : maliggy_group) (success : Bool) (w : World) :
    callbacks (maliggy_group_complete_pp cfg g success w).2.log = callbacks w.log ++
      [.pp_scheduler_job_done (maliggy_group_complete_pp cfg g success w).1 g.pp_running_job
        g.pp_running_sub_job success] := by
  obtain ⟨pre, hl, hpre, -⟩ := group_complete_pp_callback cfg g success w
  rw [callbacks_of_obs _ w.log _ (by rw [hl, List.append_assoc]), callbacks_append,
    callbacks_eq_nil pre hpre]
  rfl

theorem complete_gp_flag (cfg : Config) (g : maliggy_group) (success : Bool) (w : World) :
    (maliggy_group_complete_gp cfg g success w).1.core_timed_out = g.core_timed_out
    ∧ (maliggy_group_complete_gp cfg g success w).1.state = MALI_GROUP_STATE_IDLE := by
  obtain ⟨ok, t, hg, -⟩ := group_complete_gp_spec cfg g success w
  rw [hg]
  exact ⟨rfl, rfl⟩

theorem complete_pp_flag (cfg : Config) (g : maliggy_group) (success : Bool) (w : World) :
    (maliggy_group_complete_pp cfg g success w).1.core_timed_out = g.core_timed_out
    ∧ (maliggy_group_complete_pp cfg g success w).1.state = MALI_GROUP_STATE_IDLE := by
  obtain ⟨ok, t, hg, -⟩ := group_complete_pp_spec cfg g success w
  rw [hg]
  exact ⟨rfl, rfl⟩

theorem callbacks_timer_pending (w : World) :
    callbacks (_maliggy_osk_timer_pending w).2.log = callbacks w.log := by
  simp [_maliggy_osk_timer_pending, World.emit, World.read, callbacks, Ev.is_callback]

theorem callbacks_bottom_half_gp_reads (cfg : Config) (w : World) :
    callbacks (bottom_half_gp_reads cfg w).2.2.log = callbacks w.log := by
  rw [callbacks_of_obs _ w.log _ (bottom_half_gp_reads_obs cfg w)]
  simp [callbacks, Ev.is_callback]

theorem callbacks_bottom_half_pp_reads (cfg : Config) (g : maliggy_group) (w : World) :
    callbacks (bottom_half_pp_reads cfg g w).2.2.log = callbacks w.log := by
  rw [callbacks_of_obs _ w.log _ (bottom_half_pp_reads_obs cfg g w)]
  simp [callbacks, Ev.is_callback]

/-- The error branch of the GP bottom half: the job is completed as failed, whatever the timer
flag says. -/
theorem bottom_half_gp_error (cfg : Config) (g : maliggy_group) (w : World)
    (hpow : g.power_is_on = true) (hnc : ¬ bottom_half_gp_clean cfg w)
    (herr : gp_irq_errors cfg (bottom_half_gp_reads cfg w).1 ≠ 0) :
    (maliggy_group_bottom_half_gp cfg g w).1.gp_running_job = none
    ∧ callbacks (maliggy_group_bottom_half_gp cfg g w).2.log = callbacks w.log ++
        [.gp_scheduler_job_done (maliggy_group_bottom_half_gp cfg g w).1 g.gp_running_job
          false] := by
  have hnc' : ¬ ((bottom_half_gp_reads cfg w).2.1.any (fun core_status =>
      core_status &&& cfg.MALIGP2_REG_VAL_STATUS_MASK_ACTIVE == 0) = true) :=
    fun h => hnc ((bottom_half_gp_clean_iff cfg w).mp h)
  have he : maliggy_group_bottom_half_gp cfg g w
      = ((maliggy_group_complete_gp cfg { g with core_timed_out := false }
            false (bottom_half_gp_reads cfg w).2.2).1,
          maliggy_group_unlock (maliggy_group_complete_gp cfg
            { g with core_timed_out := false } false
            (bottom_half_gp_reads cfg w).2.2).2) := by
    rw [bottom_half_gp_eq, if_neg (by simp [hpow]), if_neg hnc']
    exact group_bottom_half_gp_rest_error cfg g _ _ herr
  rw [he]
  refine ⟨(complete_gp_jobs cfg _ false _).1, ?_⟩
  show callbacks (maliggy_group_unlock _).log = _
  rw [callbacks_unlock, callbacks_complete_gp, callbacks_bottom_half_gp_reads]

/-! ## Power management unit -/

open _maliggy_osk_errcode_t

theorem pmu_send_command_ok (cfg : Config) (pmu : maliggy_pmu_core) (command : Reg) (mask : Nat)
    (w : World) : (maliggy_pmu_send_command cfg pmu command mask w).1 = _MALI_OSK_ERR_OK := by
  unfold maliggy_pmu_send_command
  simp only []
  split_ifs <;> rfl

/-- The wait loop of the PMU reads at least one and at most `n + 1` values, `n + 1` being the
value of `timeout` at entry. -/
theorem pmu_wait_reads (n : Nat) (w : World) :
    ∃ k, 1 ≤ k ∧ k ≤ n + 1 ∧ (maliggy_pmu_wait n w).2.reads = w.reads.drop k := by
  induction n generalizing w with
  | zero => exact ⟨1, Nat.le_refl _, Nat.le_refl _, (World.read_reads w).2⟩
  | succ n ih =>
    simp only [maliggy_pmu_wait, maliggy_hw_core_register_read]
    split_ifs
    · obtain ⟨k, h1, h2, e⟩ := ih w.read.2
      refine ⟨k + 1, by omega, by omega, ?_⟩
      rw [e, (World.read_reads w).2, List.drop_drop]
      congr 1
      omega
    · exact ⟨1, Nat.le_refl _, by omega, (World.read_reads w).2⟩

/-- With an exhausted oracle (every read yields 0) the wait loop runs out. -/
theorem pmu_wait_silent (n : Nat) (w : World) (h : w.reads = []) :
    (maliggy_pmu_wait n w).1 = 0 := by
  induction n generalizing w with
  | zero => rfl
  | succ n ih =>
    have h1 : w.read.1 = 0 := by simp [World.read, h]
    have h2 : w.read.2.reads = [] := by simp [World.read, h]
    simp only [maliggy_pmu_wait, maliggy_hw_core_register_read, h1]
    rw [if_pos (by decide)]
    exact ih _ h2

theorem pmu_send_command_internal_silent (cfg : Config) (command : Reg) (mask : Nat) (w : World)
    (h : w.reads = []) :
    (maliggy_pmu_send_command_internal cfg command mask w).1 = _MALI_OSK_ERR_TIMEOUT := by
  have h1 : (maliggy_hw_core_register_write .pmu command mask w).reads = [] := h
  have h2 := pmu_wait_silent ((cfg.MALI_REG_POLL_COUNT_SLOW + 4294967295) % 4294967296) _ h1
  simp only [maliggy_pmu_send_command_internal, h2, if_true]

/-- With at least one L2 cache and at most 8 PP cores the detected mask is a block of low
bits. -/
theorem pmu_detect_mask_low_bits (pp l2 : Nat) (hl2 : 1 ≤ l2) (hpp : pp ≤ 8) :
    ∃ k, maliggy_pmu_detect_mask pp l2 = 2 ^ k - 1 := by
  by_cases h1 : l2 = 1
  · subst h1
    interval_cases pp
    · exact ⟨2, by decide⟩
    · exact ⟨3, by decide⟩
    · exact ⟨4, by decide⟩
    · exact ⟨5, by decide⟩
    · exact ⟨6, by decide⟩
    · exact ⟨7, by decide⟩
    · exact ⟨8, by decide⟩
    · exact ⟨9, by decide⟩
    · exact ⟨10, by decide⟩
  · have h2 : l2 > 1 := by omega
    unfold maliggy_pmu_detect_mask
    rw [if_neg h1, if_pos h2]
    by_cases h5 : pp ≥ 5
    · have h3 : pp ≥ 2 := by omega
      exact ⟨4, by simp only [h3, h5, if_true]; decide⟩
    · by_cases h3 : pp ≥ 2
      · exact ⟨3, by simp only [h3, h5, if_true, if_false]; decide⟩
      · exact ⟨2, by simp only [h3, h5, if_false]; decide⟩

/-- Against a block of low bits, comparing by magnitude is the same as testing for a bit
outside the block. -/
theorem gt_low_bits_iff (x k : Nat) : x > 2 ^ k - 1 ↔ has_bit_outside x (2 ^ k - 1) := by
  have hpos : 0 < 2 ^ k := Nat.two_pow_pos k
  constructor
  · intro h
    have hge : x ≥ 2 ^ k := by omega
    obtain ⟨i, hi, hb⟩ := Nat.ge_two_pow_implies_high_bit_true hge
    refine ⟨i, hb, ?_⟩
    rw [Nat.testBit_two_pow_sub_one]
    simp only [decide_eq_false_iff_not]
    omega
  · rintro ⟨i, h1, h2⟩
    rw [Nat.testBit_two_pow_sub_one] at h2
    simp only [decide_eq_false_iff_not, not_lt] at h2
    by_contra hx
    have hlt : x < 2 ^ i :=
      Nat.lt_of_lt_of_le (by omega) (Nat.pow_le_pow_right (by decide) h2)
    rw [Nat.testBit_lt_two_pow hlt] at h1
    exact Bool.noConfusion h1

theorem pmu_power_down_result (cfg : Config) (power_on : Bool) (pmu : maliggy_pmu_core)
    (mask : Nat) (w : World) :
    (mask > pmu.registered_cores_mask →
      maliggy_pmu_power_down cfg power_on pmu mask w = (_MALI_OSK_ERR_INVALID_ARGS, pmu, w))
    ∧ (¬ mask > pmu.registered_cores_mask →
      (maliggy_pmu_power_down cfg power_on pmu mask w).1 ≠ _MALI_OSK_ERR_INVALID_ARGS
      ∧ (maliggy_pmu_power_down cfg power_on pmu mask w).2.1
        = { pmu with active_cores_mask := pmu.active_cores_mask &&& u32_not mask }) := by
  constructor
  · intro h
    unfold maliggy_pmu_power_down
    rw [if_pos h]
  · intro h
    unfold maliggy_pmu_power_down
    rw [if_neg h]
    cases power_on
    · exact ⟨by simp, rfl⟩
    · refine ⟨?_, rfl⟩
      simp only [Bool.not_true, Bool.false_eq_true, if_false]
      rw [pmu_send_command_ok]
      simp

theorem pmu_power_up_result (cfg : Config) (power_on : Bool) (pmu : maliggy_pmu_core)
    (mask : Nat) (w : World) :
    (mask &&& u32_not pmu.registered_cores_mask ≠ 0 →
      maliggy_pmu_power_up cfg power_on pmu mask w = (_MALI_OSK_ERR_INVALID_ARGS, pmu, w))
    ∧ (¬ mask &&& u32_not pmu.registered_cores_mask ≠ 0 →
      (maliggy_pmu_power_up cfg power_on pmu mask w).1 ≠ _MALI_OSK_ERR_INVALID_ARGS
      ∧ (maliggy_pmu_power_up cfg power_on pmu mask w).2.1
        = { pmu with active_cores_mask := pmu.active_cores_mask ||| mask }) := by
  constructor
  · intro h
    unfold maliggy_pmu_power_up
    rw [if_pos h]
  · intro h
    unfold maliggy_pmu_power_up
    rw [if_neg h]
    cases power_on
    · exact ⟨by simp, rfl⟩
    · refine ⟨?_, rfl⟩
      simp only [Bool.not_true, Bool.false_eq_true, if_false]
      rw [pmu_send_command_ok]
      simp

/-! ## L2 caches of the children of a virtual group -/

theorem count_append_singleton (L : List (Option Nat)) (c x : Option Nat) :
    (L ++ [c]).count x = L.count x + (if c = x then 1 else 0) := by
  rw [List.count_append]
  congr 1
  by_cases h : c = x
  · subst h; simp
  · simp [h, List.count_singleton, beq_iff_eq]

theorem l2_slots_add_ok (a b : Nat) (s : Option Nat × Option Nat) (n : Nat × Nat)
    (L : List (Option Nat)) (c : Option Nat) (h : l2_slots_ok a b s n L)
    (hc : c = some a ∨ c = some b) (hlen : L.length + 1 < 4294967296) :
    l2_slots_ok a b (l2_slots_add s n c).1 (l2_slots_add s n c).2 (L ++ [c]) := by
  obtain ⟨s0, s1⟩ := s
  obtain ⟨n0, n1⟩ := n
  obtain ⟨h1, h2, h3, h4, h5, h6, h7, h8, h9, h10⟩ := h
  simp only at h2 h3 h4 h5 h6 h7 h8 h9 h10
  have hcn : c ≠ none := by rcases hc with hc | hc <;> simp [hc]
  have hL : ∀ x ∈ L, x ≠ none := by
    intro x hx
    rcases (h2 x hx).1 with e | e <;> simp [e]
  unfold l2_slots_add
  simp only
  by_cases e0 : s0 = c
  · have e1 : s1 ≠ c := by
      intro e
      exact h5 (by rw [e0]; exact hcn) (e0.trans e.symm)
    have hn : (n0 + 1) % 4294967296 = n0 + 1 := Nat.mod_eq_of_lt (by omega)
    rw [if_pos (Or.inl e0), if_pos e0, if_neg e1, hn]
    refine ⟨by simpa using hlen, ?_, h3, h4, h5, ?_, ?_, ?_, ?_, h10⟩
    · intro x hx
      rcases List.mem_append.mp hx with hx | hx
      · exact h2 x hx
      · have : x = c := by simpa using hx
        exact ⟨this ▸ hc, Or.inl (this.trans e0.symm)⟩
    · simp only [count_append_singleton, if_pos e0.symm, h6]
    · simp only [count_append_singleton, if_neg (Ne.symm e1), h7, Nat.add_zero]
    · simp only [List.length_append, List.length_singleton]; omega
    · simp only [e0, hcn, false_iff]; omega
  · by_cases e1 : s1 = c
    · have hn : (n1 + 1) % 4294967296 = n1 + 1 := Nat.mod_eq_of_lt (by omega)
      rw [if_pos (Or.inr e1), if_neg e0, if_pos e1, hn]
      refine ⟨by simpa using hlen, ?_, h3, h4, h5, ?_, ?_, ?_, h9, ?_⟩
      · intro x hx
        rcases List.mem_append.mp hx with hx | hx
        · exact h2 x hx
        · have : x = c := by simpa using hx
          exact ⟨this ▸ hc, Or.inr (this.trans e1.symm)⟩
      · simp only [count_append_singleton, if_neg (Ne.symm e0), h6, Nat.add_zero]
      · simp only [count_append_singleton, if_pos e1.symm, h7]
      · simp only [List.length_append, List.length_singleton]; omega
      · simp only [e1, hcn, false_iff]; omega
    · rw [if_neg (by push_neg; exact ⟨e0, e1⟩)]
      have hcL : c ∉ L := by
        intro hx
        rcases (h2 c hx).2 with e | e
        · exact e0 e.symm
        · exact e1 e.symm
      have hcount : L.count c = 0 := List.count_eq_zero_of_not_mem hcL
      by_cases z0 : s0 = none
      · have hn0 : n0 = 0 := h9.mp z0
        rw [if_pos z0, hn0]
        refine ⟨by simpa using hlen, ?_, Or.inr hc, h4, fun _ => Ne.symm e1, ?_, ?_, ?_, ?_, h10⟩
        · intro x hx
          rcases List.mem_append.mp hx with hx | hx
          · refine ⟨(h2 x hx).1, ?_⟩
            rcases (h2 x hx).2 with e | e
            · exact absurd (e.trans z0) (hL x hx)
            · exact Or.inr e
          · have : x = c := by simpa using hx
            exact ⟨this ▸ hc, Or.inl this⟩
        · simp [count_append_singleton, hcount]
        · simp only [count_append_singleton, if_neg (Ne.symm e1), h7, Nat.add_zero]
        · simp only [List.length_append, List.length_singleton]; omega
        · simp [hcn]
      · have z1 : s1 = none := by
          rcases h4 with e | e | e
          · exact e
          · exfalso
            rcases h3 with f | f | f
            · exact z0 f
            · exact h5 z0 (f.trans e.symm)
            · rcases hc with g | g
              · exact e1 (e.trans g.symm)
              · exact e0 (f.trans g.symm)
          · exfalso
            rcases h3 with f | f | f
            · exact z0 f
            · rcases hc with g | g
              · exact e0 (f.trans g.symm)
              · exact e1 (e.trans g.symm)
            · exact h5 z0 (f.trans e.symm)
        have hn1 : n1 = 0 := h10.mp z1
        rw [if_neg z0, hn1]
        refine ⟨by simpa using hlen, ?_, h3, Or.inr hc, fun _ => e0, ?_, ?_, ?_, h9, ?_⟩
        · intro x hx
          rcases List.mem_append.mp hx with hx | hx
          · refine ⟨(h2 x hx).1, ?_⟩
            rcases (h2 x hx).2 with e | e
            · exact Or.inl e
            · exact absurd (e.trans z1) (hL x hx)
          · have : x = c := by simpa using hx
            exact ⟨this ▸ hc, Or.inr this⟩
        · simp only [count_append_singleton, if_neg (Ne.symm e0), h6, Nat.add_zero]
        · simp [count_append_singleton, hcount]
        · simp only [List.length_append, List.length_singleton]; omega
        · simp [hcn]

theorem l2_slots_remove_ok (a b : Nat) (s : Option Nat × Option Nat) (n : Nat × Nat)
    (L L1 : List (Option Nat)) (c : Option Nat) (h : l2_slots_ok a b s n L) (hc : c ∈ L)
    (hlen : L1.length + 1 = L.length) (hmem : ∀ x ∈ L1, x ∈ L)
    (hcnt : ∀ x, L1.count x = L.count x - (if c = x then 1 else 0)) :
    l2_slots_ok a b (l2_slots_remove s n c).1 (l2_slots_remove s n c).2 L1 := by
  obtain ⟨s0, s1⟩ := s
  obtain ⟨n0, n1⟩ := n
  obtain ⟨h1, h2, h3, h4, h5, h6, h7, h8, h9, h10⟩ := h
  simp only at h2 h3 h4 h5 h6 h7 h8 h9 h10
  have hL : ∀ x ∈ L, x ≠ none := by
    intro x hx
    rcases (h2 x hx).1 with e | e <;> simp [e]
  have hcn : c ≠ none := hL c hc
  have hpos : 0 < L.count c := List.count_pos_iff.mpr hc
  have hnone : L1.count none = 0 :=
    List.count_eq_zero_of_not_mem (fun hx => hL none (hmem none hx) rfl)
  unfold l2_slots_remove
  simp only
  by_cases e0 : c = s0
  · have e1 : c ≠ s1 := by
      intro e
      exact h5 (by rw [← e0]; exact hcn) (e0.symm.trans e)
    have hn0 : 1 ≤ n0 := by rw [h6, ← e0]; exact hpos
    have hn : (n0 + 4294967295) % 4294967296 = n0 - 1 := by omega
    rw [if_pos e0, hn]
    have c0 : L1.count s0 = n0 - 1 := by rw [hcnt, if_pos e0, h6]
    have c1 : L1.count s1 = n1 := by rw [hcnt, if_neg e1, h7]; rfl
    by_cases z : n0 - 1 = 0
    · rw [if_pos z, z]
      refine ⟨by omega, ?_, Or.inl rfl, h4, fun hh => absurd rfl hh, hnone.symm, c1.symm,
        by simp only; omega, by simp, h10⟩
      intro x hx
      refine ⟨(h2 x (hmem x hx)).1, ?_⟩
      rcases (h2 x (hmem x hx)).2 with e | e
      · exfalso
        have : 0 < L1.count x := List.count_pos_iff.mpr hx
        rw [e, c0, z] at this
        exact Nat.lt_irrefl 0 this
      · exact Or.inr e
    · rw [if_neg z]
      refine ⟨by omega, fun x hx => h2 x (hmem x hx), h3, h4, h5, c0.symm, c1.symm,
        by simp only; omega, ?_, h10⟩
      have : s0 ≠ none := by rw [← e0]; exact hcn
      simp only [this, false_iff]
      exact z
  · have e1 : c = s1 := by
      rcases (h2 c hc).2 with e | e
      · exact absurd e e0
      · exact e
    have hn1 : 1 ≤ n1 := by rw [h7, ← e1]; exact hpos
    have hn : (n1 + 4294967295) % 4294967296 = n1 - 1 := by omega
    rw [if_neg e0, hn]
    have c0 : L1.count s0 = n0 := by rw [hcnt, if_neg e0, h6]; rfl
    have c1 : L1.count s1 = n1 - 1 := by rw [hcnt, if_pos e1, h7]
    by_cases z : n1 - 1 = 0
    · rw [if_pos z, z]
      refine ⟨by omega, ?_, h3, Or.inl rfl, fun hh e => ?_, c0.symm, hnone.symm,
        by simp only; omega, h9, by simp⟩
      · intro x hx
        refine ⟨(h2 x (hmem x hx)).1, ?_⟩
        rcases (h2 x (hmem x hx)).2 with e | e
        · exact Or.inl e
        · exfalso
          have : 0 < L1.count x := List.count_pos_iff.mpr hx
          rw [e, c1, z] at this
          exact Nat.lt_irrefl 0 this
      · exact hh e
    · rw [if_neg z]
      refine ⟨by omega, fun x hx => h2 x (hmem x hx), h3, h4, h5, c0.symm, c1.symm,
        by simp only; omega, h9, ?_⟩
      have : s1 ≠ none := by rw [← e1]; exact hcn
      simp only [this, false_iff]
      exact z

/-- Releasing the cache of a child right after counting it gives back the slots and
counters. -/
theorem l2_slots_add_remove (a b : Nat) (s : Option Nat × Option Nat) (n : Nat × Nat)
    (L : List (Option Nat)) (c : Option Nat) (h : l2_slots_ok a b s n L)
    (hc : c = some a ∨ c = some b) (hlen : L.length + 1 < 4294967296) :
    l2_slots_remove (l2_slots_add s n c).1 (l2_slots_add s n c).2 c = (s, n) := by
  obtain ⟨s0, s1⟩ := s
  obtain ⟨n0, n1⟩ := n
  obtain ⟨h1, h2, h3, h4, h5, h6, h7, h8, h9, h10⟩ := h
  simp only at h2 h3 h4 h5 h6 h7 h8 h9 h10
  have hcn : c ≠ none := by rcases hc with hc | hc <;> simp [hc]
  unfold l2_slots_add
  simp only
  by_cases e0 : s0 = c
  · have e1 : s1 ≠ c := by
      intro e
      exact h5 (by rw [e0]; exact hcn) (e0.trans e.symm)
    have hz : n0 ≠ 0 := fun z => hcn (e0 ▸ h9.mpr z)
    have hn : (n0 + 1) % 4294967296 = n0 + 1 := Nat.mod_eq_of_lt (by omega)
    rw [if_pos (Or.inl e0), if_pos e0, if_neg e1, hn]
    unfold l2_slots_remove
    simp only
    have hm : (n0 + 1 + 4294967295) % 4294967296 = n0 := by omega
    rw [if_pos e0.symm, hm, if_neg hz]
  · by_cases e1 : s1 = c
    · have hz : n1 ≠ 0 := fun z => hcn (e1 ▸ h10.mpr z)
      have hn : (n1 + 1) % 4294967296 = n1 + 1 := Nat.mod_eq_of_lt (by omega)
      rw [if_pos (Or.inr e1), if_neg e0, if_pos e1, hn]
      unfold l2_slots_remove
      simp only
      have hm : (n1 + 1 + 4294967295) % 4294967296 = n1 := by omega
      rw [if_neg (Ne.symm e0), hm, if_neg hz]
    · rw [if_neg (by push_neg; exact ⟨e0, e1⟩)]
      by_cases z0 : s0 = none
      · have hn0 : n0 = 0 := h9.mp z0
        rw [if_pos z0, hn0]
        simp [l2_slots_remove, z0]
      · have z1 : s1 = none := by
          rcases h4 with e | e | e
          · exact e
          · exfalso
            rcases h3 with f | f | f
            · exact z0 f
            · exact h5 z0 (f.trans e.symm)
            · rcases hc with g | g
              · exact e1 (e.trans g.symm)
              · exact e0 (f.trans g.symm)
          · exfalso
            rcases h3 with f | f | f
            · exact z0 f
            · rcases hc with g | g
              · exact e0 (f.trans g.symm)
              · exact e1 (e.trans g.symm)
            · exact h5 z0 (f.trans e.symm)
        have hn1 : n1 = 0 := h10.mp z1
        rw [if_neg z0, hn1]
        simp [l2_slots_remove, z1, Ne.symm e0]

/-- Taking a child off a duplicate-free list takes one entry for its cache out of the caches of
the children. -/
theorem filter_ne_map_count (f : Nat → Option Nat) (c : Nat) (l : List Nat) (hn : l.Nodup)
    (hc : c ∈ l) (x : Option Nat) :
    ((l.filter (fun y => y != c)).map f).count x
      = (l.map f).count x - (if f c = x then 1 else 0) := by
  induction l with
  | nil => exact absurd hc (List.not_mem_nil c)
  | cons y l ih =>
    have hnl : l.Nodup := (List.nodup_cons.mp hn).2
    have hyl : y ∉ l := (List.nodup_cons.mp hn).1
    by_cases hy : y = c
    · subst hy
      have hf : (y :: l).filter (fun z => z != y) = l := by
        rw [List.filter_cons]
        simp only [bne_self_eq_false, Bool.false_eq_true, if_false]
        rw [List.filter_eq_self]
        intro z hz
        have : z ≠ y := fun e => hyl (e ▸ hz)
        simpa using this
      rw [hf, List.map_cons, List.count_cons]
      by_cases e : f y = x <;> simp [e]
    · have hcl : c ∈ l := by
        rcases List.mem_cons.mp hc with e | e
        · exact absurd e.symm hy
        · exact e
      have hf : (y :: l).filter (fun z => z != c) = y :: l.filter (fun z => z != c) := by
        simp [List.filter_cons, hy]
      rw [hf, List.map_cons, List.map_cons, List.count_cons, List.count_cons, ih hnl hcl]
      have hpos : f c = x → 0 < (l.map f).count x := by
        intro e
        rw [← e]
        exact List.count_pos_iff.mpr (List.mem_map_of_mem f hcl)
      by_cases e : f c = x
      · have := hpos e
        simp only [e, if_true]
        omega
      · simp [e]

theorem filter_ne_length (c : Nat) (l : List Nat) (hn : l.Nodup) (hc : c ∈ l) :
    (l.filter (fun y => y != c)).length + 1 = l.length := by
  induction l with
  | nil => exact absurd hc (List.not_mem_nil c)
  | cons y l ih =>
    have hnl : l.Nodup := (List.nodup_cons.mp hn).2
    have hyl : y ∉ l := (List.nodup_cons.mp hn).1
    by_cases hy : y = c
    · subst hy
      have hf : (y :: l).filter (fun z => z != y) = l := by
        rw [List.filter_cons]
        simp only [bne_self_eq_false, Bool.false_eq_true, if_false]
        rw [List.filter_eq_self]
        intro z hz
        have : z ≠ y := fun e => hyl (e ▸ hz)
        simpa using this
      rw [hf, List.length_cons]
    · have hcl : c ∈ l := by
        rcases List.mem_cons.mp hc with e | e
        · exact absurd e.symm hy
        · exact e
      have hf : (y :: l).filter (fun z => z != c) = y :: l.filter (fun z => z != c) := by
        simp [List.filter_cons, hy]
      rw [hf, List.length_cons, List.length_cons, ih hnl hcl]

theorem add_group_frame (cfg : Config) (t : GroupTable) (parent child : Nat) (update_hw : Bool)
    (w : World) (g : Nat) :
    ((maliggy_group_add_group cfg t parent child update_hw w).1.group g).dlbu_core
        = (t.group g).dlbu_core
    ∧ (g ≠ parent →
      ((maliggy_group_add_group cfg t parent child update_hw w).1.group g).l2_cache_core
          = (t.group g).l2_cache_core
      ∧ ((maliggy_group_add_group cfg t parent child update_hw w).1.group g).l2_cache_core_ref_count
          = (t.group g).l2_cache_core_ref_count) := by
  rw [add_group_table]
  obtain ⟨-, -, -, -, -, -, o7⟩ := add_group_parent_other (t.group parent) (t.group child) parent
  by_cases h1 : g = child
  · subst h1
    simp [add_group_sw, add_group_child]
  · by_cases h2 : g = parent
    · subst h2
      simp [add_group_sw, Function.update_noteq h1, o7]
    · simp [add_group_sw, Function.update_noteq h1, Function.update_noteq h2, h2]

theorem add_group_parent_slots (cfg : Config) (t : GroupTable) (parent child : Nat)
    (update_hw : Bool) (w : World) (h : parent ≠ child) :
    (((maliggy_group_add_group cfg t parent child update_hw w).1.group parent).l2_cache_core,
      ((maliggy_group_add_group cfg t parent child update_hw w).1.group
        parent).l2_cache_core_ref_count)
      = l2_slots_add (t.group parent).l2_cache_core (t.group parent).l2_cache_core_ref_count
          (t.group child).l2_cache_core.1 := by
  rw [add_group_table]
  have e : (add_group_sw t parent child).group parent
      = add_group_parent (t.group parent) (t.group child) parent := by
    simp [add_group_sw, Function.update_noteq h]
  rw [e, add_group_parent_l2]
  unfold l2_slots_add
  rfl

theorem remove_group_frame (t : GroupTable) (power_on : Bool) (parent child : Nat) (w : World)
    (g : Nat) :
    ((maliggy_group_remove_group t power_on parent child w).1.group g).dlbu_core
        = (t.group g).dlbu_core
    ∧ (g ≠ parent →
      ((maliggy_group_remove_group t power_on parent child w).1.group g).l2_cache_core
          = (t.group g).l2_cache_core
      ∧ ((maliggy_group_remove_group t power_on parent child w).1.group g).l2_cache_core_ref_count
          = (t.group g).l2_cache_core_ref_count) := by
  unfold maliggy_group_remove_group
  simp only []
  by_cases h1 : g = child
  · subst h1
    simp
  · by_cases h2 : g = parent
    · subst h2
      simp only [Function.update_noteq h1, Function.update_same]
      split_ifs <;> simp
    · simp [Function.update_noteq h1, Function.update_noteq h2, h2]

theorem remove_group_parent_slots (t : GroupTable) (power_on : Bool) (parent child : Nat)
    (w : World) (h : parent ≠ child) :
    (((maliggy_group_remove_group t power_on parent child w).1.group parent).l2_cache_core,
      ((maliggy_group_remove_group t power_on parent child w).1.group
        parent).l2_cache_core_ref_count)
      = l2_slots_remove (t.group parent).l2_cache_core (t.group parent).l2_cache_core_ref_count
          (t.group child).l2_cache_core.1 := by
  unfold maliggy_group_remove_group l2_slots_remove
  simp only [Function.update_noteq h, Function.update_same]
  split_ifs <;> rfl

theorem child_caches_congr (t t1 : GroupTable) (parent : Nat)
    (hm : t1.members parent = t.members parent)
    (hg : ∀ g ∈ t.members parent, (t1.group g).l2_cache_core = (t.group g).l2_cache_core) :
    t1.child_caches parent = t.child_caches parent := by
  unfold GroupTable.child_caches
  rw [hm]
  apply List.map_congr_left
  intro g hgm
  rw [hg g hgm]

theorem l2_inv_remove (cfg : Config) (power_on : Bool) (t : GroupTable) (q child : Nat)
    (w : World) (parent a b : Nat) (hi : t.l2_inv parent a b)
    (hg : (VOp.remove_group q child).guard t) :
    (maliggy_group_remove_group t power_on q child w).1.l2_inv parent a b := by
  obtain ⟨m1, m2, m3, hv, hnd, hok⟩ := hi
  have hm := vmember_step cfg power_on (.remove_group q child) t
    (maliggy_group_remove_group t power_on q child w).1 w
    (maliggy_group_remove_group t power_on q child w).2 hg rfl m1 m2
  obtain ⟨gq, gc, gp, -, -⟩ := hg
  have hpc : parent ≠ child := by
    intro e
    rw [e, gc] at hv
    exact Bool.noConfusion hv
  have hvirt : ∀ g, maliggy_group_is_virtual
      ((maliggy_group_remove_group t power_on q child w).1.group g)
      = maliggy_group_is_virtual (t.group g) := by
    intro g
    unfold maliggy_group_is_virtual
    rw [(remove_group_frame t power_on q child w g).1]
  have hmemnv : ∀ g ∈ t.members parent, maliggy_group_is_virtual (t.group g) = false := by
    intro g hgm
    apply m3
    rw [(m2 parent g).mp hgm]
    exact Option.some_ne_none parent
  have hmemne : ∀ x, maliggy_group_is_virtual (t.group x) = true →
      ∀ g ∈ t.members parent, g ≠ x := by
    intro x hx g hgm e
    have := hmemnv g hgm
    rw [e, hx] at this
    exact Bool.noConfusion this
  refine ⟨hm.1, hm.2, ?_, ?_, ?_, ?_⟩
  · intro g hne
    rw [hvirt]
    rw [(remove_group_fields t power_on q child w g).1] at hne
    by_cases hgc : g = child
    · rw [hgc]; exact gc
    · rw [if_neg hgc] at hne
      exact m3 g hne
  · rw [hvirt]; exact hv
  · rw [(remove_group_fields t power_on q child w parent).2.2]
    exact hnd.filter _
  · by_cases hqp : q = parent
    · subst hqp
      have hmem : child ∈ t.members q := (m2 q child).mpr gp
      have hs := remove_group_parent_slots t power_on q child w hpc
      have hs1 := congrArg Prod.fst hs
      have hs2 := congrArg Prod.snd hs
      simp only at hs1 hs2
      rw [hs1, hs2]
      have hc : (maliggy_group_remove_group t power_on q child w).1.child_caches q
          = ((t.members q).filter (fun x => x != child)).map
              (fun g => (t.group g).l2_cache_core.1) := by
        unfold GroupTable.child_caches
        rw [(remove_group_fields t power_on q child w q).2.2]
        apply List.map_congr_left
        intro g hgm
        have hgq : g ≠ q := hmemne q hv g (List.mem_of_mem_filter hgm)
        rw [((remove_group_frame t power_on q child w g).2 hgq).1]
      rw [hc]
      apply l2_slots_remove_ok a b _ _ (t.child_caches q) _ _ hok
        (List.mem_map_of_mem (fun g => (t.group g).l2_cache_core.1) hmem)
      · rw [List.length_map, filter_ne_length child (t.members q) hnd hmem]
        unfold GroupTable.child_caches
        rw [List.length_map]
      · intro x hx
        obtain ⟨g, hgm, hgx⟩ := List.mem_map.mp hx
        exact List.mem_map.mpr ⟨g, List.mem_of_mem_filter hgm, hgx⟩
      · intro x
        exact filter_ne_map_count (fun g => (t.group g).l2_cache_core.1) child (t.members q)
          hnd hmem x
    · have hpq : parent ≠ q := fun e => hqp e.symm
      have hnot : child ∉ t.members parent := by
        intro hmm
        have := (m2 parent child).mp hmm
        rw [gp] at this
        exact hqp (Option.some.inj this)
      have hmemeq : (maliggy_group_remove_group t power_on q child w).1.members parent
          = t.members parent := by
        rw [(remove_group_fields t power_on q child w parent).2.2, List.filter_eq_self]
        intro g hgm
        have : g ≠ child := fun e => hnot (e ▸ hgm)
        simpa using this
      have hc := child_caches_congr t (maliggy_group_remove_group t power_on q child w).1 parent
        hmemeq (fun g hgm =>
          ((remove_group_frame t power_on q child w g).2 (hmemne q gq g hgm)).1)
      rw [hc, ((remove_group_frame t power_on q child w parent).2 hpq).1,
        ((remove_group_frame t power_on q child w parent).2 hpq).2]
      exact hok

theorem l2_inv_add (cfg : Config) (power_on : Bool) (t : GroupTable) (q child : Nat)
    (update_hw : Bool) (w : World) (parent a b : Nat) (hi : t.l2_inv parent a b)
    (hg : (VOp.add_group q child update_hw).guard t)
    (hl : (VOp.add_group q child update_hw).l2_guard parent a b t) :
    (maliggy_group_add_group cfg t q child update_hw w).1.l2_inv parent a b := by
  obtain ⟨m1, m2, m3, hv, hnd, hok⟩ := hi
  have hm := vmember_step cfg power_on (.add_group q child update_hw) t
    (maliggy_group_add_group cfg t q child update_hw w).1 w
    (maliggy_group_add_group cfg t q child update_hw w).2 hg rfl m1 m2
  obtain ⟨gq, gc, gp, -⟩ := hg
  have hpc : parent ≠ child := by
    intro e
    rw [e, gc] at hv
    exact Bool.noConfusion hv
  have hvirt : ∀ g, maliggy_group_is_virtual
      ((maliggy_group_add_group cfg t q child update_hw w).1.group g)
      = maliggy_group_is_virtual (t.group g) := by
    intro g
    unfold maliggy_group_is_virtual
    rw [(add_group_frame cfg t q child update_hw w g).1]
  have hmemnv : ∀ g ∈ t.members parent, maliggy_group_is_virtual (t.group g) = false := by
    intro g hgm
    apply m3
    rw [(m2 parent g).mp hgm]
    exact Option.some_ne_none parent
  have hmemne : ∀ x, maliggy_group_is_virtual (t.group x) = true →
      ∀ g ∈ t.members parent, g ≠ x := by
    intro x hx g hgm e
    have := hmemnv g hgm
    rw [e, hx] at this
    exact Bool.noConfusion this
  refine ⟨hm.1, hm.2, ?_, ?_, ?_, ?_⟩
  · intro g hne
    rw [hvirt]
    rw [(add_group_fields cfg t q child update_hw w g).1] at hne
    by_cases hgc : g = child
    · rw [hgc]; exact gc
    · rw [if_neg hgc] at hne
      exact m3 g hne
  · rw [hvirt]; exact hv
  · rw [(add_group_fields cfg t q child update_hw w parent).2.2]
    by_cases hqp : parent = q
    · rw [if_pos hqp]
      have hnot : child ∉ t.members q := by
        intro hmm
        have := (m2 q child).mp hmm
        rw [gp] at this
        exact Option.noConfusion this
      rw [← hqp] at hnot ⊢
      rw [List.nodup_append]
      refine ⟨hnd, List.nodup_singleton child, ?_⟩
      intro x hx hx1
      rw [List.mem_singleton] at hx1
      exact hnot (hx1 ▸ hx)
    · rw [if_neg hqp]; exact hnd
  · by_cases hqp : q = parent
    · subst hqp
      obtain ⟨hc, hlen⟩ := hl rfl
      have hs := add_group_parent_slots cfg t q child update_hw w hpc
      have hs1 := congrArg Prod.fst hs
      have hs2 := congrArg Prod.snd hs
      simp only at hs1 hs2
      rw [hs1, hs2]
      have hcc : (maliggy_group_add_group cfg t q child update_hw w).1.child_caches q
          = t.child_caches q ++ [(t.group child).l2_cache_core.1] := by
        unfold GroupTable.child_caches
        rw [(add_group_fields cfg t q child update_hw w q).2.2, if_pos rfl, List.map_append,
          List.map_singleton]
        congr 1
        · apply List.map_congr_left
          intro g hgm
          rw [((add_group_frame cfg t q child update_hw w g).2 (hmemne q hv g hgm)).1]
        · rw [((add_group_frame cfg t q child update_hw w child).2 (Ne.symm hpc)).1]
      rw [hcc]
      apply l2_slots_add_ok a b _ _ _ _ hok hc
      unfold GroupTable.child_caches
      rw [List.length_map]
      exact hlen
    · have hpq : parent ≠ q := fun e => hqp e.symm
      have hmemeq : (maliggy_group_add_group cfg t q child update_hw w).1.members parent
          = t.members parent := by
        rw [(add_group_fields cfg t q child update_hw w parent).2.2, if_neg hpq]
      have hc := child_caches_congr t (maliggy_group_add_group cfg t q child update_hw w).1
        parent hmemeq (fun g hgm =>
          ((add_group_frame cfg t q child update_hw w g).2 (hmemne q gq g hgm)).1)
      rw [hc, ((add_group_frame cfg t q child update_hw w parent).2 hpq).1,
        ((add_group_frame cfg t q child update_hw w parent).2 hpq).2]
      exact hok

theorem l2_inv_congr (t t1 : GroupTable) (parent a b : Nat) (hi : t.l2_inv parent a b)
    (hmem : t1.members = t.members)
    (hf : ∀ g, (t1.group g).parent_group = (t.group g).parent_group
      ∧ (t1.group g).dlbu_core = (t.group g).dlbu_core
      ∧ (t1.group g).l2_cache_core = (t.group g).l2_cache_core
      ∧ (t1.group g).l2_cache_core_ref_count = (t.group g).l2_cache_core_ref_count)
    (hm : ∀ g, (t1.group g).parent_group ≠ none ↔
      (t1.group g).state = MALI_GROUP_STATE_IN_VIRTUAL) :
    t1.l2_inv parent a b := by
  obtain ⟨m1, m2, m3, hv, hnd, hok⟩ := hi
  refine ⟨hm, ?_, ?_, ?_, ?_, ?_⟩
  · intro p g
    rw [hmem, (hf g).1]
    exact m2 p g
  · intro g hne
    unfold maliggy_group_is_virtual
    rw [(hf g).2.1]
    rw [(hf g).1] at hne
    exact m3 g hne
  · unfold maliggy_group_is_virtual
    rw [(hf parent).2.1]
    exact hv
  · rw [hmem]; exact hnd
  · have hc := child_caches_congr t t1 parent (by rw [hmem]) (fun g _ => (hf g).2.2.1)
    rw [hc, (hf parent).2.2.1, (hf parent).2.2.2]
    exact hok

theorem update_state_fields (t : GroupTable) (child : Nat) (s : maliggy_group_core_state)
    (g : Nat) :
    ((Function.update t.group child { (t.group child) with state := s }) g).parent_group
        = (t.group g).parent_group
    ∧ ((Function.update t.group child { (t.group child) with state := s }) g).dlbu_core
        = (t.group g).dlbu_core
    ∧ ((Function.update t.group child { (t.group child) with state := s }) g).l2_cache_core
        = (t.group g).l2_cache_core
    ∧ ((Function.update t.group child { (t.group child) with state := s })
        g).l2_cache_core_ref_count = (t.group g).l2_cache_core_ref_count := by
  by_cases hgc : g = child
  · subst hgc; simp
  · simp [Function.update_noteq hgc]

theorem l2_inv_step (cfg : Config) (power_on : Bool) (op : VOp) (t t1 : GroupTable)
    (w w1 : World) (parent a b : Nat) (hi : t.l2_inv parent a b) (hg : op.guard t)
    (hl : op.l2_guard parent a b t) (ha : op.apply cfg power_on t w = some (t1, w1)) :
    t1.l2_inv parent a b := by
  have hm := vmember_step cfg power_on op t t1 w w1 hg ha hi.1 hi.2.1
  cases op with
  | set_joining child =>
    simp only [VOp.apply, Option.some.injEq, Prod.mk.injEq] at ha
    obtain ⟨rfl, -⟩ := ha
    exact l2_inv_congr t _ parent a b hi rfl (update_state_fields t child _) hm.1
  | add_group q child update_hw =>
    simp only [VOp.apply, Option.some.injEq] at ha
    have e : t1 = (maliggy_group_add_group cfg t q child update_hw w).1 := by rw [ha]
    subst e
    exact l2_inv_add cfg power_on t q child update_hw w parent a b hi hg hl
  | remove_group q child =>
    simp only [VOp.apply, Option.some.injEq] at ha
    have e : t1 = (maliggy_group_remove_group t power_on q child w).1 := by rw [ha]
    subst e
    exact l2_inv_remove cfg power_on t q child w parent a b hi hg
  | acquire_group q =>
    simp only [VOp.apply, maliggy_group_acquire_group] at ha
    cases hlast : (t.members q).getLast? with
    | none => rw [hlast] at ha; simp at ha
    | some child =>
      rw [hlast] at ha
      simp only [Option.map_some', Option.some.injEq] at ha
      have e : t1 = (maliggy_group_remove_group t power_on q child w).1 := by rw [ha]
      subst e
      obtain ⟨m1, m2, m3, -⟩ := id hi
      obtain ⟨gq, -, gi⟩ := hg
      have hmem : child ∈ t.members q := List.mem_of_getLast?_eq_some hlast
      have hp : (t.group child).parent_group = some q := (m2 q child).mp hmem
      have hne : (t.group child).parent_group ≠ none := by
        rw [hp]; exact Option.some_ne_none q
      exact l2_inv_remove cfg power_on t q child w parent a b hi
        ⟨gq, m3 child hne, hp, (m1 child).mp hne, gi⟩
  | set_idle child =>
    simp only [VOp.apply, Option.some.injEq, Prod.mk.injEq] at ha
    obtain ⟨rfl, -⟩ := ha
    exact l2_inv_congr t _ parent a b hi rfl (update_state_fields t child _) hm.1

theorem l2_inv_initial (t0 : GroupTable) (parent a b : Nat) (h0 : t0.initial)
    (hv : maliggy_group_is_virtual (t0.group parent) = true)
    (hl2 : (t0.group parent).l2_cache_core = (none, none))
    (hrc : (t0.group parent).l2_cache_core_ref_count = (0, 0)) : t0.l2_inv parent a b := by
  obtain ⟨i1, i2, i3⟩ := h0
  refine ⟨?_, ?_, ?_, hv, ?_, ?_⟩
  · intro g
    have hb := i2 g
    simp only [maliggy_group_is_in_virtual] at hb
    constructor
    · intro hn; exact absurd (i1 g) hn
    · intro hs; rw [hs] at hb; exact absurd hb (by decide)
  · intro p g
    rw [i3 p, i1 g]
    simp
  · intro g hn
    exact absurd (i1 g) hn
  · rw [i3 parent]; exact List.nodup_nil
  · unfold GroupTable.child_caches
    rw [i3 parent, hl2, hrc]
    simp [l2_slots_ok]

theorem l2_reachable_inv (cfg : Config) (power_on : Bool) (parent a b : Nat)
    (t0 t : GroupTable) (w0 w : World) (h0 : t0.l2_inv parent a b)
    (hr : VReachableL2 cfg power_on parent a b t0 w0 t w) : t.l2_inv parent a b := by
  induction hr with
  | init => exact h0
  | step op _ hg hl ha ih => exact l2_inv_step cfg power_on op _ _ _ _ parent a b ih hg hl ha

/-! ## The registry of groups -/

theorem registry_remove_absent (r : GroupRegistry) (g : Nat) (h : ¬ r.registered g) :
    r.remove g = r := by
  unfold GroupRegistry.remove
  have : (List.range r.maliggy_global_num_groups).find?
      (fun i => r.maliggy_global_groups i == some g) = none := by
    rw [List.find?_eq_none]
    intro i hi hp
    apply h
    exact ⟨i, List.mem_range.mp hi, by simpa using hp⟩
  rw [this]

theorem registry_remove_at (r : GroupRegistry) (g i : Nat) (h : r.ok)
    (hi : i < r.maliggy_global_num_groups) (hg : r.maliggy_global_groups i = some g) :
    r.remove g =
      if i ≠ r.maliggy_global_num_groups - 1 then
        { maliggy_global_groups := Function.update
            (Function.update r.maliggy_global_groups i
              (r.maliggy_global_groups (r.maliggy_global_num_groups - 1)))
            (r.maliggy_global_num_groups - 1) none,
          maliggy_global_num_groups := r.maliggy_global_num_groups - 1 }
      else
        { maliggy_global_groups := Function.update r.maliggy_global_groups i none,
          maliggy_global_num_groups := r.maliggy_global_num_groups - 1 } := by
  obtain ⟨h1, h2, h3, h4⟩ := h
  have hmax : MALI_MAX_NUMBER_OF_GROUPS = 10 := rfl
  unfold GroupRegistry.remove
  cases hf : (List.range r.maliggy_global_num_groups).find?
      (fun i => r.maliggy_global_groups i == some g) with
  | none =>
    rw [List.find?_eq_none] at hf
    exact absurd (by simpa using hg) (hf i (List.mem_range.mpr hi))
  | some k =>
    have hk : k < r.maliggy_global_num_groups := List.mem_range.mp (List.mem_of_find?_eq_some hf)
    have hkg : r.maliggy_global_groups k = some g := by
      simpa using List.find?_some hf
    have hki : k = i := h3 k i hk hi (hkg.trans hg.symm)
    subst hki
    have hn : (r.maliggy_global_num_groups + 4294967295) % 4294967296
        = r.maliggy_global_num_groups - 1 := by omega
    dsimp only
    by_cases e : k = r.maliggy_global_num_groups - 1
    · have e1 : ¬ (k ≠ (r.maliggy_global_num_groups + 4294967295) % 4294967296) := by
        rw [hn]; exact not_not.mpr e
      rw [if_neg e1, if_neg (not_not.mpr e), hn]
    · have e1 : k ≠ (r.maliggy_global_num_groups + 4294967295) % 4294967296 := by
        rw [hn]; exact e
      rw [if_pos e1, if_pos e, Function.update_noteq (Ne.symm e1), Function.update_idem, hn]

theorem registry_remove_spec (r : GroupRegistry) (g : Nat) (h : r.ok) :
    (r.remove g).ok ∧ (∀ p, (r.remove g).registered p ↔ (r.registered p ∧ p ≠ g)) := by
  by_cases hr : r.registered g
  · obtain ⟨i, hi, hg⟩ := hr
    rw [registry_remove_at r g i h hi hg]
    obtain ⟨h1, h2, h3, h4⟩ := h
    by_cases e : i = r.maliggy_global_num_groups - 1
    · rw [if_neg (not_not.mpr e)]
      refine ⟨⟨?_, ?_, ?_, ?_⟩, ?_⟩
      · show r.maliggy_global_num_groups - 1 ≤ _
        omega
      · intro j hj
        have hj1 : j < r.maliggy_global_num_groups - 1 := hj
        dsimp only
        rw [Function.update_noteq (by omega)]
        exact h2 j (by omega)
      · intro j k hj hk
        have hj1 : j < r.maliggy_global_num_groups - 1 := hj
        have hk1 : k < r.maliggy_global_num_groups - 1 := hk
        dsimp only
        rw [Function.update_noteq (by omega), Function.update_noteq (by omega)]
        exact h3 j k (by omega) (by omega)
      · intro j hj
        have hj1 : r.maliggy_global_num_groups - 1 ≤ j := hj
        dsimp only
        by_cases hji : j = i
        · rw [hji, Function.update_same]
        · rw [Function.update_noteq hji]
          exact h4 j (by omega)
      · intro p
        constructor
        · rintro ⟨j, hj, hp⟩
          have hj1 : j < r.maliggy_global_num_groups - 1 := hj
          have hp1 : Function.update r.maliggy_global_groups i none j = some p := hp
          rw [Function.update_noteq (by omega)] at hp1
          refine ⟨⟨j, by omega, hp1⟩, ?_⟩
          intro hpg
          rw [hpg, ← hg] at hp1
          have := h3 j i (by omega) hi hp1
          omega
        · rintro ⟨⟨j, hj, hp⟩, hne⟩
          have hji : j ≠ i := by
            intro e1
            rw [e1, hg] at hp
            exact hne (Option.some.inj hp).symm
          refine ⟨j, (by show j < r.maliggy_global_num_groups - 1; omega), ?_⟩
          dsimp only
          rw [Function.update_noteq hji]
          exact hp
    · rw [if_pos e]
      have hlast : r.maliggy_global_num_groups - 1 < r.maliggy_global_num_groups := by omega
      have hval : ∀ j, Function.update
            (Function.update r.maliggy_global_groups i
              (r.maliggy_global_groups (r.maliggy_global_num_groups - 1)))
            (r.maliggy_global_num_groups - 1) none j
          = if j = r.maliggy_global_num_groups - 1 then none
            else if j = i then r.maliggy_global_groups (r.maliggy_global_num_groups - 1)
            else r.maliggy_global_groups j := by
        intro j
        by_cases a : j = r.maliggy_global_num_groups - 1
        · rw [a, Function.update_same, if_pos rfl]
        · rw [Function.update_noteq a, if_neg a]
          by_cases b : j = i
          · rw [b, Function.update_same, if_pos rfl]
          · rw [Function.update_noteq b, if_neg b]
      refine ⟨⟨?_, ?_, ?_, ?_⟩, ?_⟩
      · show r.maliggy_global_num_groups - 1 ≤ _
        omega
      · intro j hj
        have hj1 : j < r.maliggy_global_num_groups - 1 := hj
        have hjn : j ≠ r.maliggy_global_num_groups - 1 := by omega
        dsimp only
        rw [hval, if_neg hjn]
        by_cases b : j = i
        · rw [if_pos b]; exact h2 _ hlast
        · rw [if_neg b]; exact h2 j (by omega)
      · intro j k hj hk
        have hj1 : j < r.maliggy_global_num_groups - 1 := hj
        have hk1 : k < r.maliggy_global_num_groups - 1 := hk
        have hjn : j ≠ r.maliggy_global_num_groups - 1 := by omega
        have hkn : k ≠ r.maliggy_global_num_groups - 1 := by omega
        dsimp only
        rw [hval, hval, if_neg hjn, if_neg hkn]
        by_cases b : j = i
        · by_cases c : k = i
          · intro _; rw [b, c]
          · rw [if_pos b, if_neg c]
            intro hh
            have := h3 _ k hlast (by omega) hh
            omega
        · by_cases c : k = i
          · rw [if_neg b, if_pos c]
            intro hh
            have := h3 j _ (by omega) hlast hh
            omega
          · rw [if_neg b, if_neg c]
            exact h3 j k (by omega) (by omega)
      · intro j hj
        have hj1 : r.maliggy_global_num_groups - 1 ≤ j := hj
        dsimp only
        rw [hval]
        by_cases a : j = r.maliggy_global_num_groups - 1
        · rw [if_pos a]
        · have hji : j ≠ i := by omega
          rw [if_neg a, if_neg hji]
          exact h4 j (by omega)
      · intro p
        constructor
        · rintro ⟨j, hj, hp⟩
          have hj1 : j < r.maliggy_global_num_groups - 1 := hj
          have hp1 : Function.update
            (Function.update r.maliggy_global_groups i
              (r.maliggy_global_groups (r.maliggy_global_num_groups - 1)))
            (r.maliggy_global_num_groups - 1) none j = some p := hp
          have hjn : j ≠ r.maliggy_global_num_groups - 1 := by omega
          rw [hval, if_neg hjn] at hp1
          by_cases b : j = i
          · rw [if_pos b] at hp1
            refine ⟨⟨_, hlast, hp1⟩, ?_⟩
            intro hpg
            rw [hpg, ← hg] at hp1
            exact e (h3 _ i hlast hi hp1).symm
          · rw [if_neg b] at hp1
            refine ⟨⟨j, by omega, hp1⟩, ?_⟩
            intro hpg
            rw [hpg, ← hg] at hp1
            exact b (h3 j i (by omega) hi hp1)
        · rintro ⟨⟨j, hj, hp⟩, hne⟩
          have hji : j ≠ i := by
            intro e1
            rw [e1, hg] at hp
            exact hne (Option.some.inj hp).symm
          by_cases a : j = r.maliggy_global_num_groups - 1
          · refine ⟨i, (by show i < r.maliggy_global_num_groups - 1; omega), ?_⟩
            dsimp only
            rw [hval, if_neg e, if_pos rfl, ← a]
            exact hp
          · refine ⟨j, (by show j < r.maliggy_global_num_groups - 1; omega), ?_⟩
            dsimp only
            rw [hval, if_neg a, if_neg hji]
            exact hp
  · rw [registry_remove_absent r g hr]
    refine ⟨h, fun p => ⟨fun hp => ⟨hp, fun e => hr (e ▸ hp)⟩, fun hp => hp.1⟩⟩

theorem registry_create_cases (r : GroupRegistry) (alloc : Option Nat) (timer lock : Bool) :
    (r.maliggy_group_create alloc timer lock = (none, r)
      ∧ (r.maliggy_global_num_groups ≥ MALI_MAX_NUMBER_OF_GROUPS ∨ alloc = none
        ∨ timer = false ∨ lock = false))
    ∨ (∃ g, alloc = some g ∧ r.maliggy_global_num_groups < MALI_MAX_NUMBER_OF_GROUPS
        ∧ timer = true ∧ lock = true
        ∧ r.maliggy_group_create alloc timer lock = (some g,
          { maliggy_global_groups :=
              Function.update r.maliggy_global_groups r.maliggy_global_num_groups (some g),
            maliggy_global_num_groups := r.maliggy_global_num_groups + 1 })) := by
  have hmax : MALI_MAX_NUMBER_OF_GROUPS = 10 := rfl
  unfold GroupRegistry.maliggy_group_create
  by_cases hfull : r.maliggy_global_num_groups ≥ MALI_MAX_NUMBER_OF_GROUPS
  · rw [if_pos hfull]
    exact Or.inl ⟨rfl, Or.inl hfull⟩
  · rw [if_neg hfull]
    cases alloc with
    | none => exact Or.inl ⟨rfl, Or.inr (Or.inl rfl)⟩
    | some g =>
      cases timer with
      | false => exact Or.inl ⟨rfl, Or.inr (Or.inr (Or.inl rfl))⟩
      | true =>
        cases lock with
        | false => exact Or.inl ⟨rfl, Or.inr (Or.inr (Or.inr rfl))⟩
        | true =>
          have hn : (r.maliggy_global_num_groups + 1) % 4294967296
              = r.maliggy_global_num_groups + 1 := by omega
          refine Or.inr ⟨g, rfl, by omega, rfl, rfl, ?_⟩
          simp only [if_true, hn]

theorem registry_create_spec (r : GroupRegistry) (alloc : Option Nat) (timer lock : Bool)
    (h : r.ok) (hfresh : ∀ p, alloc = some p → ¬ r.registered p) :
    (r.maliggy_group_create alloc timer lock).2.ok
    ∧ (∀ p, (r.maliggy_group_create alloc timer lock).2.registered p ↔
        (r.registered p ∨ (r.maliggy_group_create alloc timer lock).1 = some p)) := by
  have hmax : MALI_MAX_NUMBER_OF_GROUPS = 10 := rfl
  rcases registry_create_cases r alloc timer lock with ⟨e, -⟩ | ⟨g, ha, hlt, -, -, e⟩
  · rw [e]
    exact ⟨h, fun p => by simp⟩
  · rw [e]
    obtain ⟨h1, h2, h3, h4⟩ := h
    have hfr := hfresh g ha
    refine ⟨⟨?_, ?_, ?_, ?_⟩, ?_⟩
    · dsimp only
      omega
    · intro j hj
      have hj1 : j < r.maliggy_global_num_groups + 1 := hj
      dsimp only
      by_cases a : j = r.maliggy_global_num_groups
      · rw [a, Function.update_same]; exact Option.some_ne_none g
      · rw [Function.update_noteq a]; exact h2 j (by omega)
    · intro j k hj hk
      have hj1 : j < r.maliggy_global_num_groups + 1 := hj
      have hk1 : k < r.maliggy_global_num_groups + 1 := hk
      dsimp only
      by_cases a : j = r.maliggy_global_num_groups
      · by_cases b : k = r.maliggy_global_num_groups
        · intro _; rw [a, b]
        · rw [a, Function.update_same, Function.update_noteq b]
          intro hh
          exact absurd ⟨k, by omega, hh.symm⟩ hfr
      · by_cases b : k = r.maliggy_global_num_groups
        · rw [b, Function.update_same, Function.update_noteq a]
          intro hh
          exact absurd ⟨j, by omega, hh⟩ hfr
        · rw [Function.update_noteq a, Function.update_noteq b]
          exact h3 j k (by omega) (by omega)
    · intro j hj
      have hj1 : r.maliggy_global_num_groups + 1 ≤ j := hj
      have hjn : j ≠ r.maliggy_global_num_groups := by omega
      dsimp only
      rw [Function.update_noteq hjn]
      exact h4 j (by omega)
    · intro p
      constructor
      · rintro ⟨j, hj, hp⟩
        have hj1 : j < r.maliggy_global_num_groups + 1 := hj
        have hp1 : Function.update r.maliggy_global_groups
          r.maliggy_global_num_groups (some g) j = some p := hp
        by_cases a : j = r.maliggy_global_num_groups
        · rw [a, Function.update_same] at hp1
          exact Or.inr hp1
        · rw [Function.update_noteq a] at hp1
          exact Or.inl ⟨j, by omega, hp1⟩
      · rintro (⟨j, hj, hp⟩ | hp)
        · have hjn : j ≠ r.maliggy_global_num_groups := by omega
          refine ⟨j, (by show j < r.maliggy_global_num_groups + 1; omega), ?_⟩
          show Function.update r.maliggy_global_groups
            r.maliggy_global_num_groups (some g) j = some p
          rw [Function.update_noteq hjn]
          exact hp
        · refine ⟨r.maliggy_global_num_groups,
            (by show _ < r.maliggy_global_num_groups + 1; omega), ?_⟩
          show Function.update r.maliggy_global_groups
            r.maliggy_global_num_groups (some g) r.maliggy_global_num_groups = some p
          rw [Function.update_same]
          exact hp

theorem registry_delete_physical (fuel : Nat) (t : GroupTable) (c : Nat) (r : GroupRegistry)
    (h : maliggy_group_is_virtual (t.group c) = false) :
    GroupRegistry.maliggy_group_delete (fuel + 1) t c r = some (r.remove c) := by
  simp only [GroupRegistry.maliggy_group_delete, h, Bool.false_eq_true, if_false,
    Option.map_some']

theorem registry_delete_children (fuel : Nat) (t : GroupTable) (cs : List Nat)
    (r : GroupRegistry) (h : ∀ c ∈ cs, maliggy_group_is_virtual (t.group c) = false) :
    cs.foldlM (fun r2 child => GroupRegistry.maliggy_group_delete (fuel + 1) t child r2) r
      = some (cs.foldl (fun r2 child => r2.remove child) r) := by
  induction cs generalizing r with
  | nil => rfl
  | cons c cs ih =>
    rw [List.foldlM_cons, registry_delete_physical fuel t c r (h c (List.mem_cons_self c cs))]
    exact ih (r.remove c) (fun x hx => h x (List.mem_cons_of_mem c hx))

/-- With children that are physical groups, `maliggy_group_delete` returns at recursion depth
2: the children of a virtual group are taken out of the registry in list order, then the group
itself. -/
theorem registry_delete_eq (fuel : Nat) (t : GroupTable) (group : Nat) (r : GroupRegistry)
    (h : ∀ c ∈ t.members group, maliggy_group_is_virtual (t.group c) = false) :
    GroupRegistry.maliggy_group_delete (fuel + 2) t group r
      = some (GroupRegistry.remove
          (if maliggy_group_is_virtual (t.group group) then
            (t.members group).foldl (fun r2 child => r2.remove child) r
          else r) group) := by
  rw [GroupRegistry.maliggy_group_delete]
  by_cases hv : maliggy_group_is_virtual (t.group group) = true
  · simp only [hv, if_true]
    rw [registry_delete_children fuel t (t.members group) r h]
    rfl
  · simp only [hv, if_false]
    rfl

theorem registry_remove_list (cs : List Nat) (r : GroupRegistry) (h : r.ok) :
    (cs.foldl (fun r2 child => GroupRegistry.remove r2 child) r).ok
    ∧ (∀ p, (cs.foldl (fun r2 child => GroupRegistry.remove r2 child) r).registered p ↔
        (r.registered p ∧ p ∉ cs)) := by
  induction cs generalizing r with
  | nil => exact ⟨h, fun p => by simp⟩
  | cons c cs ih =>
    obtain ⟨h1, h2⟩ := registry_remove_spec r c h
    obtain ⟨h3, h4⟩ := ih (r.remove c) h1
    refine ⟨h3, ?_⟩
    intro p
    rw [List.foldl_cons, h4 p, h2 p, List.mem_cons]
    constructor
    · rintro ⟨⟨a, b⟩, c1⟩
      exact ⟨a, fun hh => hh.elim b c1⟩
    · rintro ⟨a, b⟩
      exact ⟨⟨a, fun hh => b (Or.inl hh)⟩, fun hh => b (Or.inr hh)⟩

theorem registry_delete_spec (fuel : Nat) (t : GroupTable) (group : Nat) (r : GroupRegistry)
    (hok : r.ok) (h : ∀ c ∈ t.members group, maliggy_group_is_virtual (t.group c) = false) :
    ∃ r1, GroupRegistry.maliggy_group_delete (fuel + 2) t group r = some r1 ∧ r1.ok
      ∧ ∀ p, r1.registered p ↔ (r.registered p ∧ p ∉ t.deleted_with group) := by
  refine ⟨_, registry_delete_eq fuel t group r h, ?_⟩
  unfold GroupTable.deleted_with
  by_cases hv : maliggy_group_is_virtual (t.group group) = true
  · simp only [hv, if_true]
    obtain ⟨h1, h2⟩ := registry_remove_list (t.members group) r hok
    obtain ⟨h3, h4⟩ := registry_remove_spec _ group h1
    refine ⟨h3, ?_⟩
    intro p
    rw [h4 p, h2 p, List.mem_cons]
    constructor
    · rintro ⟨⟨a, b⟩, c1⟩
      exact ⟨a, fun hh => hh.elim c1 b⟩
    · rintro ⟨a, b⟩
      exact ⟨⟨a, fun hh => b (Or.inr hh)⟩, fun hh => b (Or.inl hh)⟩
  · have hv1 : maliggy_group_is_virtual (t.group group) = false := by simpa using hv
    rw [hv1]
    simp only [Bool.false_eq_true, if_false]
    obtain ⟨h3, h4⟩ := registry_remove_spec r group hok
    refine ⟨h3, ?_⟩
    intro p
    rw [h4 p]
    simp

theorem registry_empty_ok : GroupRegistry.empty.ok :=
  ⟨Nat.zero_le _, fun i hi => absurd hi (Nat.not_lt_zero i),
    fun i _ hi => absurd hi (Nat.not_lt_zero i), fun _ _ => rfl⟩

theorem registry_reachable_inv (s : GroupRegistry × List Nat) (hr : RegReachable s) :
    s.1.ok ∧ ∀ p, s.1.registered p ↔ p ∈ s.2 := by
  induction hr with
  | init =>
    refine ⟨registry_empty_ok, fun p => ⟨?_, fun hp => absurd hp (List.not_mem_nil p)⟩⟩
    rintro ⟨i, hi, -⟩
    exact absurd hi (Nat.not_lt_zero i)
  | @step s op s1 _ hg ha ih =>
    obtain ⟨ok, live⟩ := ih
    cases op with
    | create alloc timer lock =>
      simp only [RegOp.apply, Option.some.injEq] at ha
      obtain ⟨c1, c2⟩ := registry_create_spec s.1 alloc timer lock ok hg
      subst ha
      refine ⟨c1, ?_⟩
      intro p
      dsimp only
      rw [c2 p, live p]
      cases hres : (s.1.maliggy_group_create alloc timer lock).1 with
      | none => simp
      | some q =>
        simp only [Option.some.injEq, List.mem_append, List.mem_singleton]
        constructor
        · rintro (a | a)
          · exact Or.inl a
          · exact Or.inr a.symm
        · rintro (a | a)
          · exact Or.inl a
          · exact Or.inr a.symm
    | delete t group =>
      simp only [RegOp.apply] at ha
      obtain ⟨r1, e, d1, d2⟩ := registry_delete_spec 0 t group s.1 ok hg.2
      rw [e] at ha
      simp only [Option.map_some', Option.some.injEq] at ha
      subst ha
      refine ⟨d1, ?_⟩
      intro p
      dsimp only
      rw [d2 p, live p, List.mem_filter]
      simp

theorem registry_delete_childless (fuel : Nat) (t : GroupTable) (group : Nat)
    (r : GroupRegistry)
    (h : maliggy_group_is_virtual (t.group group) = false ∨ t.members group = []) :
    GroupRegistry.maliggy_group_delete (fuel + 2) t group r = some (r.remove group) := by
  by_cases hv : maliggy_group_is_virtual (t.group group) = false
  · exact registry_delete_physical (fuel + 1) t group r hv
  · have hm : t.members group = [] := h.resolve_left hv
    have hc : ∀ c ∈ t.members group, maliggy_group_is_virtual (t.group c) = false := by
      intro c hcm
      rw [hm] at hcm
      exact absurd hcm (List.not_mem_nil c)
    rw [registry_delete_eq fuel t group r hc, hm]
    split_ifs <;> rfl

theorem registry_two_reachable : RegReachable (registry_two, [0, 1]) := by
  have h1 : RegReachable ((GroupRegistry.empty.maliggy_group_create (some 0) true true).2, [0]) :=
    RegReachable.step (.create (some 0) true true) RegReachable.init
      (fun p _ h => by
        obtain ⟨i, hi, -⟩ := h
        exact absurd hi (Nat.not_lt_zero i)) rfl
  refine RegReachable.step (.create (some 1) true true) h1 ?_ rfl
  intro p hp h
  obtain ⟨i, hi, hgi⟩ := h
  have hi1 : i < 1 := hi
  have hi0 : i = 0 := by omega
  subst hi0
  have h0 : some 0 = some p := hgi
  rw [← hp] at h0
  exact absurd h0 (by decide)

/-! ## The PP upper half with `MALI_UPPER_HALF_SCHEDULING` -/

theorem upper_half_pp_sched_eq (cfg : Config) (bc : BuildConfig) (g : maliggy_group) (w : World)
    (hu : bc.MALI_UPPER_HALF_SCHEDULING = true) (hpp : bc.MALI200_REG_VAL_IRQ_MASK_NONE = 0)
    (he : (upper_half_enter bc w).1 = true) :
    maliggy_group_upper_half_pp cfg bc g w =
      if (upper_half_pp_status bc g w).1 = 0 then
        (false, g, upper_half_leave bc (upper_half_pp_status bc g w).2)
      else if cfg.MALI200_REG_VAL_IRQ_END_OF_FRAME = (upper_half_pp_status bc g w).1 then
        if cfg.MALI200_REG_VAL_IRQ_END_OF_FRAME ≠ (upper_half_pp_inline_reads cfg bc g w).1 then
          (true, g, upper_half_leave bc (maliggy_group_unlock (maliggy_pp_enable_interrupts cfg
            (g.pp_core.getD null_pp_core) (upper_half_pp_inline_reads cfg bc g w).2.2)))
        else if (upper_half_pp_inline_reads cfg bc g w).2.1.any (fun status_readout =>
            status_readout &&& cfg.MALI200_REG_VAL_STATUS_RENDERING_ACTIVE != 0) = true then
          (true, g, upper_half_leave bc (maliggy_group_unlock (maliggy_pp_enable_interrupts cfg
            (g.pp_core.getD null_pp_core) (upper_half_pp_inline_reads cfg bc g w).2.2)))
        else if maliggy_group_is_in_virtual g = true then
          (false, g, upper_half_leave bc (maliggy_group_unlock (maliggy_pp_enable_interrupts cfg
            (g.pp_core.getD null_pp_core) (upper_half_pp_inline_reads cfg bc g w).2.2)))
        else
          (true,
            (maliggy_group_complete_pp cfg { g with core_timed_out := false } true
              (upper_half_pp_inline_reads cfg bc g w).2.2).1,
            upper_half_leave bc (maliggy_group_unlock (maliggy_group_complete_pp cfg
              { g with core_timed_out := false } true
              (upper_half_pp_inline_reads cfg bc g w).2.2).2))
      else
        (true, g, upper_half_leave bc
          ((maliggy_pp_mask_all_interrupts bc (g.pp_core.getD null_pp_core)
              (upper_half_pp_status bc g w).2).emit
            (.call ._maliggy_osk_wq_schedule_work_pp []))) := by
  unfold maliggy_group_upper_half_pp upper_half_pp_inline_reads upper_half_pp_status
    bottom_half_pp_reads
  simp only []
  generalize upper_half_enter bc w = e at he ⊢
  simp only [hu, he, hpp]
  generalize hir : maliggy_pp_get_int_stat (g.pp_core.getD null_pp_core) e.2 = ir
  by_cases h0 : ir.1 = 0
  · simp [h0]
  · have h0' : ¬ (0 : Nat) = ir.1 := fun x => h0 x.symm
    by_cases h1 : cfg.MALI200_REG_VAL_IRQ_END_OF_FRAME = ir.1
    · simp only [h0, h0', h1, if_false, if_true, ne_eq, not_false_eq_true, Bool.not_true,
        Bool.false_and, Bool.false_eq_true, Bool.true_and, beq_self_eq_true, not_true_eq_false]
      generalize maliggy_pp_read_rawstat cfg (g.pp_core.getD null_pp_core)
        (maliggy_group_lock (maliggy_pp_mask_all_interrupts bc (g.pp_core.getD null_pp_core)
          ir.2)) = rs
      by_cases h2 : ir.1 = rs.1
      · by_cases hv : maliggy_group_is_virtual g = true
        · simp [h2, hv, Prod.map]
        · simp [h2, hv, Prod.map]
      · simp [h2]
    · simp [h0, h0', h1]

theorem pp_schedules_append (a b : List Ev) :
    pp_schedules (a ++ b) = pp_schedules a ++ pp_schedules b := by
  simp [pp_schedules]

theorem pp_schedules_obs (l : List Ev) : pp_schedules (obs l) = pp_schedules l := by
  unfold pp_schedules obs
  rw [List.filter_filter]
  congr 1
  funext e
  cases e with
  | call f args => cases f <;> simp [Ev.is_schedule_work_pp, Ev.low]
  | _ => simp [Ev.is_schedule_work_pp, Ev.low]

theorem pp_schedules_of_obs (l l0 x : List Ev) (h : obs l = obs l0 ++ x) :
    pp_schedules l = pp_schedules l0 ++ pp_schedules x := by
  rw [← pp_schedules_obs l, h, pp_schedules_append, pp_schedules_obs]

theorem pp_schedules_reset_detail (t : List Ev) (h : ∀ e ∈ t, e.is_reset_detail = true) :
    pp_schedules t = [] := by
  unfold pp_schedules
  rw [List.filter_eq_nil_iff]
  intro e he
  have := h e he
  cases e with
  | call f args => cases f <;> simp_all [Ev.is_schedule_work_pp, Ev.is_reset_detail]
  | _ => simp [Ev.is_schedule_work_pp]

theorem pp_schedules_complete_pp (cfg : Config) (g : maliggy_group) (success : Bool)
    (w : World) :
    pp_schedules (maliggy_group_complete_pp cfg g success w).2.log = pp_schedules w.log := by
  obtain ⟨v, t, -, hl, h1, h2⟩ := group_complete_pp_spec cfg g success w
  rw [pp_schedules_of_obs _ w.log _ (by
    rw [hl, List.append_assoc, List.append_assoc, List.append_assoc, List.append_assoc,
      List.append_assoc])]
  have ht : pp_schedules t = [] := by
    by_cases hc : success = true ∧ v = 0
    · rw [h1 hc]; rfl
    · obtain ⟨t', e, hp⟩ := h2 hc
      rw [e]
      have := pp_schedules_reset_detail t' hp
      simp [pp_schedules, Ev.is_schedule_work_pp] at this ⊢
      exact this
  simp only [pp_schedules_append, ht]
  cases success <;> simp [pp_schedules, Ev.is_schedule_work_pp]

theorem pp_schedules_emit (w : World) (e : Ev) (h : e.is_schedule_work_pp = false) :
    pp_schedules (w.emit e).log = pp_schedules w.log := by
  simp [World.emit, pp_schedules, h]

theorem pp_schedules_upper_half_leave (bc : BuildConfig) (w : World) :
    pp_schedules (upper_half_leave bc w).log = pp_schedules w.log := by
  unfold upper_half_leave maliggy_pm_domain_unlock_state
  split_ifs
  · exact pp_schedules_emit w _ rfl
  · rfl

theorem pp_schedules_upper_half_enter (bc : BuildConfig) (w : World) :
    pp_schedules (upper_half_enter bc w).2.log = pp_schedules w.log := by
  unfold upper_half_enter maliggy_pm_domain_lock_state
  split_ifs
  · simp [World.emit, World.read, pp_schedules, Ev.is_schedule_work_pp]
  · rfl

theorem pp_schedules_upper_half_pp_status (bc : BuildConfig) (g : maliggy_group) (w : World) :
    pp_schedules (upper_half_pp_status bc g w).2.log = pp_schedules w.log := by
  unfold upper_half_pp_status maliggy_pp_get_int_stat maliggy_hw_core_register_read
  rw [← pp_schedules_upper_half_enter bc w]
  simp [World.read]

theorem pp_schedules_upper_half_pp_inline_reads (cfg : Config) (bc : BuildConfig)
    (g : maliggy_group) (w : World) :
    pp_schedules (upper_half_pp_inline_reads cfg bc g w).2.2.log = pp_schedules w.log := by
  unfold upper_half_pp_inline_reads
  rw [pp_schedules_of_obs _ _ _ (bottom_half_pp_reads_obs cfg g _)]
  unfold maliggy_pp_mask_all_interrupts maliggy_hw_core_register_write
  rw [pp_schedules_emit _ (.reg_write _ _ _) rfl, pp_schedules_upper_half_pp_status]
  simp [pp_schedules, Ev.is_schedule_work_pp]

theorem pp_schedules_unlock_enable (cfg : Config) (core : maliggy_pp_core) (w : World) :
    pp_schedules (maliggy_group_unlock (maliggy_pp_enable_interrupts cfg core w)).log
      = pp_schedules w.log := by
  unfold maliggy_group_unlock maliggy_pp_enable_interrupts maliggy_hw_core_register_write
  rw [pp_schedules_emit _ (.call .maliggy_group_unlock []) rfl,
    pp_schedules_emit _ (.reg_write _ _ _) rfl]

/-- When the status read is `END_OF_FRAME`, the PP upper half built with
`MALI_UPPER_HALF_SCHEDULING` does not ask for the bottom half. -/
theorem upper_half_pp_sched_inline (cfg : Config) (bc : BuildConfig) (g : maliggy_group)
    (w : World) (hu : bc.MALI_UPPER_HALF_SCHEDULING = true)
    (hpp : bc.MALI200_REG_VAL_IRQ_MASK_NONE = 0) (he : (upper_half_enter bc w).1 = true)
    (h0 : (upper_half_pp_status bc g w).1 ≠ 0)
    (h1 : cfg.MALI200_REG_VAL_IRQ_END_OF_FRAME = (upper_half_pp_status bc g w).1) :
    pp_schedules (maliggy_group_upper_half_pp cfg bc g w).2.2.log = pp_schedules w.log := by
  rw [upper_half_pp_sched_eq cfg bc g w hu hpp he, if_neg h0, if_pos h1]
  split_ifs
  · rw [pp_schedules_upper_half_leave, pp_schedules_unlock_enable,
      pp_schedules_upper_half_pp_inline_reads]
  · rw [pp_schedules_upper_half_leave, pp_schedules_unlock_enable,
      pp_schedules_upper_half_pp_inline_reads]
  · rw [pp_schedules_upper_half_leave, pp_schedules_unlock_enable,
      pp_schedules_upper_half_pp_inline_reads]
  · rw [pp_schedules_upper_half_leave]
    unfold maliggy_group_unlock
    rw [pp_schedules_emit _ (.call .maliggy_group_unlock []) rfl, pp_schedules_complete_pp,
      pp_schedules_upper_half_pp_inline_reads]

/-! ## Runs in which a handler meets a group without a running job -/

theorem fault_run_reachable :
    Reachable cfg_mali400 Op.guard_kind gp_group0 (world_of reads_fault_run)
      fault_run_faulted.1 fault_run_faulted.2 := by
  have h1 : Reachable cfg_mali400 Op.guard_kind gp_group0 (world_of reads_fault_run)
      fault_run_started.1 fault_run_started.2 :=
    Reachable.step (.start_gp_job gp_job1) Reachable.init ⟨rfl, rfl⟩ rfl
  have h2 : Reachable cfg_mali400 Op.guard_kind gp_group0 (world_of reads_fault_run)
      fault_run_aborted.1 fault_run_aborted.2 :=
    Reachable.step (.abort_gp_job 1) h1 trivial rfl
  exact Reachable.step .bottom_half_mmu h2 trivial rfl

theorem stale_run_reachable :
    Reachable cfg_mali400 Op.guard_kind gp_group0 (world_of reads_stale_run)
      stale_run_repeated.1 stale_run_repeated.2 := by
  have h1 : Reachable cfg_mali400 Op.guard_kind gp_group0 (world_of reads_stale_run)
      stale_run_started.1 stale_run_started.2 :=
    Reachable.step (.start_gp_job gp_job1) Reachable.init ⟨rfl, rfl⟩ rfl
  have g1 : stale_run_started.1.gp_core.isSome = true := by decide
  have h2 : Reachable cfg_mali400 Op.guard_kind gp_group0 (world_of reads_stale_run)
      stale_run_completed.1 stale_run_completed.2 :=
    Reachable.step .bottom_half_gp h1 g1 rfl
  have g2 : stale_run_completed.1.gp_core.isSome = true := by decide
  exact Reachable.step .bottom_half_gp h2 g2 rfl

set_option maxRecDepth 100000 in
theorem fault_run_facts :
    fault_run_started.1.page_dir_ref_count = 1
    ∧ fault_run_aborted.1.gp_running_job = none
    ∧ fault_run_aborted.1.state = MALI_GROUP_STATE_IDLE
    ∧ fault_run_aborted.1.page_dir_ref_count = 0
    ∧ fault_run_faulted.1.page_dir_ref_count = -1
    ∧ count_activations fault_run_faulted.2.log = 1
    ∧ count_deactivations fault_run_faulted.2.log = 2
    ∧ (callbacks fault_run_faulted.2.log).map (fun e => e.reports_failure) = [true, true] := by
  refine ⟨by decide, by decide, by decide, by decide, by decide, by decide, by decide,
    by decide⟩

set_option maxRecDepth 100000 in
theorem stale_run_facts :
    stale_run_completed.1.page_dir_ref_count = 0
    ∧ stale_run_completed.1.gp_running_job = none
    ∧ stale_run_repeated.1.page_dir_ref_count = -1
    ∧ stale_run_repeated.1.session = some 7
    ∧ stale_run_repeated.1.gp_running_job = none
    ∧ stale_run_repeated.1.pp_running_job = none
    ∧ maliggy_group_is_in_virtual stale_run_repeated.1 = false
    ∧ (maliggy_group_abort_session cfg_mali400 stale_run_repeated.1 7 stale_run_repeated.2).map
        (fun r => r.1.session) = some (some 7) := by
  refine ⟨by decide, by decide, by decide, by decide, by decide, by decide, by decide,
    by decide⟩

/-! ## Sessions and running jobs when handlers meet a group without a job -/

theorem SessDec.keep {g g1 : maliggy_group} (h : SessDec g g1) : SessKeep g g1 := by
  obtain ⟨a1, a2, a3⟩ := h
  refine ⟨a1, a2, ?_⟩
  rcases a3 with k | k
  · exact Or.inl k
  · exact Or.inr (Or.inr k)

theorem SessKeep.keep_trans {a b c : maliggy_group} (h1 : SessKeep a b) (h2 : SessKeep b c) :
    SessKeep a c := by
  obtain ⟨a1, a2, a3⟩ := h1
  obtain ⟨b1, b2, b3⟩ := h2
  have hg : c.gp_running_job = a.gp_running_job ∨ c.gp_running_job = none := by
    rcases b1 with h | h
    · rw [h]; exact a1
    · exact Or.inr h
  have hp : c.pp_running_job = a.pp_running_job ∨ c.pp_running_job = none := by
    rcases b2 with h | h
    · rw [h]; exact a2
    · exact Or.inr h
  refine ⟨hg, hp, ?_⟩
  rcases b3 with h | h | h
  · rcases a3 with k | k | k
    · left; rw [h, k]
    · right; left; rw [h, k]
    · right; right
      constructor
      · rcases b1 with e | e
        · rw [e]; exact k.1
        · exact e
      · rcases b2 with e | e
        · rw [e]; exact k.2
        · exact e
  · exact Or.inr (Or.inl h)
  · exact Or.inr (Or.inr h)

theorem SessKeep.sess_weak {g g1 : maliggy_group} (h : SessKeep g g1) (hk : g.sess_weak) :
    g1.sess_weak := by
  obtain ⟨a1, a2, a3⟩ := h
  constructor
  · intro j hj
    rcases a1 with e | e
    · rcases a3 with k | k | k
      · rw [k]; exact hk.1 j (by rw [← e]; exact hj)
      · exact Or.inl k
      · rw [k.1] at hj; exact Option.noConfusion hj
    · rw [e] at hj; exact Option.noConfusion hj
  · intro j hj
    rcases a2 with e | e
    · rcases a3 with k | k | k
      · rw [k]; exact hk.2 j (by rw [← e]; exact hj)
      · exact Or.inl k
      · rw [k.2] at hj; exact Option.noConfusion hj
    · rw [e] at hj; exact Option.noConfusion hj

theorem keep_remove_session_if_unused (cfg : Config) (g : maliggy_group) (s : Nat) (w : World) :
    SessKeep g (maliggy_group_remove_session_if_unused cfg g s w).1 := by
  unfold maliggy_group_remove_session_if_unused
  split_ifs with h1 h2
  · exact ⟨Or.inl rfl, Or.inl rfl, Or.inr (Or.inl rfl)⟩
  · exact ⟨Or.inl rfl, Or.inl rfl, Or.inl rfl⟩
  · exact ⟨Or.inl rfl, Or.inl rfl, Or.inl rfl⟩

theorem keep_abort_session (cfg : Config) (g : maliggy_group) (s : Nat) (w : World)
    (r : maliggy_group × World) (hs : g.shape.slots_ok)
    (h : maliggy_group_abort_session cfg g s w = some r) : SessKeep g r.1 := by
  obtain ⟨-, -, -, f4, f5, -⟩ := slots_jobs g hs
  obtain ⟨sa, sb, sc⟩ := abort_session_spec cfg g s w hs
  by_cases hg : ∃ j, g.gp_running_job = some j ∧ j.session = s
  · obtain ⟨j, hj, hjs⟩ := hg
    rw [sb j hj hjs] at h
    simp only [Option.some.injEq] at h
    rw [← h]
    have hpn : g.pp_running_job = none := f4 (by rw [hj]; simp)
    exact SessKeep.keep_trans (dec_complete_gp cfg g g false _ hpn).keep
      (keep_remove_session_if_unused cfg _ s _)
  · by_cases hp : ∃ j, g.pp_running_job = some j ∧ j.session = s
    · obtain ⟨j, hj, hjs⟩ := hp
      rw [sc j hj hjs] at h
      simp only [Option.some.injEq] at h
      rw [← h]
      have hgn : g.gp_running_job = none := f5 (by rw [hj]; simp)
      exact SessKeep.keep_trans (dec_complete_pp cfg g g false _ hgn).keep
        (keep_remove_session_if_unused cfg _ s _)
    · rw [sa (fun j hj hjs => hg ⟨j, hj, hjs⟩) (fun j hj hjs => hp ⟨j, hj, hjs⟩)] at h
      simp only [Option.some.injEq] at h
      rw [← h]
      exact keep_remove_session_if_unused cfg g s _

theorem keep_zap_session (cfg : Config) (g : maliggy_group) (s : Nat) (w : World)
    (h1 : g.pp_core.isSome = true → g.gp_running_job = none)
    (h2 : g.pp_core = none → g.pp_running_job = none) :
    SessKeep g (maliggy_group_zap_session cfg g s w).1 := by
  have hd := keep_remove_session_if_unused cfg g s (maliggy_group_lock w)
  have hc : (maliggy_group_remove_session_if_unused cfg g s (maliggy_group_lock w)).1.pp_core
      = g.pp_core := by
    unfold maliggy_group_remove_session_if_unused
    split_ifs <;> rfl
  have hj : (maliggy_group_remove_session_if_unused cfg g s (maliggy_group_lock w)).1.gp_running_job
        = g.gp_running_job
      ∧ (maliggy_group_remove_session_if_unused cfg g s
          (maliggy_group_lock w)).1.pp_running_job = g.pp_running_job := by
    unfold maliggy_group_remove_session_if_unused
    split_ifs <;> exact ⟨rfl, rfl⟩
  unfold maliggy_group_zap_session
  simp only []
  split_ifs <;>
    first
    | exact (SessDec.dec_refl g).keep
    | exact hd
    | exact (dec_mmu_page_fault cfg g _ _ (by rw [hc, hj.1]; exact h1)
        (by rw [hc, hj.2]; exact h2)).keep

theorem weak_start_gp_job (cfg : Config) (g : maliggy_group) (job : maliggy_gp_job) (w : World)
    (hk : g.sess_weak) (hp : g.pp_running_job = none) :
    (maliggy_group_start_gp_job cfg g job w).1.sess_weak := by
  rw [group_start_gp_job_eq]
  simp only []
  obtain ⟨-, a2, a3, a4⟩ := activate_page_directory_view cfg g job.session
    (maliggy_l2_cache_invalidate_conditional cfg g.l2_cache_core.1 job.id w).2
  generalize maliggy_group_activate_page_directory cfg g job.session _ = a at a2 a3 a4 ⊢
  by_cases h : a.1 = MALI_GROUP_ACTIVATE_PD_STATUS_FAILED
  · rw [if_neg (not_not.mpr h)]
    show a.2.1.sess_weak
    rw [a4 h]
    exact hk
  · rw [if_pos h]
    constructor
    · intro j hj
      simp only [Option.some.injEq] at hj
      subst hj
      exact Or.inr (a3 h)
    · intro j hj
      have : a.2.1.pp_running_job = some j := hj
      rw [a2, hp] at this
      exact Option.noConfusion this

theorem weak_start_pp_job (cfg : Config) (g : maliggy_group) (job : maliggy_pp_job)
    (sub_job : Nat) (w : World) (hk : g.sess_weak) (hp : g.gp_running_job = none) :
    (maliggy_group_start_pp_job cfg g job sub_job w).1.sess_weak := by
  rw [group_start_pp_job_eq]
  simp only []
  obtain ⟨a1, -, a3, a4⟩ := activate_page_directory_view cfg g job.session
    (maliggy_l2_cache_invalidate_conditional cfg g.l2_cache_core.2 job.id
      (maliggy_l2_cache_invalidate_conditional cfg g.l2_cache_core.1 job.id w).2).2
  generalize maliggy_group_activate_page_directory cfg g job.session _ = a at a1 a3 a4 ⊢
  by_cases h : a.1 = MALI_GROUP_ACTIVATE_PD_STATUS_FAILED
  · rw [if_neg (not_not.mpr h)]
    show a.2.1.sess_weak
    rw [a4 h]
    exact hk
  · rw [if_pos h]
    constructor
    · intro j hj
      have : a.2.1.gp_running_job = some j := hj
      rw [a1, hp] at this
      exact Option.noConfusion this
    · intro j hj
      simp only [Option.some.injEq] at hj
      subst hj
      exact Or.inr (a3 h)

/-- One operation called on a group of the right kind keeps the session of the group null or
equal to the session of its running job. -/
theorem weak_step (cfg : Config) (op : Op) (g : maliggy_group) (w : World) (g1 : maliggy_group)
    (w1 : World) (hk : g.sess_weak) (hs : g.shape.slots_ok)
    (hg : op.guard_kind g) (h : op.apply cfg g w = some (g1, w1)) : g1.sess_weak := by
  obtain ⟨f1, f2, f3, f4, f5, f6, -⟩ := slots_jobs g hs
  cases op with
  | start_gp_job job =>
    simp only [Op.apply, Option.some.injEq] at h
    have e : g1 = (maliggy_group_start_gp_job cfg g job w).1 := by rw [h]
    rw [e]
    exact weak_start_gp_job cfg g job w hk (f6 hg.1).2
  | start_pp_job job sub_job =>
    simp only [Op.apply, Option.some.injEq] at h
    have e : g1 = (maliggy_group_start_pp_job cfg g job sub_job w).1 := by rw [h]
    rw [e]
    exact weak_start_pp_job cfg g job sub_job w hk (f6 hg.1).1
  | bottom_half_gp =>
    simp only [Op.apply, Option.some.injEq] at h
    have e : g1 = (maliggy_group_bottom_half_gp cfg g w).1 := by rw [h]
    rw [e]
    exact (dec_bottom_half_gp cfg g w (f1 hg)).keep.sess_weak hk
  | bottom_half_pp =>
    simp only [Op.apply, Option.some.injEq] at h
    have e : g1 = (maliggy_group_bottom_half_pp cfg g w).1 := by rw [h]
    rw [e]
    exact (dec_bottom_half_pp cfg g w (f2 hg)).keep.sess_weak hk
  | bottom_half_mmu =>
    simp only [Op.apply, Option.some.injEq] at h
    have e : g1 = (maliggy_group_bottom_half_mmu cfg g w).1 := by rw [h]
    rw [e]
    exact (dec_bottom_half_mmu cfg g w f2 f3).keep.sess_weak hk
  | timeout =>
    simp only [Op.apply, Option.some.injEq] at h
    have e : g1 = (maliggy_group_timeout g w).1 := by rw [h]
    rw [e]
    exact (dec_timeout g w).keep.sess_weak hk
  | resume_gp_with_new_heap job_id start_addr end_addr =>
    simp only [Op.apply, Option.map_eq_some'] at h
    obtain ⟨r, h1, h2⟩ := h
    have e : g1 = r.2.1 := by rw [h2]
    rw [e]
    exact (dec_resume_gp_with_new_heap cfg g job_id start_addr end_addr w r h1).keep.sess_weak hk
  | abort_gp_job job_id =>
    exact (dec_abort_gp_job cfg g job_id w (g1, w1) f4 h).keep.sess_weak hk
  | abort_pp_job job_id =>
    exact (dec_abort_pp_job cfg g job_id w (g1, w1) f5 h).keep.sess_weak hk
  | abort_session session =>
    exact (keep_abort_session cfg g session w (g1, w1) hs h).sess_weak hk
  | zap_session session =>
    simp only [Op.apply, Option.some.injEq] at h
    have e : g1 = (maliggy_group_zap_session cfg g session w).1 := by rw [h]
    rw [e]
    exact (keep_zap_session cfg g session w f2 f3).sess_weak hk
  | complete_gp success =>
    simp only [Op.apply, Option.some.injEq] at h
    have e : g1 = (maliggy_group_complete_gp cfg g success w).1 := by rw [h]
    rw [e]
    exact (dec_complete_gp cfg g g success w (f1 hg)).keep.sess_weak hk
  | complete_pp success =>
    simp only [Op.apply, Option.some.injEq] at h
    have e : g1 = (maliggy_group_complete_pp cfg g success w).1 := by rw [h]
    rw [e]
    exact (dec_complete_pp cfg g g success w (f2 hg)).keep.sess_weak hk
  | mmu_page_fault =>
    simp only [Op.apply, Option.some.injEq] at h
    have e : g1 = (maliggy_group_mmu_page_fault cfg g w).1 := by rw [h]
    rw [e]
    exact (dec_mmu_page_fault cfg g g w f2 f3).keep.sess_weak hk

theorem fresh_sess_weak (g : maliggy_group) (h : Fresh g) : g.sess_weak := by
  rcases h with ⟨l2, core, e⟩ | ⟨l2, dlbu, bcast, core, children, e⟩
  · rw [e]
    constructor <;> intro j hj <;> exact Option.noConfusion hj
  · rw [e]
    constructor <;> intro j hj <;> exact Option.noConfusion hj

/-- In every state reached by operations called on a group of the right kind, the session of
the group is null or the session of the job it runs. -/
theorem reachable_sess_weak (cfg : Config) (g0 : maliggy_group) (w0 : World)
    (g : maliggy_group) (w : World) (hf : Fresh g0)
    (hr : Reachable cfg Op.guard_kind g0 w0 g w) : g.sess_weak := by
  induction hr with
  | init => exact fresh_sess_weak g0 hf
  | step op hprev hg ha ih =>
    exact weak_step cfg op _ _ _ _ ih (reachable_slots_ok cfg g0 w0 _ _ hf hprev) hg ha

/-! ## The page directory -/

theorem pde_entry_eq (a : Nat) (h : a < 4294967296) : MALI_MMU_PDE_ENTRY a = a / 4194304 := by
  unfold MALI_MMU_PDE_ENTRY
  rw [Nat.shiftRight_eq_div_pow]
  have e : (0x03FF : Nat) = 2 ^ 10 - 1 := by norm_num
  rw [e, Nat.and_pow_two_sub_one_eq_mod]
  norm_num
  omega

theorem mem_pde_range (first last i : Nat) : i ∈ pde_range first last ↔ first ≤ i ∧ i ≤ last := by
  unfold pde_range
  rw [List.mem_range'_1]
  omega

theorem pde_range_nodup (first last : Nat) : (pde_range first last).Nodup := by
  unfold pde_range
  exact List.nodup_range' _ _

theorem present_eq_false_iff (pagedir : maliggy_page_directory) (w : PageWorld) (i : Nat) :
    pagedir.present w i = false
      ↔ _maliggy_osk_mem_ioread32 pagedir.page_directory_mapped (i * 4) w
          &&& MALI_MMU_FLAGS_PRESENT = 0 := by
  unfold maliggy_page_directory.present
  simp

theorem present_congr (p1 p2 : maliggy_page_directory) (w1 w2 : PageWorld) (i : Nat)
    (hp : p1.page_directory_mapped = p2.page_directory_mapped)
    (hm : w1.mem p2.page_directory_mapped (i * 4) = w2.mem p2.page_directory_mapped (i * 4)) :
    p1.present w1 i = p2.present w2 i := by
  unfold maliggy_page_directory.present _maliggy_osk_mem_ioread32
  rw [hp, hm]

theorem get_table_page_ok (w : PageWorld)
    (h : (maliggy_mmu_get_table_page w).1 = _MALI_OSK_ERR_OK) :
    ∃ p m, w.table_pages
        = (_MALI_OSK_ERR_OK, p, m) :: (maliggy_mmu_get_table_page w).2.2.2.table_pages
      ∧ (maliggy_mmu_get_table_page w).2.1 = p % 4294967296
      ∧ (maliggy_mmu_get_table_page w).2.2.1 = m
      ∧ (maliggy_mmu_get_table_page w).2.2.2.mem = w.mem
      ∧ (maliggy_mmu_get_table_page w).2.2.2.log = w.log := by
  unfold maliggy_mmu_get_table_page at h ⊢
  cases ht : w.table_pages with
  | nil =>
    rw [ht] at h
    simp at h
  | cons r rest =>
    rw [ht] at h
    obtain ⟨e, p, m⟩ := r
    have he : e = _MALI_OSK_ERR_OK := h
    subst he
    exact ⟨p, m, rfl, rfl, rfl, rfl, rfl⟩

theorem iowrite32_mem (m o v : Nat) (w : PageWorld) (m1 o1 : Nat) :
    (_maliggy_osk_mem_iowrite32_relaxed m o v w).mem m1 o1
      = if m1 = m ∧ o1 = o then v % 4294967296 else w.mem m1 o1 := by
  unfold _maliggy_osk_mem_iowrite32_relaxed
  simp only [Function.update_apply]
  by_cases h1 : m1 = m
  · subst h1
    by_cases h2 : o1 = o
    · subst h2
      simp
    · simp [h2]
  · simp [h1]

theorem iowrite32_log (m o v : Nat) (w : PageWorld) :
    (_maliggy_osk_mem_iowrite32_relaxed m o v w).log = w.log := rfl

theorem iowrite32_table_pages (m o v : Nat) (w : PageWorld) :
    (_maliggy_osk_mem_iowrite32_relaxed m o v w).table_pages = w.table_pages := rfl

theorem or_present_lt (p : Nat) (h : p < 4294967296) :
    p ||| MALI_MMU_FLAGS_PRESENT < 4294967296 := by
  have h1 : p < 2 ^ 32 := by norm_num; exact h
  have h2 : MALI_MMU_FLAGS_PRESENT < 2 ^ 32 := by decide
  have := Nat.or_lt_two_pow h1 h2
  norm_num at this
  exact this

theorem or_present_and (p : Nat) :
    (p ||| MALI_MMU_FLAGS_PRESENT) &&& MALI_MMU_FLAGS_PRESENT = 1 := by
  unfold MALI_MMU_FLAGS_PRESENT
  rw [Nat.and_one_is_mod]
  exact Nat.or_mod_two_eq_one.mpr (Or.inr rfl)

/-- The loop of `maliggy_mmu_pagedir_map` when it ends with `_MALI_OSK_ERR_OK`, over entries
that are listed once: what it leaves alone, what it does to a present and to an absent entry,
and which results of the allocator went where. -/
theorem pagedir_map_loop_spec (l : List Nat) (hnd : l.Nodup) (pagedir : maliggy_page_directory)
    (w : PageWorld)
    (hok : (maliggy_mmu_pagedir_map_loop l pagedir w).1 = _MALI_OSK_ERR_OK) :
    (maliggy_mmu_pagedir_map_loop l pagedir w).2.1.page_directory = pagedir.page_directory
    ∧ (maliggy_mmu_pagedir_map_loop l pagedir w).2.1.page_directory_mapped
        = pagedir.page_directory_mapped
    ∧ (maliggy_mmu_pagedir_map_loop l pagedir w).2.2.log
        = w.log ++ [._maliggy_osk_write_mem_barrier]
    ∧ (∀ m o, m ≠ pagedir.page_directory_mapped →
        (maliggy_mmu_pagedir_map_loop l pagedir w).2.2.mem m o = w.mem m o)
    ∧ (∀ i, i ∉ l →
        (maliggy_mmu_pagedir_map_loop l pagedir w).2.2.mem pagedir.page_directory_mapped (i * 4)
          = w.mem pagedir.page_directory_mapped (i * 4)
        ∧ (maliggy_mmu_pagedir_map_loop l pagedir w).2.1.page_entries_usage_count i
          = pagedir.page_entries_usage_count i
        ∧ (maliggy_mmu_pagedir_map_loop l pagedir w).2.1.page_entries_mapped i
          = pagedir.page_entries_mapped i)
    ∧ (∀ i, i ∈ l → pagedir.present w i = true →
        (maliggy_mmu_pagedir_map_loop l pagedir w).2.2.mem pagedir.page_directory_mapped (i * 4)
          = w.mem pagedir.page_directory_mapped (i * 4)
        ∧ (maliggy_mmu_pagedir_map_loop l pagedir w).2.1.page_entries_usage_count i
          = (pagedir.page_entries_usage_count i + 1) % 4294967296
        ∧ (maliggy_mmu_pagedir_map_loop l pagedir w).2.1.page_entries_mapped i
          = pagedir.page_entries_mapped i)
    ∧ (∀ i, i ∈ l → pagedir.present w i = false →
        (maliggy_mmu_pagedir_map_loop l pagedir w).2.1.page_entries_usage_count i = 1)
    ∧ ∃ allocs : List (Nat × Nat),
        w.table_pages = allocs.map (fun a => (_MALI_OSK_ERR_OK, a.1, a.2))
          ++ (maliggy_mmu_pagedir_map_loop l pagedir w).2.2.table_pages
        ∧ (l.filter (fun i => !pagedir.present w i)).map
            (fun i =>
              ((maliggy_mmu_pagedir_map_loop l pagedir w).2.2.mem
                  pagedir.page_directory_mapped (i * 4),
                (maliggy_mmu_pagedir_map_loop l pagedir w).2.1.page_entries_mapped i))
          = allocs.map (fun a => ((a.1 % 4294967296) ||| MALI_MMU_FLAGS_PRESENT, a.2)) := by
  induction l generalizing pagedir w with
  | nil =>
    refine ⟨rfl, rfl, rfl, fun _ _ _ => rfl, fun _ _ => ⟨rfl, rfl, rfl⟩, ?_, ?_, [], ?_, rfl⟩
    · intro i hi
      exact absurd hi (List.not_mem_nil i)
    · intro i hi
      exact absurd hi (List.not_mem_nil i)
    · rfl
  | cons i rest ih =>
    have hi : i ∉ rest := (List.nodup_cons.mp hnd).1
    have hrest : rest.Nodup := (List.nodup_cons.mp hnd).2
    by_cases hp : pagedir.present w i = false
    · -- the entry is absent: a table page is allocated
      have hc := (present_eq_false_iff pagedir w i).mp hp
      have hstep : maliggy_mmu_pagedir_map_loop (i :: rest) pagedir w
          = if (maliggy_mmu_get_table_page w).1 ≠ _MALI_OSK_ERR_OK then
              ((maliggy_mmu_get_table_page w).1, pagedir, (maliggy_mmu_get_table_page w).2.2.2)
            else
              maliggy_mmu_pagedir_map_loop rest
                { pagedir with
                  page_entries_mapped := Function.update pagedir.page_entries_mapped i
                    (maliggy_mmu_get_table_page w).2.2.1,
                  page_entries_usage_count :=
                    Function.update pagedir.page_entries_usage_count i 1 }
                (_maliggy_osk_mem_iowrite32_relaxed pagedir.page_directory_mapped (i * 4)
                  ((maliggy_mmu_get_table_page w).2.1 ||| MALI_MMU_FLAGS_PRESENT)
                  (maliggy_mmu_get_table_page w).2.2.2) := by
        rw [maliggy_mmu_pagedir_map_loop, if_pos hc]
      by_cases ha : (maliggy_mmu_get_table_page w).1 ≠ _MALI_OSK_ERR_OK
      · rw [hstep, if_pos ha] at hok
        exact absurd hok ha
      · rw [hstep, if_neg ha] at hok ⊢
        obtain ⟨p, mp, t1, t2, t3, t4, t5⟩ := get_table_page_ok w (not_not.mp ha)
        generalize maliggy_mmu_get_table_page w = a at hok t1 t2 t3 t4 t5
        obtain ⟨e1, e2, e3, e4, e5, e6, e7, allocs, e8, e9⟩ := ih hrest _ _ hok
        have hw : ∀ j, j ≠ i →
            (_maliggy_osk_mem_iowrite32_relaxed pagedir.page_directory_mapped (i * 4)
              (a.2.1 ||| MALI_MMU_FLAGS_PRESENT) a.2.2.2).mem pagedir.page_directory_mapped
                (j * 4)
              = w.mem pagedir.page_directory_mapped (j * 4) := by
          intro j hj
          rw [iowrite32_mem, if_neg (by omega), t4]
        have hpres : ∀ j, j ≠ i →
            maliggy_page_directory.present
              { pagedir with
                page_entries_mapped := Function.update pagedir.page_entries_mapped i a.2.2.1,
                page_entries_usage_count :=
                  Function.update pagedir.page_entries_usage_count i 1 }
              (_maliggy_osk_mem_iowrite32_relaxed pagedir.page_directory_mapped (i * 4)
                (a.2.1 ||| MALI_MMU_FLAGS_PRESENT) a.2.2.2) j
              = pagedir.present w j := by
          intro j hj
          exact present_congr _ _ _ _ j rfl (hw j hj)
        have hne : ∀ j, j ∈ rest → j ≠ i := fun j hj e => hi (e ▸ hj)
        refine ⟨e1, e2, ?_, ?_, ?_, ?_, ?_, (p, mp) :: allocs, ?_, ?_⟩
        · rw [e3, iowrite32_log, t5]
        · intro m o hm
          rw [e4 m o hm, iowrite32_mem, if_neg (fun h => hm h.1), t4]
        · intro j hj
          have hj1 : j ≠ i := fun e => hj (e ▸ List.mem_cons_self _ _)
          have hj2 : j ∉ rest := fun e => hj (List.mem_cons_of_mem _ e)
          obtain ⟨u1, u2, u3⟩ := e5 j hj2
          refine ⟨?_, ?_, ?_⟩
          · rw [u1]; exact hw j hj1
          · rw [u2]; exact Function.update_noteq hj1 _ _
          · rw [u3]; exact Function.update_noteq hj1 _ _
        · intro j hj hpj
          rcases List.mem_cons.mp hj with e | e
          · rw [e, hp] at hpj
            exact absurd hpj (by decide)
          · have hj1 := hne j e
            obtain ⟨u1, u2, u3⟩ := e6 j e (by rw [hpres j hj1]; exact hpj)
            refine ⟨?_, ?_, ?_⟩
            · rw [u1]; exact hw j hj1
            · rw [u2]
              show (Function.update pagedir.page_entries_usage_count i 1 j + 1) % 4294967296 = _
              rw [Function.update_noteq hj1]
            · rw [u3]; exact Function.update_noteq hj1 _ _
        · intro j hj hpj
          rcases List.mem_cons.mp hj with e | e
          · rw [e, (e5 i hi).2.1]
            exact Function.update_same _ _ _
          · exact e7 j e (by rw [hpres j (hne j e)]; exact hpj)
        · have e8a : a.2.2.2.table_pages = _ := e8
          rw [t1, e8a]
          rfl
        · have hfi : (i :: rest).filter (fun i => !pagedir.present w i)
              = i :: rest.filter (fun i => !pagedir.present w i) := by
            rw [List.filter_cons, hp]
            rfl
          have hfr : rest.filter (fun j => !pagedir.present w j)
              = rest.filter (fun j => !maliggy_page_directory.present
                  { pagedir with
                    page_entries_mapped := Function.update pagedir.page_entries_mapped i a.2.2.1,
                    page_entries_usage_count :=
                      Function.update pagedir.page_entries_usage_count i 1 }
                  (_maliggy_osk_mem_iowrite32_relaxed pagedir.page_directory_mapped (i * 4)
                    (a.2.1 ||| MALI_MMU_FLAGS_PRESENT) a.2.2.2) j) := by
            apply List.filter_congr
            intro j hj
            rw [hpres j (hne j hj)]
          rw [hfi, List.map_cons, List.map_cons, hfr]
          have hhead : (maliggy_mmu_pagedir_map_loop rest
                { pagedir with
                  page_entries_mapped := Function.update pagedir.page_entries_mapped i a.2.2.1,
                  page_entries_usage_count :=
                    Function.update pagedir.page_entries_usage_count i 1 }
                (_maliggy_osk_mem_iowrite32_relaxed pagedir.page_directory_mapped (i * 4)
                  (a.2.1 ||| MALI_MMU_FLAGS_PRESENT) a.2.2.2)).2.2.mem
                pagedir.page_directory_mapped (i * 4)
              = (p % 4294967296) ||| MALI_MMU_FLAGS_PRESENT := by
            rw [(e5 i hi).1, iowrite32_mem, if_pos ⟨rfl, rfl⟩, t2]
            exact Nat.mod_eq_of_lt (or_present_lt _ (Nat.mod_lt _ (by norm_num)))
          have hmap : (maliggy_mmu_pagedir_map_loop rest
                { pagedir with
                  page_entries_mapped := Function.update pagedir.page_entries_mapped i a.2.2.1,
                  page_entries_usage_count :=
                    Function.update pagedir.page_entries_usage_count i 1 }
                (_maliggy_osk_mem_iowrite32_relaxed pagedir.page_directory_mapped (i * 4)
                  (a.2.1 ||| MALI_MMU_FLAGS_PRESENT) a.2.2.2)).2.1.page_entries_mapped i
              = mp := by
            rw [(e5 i hi).2.2, ← t3]
            exact Function.update_same _ _ _
          rw [hhead, hmap]
          exact congrArg _ e9
    · -- the entry is present: its usage count is incremented
      have hp1 : pagedir.present w i = true := by simpa using hp
      have hc : ¬ (_maliggy_osk_mem_ioread32 pagedir.page_directory_mapped (i * 4) w
          &&& MALI_MMU_FLAGS_PRESENT = 0) := fun h => hp ((present_eq_false_iff pagedir w i).mpr h)
      have hstep : maliggy_mmu_pagedir_map_loop (i :: rest) pagedir w
          = maliggy_mmu_pagedir_map_loop rest
              { pagedir with
                page_entries_usage_count := Function.update pagedir.page_entries_usage_count i
                  ((pagedir.page_entries_usage_count i + 1) % 4294967296) } w := by
        rw [maliggy_mmu_pagedir_map_loop, if_neg hc]
      rw [hstep] at hok ⊢
      obtain ⟨e1, e2, e3, e4, e5, e6, e7, allocs, e8, e9⟩ := ih hrest _ _ hok
      have hne : ∀ j, j ∈ rest → j ≠ i := fun j hj e => hi (e ▸ hj)
      have hpres : ∀ j,
          maliggy_page_directory.present
            { pagedir with
              page_entries_usage_count := Function.update pagedir.page_entries_usage_count i
                ((pagedir.page_entries_usage_count i + 1) % 4294967296) } w j
            = pagedir.present w j := fun j => rfl
      refine ⟨e1, e2, e3, e4, ?_, ?_, ?_, allocs, e8, ?_⟩
      · intro j hj
        have hj1 : j ≠ i := fun e => hj (e ▸ List.mem_cons_self _ _)
        have hj2 : j ∉ rest := fun e => hj (List.mem_cons_of_mem _ e)
        obtain ⟨u1, u2, u3⟩ := e5 j hj2
        exact ⟨u1, by rw [u2]; exact Function.update_noteq hj1 _ _, u3⟩
      · intro j hj hpj
        rcases List.mem_cons.mp hj with e | e
        · obtain ⟨u1, u2, u3⟩ := e5 i hi
          rw [e]
          exact ⟨u1, by rw [u2]; exact Function.update_same _ _ _, u3⟩
        · have hj1 := hne j e
          obtain ⟨u1, u2, u3⟩ := e6 j e hpj
          refine ⟨u1, ?_, u3⟩
          rw [u2]
          show (Function.update pagedir.page_entries_usage_count i _ j + 1) % 4294967296 = _
          rw [Function.update_noteq hj1]
      · intro j hj hpj
        rcases List.mem_cons.mp hj with e | e
        · rw [e, hp1] at hpj
          exact absurd hpj (by decide)
        · exact e7 j e hpj
      · have hfi : (i :: rest).filter (fun i => !pagedir.present w i)
            = rest.filter (fun i => !pagedir.present w i) := by
          rw [List.filter_cons, hp1]
          rfl
        rw [hfi]
        exact e9

theorem zero_pte_fold (page_table : Nat) (l : List Nat) (w : PageWorld) :
    (∀ m o, m ≠ page_table →
      (l.foldl (fun w1 i => _maliggy_osk_mem_iowrite32_relaxed page_table (i * 4) 0 w1) w).mem m o
        = w.mem m o)
    ∧ (l.foldl (fun w1 i => _maliggy_osk_mem_iowrite32_relaxed page_table (i * 4) 0 w1) w).log
        = w.log
    ∧ (l.foldl (fun w1 i => _maliggy_osk_mem_iowrite32_relaxed page_table (i * 4) 0 w1)
        w).table_pages = w.table_pages := by
  induction l generalizing w with
  | nil => exact ⟨fun _ _ _ => rfl, rfl, rfl⟩
  | cons i rest ih =>
    obtain ⟨a, b, c⟩ := ih (_maliggy_osk_mem_iowrite32_relaxed page_table (i * 4) 0 w)
    refine ⟨?_, ?_, ?_⟩
    · intro m o hm
      rw [List.foldl_cons, a m o hm, iowrite32_mem, if_neg (fun h => hm h.1)]
    · rw [List.foldl_cons, b]
      rfl
    · rw [List.foldl_cons, c]
      rfl

theorem zero_pte_spec (page_table maliggy_address size : Nat) (w : PageWorld) :
    (∀ m o, m ≠ page_table →
      (maliggy_mmu_zero_pte page_table maliggy_address size w).mem m o = w.mem m o)
    ∧ (maliggy_mmu_zero_pte page_table maliggy_address size w).log = w.log
    ∧ (maliggy_mmu_zero_pte page_table maliggy_address size w).table_pages = w.table_pages :=
  zero_pte_fold page_table _ w

/-- One pass of the loop of `maliggy_mmu_pagedir_unmap`, for entry `i`. -/
theorem pagedir_unmap_loop_step (i : Nat) (rest : List Nat) (v : pagedir_unmap_locals)
    (pagedir : maliggy_page_directory) (w : PageWorld) :
    ∃ v1 pd1 w1,
      maliggy_mmu_pagedir_unmap_loop (i :: rest) v pagedir w
        = maliggy_mmu_pagedir_unmap_loop rest v1 pd1 w1
      ∧ pd1.page_directory = pagedir.page_directory
      ∧ pd1.page_directory_mapped = pagedir.page_directory_mapped
      ∧ (∀ j, j ≠ i → pd1.page_entries_usage_count j = pagedir.page_entries_usage_count j
          ∧ pd1.page_entries_mapped j = pagedir.page_entries_mapped j)
      ∧ pd1.page_entries_usage_count i
          = (pagedir.page_entries_usage_count i + 4294967295) % 4294967296
      ∧ w1.table_pages = w.table_pages
      ∧ ((pagedir.page_entries_usage_count i + 4294967295) % 4294967296 = 0 →
          pd1.page_entries_mapped i = 0
          ∧ (∀ m o, w1.mem m o
              = if m = pagedir.page_directory_mapped ∧ o = i * 4 then 0 else w.mem m o)
          ∧ w1.log = w.log ++ [.maliggy_mmu_release_table_page
              (MALI_MMU_ENTRY_ADDRESS
                (w.mem pagedir.page_directory_mapped (i * 4) % 4294967296))])
      ∧ ((pagedir.page_entries_usage_count i + 4294967295) % 4294967296 ≠ 0 →
          pd1.page_entries_mapped i = pagedir.page_entries_mapped i
          ∧ (∀ m o, m ≠ pagedir.page_entries_mapped i → w1.mem m o = w.mem m o)
          ∧ w1.log = w.log) := by
  by_cases hz : (pagedir.page_entries_usage_count i + 4294967295) % 4294967296 = 0
  · have hstep : maliggy_mmu_pagedir_unmap_loop (i :: rest) v pagedir w
        = maliggy_mmu_pagedir_unmap_loop rest
            { v with
              left := v.left -
                (if v.left < MALI_MMU_VIRTUAL_PAGE_SIZE
                    - (v.maliggy_address &&& (MALI_MMU_VIRTUAL_PAGE_SIZE - 1)) then v.left
                  else MALI_MMU_VIRTUAL_PAGE_SIZE
                    - (v.maliggy_address &&& (MALI_MMU_VIRTUAL_PAGE_SIZE - 1))),
              maliggy_address := (v.maliggy_address +
                (if v.left < MALI_MMU_VIRTUAL_PAGE_SIZE
                    - (v.maliggy_address &&& (MALI_MMU_VIRTUAL_PAGE_SIZE - 1)) then v.left
                  else MALI_MMU_VIRTUAL_PAGE_SIZE
                    - (v.maliggy_address &&& (MALI_MMU_VIRTUAL_PAGE_SIZE - 1)))) % 4294967296,
              pd_changed := true }
            { pagedir with
              page_entries_usage_count := Function.update pagedir.page_entries_usage_count i
                ((pagedir.page_entries_usage_count i + 4294967295) % 4294967296),
              page_entries_mapped := Function.update pagedir.page_entries_mapped i 0 }
            ((_maliggy_osk_mem_iowrite32_relaxed pagedir.page_directory_mapped (i * 4) 0 w).call
              (.maliggy_mmu_release_table_page (MALI_MMU_ENTRY_ADDRESS
                (_maliggy_osk_mem_ioread32 pagedir.page_directory_mapped (i * 4) w)))) := by
      rw [maliggy_mmu_pagedir_unmap_loop]
      simp only [Function.update_same]
      rw [if_pos hz]
    refine ⟨_, _, _, hstep, rfl, rfl, ?_, ?_, rfl, ?_, ?_⟩
    · intro j hj
      exact ⟨Function.update_noteq hj _ _, Function.update_noteq hj _ _⟩
    · exact Function.update_same _ _ _
    · intro _
      refine ⟨Function.update_same _ _ _, ?_, rfl⟩
      intro m o
      show (_maliggy_osk_mem_iowrite32_relaxed pagedir.page_directory_mapped (i * 4) 0 w).mem
        m o = _
      rw [iowrite32_mem]
    · intro h
      exact absurd hz h
  · have hstep : maliggy_mmu_pagedir_unmap_loop (i :: rest) v pagedir w
        = maliggy_mmu_pagedir_unmap_loop rest
            { left := v.left -
                (if v.left < MALI_MMU_VIRTUAL_PAGE_SIZE
                    - (v.maliggy_address &&& (MALI_MMU_VIRTUAL_PAGE_SIZE - 1)) then v.left
                  else MALI_MMU_VIRTUAL_PAGE_SIZE
                    - (v.maliggy_address &&& (MALI_MMU_VIRTUAL_PAGE_SIZE - 1))),
              maliggy_address := (v.maliggy_address +
                (if v.left < MALI_MMU_VIRTUAL_PAGE_SIZE
                    - (v.maliggy_address &&& (MALI_MMU_VIRTUAL_PAGE_SIZE - 1)) then v.left
                  else MALI_MMU_VIRTUAL_PAGE_SIZE
                    - (v.maliggy_address &&& (MALI_MMU_VIRTUAL_PAGE_SIZE - 1)))) % 4294967296,
              pd_changed := v.pd_changed,
              pages_to_invalidate :=
                if v.pages_to_invalidate.length < 2 then
                  v.pages_to_invalidate ++ [maliggy_page_directory_get_phys_address
                    { pagedir with
                      page_entries_usage_count :=
                        Function.update pagedir.page_entries_usage_count i
                          ((pagedir.page_entries_usage_count i + 4294967295) % 4294967296) }
                    i w]
                else v.pages_to_invalidate,
              invalidate_all :=
                if v.pages_to_invalidate.length < 2 then v.invalidate_all else true }
            { pagedir with
              page_entries_usage_count := Function.update pagedir.page_entries_usage_count i
                ((pagedir.page_entries_usage_count i + 4294967295) % 4294967296) }
            (maliggy_mmu_zero_pte (pagedir.page_entries_mapped i) v.maliggy_address
              (if v.left < MALI_MMU_VIRTUAL_PAGE_SIZE
                  - (v.maliggy_address &&& (MALI_MMU_VIRTUAL_PAGE_SIZE - 1)) then v.left
                else MALI_MMU_VIRTUAL_PAGE_SIZE
                  - (v.maliggy_address &&& (MALI_MMU_VIRTUAL_PAGE_SIZE - 1))) w) := by
      rw [maliggy_mmu_pagedir_unmap_loop]
      simp only [Function.update_same]
      rw [if_neg hz]
    refine ⟨_, _, _, hstep, rfl, rfl, ?_, ?_, ?_, ?_, ?_⟩
    · intro j hj
      exact ⟨Function.update_noteq hj _ _, rfl⟩
    · exact Function.update_same _ _ _
    · exact (zero_pte_spec _ _ _ w).2.2
    · intro h
      exact absurd h hz
    · intro _
      exact ⟨rfl, (zero_pte_spec _ _ _ w).1, (zero_pte_spec _ _ _ w).2.1⟩

theorem released_table_pages_append (a b : List PageCall) :
    released_table_pages (a ++ b) = released_table_pages a ++ released_table_pages b := by
  unfold released_table_pages
  rw [List.filterMap_append]

/-- The loop of `maliggy_mmu_pagedir_unmap` over entries that are listed once, when no page
table that stays in use is the page of the directory itself: every usage count is decremented;
an entry whose count reaches 0 is zeroed, its mapping cleared and its page released; the other
entries keep their word and their mapping. -/
theorem pagedir_unmap_loop_spec (l : List Nat) (hnd : l.Nodup) (v : pagedir_unmap_locals)
    (pagedir : maliggy_page_directory) (w : PageWorld)
    (hna : ∀ i, i ∈ l → (pagedir.page_entries_usage_count i + 4294967295) % 4294967296 ≠ 0 →
      pagedir.page_entries_mapped i ≠ pagedir.page_directory_mapped) :
    (maliggy_mmu_pagedir_unmap_loop l v pagedir w).2.1.page_directory = pagedir.page_directory
    ∧ (maliggy_mmu_pagedir_unmap_loop l v pagedir w).2.1.page_directory_mapped
        = pagedir.page_directory_mapped
    ∧ (maliggy_mmu_pagedir_unmap_loop l v pagedir w).2.2.table_pages = w.table_pages
    ∧ (∀ i, i ∉ l →
        (maliggy_mmu_pagedir_unmap_loop l v pagedir w).2.2.mem pagedir.page_directory_mapped
            (i * 4) = w.mem pagedir.page_directory_mapped (i * 4)
        ∧ (maliggy_mmu_pagedir_unmap_loop l v pagedir w).2.1.page_entries_usage_count i
            = pagedir.page_entries_usage_count i
        ∧ (maliggy_mmu_pagedir_unmap_loop l v pagedir w).2.1.page_entries_mapped i
            = pagedir.page_entries_mapped i)
    ∧ (∀ i, i ∈ l → (pagedir.page_entries_usage_count i + 4294967295) % 4294967296 = 0 →
        (maliggy_mmu_pagedir_unmap_loop l v pagedir w).2.2.mem pagedir.page_directory_mapped
            (i * 4) = 0
        ∧ (maliggy_mmu_pagedir_unmap_loop l v pagedir w).2.1.page_entries_usage_count i = 0
        ∧ (maliggy_mmu_pagedir_unmap_loop l v pagedir w).2.1.page_entries_mapped i = 0)
    ∧ (∀ i, i ∈ l → (pagedir.page_entries_usage_count i + 4294967295) % 4294967296 ≠ 0 →
        (maliggy_mmu_pagedir_unmap_loop l v pagedir w).2.2.mem pagedir.page_directory_mapped
            (i * 4) = w.mem pagedir.page_directory_mapped (i * 4)
        ∧ (maliggy_mmu_pagedir_unmap_loop l v pagedir w).2.1.page_entries_usage_count i
            = (pagedir.page_entries_usage_count i + 4294967295) % 4294967296
        ∧ (maliggy_mmu_pagedir_unmap_loop l v pagedir w).2.1.page_entries_mapped i
            = pagedir.page_entries_mapped i)
    ∧ released_table_pages (maliggy_mmu_pagedir_unmap_loop l v pagedir w).2.2.log
        = released_table_pages w.log
          ++ (l.filter (fun i =>
                (pagedir.page_entries_usage_count i + 4294967295) % 4294967296 == 0)).map
              (fun i => MALI_MMU_ENTRY_ADDRESS
                (w.mem pagedir.page_directory_mapped (i * 4) % 4294967296)) := by
  induction l generalizing v pagedir w with
  | nil =>
    refine ⟨rfl, rfl, rfl, fun _ _ => ⟨rfl, rfl, rfl⟩, ?_, ?_, ?_⟩
    · intro i hi
      exact absurd hi (List.not_mem_nil i)
    · intro i hi
      exact absurd hi (List.not_mem_nil i)
    · simp [maliggy_mmu_pagedir_unmap_loop]
  | cons i rest ih =>
    have hi : i ∉ rest := (List.nodup_cons.mp hnd).1
    have hrest : rest.Nodup := (List.nodup_cons.mp hnd).2
    have hne : ∀ j, j ∈ rest → j ≠ i := fun j hj e => hi (e ▸ hj)
    obtain ⟨v1, pd1, w1, hstep, s1, s2, s3, s4, s5, s6, s7⟩ :=
      pagedir_unmap_loop_step i rest v pagedir w
    rw [hstep]
    have hna1 : ∀ j, j ∈ rest →
        (pd1.page_entries_usage_count j + 4294967295) % 4294967296 ≠ 0 →
        pd1.page_entries_mapped j ≠ pd1.page_directory_mapped := by
      intro j hj hc
      rw [(s3 j (hne j hj)).1] at hc
      rw [(s3 j (hne j hj)).2, s2]
      exact hna j (List.mem_cons_of_mem _ hj) hc
    obtain ⟨e1, e2, e3, e4, e5, e6, e7⟩ := ih hrest v1 pd1 w1 hna1
    rw [s2] at e2 e4 e5 e6 e7
    -- the words of the directory page other than entry `i` are as before the pass
    have hw : ∀ j, j ≠ i →
        w1.mem pagedir.page_directory_mapped (j * 4)
          = w.mem pagedir.page_directory_mapped (j * 4) := by
      intro j hj
      by_cases hz : (pagedir.page_entries_usage_count i + 4294967295) % 4294967296 = 0
      · rw [(s6 hz).2.1, if_neg (by omega)]
      · exact (s7 hz).2.1 _ _ (Ne.symm (hna i (List.mem_cons_self _ _) hz))
    refine ⟨e1.trans s1, e2, e3.trans s5, ?_, ?_, ?_, ?_⟩
    · intro j hj
      have hj1 : j ≠ i := fun e => hj (e ▸ List.mem_cons_self _ _)
      have hj2 : j ∉ rest := fun e => hj (List.mem_cons_of_mem _ e)
      obtain ⟨u1, u2, u3⟩ := e4 j hj2
      exact ⟨u1.trans (hw j hj1), u2.trans (s3 j hj1).1, u3.trans (s3 j hj1).2⟩
    · intro j hj hz
      rcases List.mem_cons.mp hj with e | e
      · subst e
        obtain ⟨u1, u2, u3⟩ := e4 j hi
        refine ⟨?_, ?_, ?_⟩
        · rw [u1, (s6 hz).2.1, if_pos ⟨rfl, rfl⟩]
        · rw [u2, s4, hz]
        · rw [u3, (s6 hz).1]
      · exact e5 j e (by rw [(s3 j (hne j e)).1]; exact hz)
    · intro j hj hz
      rcases List.mem_cons.mp hj with e | e
      · subst e
        obtain ⟨u1, u2, u3⟩ := e4 j hi
        refine ⟨?_, ?_, ?_⟩
        · rw [u1]
          exact (s7 hz).2.1 _ _ (Ne.symm (hna j (List.mem_cons_self _ _) hz))
        · rw [u2, s4]
        · rw [u3, (s7 hz).1]
      · obtain ⟨u1, u2, u3⟩ := e6 j e (by rw [(s3 j (hne j e)).1]; exact hz)
        exact ⟨u1.trans (hw j (hne j e)), by rw [u2, (s3 j (hne j e)).1],
          u3.trans (s3 j (hne j e)).2⟩
    · rw [e7]
      have hfr : (rest.filter (fun j =>
            (pd1.page_entries_usage_count j + 4294967295) % 4294967296 == 0)).map
            (fun j => MALI_MMU_ENTRY_ADDRESS
              (w1.mem pagedir.page_directory_mapped (j * 4) % 4294967296))
          = (rest.filter (fun j =>
              (pagedir.page_entries_usage_count j + 4294967295) % 4294967296 == 0)).map
              (fun j => MALI_MMU_ENTRY_ADDRESS
                (w.mem pagedir.page_directory_mapped (j * 4) % 4294967296)) := by
        have hf : rest.filter (fun j =>
              (pd1.page_entries_usage_count j + 4294967295) % 4294967296 == 0)
            = rest.filter (fun j =>
              (pagedir.page_entries_usage_count j + 4294967295) % 4294967296 == 0) := by
          apply List.filter_congr
          intro j hj
          rw [(s3 j (hne j hj)).1]
        rw [hf]
        apply List.map_congr_left
        intro j hj
        rw [hw j (hne j (List.mem_of_mem_filter hj))]
      rw [hfr]
      by_cases hz : (pagedir.page_entries_usage_count i + 4294967295) % 4294967296 = 0
      · rw [(s6 hz).2.2, released_table_pages_append, List.filter_cons]
        simp only [hz, beq_self_eq_true, if_true, List.map_cons]
        rw [List.append_assoc]
        rfl
      · rw [(s7 hz).2.2, List.filter_cons]
        have hb : ((pagedir.page_entries_usage_count i + 4294967295) % 4294967296 == 0)
            = false := by simpa using hz
        rw [hb]
        rfl

/-- What `maliggy_mmu_pagedir_unmap` adds to its loop: a barrier and one call into the L2 cache
module. -/
theorem pagedir_unmap_view (pagedir : maliggy_page_directory) (maliggy_address size : Nat)
    (w : PageWorld) :
    (maliggy_mmu_pagedir_unmap pagedir maliggy_address size w).1 = _MALI_OSK_ERR_OK
    ∧ (maliggy_mmu_pagedir_unmap pagedir maliggy_address size w).2.1
      = (maliggy_mmu_pagedir_unmap_loop
          (pde_range (MALI_MMU_PDE_ENTRY maliggy_address)
            (MALI_MMU_PDE_ENTRY ((maliggy_address + size + 4294967295) % 4294967296)))
          { left := size, maliggy_address := maliggy_address, pd_changed := false,
            pages_to_invalidate := [], invalidate_all := false } pagedir w).2.1
    ∧ (maliggy_mmu_pagedir_unmap pagedir maliggy_address size w).2.2.mem
      = (maliggy_mmu_pagedir_unmap_loop
          (pde_range (MALI_MMU_PDE_ENTRY maliggy_address)
            (MALI_MMU_PDE_ENTRY ((maliggy_address + size + 4294967295) % 4294967296)))
          { left := size, maliggy_address := maliggy_address, pd_changed := false,
            pages_to_invalidate := [], invalidate_all := false } pagedir w).2.2.mem
    ∧ (maliggy_mmu_pagedir_unmap pagedir maliggy_address size w).2.2.table_pages
      = (maliggy_mmu_pagedir_unmap_loop
          (pde_range (MALI_MMU_PDE_ENTRY maliggy_address)
            (MALI_MMU_PDE_ENTRY ((maliggy_address + size + 4294967295) % 4294967296)))
          { left := size, maliggy_address := maliggy_address, pd_changed := false,
            pages_to_invalidate := [], invalidate_all := false } pagedir w).2.2.table_pages
    ∧ released_table_pages (maliggy_mmu_pagedir_unmap pagedir maliggy_address size w).2.2.log
      = released_table_pages (maliggy_mmu_pagedir_unmap_loop
          (pde_range (MALI_MMU_PDE_ENTRY maliggy_address)
            (MALI_MMU_PDE_ENTRY ((maliggy_address + size + 4294967295) % 4294967296)))
          { left := size, maliggy_address := maliggy_address, pd_changed := false,
            pages_to_invalidate := [], invalidate_all := false } pagedir w).2.2.log := by
  refine ⟨rfl, rfl, ?_, ?_, ?_⟩
  · unfold maliggy_mmu_pagedir_unmap
    simp only []
    split_ifs <;> rfl
  · unfold maliggy_mmu_pagedir_unmap
    simp only []
    split_ifs <;> rfl
  · unfold maliggy_mmu_pagedir_unmap
    simp only []
    split_ifs <;>
      simp [PageWorld.call, released_table_pages, List.filterMap_append]
/-! ## The claims -/

/-- C1: every completion path reports to the scheduler exactly once. For a group whose running
job is `j`, the observable log of `maliggy_group_complete_gp`, `maliggy_group_complete_pp`,
`maliggy_group_mmu_page_fault` (on the core kind of the group) and of the aborts that reach a
completion is the old log followed by events none of which is a scheduler callback, followed by
one `job_done` callback; the callback carries `j`, and the group it is called with, which is the
group the function leaves, has state `IDLE` and no running job. -/
theorem C1_completion_reported_exactly_once (cfg : Config) (g : maliggy_group) (w : World) :
    (∀ (success : Bool) (j : maliggy_gp_job), g.gp_running_job = some j →
      ∃ pre, obs (maliggy_group_complete_gp cfg g success w).2.log = obs w.log ++ pre ++
          [.gp_scheduler_job_done (maliggy_group_complete_gp cfg g success w).1 (some j) success]
        ∧ (∀ e ∈ pre, e.is_callback = false)
        ∧ (maliggy_group_complete_gp cfg g success w).1.state = MALI_GROUP_STATE_IDLE
        ∧ (maliggy_group_complete_gp cfg g success w).1.gp_running_job = none)
    ∧ (∀ (success : Bool) (j : maliggy_pp_job), g.pp_running_job = some j →
      ∃ pre, obs (maliggy_group_complete_pp cfg g success w).2.log = obs w.log ++ pre ++
          [.pp_scheduler_job_done (maliggy_group_complete_pp cfg g success w).1 (some j)
            g.pp_running_sub_job success]
        ∧ (∀ e ∈ pre, e.is_callback = false)
        ∧ (maliggy_group_complete_pp cfg g success w).1.state = MALI_GROUP_STATE_IDLE
        ∧ (maliggy_group_complete_pp cfg g success w).1.pp_running_job = none)
    ∧ (∀ j : maliggy_pp_job, g.pp_core.isSome = true → g.pp_running_job = some j →
      ∃ pre, obs (maliggy_group_mmu_page_fault cfg g w).2.log = obs w.log ++ pre ++
          [.pp_scheduler_job_done (maliggy_group_mmu_page_fault cfg g w).1 (some j)
            g.pp_running_sub_job false]
        ∧ (∀ e ∈ pre, e.is_callback = false)
        ∧ (maliggy_group_mmu_page_fault cfg g w).1.state = MALI_GROUP_STATE_IDLE
        ∧ (maliggy_group_mmu_page_fault cfg g w).1.pp_running_job = none)
    ∧ (∀ j : maliggy_gp_job, g.pp_core = none → g.gp_running_job = some j →
      ∃ pre, obs (maliggy_group_mmu_page_fault cfg g w).2.log = obs w.log ++ pre ++
          [.gp_scheduler_job_done (maliggy_group_mmu_page_fault cfg g w).1 (some j) false]
        ∧ (∀ e ∈ pre, e.is_callback = false)
        ∧ (maliggy_group_mmu_page_fault cfg g w).1.state = MALI_GROUP_STATE_IDLE
        ∧ (maliggy_group_mmu_page_fault cfg g w).1.gp_running_job = none)
    ∧ (∀ j : maliggy_gp_job, g.state ≠ MALI_GROUP_STATE_IDLE → g.gp_running_job = some j →
      ∃ r pre, maliggy_group_abort_gp_job cfg g j.id w = some r
        ∧ obs r.2.log = obs w.log ++ pre ++ [.gp_scheduler_job_done r.1 (some j) false]
        ∧ (∀ e ∈ pre, e.is_callback = false)
        ∧ r.1.state = MALI_GROUP_STATE_IDLE ∧ r.1.gp_running_job = none)
    ∧ (∀ j : maliggy_pp_job, g.state ≠ MALI_GROUP_STATE_IDLE → g.pp_running_job = some j →
      ∃ r pre, maliggy_group_abort_pp_job cfg g j.id w = some r
        ∧ obs r.2.log = obs w.log ++ pre
            ++ [.pp_scheduler_job_done r.1 (some j) g.pp_running_sub_job false]
        ∧ (∀ e ∈ pre, e.is_callback = false)
        ∧ r.1.state = MALI_GROUP_STATE_IDLE ∧ r.1.pp_running_job = none) := by
  refine ⟨?_, ?_, ?_, ?_, ?_, ?_⟩
  · intro success j hj
    have h := group_complete_gp_callback cfg g success w
    rwa [hj] at h
  · intro success j hj
    have h := group_complete_pp_callback cfg g success w
    rwa [hj] at h
  · intro j hc hj
    obtain ⟨t, hp, hg, hl⟩ := group_mmu_page_fault_pp cfg g w hc
    refine ⟨[.call .maliggy_group_mmu_page_fault [], .call ._maliggy_osk_timer_del_async [],
      .call .maliggy_group_deactivate_page_directory [s2n g.session, s2n g.session],
      .call .maliggy_group_recovery_reset []] ++ t,
      by rw [hl, hj]; simp only [List.append_assoc], ?_, by rw [hg], by rw [hg]⟩
    intro e he
    simp at he
    rcases he with h | h | h | h | h
    all_goals first | exact reset_detail_not_callback e (hp e h) | (subst h; rfl)
  · intro j hc hj
    obtain ⟨t, hp, hg, hl⟩ := group_mmu_page_fault_gp cfg g w hc
    refine ⟨[.call .maliggy_group_mmu_page_fault [], .call ._maliggy_osk_timer_del_async [],
      .call .maliggy_group_deactivate_page_directory [s2n g.session, s2n g.session],
      .call .maliggy_group_recovery_reset []] ++ t,
      by rw [hl, hj]; simp only [List.append_assoc], ?_, by rw [hg], by rw [hg]⟩
    intro e he
    simp at he
    rcases he with h | h | h | h | h
    all_goals first | exact reset_detail_not_callback e (hp e h) | (subst h; rfl)
  · intro j hs hj
    obtain ⟨pre, h1, h2, h3, h4⟩ := group_complete_gp_callback cfg g false w
    refine ⟨maliggy_group_complete_gp cfg g false w, pre, ?_, ?_, h2, h3, h4⟩
    · simp [maliggy_group_abort_gp_job, hs, hj]
    · rw [h1, hj]
  · intro j hs hj
    obtain ⟨pre, h1, h2, h3, h4⟩ := group_complete_pp_callback cfg g false w
    refine ⟨maliggy_group_complete_pp cfg g false w, pre, ?_, ?_, h2, h3, h4⟩
    · simp [maliggy_group_abort_pp_job, hs, hj]
    · rw [h1, hj]

/-- Witness of C1: the completion of `gp_job1` on `gp_group_working` and of `pp_job1` on
`pp_group_working`. -/
theorem C1_completion_reported_exactly_once_witness :
    (∃ pre, obs (maliggy_group_complete_gp cfg_mali400 gp_group_working true
          (world_of [])).2.log = obs (world_of []).log ++ pre ++
          [.gp_scheduler_job_done (maliggy_group_complete_gp cfg_mali400 gp_group_working true
            (world_of [])).1 (some gp_job1) true]
        ∧ (∀ e ∈ pre, e.is_callback = false)
        ∧ (maliggy_group_complete_gp cfg_mali400 gp_group_working true (world_of [])).1.state
            = MALI_GROUP_STATE_IDLE
        ∧ (maliggy_group_complete_gp cfg_mali400 gp_group_working true
            (world_of [])).1.gp_running_job = none)
    ∧ (∃ pre, obs (maliggy_group_complete_pp cfg_mali400 pp_group_working false
          (world_of [])).2.log = obs (world_of []).log ++ pre ++
          [.pp_scheduler_job_done (maliggy_group_complete_pp cfg_mali400 pp_group_working false
            (world_of [])).1 (some pp_job1) pp_group_working.pp_running_sub_job false]
        ∧ (∀ e ∈ pre, e.is_callback = false)
        ∧ (maliggy_group_complete_pp cfg_mali400 pp_group_working false (world_of [])).1.state
            = MALI_GROUP_STATE_IDLE
        ∧ (maliggy_group_complete_pp cfg_mali400 pp_group_working false
            (world_of [])).1.pp_running_job = none) :=
  ⟨(C1_completion_reported_exactly_once cfg_mali400 gp_group_working (world_of [])).1 true
      gp_job1 (by decide),
   (C1_completion_reported_exactly_once cfg_mali400 pp_group_working (world_of [])).2.1 false
      pp_job1 (by decide)⟩

/-- The PP half of the failure rule: `maliggy_group_complete_pp` with `success = false` issues
no soft reset and performs the recovery reset. -/
theorem group_complete_pp_failure_takes_recovery_reset (cfg : Config) (g : maliggy_group)
    (w : World) :
    ∃ t, obs (maliggy_group_complete_pp cfg g false w).2.log = obs w.log ++
        [.call .maliggy_group_complete_pp [0], .call ._maliggy_osk_timer_del_async [],
         .call .maliggy_group_deactivate_page_directory [s2n g.session, s2n g.session],
         .call .maliggy_group_recovery_reset []] ++ t ++
        [.pp_scheduler_job_done (maliggy_group_complete_pp cfg g false w).1 g.pp_running_job
          g.pp_running_sub_job false]
      ∧ ∀ e ∈ t, e.is_soft_reset = false := by
  obtain ⟨v, t, _, hl, _, h2⟩ := group_complete_pp_spec cfg g false w
  obtain ⟨t', ht, hp⟩ := h2 (by simp)
  refine ⟨t', ?_, fun e he => reset_detail_not_soft_reset e (hp e he)⟩
  rw [hl, ht]
  simp [b2n]

/-- C8 (the code departs from the claim): `maliggy_group_complete_gp` with `success = false` on
the working GP group, the hardware acknowledging the soft reset at the first poll. The soft reset
is issued, the wait returns OK and no recovery reset is performed. -/
theorem C8_gp_failure_issues_soft_reset_only :
    obs (maliggy_group_complete_gp cfg_mali400 gp_group_working false
        (world_of [0, 0x80000])).2.log =
      [.call .maliggy_group_complete_gp [0], .call ._maliggy_osk_timer_del_async [],
       .call .maliggy_gp_reset_async [],
       .call .maliggy_group_deactivate_page_directory [8, 8],
       .ret .maliggy_gp_reset_wait 0,
       .gp_scheduler_job_done (maliggy_group_complete_gp cfg_mali400 gp_group_working false
         (world_of [0, 0x80000])).1 (some gp_job1) false]
    ∧ gp_group_working.state = MALI_GROUP_STATE_WORKING
    ∧ gp_group_working.gp_running_job = some gp_job1 := by
  decide

/-- C4 as stated fails: with reference count 0 and another (here: no) session recorded, the
activation returns `FAILED`, not `OK_SWITCHED_PD`, when the MMU is in page-fault state (status
`PAGING_ENABLED | PAGE_FAULT_ACTIVE`) and so refuses the stall. -/
theorem C4_counterexample :
    ¬ (gp_group0.page_dir_ref_count = 0 ∧ gp_group0.session ≠ some 7 →
        (maliggy_group_activate_page_directory cfg_mali400 gp_group0 7 (world_of [3])).1
          = MALI_GROUP_ACTIVATE_PD_STATUS_OK_SWITCHED_PD) := by
  decide

/-- C4 (amended): `maliggy_group_activate_page_directory` has four paths. `FAILED` with the group
unchanged and no write of the page directory pointer when the reference count is not 0 and
another session is recorded; `OK_KEPT_PD` with the reference count raised by one and no write of
the pointer when the session is the recorded one; when the reference count is 0 and another
session is recorded, `OK_SWITCHED_PD` with the session recorded, the reference count raised by
one and the pointer written once with the page directory of the session, provided the MMU grants
the stall request, and `FAILED` with the group unchanged and no write of the pointer otherwise. -/
theorem C4_activate_page_directory_paths (cfg : Config) (g : maliggy_group) (session : Nat)
    (w : World) :
    (g.page_dir_ref_count ≠ 0 ∧ g.session ≠ some session →
      (maliggy_group_activate_page_directory cfg g session w).1
          = MALI_GROUP_ACTIVATE_PD_STATUS_FAILED
        ∧ (maliggy_group_activate_page_directory cfg g session w).2.1 = g
        ∧ dte_writes (maliggy_group_activate_page_directory cfg g session w).2.2.log
            = dte_writes w.log)
    ∧ (g.session = some session →
      (maliggy_group_activate_page_directory cfg g session w).1
          = MALI_GROUP_ACTIVATE_PD_STATUS_OK_KEPT_PD
        ∧ (maliggy_group_activate_page_directory cfg g session w).2.1
            = { g with page_dir_ref_count := g.page_dir_ref_count + 1 }
        ∧ dte_writes (maliggy_group_activate_page_directory cfg g session w).2.2.log
            = dte_writes w.log)
    ∧ (g.page_dir_ref_count = 0 ∧ g.session ≠ some session
        ∧ (maliggy_mmu_enable_stall cfg w).1 = true →
      (maliggy_group_activate_page_directory cfg g session w).1
          = MALI_GROUP_ACTIVATE_PD_STATUS_OK_SWITCHED_PD
        ∧ (maliggy_group_activate_page_directory cfg g session w).2.1
            = { g with session := some session,
                       page_dir_ref_count := g.page_dir_ref_count + 1 }
        ∧ dte_writes (maliggy_group_activate_page_directory cfg g session w).2.2.log
            = dte_writes w.log ++
              [.reg_write .mmu .MALI_MMU_REGISTER_DTE_ADDR (cfg.session_page_directory session)])
    ∧ (g.page_dir_ref_count = 0 ∧ g.session ≠ some session
        ∧ (maliggy_mmu_enable_stall cfg w).1 = false →
      (maliggy_group_activate_page_directory cfg g session w).1
          = MALI_GROUP_ACTIVATE_PD_STATUS_FAILED
        ∧ (maliggy_group_activate_page_directory cfg g session w).2.1 = g
        ∧ dte_writes (maliggy_group_activate_page_directory cfg g session w).2.2.log
            = dte_writes w.log) :=
  group_activate_page_directory_spec cfg g session w

/-- Witness of C4: the switch path (stall granted) and the refusal path (MMU in page-fault state)
on the fresh GP group. -/
theorem C4_activate_page_directory_paths_witness :
    ((maliggy_group_activate_page_directory cfg_mali400 gp_group0 7 (world_of [])).1
        = MALI_GROUP_ACTIVATE_PD_STATUS_OK_SWITCHED_PD
      ∧ (maliggy_group_activate_page_directory cfg_mali400 gp_group0 7 (world_of [])).2.1
          = { gp_group0 with session := some 7,
                             page_dir_ref_count := gp_group0.page_dir_ref_count + 1 }
      ∧ dte_writes (maliggy_group_activate_page_directory cfg_mali400 gp_group0 7
            (world_of [])).2.2.log
          = dte_writes (world_of []).log ++
            [.reg_write .mmu .MALI_MMU_REGISTER_DTE_ADDR (cfg_mali400.session_page_directory 7)])
    ∧ ((maliggy_group_activate_page_directory cfg_mali400 gp_group0 7 (world_of [3])).1
        = MALI_GROUP_ACTIVATE_PD_STATUS_FAILED
      ∧ (maliggy_group_activate_page_directory cfg_mali400 gp_group0 7 (world_of [3])).2.1
          = gp_group0
      ∧ dte_writes (maliggy_group_activate_page_directory cfg_mali400 gp_group0 7
            (world_of [3])).2.2.log
          = dte_writes (world_of [3]).log) :=
  ⟨(C4_activate_page_directory_paths cfg_mali400 gp_group0 7 (world_of [])).2.2.1
      ⟨by decide, by decide, by decide⟩,
   (C4_activate_page_directory_paths cfg_mali400 gp_group0 7 (world_of [3])).2.2.2
      ⟨by decide, by decide, by decide⟩⟩

/-- C5 as stated fails: the fresh GP group is `IDLE` with no session and reference count 0, yet
the start of `gp_job1` leaves it `IDLE` when the MMU is in page-fault state and refuses the
stall. -/
theorem C5_counterexample :
    ¬ (gp_group0.state = MALI_GROUP_STATE_IDLE ∧ gp_group0.gp_core.isSome = true
        ∧ gp_group0.session = none ∧ gp_group0.page_dir_ref_count = 0 →
      (maliggy_group_start_gp_job cfg_mali400 gp_group0 gp_job1 (world_of [3])).1.state
        = MALI_GROUP_STATE_WORKING) := by
  decide

/-- C5 (amended): on an `IDLE` GP group with no session and reference count 0, whose MMU grants
the stall request, `maliggy_group_start_gp_job` activates with `OK_SWITCHED_PD` (result 2 in the
log), leaves state `WORKING`, the job as running job, the session of the job, reference count 1,
and arms the timer; the observable calls are, after the conditional L2 invalidation, the
activation, the job start and the timer, with no `maliggy_mmu_zap_tlb_without_stall`. -/
theorem C5_start_gp_job_switches_page_directory (cfg : Config) (g : maliggy_group)
    (job : maliggy_gp_job) (w : World)
    (_hidle : g.state = MALI_GROUP_STATE_IDLE) (_hgp : g.gp_core.isSome = true)
    (hs : g.session = none) (hr : g.page_dir_ref_count = 0)
    (hstall : (maliggy_mmu_enable_stall cfg
      (maliggy_l2_cache_invalidate_conditional cfg g.l2_cache_core.1 job.id w).2).1 = true) :
    (maliggy_group_start_gp_job cfg g job w).1.state = MALI_GROUP_STATE_WORKING
    ∧ (maliggy_group_start_gp_job cfg g job w).1.gp_running_job = some job
    ∧ (maliggy_group_start_gp_job cfg g job w).1.session = some job.session
    ∧ (maliggy_group_start_gp_job cfg g job w).1.page_dir_ref_count = 1
    ∧ obs (maliggy_group_start_gp_job cfg g job w).2.log = obs w.log ++
        (match g.l2_cache_core.1 with
         | some c => [.call .maliggy_l2_cache_invalidate_conditional [c, job.id]]
         | none => []) ++
        [.call .maliggy_group_activate_page_directory [job.session],
         .call .maliggy_mmu_activate_page_directory [cfg.session_page_directory job.session],
         .ret .maliggy_group_activate_page_directory 2,
         .call .maliggy_gp_job_start [job.id],
         .call ._maliggy_osk_timer_mod [cfg.maliggy_max_job_runtime]] := by
  have hne : g.session ≠ some job.session := by rw [hs]; simp
  obtain ⟨_, _, s3, _⟩ := group_activate_page_directory_spec cfg g job.session
    (maliggy_l2_cache_invalidate_conditional cfg g.l2_cache_core.1 job.id w).2
  obtain ⟨a1, _, _⟩ := s3 ⟨hr, hne, hstall⟩
  obtain ⟨_, _, f3⟩ := group_start_gp_job_spec cfg g job w
  obtain ⟨b1, b2, b3, b4, b5, _⟩ := f3 a1
  refine ⟨b1, b2, b3, by rw [b4, hr]; rfl, ?_⟩
  rw [b5, obs_group_activate_page_directory, a1, obs_l2_cache_invalidate_conditional_opt]
  simp [hr, hne, maliggy_group_activate_pd_status.toNat]

/-- Witness of C5: the start of `gp_job1` on the fresh GP group with an all-zero oracle. -/
theorem C5_start_gp_job_switches_page_directory_witness :
    (maliggy_group_start_gp_job cfg_mali400 gp_group0 gp_job1 (world_of [])).1.state
      = MALI_GROUP_STATE_WORKING
    ∧ (maliggy_group_start_gp_job cfg_mali400 gp_group0 gp_job1 (world_of [])).1.gp_running_job
      = some gp_job1
    ∧ (maliggy_group_start_gp_job cfg_mali400 gp_group0 gp_job1 (world_of [])).1.session
      = some gp_job1.session
    ∧ (maliggy_group_start_gp_job cfg_mali400 gp_group0 gp_job1
        (world_of [])).1.page_dir_ref_count = 1
    ∧ obs (maliggy_group_start_gp_job cfg_mali400 gp_group0 gp_job1 (world_of [])).2.log
      = obs (world_of []).log ++
        (match gp_group0.l2_cache_core.1 with
         | some c => [.call .maliggy_l2_cache_invalidate_conditional [c, gp_job1.id]]
         | none => []) ++
        [.call .maliggy_group_activate_page_directory [gp_job1.session],
         .call .maliggy_mmu_activate_page_directory
           [cfg_mali400.session_page_directory gp_job1.session],
         .ret .maliggy_group_activate_page_directory 2,
         .call .maliggy_gp_job_start [gp_job1.id],
         .call ._maliggy_osk_timer_mod [cfg_mali400.maliggy_max_job_runtime]] :=
  C5_start_gp_job_switches_page_directory cfg_mali400 gp_group0 gp_job1 (world_of [])
    (by decide) (by decide) (by decide) (by decide) (by decide)

/-- C7 as stated fails: on the working GP group the raw status `0x201` has the error bit 9
(outside VS_END_CMD_LST, PLBU_END_CMD_LST, HANG, PLBU_OUT_OF_MEM) together with VS_END_CMD_LST;
the core status reads as not active, so the bottom half takes the clean-completion branch: no
callback reports a failure, and the job is reported with `success = true`. -/
theorem C7_counterexample :
    ¬ (gp_group_working.state = MALI_GROUP_STATE_WORKING ∧ gp_group_working.power_is_on = true
        ∧ has_bit_outside (maliggy_gp_read_rawstat cfg_mali400 (world_of [0x201, 0, 0, 0x80000])).1
          (cfg_mali400.MALIGP2_REG_VAL_IRQ_VS_END_CMD_LST
            ||| cfg_mali400.MALIGP2_REG_VAL_IRQ_PLBU_END_CMD_LST
            ||| cfg_mali400.MALIGP2_REG_VAL_IRQ_HANG
            ||| cfg_mali400.MALIGP2_REG_VAL_IRQ_PLBU_OUT_OF_MEM) →
      ∃ e ∈ (maliggy_group_bottom_half_gp cfg_mali400 gp_group_working
          (world_of [0x201, 0, 0, 0x80000])).2.log, e.reports_failure = true)
    ∧ Ev.gp_scheduler_job_done (maliggy_group_bottom_half_gp cfg_mali400 gp_group_working
          (world_of [0x201, 0, 0, 0x80000])).1 (some gp_job1) true
        ∈ (maliggy_group_bottom_half_gp cfg_mali400 gp_group_working
          (world_of [0x201, 0, 0, 0x80000])).2.log := by
  refine ⟨fun h => ?_, by decide⟩
  exact (by decide : ¬ ∃ e ∈ (maliggy_group_bottom_half_gp cfg_mali400 gp_group_working
      (world_of [0x201, 0, 0, 0x80000])).2.log, e.reports_failure = true)
    (h ⟨by decide, by decide, ⟨9, by decide, by decide⟩⟩)

/-- C7 (amended): on a `WORKING`, powered GP group, when the raw status read by the bottom half
has a bit outside VS_END_CMD_LST, PLBU_END_CMD_LST, HANG and PLBU_OUT_OF_MEM and the test for a
clean completion fails (no END_CMD_LST bit is set, or the core status still shows the core
active), the job is completed as a failure: after taking the lock the bottom half runs
`maliggy_group_complete_gp` with `success = false`, the one callback is
`maliggy_gp_scheduler_job_done` with the running job and `success = false`, and the lock is
released after it. -/
theorem C7_error_interrupt_completes_as_failure (cfg : Config) (g : maliggy_group) (w : World)
    (_hwork : g.state = MALI_GROUP_STATE_WORKING) (hpow : g.power_is_on = true)
    (herr : has_bit_outside (maliggy_gp_read_rawstat cfg w).1
      (cfg.MALIGP2_REG_VAL_IRQ_VS_END_CMD_LST ||| cfg.MALIGP2_REG_VAL_IRQ_PLBU_END_CMD_LST
        ||| cfg.MALIGP2_REG_VAL_IRQ_HANG ||| cfg.MALIGP2_REG_VAL_IRQ_PLBU_OUT_OF_MEM))
    (hnc : ¬ ((maliggy_gp_read_rawstat cfg w).1 &&& (cfg.MALIGP2_REG_VAL_IRQ_VS_END_CMD_LST
          ||| cfg.MALIGP2_REG_VAL_IRQ_PLBU_END_CMD_LST) ≠ 0
        ∧ (maliggy_gp_read_core_status (maliggy_gp_read_rawstat cfg w).2).1
          &&& cfg.MALIGP2_REG_VAL_STATUS_MASK_ACTIVE = 0)) :
    ∃ pre, obs (maliggy_group_bottom_half_gp cfg g w).2.log = obs w.log ++
        [.call .maliggy_group_lock [], .call .maliggy_group_complete_gp [0]] ++ pre ++
        [.gp_scheduler_job_done (maliggy_group_bottom_half_gp cfg g w).1 g.gp_running_job false,
         .call .maliggy_group_unlock []]
      ∧ ∀ e ∈ pre, e.is_callback = false := by
  obtain ⟨W, hW, hbh⟩ := group_bottom_half_gp_not_clean cfg g w hpow hnc
  have he := (and_not_ne_zero_iff _ _ (gp_read_rawstat_lt cfg w)).2 herr
  rw [hbh, group_bottom_half_gp_rest_error cfg g _ W he]
  obtain ⟨ok, t, hg, hl, k1, k2⟩ :=
    group_complete_gp_spec cfg { g with core_timed_out := false } false W
  refine ⟨[.call ._maliggy_osk_timer_del_async [], .call .maliggy_gp_reset_async [],
    .call .maliggy_group_deactivate_page_directory [s2n g.session, s2n g.session],
    .ret .maliggy_gp_reset_wait (if ok then 0 else 1)] ++ t, ?_, ?_⟩
  · simp [hl, hW, b2n]
  · intro e he
    cases ok with
    | true =>
      rw [k1 rfl] at he
      simp at he
      rcases he with h | h | h | h <;> subst h <;> rfl
    | false =>
      obtain ⟨t', ht, hp⟩ := k2 rfl
      rw [ht] at he
      simp at he
      rcases he with h | h | h | h | h | h
      all_goals first | exact reset_detail_not_callback e (hp e h) | (subst h; rfl)

/-- Witness of C7: raw status `0x200` (error bit 9 alone) on the working GP group. -/
theorem C7_error_interrupt_completes_as_failure_witness :
    ∃ pre, obs (maliggy_group_bottom_half_gp cfg_mali400 gp_group_working
        (world_of [0x200])).2.log = obs (world_of [0x200]).log ++
        [.call .maliggy_group_lock [], .call .maliggy_group_complete_gp [0]] ++ pre ++
        [.gp_scheduler_job_done (maliggy_group_bottom_half_gp cfg_mali400 gp_group_working
            (world_of [0x200])).1 gp_group_working.gp_running_job false,
         .call .maliggy_group_unlock []]
      ∧ ∀ e ∈ pre, e.is_callback = false :=
  C7_error_interrupt_completes_as_failure cfg_mali400 gp_group_working (world_of [0x200])
    (by decide) (by decide) ⟨9, by decide, by decide⟩ (by decide)

set_option maxRecDepth 100000 in
/-- C10 as stated fails: on the working GP group whose timer has fired (`core_timed_out` set) the
raw status `0x4` has PLBU_OUT_OF_MEM and no error bit, the timer is not pending, and the bottom
half takes the software-timeout branch: the state is not `OOM` and the job is not kept. -/
theorem C10_counterexample :
    ¬ (gp_group_timed_out.state = MALI_GROUP_STATE_WORKING
        ∧ gp_group_timed_out.power_is_on = true
        ∧ (maliggy_gp_read_rawstat cfg_mali400 (world_of [0x4, 0])).1
            &&& cfg_mali400.MALIGP2_REG_VAL_IRQ_PLBU_OUT_OF_MEM ≠ 0
        ∧ ¬ has_bit_outside (maliggy_gp_read_rawstat cfg_mali400 (world_of [0x4, 0])).1
          (cfg_mali400.MALIGP2_REG_VAL_IRQ_VS_END_CMD_LST
            ||| cfg_mali400.MALIGP2_REG_VAL_IRQ_PLBU_END_CMD_LST
            ||| cfg_mali400.MALIGP2_REG_VAL_IRQ_HANG
            ||| cfg_mali400.MALIGP2_REG_VAL_IRQ_PLBU_OUT_OF_MEM) →
      (maliggy_group_bottom_half_gp cfg_mali400 gp_group_timed_out (world_of [0x4, 0])).1.state
          = MALI_GROUP_STATE_OOM
        ∧ (maliggy_group_bottom_half_gp cfg_mali400 gp_group_timed_out
            (world_of [0x4, 0])).1.gp_running_job = gp_group_timed_out.gp_running_job) := by
  intro h
  have hne : ¬ has_bit_outside (maliggy_gp_read_rawstat cfg_mali400 (world_of [0x4, 0])).1
      (cfg_mali400.MALIGP2_REG_VAL_IRQ_VS_END_CMD_LST
        ||| cfg_mali400.MALIGP2_REG_VAL_IRQ_PLBU_END_CMD_LST
        ||| cfg_mali400.MALIGP2_REG_VAL_IRQ_HANG
        ||| cfg_mali400.MALIGP2_REG_VAL_IRQ_PLBU_OUT_OF_MEM) := fun hb =>
    (and_not_ne_zero_iff _ _ (gp_read_rawstat_lt cfg_mali400 _)).2 hb (by decide)
  exact absurd (h ⟨by decide, by decide, by decide, hne⟩).1 (by decide)

/-- C10 (amended): on a `WORKING`, powered GP group whose `core_timed_out` flag is clear, when the
raw status read by the bottom half has PLBU_OUT_OF_MEM set and no error bit and the test for a
clean completion fails (no END_CMD_LST bit is set, or the core status still shows the core
active), the state becomes `OOM`, nothing else in the group changes (the running job is kept),
and the observable calls are: take the lock, release the lock, then
`maliggy_gp_scheduler_oom(group, job)`. -/
theorem C10_out_of_memory_suspends_job (cfg : Config) (g : maliggy_group) (w : World)
    (_hwork : g.state = MALI_GROUP_STATE_WORKING) (hpow : g.power_is_on = true)
    (hto : g.core_timed_out = false)
    (hoom : (maliggy_gp_read_rawstat cfg w).1 &&& cfg.MALIGP2_REG_VAL_IRQ_PLBU_OUT_OF_MEM ≠ 0)
    (hne : ¬ has_bit_outside (maliggy_gp_read_rawstat cfg w).1
      (cfg.MALIGP2_REG_VAL_IRQ_VS_END_CMD_LST ||| cfg.MALIGP2_REG_VAL_IRQ_PLBU_END_CMD_LST
        ||| cfg.MALIGP2_REG_VAL_IRQ_HANG ||| cfg.MALIGP2_REG_VAL_IRQ_PLBU_OUT_OF_MEM))
    (hnc : ¬ ((maliggy_gp_read_rawstat cfg w).1 &&& (cfg.MALIGP2_REG_VAL_IRQ_VS_END_CMD_LST
          ||| cfg.MALIGP2_REG_VAL_IRQ_PLBU_END_CMD_LST) ≠ 0
        ∧ (maliggy_gp_read_core_status (maliggy_gp_read_rawstat cfg w).2).1
          &&& cfg.MALIGP2_REG_VAL_STATUS_MASK_ACTIVE = 0)) :
    (maliggy_group_bottom_half_gp cfg g w).1 = { g with state := MALI_GROUP_STATE_OOM }
    ∧ (maliggy_group_bottom_half_gp cfg g w).1.gp_running_job = g.gp_running_job
    ∧ obs (maliggy_group_bottom_half_gp cfg g w).2.log = obs w.log ++
        [.call .maliggy_group_lock [], .call .maliggy_group_unlock [],
         .gp_scheduler_oom { g with state := MALI_GROUP_STATE_OOM } g.gp_running_job] := by
  obtain ⟨W, hW, hbh⟩ := group_bottom_half_gp_not_clean cfg g w hpow hnc
  have he : (maliggy_gp_read_rawstat cfg w).1 &&& u32_not
      (cfg.MALIGP2_REG_VAL_IRQ_VS_END_CMD_LST ||| cfg.MALIGP2_REG_VAL_IRQ_PLBU_END_CMD_LST
        ||| cfg.MALIGP2_REG_VAL_IRQ_HANG ||| cfg.MALIGP2_REG_VAL_IRQ_PLBU_OUT_OF_MEM) = 0 := by
    by_contra hc
    exact hne ((and_not_ne_zero_iff _ _ (gp_read_rawstat_lt cfg w)).1 hc)
  rw [hbh, group_bottom_half_gp_rest_oom cfg g _ W he hto hoom]
  refine ⟨rfl, rfl, ?_⟩
  simp [hW, Ev.low]

/-- Witness of C10: raw status `0x4` (PLBU_OUT_OF_MEM alone) on the working GP group. -/
theorem C10_out_of_memory_suspends_job_witness :
    (maliggy_group_bottom_half_gp cfg_mali400 gp_group_working (world_of [0x4])).1
      = { gp_group_working with state := MALI_GROUP_STATE_OOM }
    ∧ (maliggy_group_bottom_half_gp cfg_mali400 gp_group_working
        (world_of [0x4])).1.gp_running_job = gp_group_working.gp_running_job
    ∧ obs (maliggy_group_bottom_half_gp cfg_mali400 gp_group_working (world_of [0x4])).2.log
      = obs (world_of [0x4]).log ++
        [.call .maliggy_group_lock [], .call .maliggy_group_unlock [],
         .gp_scheduler_oom { gp_group_working with state := MALI_GROUP_STATE_OOM }
           gp_group_working.gp_running_job] :=
  C10_out_of_memory_suspends_job cfg_mali400 gp_group_working (world_of [0x4])
    (by decide) (by decide) (by decide) (by decide)
    (fun hb => (and_not_ne_zero_iff _ _ (gp_read_rawstat_lt cfg_mali400 _)).2 hb (by decide))
    (by decide)

/-- C2 as stated fails: from the fresh GP group `gp_group0`, the start of `gp_job1` followed by
the GP bottom half reading the raw status `0x4` (PLBU_OUT_OF_MEM) reaches a state with exactly
one job slot occupied whose state is `OOM`, not `WORKING`. -/
theorem C2_counterexample :
    Fresh gp_group0
    ∧ Reachable cfg_mali400 Op.guard_kind gp_group0 (world_of reads_oom_run)
        oom_run_suspended.1 oom_run_suspended.2
    ∧ ¬ (oom_run_suspended.1.state = MALI_GROUP_STATE_WORKING
          ↔ one_job_running oom_run_suspended.1) := by
  refine ⟨Or.inl ⟨none, _, rfl⟩, ?_, ?_⟩
  · exact reachable_mono _ _ _ _ _ oom_run_reachable
  · intro h
    have h1 : one_job_running oom_run_suspended.1 := Or.inl ⟨by decide, by decide⟩
    exact absurd (h.2 h1) (by decide)

/-- C2 (amended): in every state reachable from a freshly created group through the job starts,
the bottom halves, the timeout, `resume_gp_with_new_heap`, the aborts, `abort_session`,
`zap_session`, the completions and the page-fault handling, at most one of `gp_running_job` and
`pp_running_job` is non-null; `state == WORKING` implies that exactly one is non-null; and when
exactly one is non-null the state is `WORKING` or `OOM`. -/
theorem C2_job_slots_exclusive (cfg : Config) (g0 : maliggy_group) (w0 : World)
    (g : maliggy_group) (w : World) (hf : Fresh g0)
    (hr : Reachable cfg Op.guard_kind g0 w0 g w) :
    ¬ (g.gp_running_job ≠ none ∧ g.pp_running_job ≠ none)
    ∧ (g.state = MALI_GROUP_STATE_WORKING → one_job_running g)
    ∧ (one_job_running g →
        g.state = MALI_GROUP_STATE_WORKING ∨ g.state = MALI_GROUP_STATE_OOM) :=
  slots_ok_spec g (reachable_slots_ok cfg g0 w0 g w hf hr)

/-- Witness of C2: the run of `C2_counterexample`. -/
theorem C2_job_slots_exclusive_witness :
    ¬ (oom_run_suspended.1.gp_running_job ≠ none ∧ oom_run_suspended.1.pp_running_job ≠ none)
    ∧ (oom_run_suspended.1.state = MALI_GROUP_STATE_WORKING
        → one_job_running oom_run_suspended.1)
    ∧ (one_job_running oom_run_suspended.1 →
        oom_run_suspended.1.state = MALI_GROUP_STATE_WORKING
        ∨ oom_run_suspended.1.state = MALI_GROUP_STATE_OOM) :=
  C2_job_slots_exclusive cfg_mali400 gp_group0 (world_of reads_oom_run)
    oom_run_suspended.1 oom_run_suspended.2 (Or.inl ⟨none, _, rfl⟩)
    (reachable_mono _ _ _ _ _ oom_run_reachable)

/-- C3 (the code departs from the claim and from its own assertions): a GP job is started on
the fresh GP group and then aborted; `maliggy_group_complete_gp(group, MALI_FALSE)` only
soft-resets the GP core, so a page fault of the MMU can still be pending. The MMU bottom half
then calls `maliggy_group_mmu_page_fault` on the group, which has no running job any more (the
assertions on the running job and on `0 < page_dir_ref_count` are compiled out), and
`maliggy_group_deactivate_page_directory` is called a second time: `page_dir_ref_count` is -1,
the one successful activation is followed by two deactivations, and a second completion, with a
null job, is reported to the scheduler. Every step is called on a group of the right kind
(`Op.guard_kind`). -/
theorem C3_page_fault_after_abort_unbalances_references :
    Reachable cfg_mali400 Op.guard_kind gp_group0 (world_of reads_fault_run)
      fault_run_faulted.1 fault_run_faulted.2
    ∧ fault_run_started.1.page_dir_ref_count = 1
    ∧ fault_run_aborted.1.gp_running_job = none
    ∧ fault_run_aborted.1.state = MALI_GROUP_STATE_IDLE
    ∧ fault_run_aborted.1.page_dir_ref_count = 0
    ∧ fault_run_faulted.1.page_dir_ref_count = -1
    ∧ count_activations fault_run_faulted.2.log = 1
    ∧ count_deactivations fault_run_faulted.2.log = 2
    ∧ (callbacks fault_run_faulted.2.log).map (fun e => e.reports_failure) = [true, true] :=
  ⟨fault_run_reachable, fault_run_facts⟩

/-- The accounting of page-directory references is balanced as long as every completion, page
fault and bottom half is handled while a job is running (`Op.guard_running`, which the debug
build asserts and the release build does not check): in every state reached in this way from a
freshly created group (with an empty log), `page_dir_ref_count >= 0`; the successful returns of
`maliggy_group_activate_page_directory` in the log are as many as the calls of
`maliggy_group_deactivate_page_directory` plus `page_dir_ref_count`, which is 1 while a job is
running and 0 otherwise; and every call of `maliggy_group_deactivate_page_directory` in the log
passed the session that was `group->session` at the call. -/
theorem page_directory_references_balanced (cfg : Config) (g0 : maliggy_group) (w0 : World)
    (g : maliggy_group) (w : World) (hf : Fresh g0) (hlog : w0.log = [])
    (hr : Reachable cfg Op.guard_running g0 w0 g w) :
    0 ≤ g.page_dir_ref_count
    ∧ (count_activations w.log : Int) = count_deactivations w.log + g.page_dir_ref_count
    ∧ g.page_dir_ref_count
        = (if g.gp_running_job.isSome = true ∨ g.pp_running_job.isSome = true then 1 else 0)
    ∧ ∀ e ∈ w.log, e.deact_ok = true := by
  have h1 := (reachable_ref_ok cfg g0 w0 g w hf hr).2.1
  have h2 := reachable_pd cfg Op.guard_running g0 w0 g w (fresh_ref g0 hf) hlog hr
  have h3 : g.page_dir_ref_count
      = (if g.gp_running_job.isSome = true ∨ g.pp_running_job.isSome = true then 1 else 0) := h1
  refine ⟨?_, h2.1, h3, h2.2⟩
  rw [h3]
  split_ifs <;> decide

/-- C11: `maliggy_group_resume_gp_with_new_heap` on a group whose running job pointer is valid
in state `OOM`. It returns the running job if and only if the state is `OOM` and the id of the
running job is `job_id`; then the group changes in its state alone, which becomes `WORKING`, and
the calls made are the L2 invalidation (when the group has a cache), the TLB zap without stall
and `maliggy_gp_resume_with_new_heap`, none of them a scheduler callback. In every other case it
returns `NULL` and leaves the group and the world (log and hardware oracle) as they were. -/
theorem C11_resume_only_for_suspended_job (cfg : Config) (g : maliggy_group)
    (job_id start_addr end_addr : Nat) (w : World)
    (hjob : g.state = MALI_GROUP_STATE_OOM → g.gp_running_job ≠ none) :
    ∃ r, maliggy_group_resume_gp_with_new_heap cfg g job_id start_addr end_addr w = some r
      ∧ (r.1 ≠ none ↔ (g.state = MALI_GROUP_STATE_OOM
          ∧ ∃ job, g.gp_running_job = some job ∧ job.id = job_id))
      ∧ (r.1 ≠ none →
          r.1 = g.gp_running_job
          ∧ r.2.1 = { g with state := MALI_GROUP_STATE_WORKING }
          ∧ obs r.2.2.log = obs w.log
            ++ (match g.l2_cache_core.1 with
                | some c => [.call .maliggy_l2_cache_invalidate [c]]
                | none => [])
            ++ [.call .maliggy_mmu_zap_tlb_without_stall [],
                .call .maliggy_gp_resume_with_new_heap [start_addr, end_addr]])
      ∧ (r.1 = none → r.2.1 = g ∧ r.2.2 = w) := by
  by_cases hs : g.state = MALI_GROUP_STATE_OOM
  · cases hj : g.gp_running_job with
    | none => exact absurd hj (hjob hs)
    | some job =>
      by_cases hid : job.id = job_id
      · refine ⟨(some job, { g with state := MALI_GROUP_STATE_WORKING },
          maliggy_gp_resume_with_new_heap cfg start_addr end_addr
            (maliggy_mmu_zap_tlb_without_stall
              (match g.l2_cache_core.1 with
              | some c => maliggy_l2_cache_invalidate cfg (some c) w
              | none => w))), ?_, ?_, ?_, ?_⟩
        · simp [maliggy_group_resume_gp_with_new_heap, hs, hj, hid]
        · simp [hs, hid]
        · intro _
          refine ⟨by simp, by simp [hj], ?_⟩
          cases g.l2_cache_core.1 <;> simp
        · intro h
          simp at h
      · refine ⟨(none, g, w), ?_, ?_, ?_, ?_⟩
        · simp [maliggy_group_resume_gp_with_new_heap, hs, hj, hid]
        · simp [hs, hid]
        · intro h
          simp at h
        · intro _
          exact ⟨rfl, rfl⟩
  · refine ⟨(none, g, w), ?_, ?_, ?_, ?_⟩
    · simp [maliggy_group_resume_gp_with_new_heap, hs]
    · simp [hs]
    · intro h
      simp at h
    · intro _
      exact ⟨rfl, rfl⟩

/-- Witness of C11: the suspended GP group `gp_group_oom` resumed with the id of its job. -/
theorem C11_resume_only_for_suspended_job_witness :
    ∃ r, maliggy_group_resume_gp_with_new_heap cfg_mali400 gp_group_oom 1 0x1000 0x2000
          (world_of []) = some r
      ∧ (r.1 ≠ none ↔ (gp_group_oom.state = MALI_GROUP_STATE_OOM
          ∧ ∃ job, gp_group_oom.gp_running_job = some job ∧ job.id = 1))
      ∧ (r.1 ≠ none →
          r.1 = gp_group_oom.gp_running_job
          ∧ r.2.1 = { gp_group_oom with state := MALI_GROUP_STATE_WORKING }
          ∧ obs r.2.2.log = obs (world_of []).log
            ++ (match gp_group_oom.l2_cache_core.1 with
                | some c => [.call .maliggy_l2_cache_invalidate [c]]
                | none => [])
            ++ [.call .maliggy_mmu_zap_tlb_without_stall [],
                .call .maliggy_gp_resume_with_new_heap [0x1000, 0x2000]])
      ∧ (r.1 = none → r.2.1 = gp_group_oom ∧ r.2.2 = world_of []) :=
  C11_resume_only_for_suspended_job cfg_mali400 gp_group_oom 1 0x1000 0x2000 (world_of [])
    (fun _ => by decide)

/-- C12: the timer callback `maliggy_group_timeout` sets `core_timed_out` and changes no other
field of the group; the one event it adds to the log is the scheduling of the GP bottom half
when the group owns a GP core and of the PP bottom half otherwise, so no completion callback
fires; the hardware oracle, the job counter and the caches are untouched. -/
theorem C12_timeout_only_flags_and_schedules (g : maliggy_group) (w : World) :
    (maliggy_group_timeout g w).1 = { g with core_timed_out := true }
    ∧ (maliggy_group_timeout g w).2.log = w.log ++
        [if g.gp_core.isSome then .call ._maliggy_osk_wq_schedule_work_gp []
         else .call ._maliggy_osk_wq_schedule_work_pp []]
    ∧ (maliggy_group_timeout g w).2.reads = w.reads
    ∧ (maliggy_group_timeout g w).2.maliggy_job_autonumber = w.maliggy_job_autonumber
    ∧ (maliggy_group_timeout g w).2.l2 = w.l2
    ∧ (maliggy_group_timeout g w).1.state = g.state
    ∧ (maliggy_group_timeout g w).1.gp_running_job = g.gp_running_job
    ∧ (maliggy_group_timeout g w).1.pp_running_job = g.pp_running_job
    ∧ (maliggy_group_timeout g w).1.session = g.session
    ∧ (maliggy_group_timeout g w).1.page_dir_ref_count = g.page_dir_ref_count := by
  unfold maliggy_group_timeout
  cases h : g.gp_core <;> simp [World.emit]

/-- C17: `maliggy_group_virtual_disable_if_empty` returns true exactly when the child list is
empty, and then sets `state = DISABLED` and `session = NULL` and nothing else; otherwise the
group is unchanged. `maliggy_group_virtual_enable_if_empty` returns true exactly when the child
list is empty, and then sets `state = IDLE` and nothing else; otherwise the group is unchanged.
-/
theorem C17_virtual_group_follows_child_list (g : maliggy_group) :
    ((maliggy_group_virtual_disable_if_empty g).1 = true ↔ g.group_list = [])
    ∧ (g.group_list = [] → (maliggy_group_virtual_disable_if_empty g).2
          = { g with state := MALI_GROUP_STATE_DISABLED, session := none })
    ∧ (g.group_list ≠ [] → (maliggy_group_virtual_disable_if_empty g).2 = g)
    ∧ ((maliggy_group_virtual_enable_if_empty g).1 = true ↔ g.group_list = [])
    ∧ (g.group_list = [] → (maliggy_group_virtual_enable_if_empty g).2
          = { g with state := MALI_GROUP_STATE_IDLE })
    ∧ (g.group_list ≠ [] → (maliggy_group_virtual_enable_if_empty g).2 = g) := by
  unfold maliggy_group_virtual_disable_if_empty maliggy_group_virtual_enable_if_empty
  cases h : g.group_list <;> simp


/-- C19 as stated fails: with the command interface of the cache busy for all 100000 status
polls, `maliggy_l2_cache_invalidate_conditional(cache, 5)` against `last_invalidated_id = 0`
returns true and updates `last_invalidated_id`, but writes no command to the hardware. -/
theorem C19_counterexample :
    ¬ (¬ to_s32 5 ≤ to_s32 (world_l2_busy.l2 0).last_invalidated_id →
        (maliggy_l2_cache_invalidate_conditional cfg_mali400 (some 0) 5 world_l2_busy).1 = true
        ∧ ∃ e ∈ (maliggy_l2_cache_invalidate_conditional cfg_mali400 (some 0) 5
              world_l2_busy).2.log,
            e = .reg_write (.l2 0) .MALI400_L2_CACHE_REGISTER_COMMAND
              cfg_mali400.MALI400_L2_CACHE_COMMAND_CLEAR_ALL) := by
  intro h
  have hn : ¬ to_s32 5 ≤ to_s32 (world_l2_busy.l2 0).last_invalidated_id := by decide
  obtain ⟨_, e, he, heq⟩ := h hn
  rw [((l2_cache_invalidate_conditional_spec cfg_mali400 0 5 world_l2_busy).2.2 hn).2.2,
    l2_command_idle_busy] at he
  have hl : world_l2_busy.log = [] := rfl
  rw [hl] at he
  simp at he
  rw [he] at heq
  exact absurd heq (by decide)

/-- C19 (amended): `maliggy_l2_cache_invalidate_conditional(cache, id)` on a non-null cache with
`last_invalidated_id = L` returns false if and only if `id <= L` as signed 32-bit integers, and
then writes no register and leaves `last_invalidated_id`, the job counter and the hardware oracle
unchanged. Otherwise it returns true and stores a new id drawn from the global counter in
`last_invalidated_id`; the clear-all command is written to the command register once if the
status polls find the command interface idle within 100000 reads, and not at all if it stays
busy. -/
theorem C19_conditional_invalidate_signed_compare (cfg : Config) (c id : Nat) (w : World) :
    ((maliggy_l2_cache_invalidate_conditional cfg (some c) id w).1 = false
      ↔ to_s32 id ≤ to_s32 (w.l2 c).last_invalidated_id)
    ∧ (to_s32 id ≤ to_s32 (w.l2 c).last_invalidated_id →
        (maliggy_l2_cache_invalidate_conditional cfg (some c) id w).2.log
            = w.log ++ [.call .maliggy_l2_cache_invalidate_conditional [c, id]]
        ∧ (maliggy_l2_cache_invalidate_conditional cfg (some c) id w).2.l2 = w.l2
        ∧ (maliggy_l2_cache_invalidate_conditional cfg (some c) id w).2.maliggy_job_autonumber
            = w.maliggy_job_autonumber
        ∧ (maliggy_l2_cache_invalidate_conditional cfg (some c) id w).2.reads = w.reads)
    ∧ (¬ to_s32 id ≤ to_s32 (w.l2 c).last_invalidated_id →
        (maliggy_l2_cache_invalidate_conditional cfg (some c) id w).1 = true
        ∧ ((maliggy_l2_cache_invalidate_conditional cfg (some c) id w).2.l2 c).last_invalidated_id
            = (w.maliggy_job_autonumber + 1) % 4294967296
        ∧ (maliggy_l2_cache_invalidate_conditional cfg (some c) id w).2.log
            = w.log ++ [.call .maliggy_l2_cache_invalidate_conditional [c, id]]
              ++ (if l2_command_idle cfg w = true then
                    [.reg_write (.l2 (w.l2 c).core_id) .MALI400_L2_CACHE_REGISTER_COMMAND
                      cfg.MALI400_L2_CACHE_COMMAND_CLEAR_ALL]
                  else [])) :=
  l2_cache_invalidate_conditional_spec cfg c id w

/-- Illustration for C19: `id = 0x80000000` is skipped against `L = 0x7FFFFFFF`, the comparison
being signed. -/
theorem l2_signed_compare_skips :
    (maliggy_l2_cache_invalidate_conditional cfg_mali400 (some 0) 0x80000000 world_l2_max).1
      = false := by
  decide

/-- C20 as stated fails: the job counter is a 32-bit counter that wraps. After 4294967294 ids
were drawn by `maliggy_scheduler_get_new_id`, a call of `maliggy_l2_cache_invalidate` stores
`last_invalidated_id = 0xFFFFFFFF` in cache 0, and the next call stores 0: the value decreases
from one call to the next. -/
theorem C20_counterexample :
    ¬ (((l2_run cfg_mali400 [0] [.invalidate 0] (world_after_draws 4294967294)).l2 0
          ).last_invalidated_id
        ≤ ((l2_run cfg_mali400 [0] [.invalidate 0, .invalidate 0]
            (world_after_draws 4294967294)).l2 0).last_invalidated_id) := by
  intro hle
  have g := l2_run_invalidate_twice cfg_mali400 [0] 0 (world_after_draws 4294967294)
  rw [g.1, g.2, (world_after_draws_spec 4294967294).1] at hle
  exact absurd hle (by decide)

/-- C20 (amended): take any cache table in which every `last_invalidated_id` is at most the job
counter (as after `maliggy_l2_cache_create` and `maliggy_scheduler_initialize`, both 0), and any
sequence of calls of `maliggy_l2_cache_invalidate`, `maliggy_l2_cache_invalidate_conditional` and
`maliggy_l2_cache_invalidate_all` during which the 32-bit job counter does not wrap. Then from
one call of the sequence to the next the `last_invalidated_id` of no cache decreases. -/
theorem C20_last_invalidated_id_monotone (cfg : Config) (caches : List Nat) (ops : List L2Op)
    (w0 : World)
    (hinv : ∀ c, (w0.l2 c).last_invalidated_id ≤ w0.maliggy_job_autonumber)
    (hno : w0.maliggy_job_autonumber + ops.length * (caches.length + 1) < 4294967296)
    (pre : List L2Op) (op : L2Op) (post : List L2Op) (hsplit : ops = pre ++ op :: post)
    (c : Nat) :
    ((l2_run cfg caches pre w0).l2 c).last_invalidated_id
      ≤ ((l2_run cfg caches (pre ++ [op]) w0).l2 c).last_invalidated_id := by
  have hlen : ops.length = pre.length + 1 + post.length := by
    rw [hsplit]
    simp
    omega
  rw [hlen] at hno
  generalize hK : caches.length + 1 = K at hno
  have e1 : (pre.length + 1 + post.length) * K
      = pre.length * K + K + post.length * K := by
    rw [Nat.add_mul, Nat.add_mul, Nat.one_mul]
  rw [e1] at hno
  have h1 := l2_run_mono cfg caches pre w0 hinv (by rw [hK]; omega)
  rw [hK] at h1
  rw [l2_run_append]
  have h2 := l2_op_mono cfg caches op (l2_run cfg caches pre w0) h1.2.1
    (by rw [hK]; have := h1.2.2.2; omega)
  exact h2.1 c

/-- Witness of C20: two invalidations of cache 0 from the initial world. -/
theorem C20_last_invalidated_id_monotone_witness :
    (((l2_run cfg_mali400 [0] [.invalidate 0] (world_of [])).l2 0).last_invalidated_id
      ≤ ((l2_run cfg_mali400 [0] ([.invalidate 0] ++ [.invalidate_conditional 0 1])
          (world_of [])).l2 0).last_invalidated_id) :=
  C20_last_invalidated_id_monotone cfg_mali400 [0] [.invalidate 0, .invalidate_conditional 0 1]
    (world_of []) (fun _ => Nat.le_refl _) (by decide) [.invalidate 0]
    (.invalidate_conditional 0 1) [] rfl 0

/-- C18 as stated fails for the PP upper half, in both builds. In a build without upper-half
scheduling, a PP group that is a member of a virtual group takes the early exit and returns
`_MALI_OSK_ERR_OK` without reading the interrupt status of its core (the oracle is untouched,
and the status it would have read is 0), without masking and without scheduling. In a build
with upper-half scheduling the status `END_OF_FRAME` (nonzero) is handled in the upper half and
no bottom half is scheduled: the member of a virtual group masks, takes the lock, enables the
interrupts again and returns `_MALI_OSK_ERR_FAULT`; the working PP group completes its job in
the upper half and is `IDLE` afterwards. -/
theorem C18_counterexample :
    ¬ ((maliggy_group_upper_half_pp cfg_mali400 build_default pp_child_in_virtual
          (world_of [0])).1 = true →
        (maliggy_pp_get_int_stat (pp_child_in_virtual.pp_core.getD null_pp_core)
          (world_of [0])).1 ≠ 0)
    ∧ (maliggy_group_upper_half_pp cfg_mali400 build_default pp_child_in_virtual
          (world_of [0])).2.2.reads = [0]
    ∧ (maliggy_group_upper_half_pp cfg_mali400 build_default pp_child_in_virtual
          (world_of [0])).2.2.log = []
    ∧ (upper_half_pp_status build_upper_half_scheduling pp_child_in_virtual
          (world_of [1, 1])).1 = 1
    ∧ (maliggy_group_upper_half_pp cfg_mali400 build_upper_half_scheduling pp_child_in_virtual
          (world_of [1, 1])).1 = false
    ∧ (maliggy_group_upper_half_pp cfg_mali400 build_upper_half_scheduling pp_child_in_virtual
          (world_of [1, 1])).2.2.log
        = [.reg_write (.pp 0) .MALI200_REG_ADDR_MGMT_INT_MASK 0,
           .call .maliggy_group_lock [],
           .reg_write (.pp 0) .MALI200_REG_ADDR_MGMT_INT_MASK 3865,
           .call .maliggy_group_unlock []]
    ∧ (upper_half_pp_status build_upper_half_scheduling pp_group_working
          (world_of [1, 1])).1 = 1
    ∧ (maliggy_group_upper_half_pp cfg_mali400 build_upper_half_scheduling pp_group_working
          (world_of [1, 1])).1 = true
    ∧ pp_schedules (maliggy_group_upper_half_pp cfg_mali400 build_upper_half_scheduling
          pp_group_working (world_of [1, 1])).2.2.log = []
    ∧ pp_group_working.state = MALI_GROUP_STATE_WORKING
    ∧ (maliggy_group_upper_half_pp cfg_mali400 build_upper_half_scheduling pp_group_working
          (world_of [1, 1])).2.1.state = MALI_GROUP_STATE_IDLE
    ∧ (maliggy_group_upper_half_pp cfg_mali400 build_upper_half_scheduling pp_group_working
          (world_of [1, 1])).2.1.pp_running_job = none := by
  refine ⟨fun h => ?_, by decide, by decide, by decide, by decide, by decide, by decide,
    by decide, by decide, by decide, by decide, by decide⟩
  exact h (by decide) (by decide)

/-- C18 (amended), with the mask value `IRQ_MASK_NONE` equal to 0. Once past the entry (always,
unless shared interrupt lines are configured and the power domain is off, in which case the
result is `_MALI_OSK_ERR_FAULT`):
the GP and the MMU upper half return `_MALI_OSK_ERR_OK` if and only if the interrupt status read
from the unit is nonzero; when it is nonzero they mask the interrupts of the unit and schedule
the bottom half (for the MMU, that of the parent when the group has one), and when it is zero
nothing happens after the read. The PP upper half, in a build without upper-half scheduling,
behaves the same on a group that is not a member of a virtual group, and on a member of a virtual
group it returns `_MALI_OSK_ERR_OK` at once, without reading the status; it never changes the
group. In a build with upper-half scheduling the PP upper half returns `_MALI_OSK_ERR_OK` only
when the status read is nonzero; with status zero it returns `_MALI_OSK_ERR_FAULT` and nothing
happens after the read; with a nonzero status other than `END_OF_FRAME` it masks the interrupts
of the core, schedules the bottom half and returns `_MALI_OSK_ERR_OK`; with status
`END_OF_FRAME` it masks, takes the group lock and schedules nothing: if the raw status read
under the lock is not `END_OF_FRAME`, or the group is virtual and its core status shows
rendering active, it enables the interrupts again and returns `_MALI_OSK_ERR_OK`; otherwise, on
a group that is joining, in or leaving a virtual group it enables the interrupts again and
returns `_MALI_OSK_ERR_FAULT`; otherwise it clears the timer flag, completes the job with
`success` true and returns `_MALI_OSK_ERR_OK`. -/
theorem C18_upper_half_handles_own_interrupt (cfg : Config) (bc : BuildConfig)
    (g : maliggy_group) (w : World) (hgp : bc.MALIGP2_REG_VAL_IRQ_MASK_NONE = 0)
    (hpp : bc.MALI200_REG_VAL_IRQ_MASK_NONE = 0) :
    ((upper_half_enter bc w).1 = false →
        maliggy_group_upper_half_gp bc g w
          = (false, upper_half_leave bc (upper_half_enter bc w).2)
        ∧ maliggy_group_upper_half_mmu bc g w
          = (false, upper_half_leave bc (upper_half_enter bc w).2)
        ∧ maliggy_group_upper_half_pp cfg bc g w
          = (false, g, upper_half_leave bc (upper_half_enter bc w).2))
    ∧ ((upper_half_enter bc w).1 = true →
        ((maliggy_group_upper_half_gp bc g w).1 = true
            ↔ (maliggy_gp_get_int_stat (upper_half_enter bc w).2).1 ≠ 0)
        ∧ ((maliggy_gp_get_int_stat (upper_half_enter bc w).2).1 ≠ 0 →
            (maliggy_group_upper_half_gp bc g w).2 = upper_half_leave bc
              (((maliggy_gp_get_int_stat (upper_half_enter bc w).2).2.emit
                  (.reg_write .gp .MALIGP2_REG_ADDR_MGMT_INT_MASK 0)).emit
                (.call ._maliggy_osk_wq_schedule_work_gp [])))
        ∧ ((maliggy_gp_get_int_stat (upper_half_enter bc w).2).1 = 0 →
            (maliggy_group_upper_half_gp bc g w).2 = upper_half_leave bc
              (maliggy_gp_get_int_stat (upper_half_enter bc w).2).2)
        ∧ ((maliggy_group_upper_half_mmu bc g w).1 = true
            ↔ (maliggy_mmu_get_int_status (upper_half_enter bc w).2).1 ≠ 0)
        ∧ ((maliggy_mmu_get_int_status (upper_half_enter bc w).2).1 ≠ 0 →
            (maliggy_group_upper_half_mmu bc g w).2 = upper_half_leave bc
              ((maliggy_mmu_mask_all_interrupts
                  (maliggy_mmu_get_int_status (upper_half_enter bc w).2).2).emit
                (.call ._maliggy_osk_wq_schedule_work_mmu [s2n g.parent_group])))
        ∧ ((maliggy_mmu_get_int_status (upper_half_enter bc w).2).1 = 0 →
            (maliggy_group_upper_half_mmu bc g w).2 = upper_half_leave bc
              (maliggy_mmu_get_int_status (upper_half_enter bc w).2).2)
        ∧ (bc.MALI_UPPER_HALF_SCHEDULING = false →
            (maliggy_group_upper_half_pp cfg bc g w).2.1 = g
            ∧ (maliggy_group_is_in_virtual g = true →
                maliggy_group_upper_half_pp cfg bc g w
                  = (true, g, upper_half_leave bc (upper_half_enter bc w).2))
            ∧ (maliggy_group_is_in_virtual g = false →
                ((maliggy_group_upper_half_pp cfg bc g w).1 = true
                  ↔ (maliggy_pp_get_int_stat (g.pp_core.getD null_pp_core)
                      (upper_half_enter bc w).2).1 ≠ 0)
                ∧ ((maliggy_pp_get_int_stat (g.pp_core.getD null_pp_core)
                      (upper_half_enter bc w).2).1 ≠ 0 →
                    (maliggy_group_upper_half_pp cfg bc g w).2.2 = upper_half_leave bc
                      (((maliggy_pp_get_int_stat (g.pp_core.getD null_pp_core)
                          (upper_half_enter bc w).2).2.emit
                          (.reg_write (.pp (g.pp_core.getD null_pp_core).core_id)
                            .MALI200_REG_ADDR_MGMT_INT_MASK 0)).emit
                        (.call ._maliggy_osk_wq_schedule_work_pp [])))
                ∧ ((maliggy_pp_get_int_stat (g.pp_core.getD null_pp_core)
                      (upper_half_enter bc w).2).1 = 0 →
                    (maliggy_group_upper_half_pp cfg bc g w).2.2 = upper_half_leave bc
                      (maliggy_pp_get_int_stat (g.pp_core.getD null_pp_core)
                        (upper_half_enter bc w).2).2)))
        ∧ (bc.MALI_UPPER_HALF_SCHEDULING = true →
            ((maliggy_group_upper_half_pp cfg bc g w).1 = true →
              (upper_half_pp_status bc g w).1 ≠ 0)
            ∧ ((upper_half_pp_status bc g w).1 = 0 →
                maliggy_group_upper_half_pp cfg bc g w
                  = (false, g, upper_half_leave bc (upper_half_pp_status bc g w).2))
            ∧ ((upper_half_pp_status bc g w).1 ≠ 0 →
                cfg.MALI200_REG_VAL_IRQ_END_OF_FRAME ≠ (upper_half_pp_status bc g w).1 →
                maliggy_group_upper_half_pp cfg bc g w
                  = (true, g, upper_half_leave bc
                      (((upper_half_pp_status bc g w).2.emit
                          (.reg_write (.pp (g.pp_core.getD null_pp_core).core_id)
                            .MALI200_REG_ADDR_MGMT_INT_MASK 0)).emit
                        (.call ._maliggy_osk_wq_schedule_work_pp []))))
            ∧ ((upper_half_pp_status bc g w).1 ≠ 0 →
                cfg.MALI200_REG_VAL_IRQ_END_OF_FRAME = (upper_half_pp_status bc g w).1 →
                pp_schedules (maliggy_group_upper_half_pp cfg bc g w).2.2.log
                  = pp_schedules w.log
                ∧ ((cfg.MALI200_REG_VAL_IRQ_END_OF_FRAME
                        ≠ (upper_half_pp_inline_reads cfg bc g w).1
                      ∨ (upper_half_pp_inline_reads cfg bc g w).2.1.any (fun status_readout =>
                          status_readout &&& cfg.MALI200_REG_VAL_STATUS_RENDERING_ACTIVE != 0)
                        = true) →
                    maliggy_group_upper_half_pp cfg bc g w
                      = (true, g, upper_half_leave bc (maliggy_group_unlock
                          (maliggy_pp_enable_interrupts cfg (g.pp_core.getD null_pp_core)
                            (upper_half_pp_inline_reads cfg bc g w).2.2))))
                ∧ (cfg.MALI200_REG_VAL_IRQ_END_OF_FRAME
                      = (upper_half_pp_inline_reads cfg bc g w).1 →
                    (upper_half_pp_inline_reads cfg bc g w).2.1.any (fun status_readout =>
                        status_readout &&& cfg.MALI200_REG_VAL_STATUS_RENDERING_ACTIVE != 0)
                      = false →
                    (maliggy_group_is_in_virtual g = true →
                      maliggy_group_upper_half_pp cfg bc g w
                        = (false, g, upper_half_leave bc (maliggy_group_unlock
                            (maliggy_pp_enable_interrupts cfg (g.pp_core.getD null_pp_core)
                              (upper_half_pp_inline_reads cfg bc g w).2.2))))
                    ∧ (maliggy_group_is_in_virtual g = false →
                      maliggy_group_upper_half_pp cfg bc g w
                        = (true,
                            (maliggy_group_complete_pp cfg { g with core_timed_out := false }
                              true (upper_half_pp_inline_reads cfg bc g w).2.2).1,
                            upper_half_leave bc (maliggy_group_unlock
                              (maliggy_group_complete_pp cfg { g with core_timed_out := false }
                                true (upper_half_pp_inline_reads cfg bc g w).2.2).2))))))) := by
  constructor
  · intro he
    unfold maliggy_group_upper_half_gp maliggy_group_upper_half_mmu maliggy_group_upper_half_pp
    simp [he]
  · intro he
    refine ⟨?_, ?_, ?_, ?_, ?_, ?_, ?_, ?_⟩
    · unfold maliggy_group_upper_half_gp
      simp only [he, hgp]
      by_cases h : (maliggy_gp_get_int_stat (upper_half_enter bc w).2).1 = 0 <;>
        simp [h, eq_comm]
    · intro h
      unfold maliggy_group_upper_half_gp
      simp [he, h, Ne.symm h, maliggy_gp_mask_all_interrupts, maliggy_hw_core_register_write,
        hgp]
    · intro h
      unfold maliggy_group_upper_half_gp
      simp [he, h, hgp]
    · unfold maliggy_group_upper_half_mmu
      simp only [he]
      by_cases h : (maliggy_mmu_get_int_status (upper_half_enter bc w).2).1 = 0 <;> simp [h]
    · intro h
      unfold maliggy_group_upper_half_mmu
      simp [he, h]
    · intro h
      unfold maliggy_group_upper_half_mmu
      simp [he, h]
    · intro hu
      rw [upper_half_pp_eq cfg bc g w hu hpp he]
      refine ⟨?_, ?_, ?_⟩
      · split_ifs <;> rfl
      · intro hv
        simp [hv]
      · intro hv
        simp only [hv, Bool.false_eq_true, if_false]
        refine ⟨?_, ?_, ?_⟩
        · split_ifs with h <;> simp [h]
        · intro h
          simp [h]
        · intro h
          simp [h]
    · intro hu
      have hE := upper_half_pp_sched_eq cfg bc g w hu hpp he
      refine ⟨?_, ?_, ?_, ?_⟩
      · intro hr h0
        rw [hE, if_pos h0] at hr
        exact Bool.noConfusion hr
      · intro h0
        rw [hE, if_pos h0]
      · intro h0 h1
        rw [hE, if_neg h0, if_neg h1]
        simp [maliggy_pp_mask_all_interrupts, maliggy_hw_core_register_write, hpp]
      · intro h0 h1
        refine ⟨upper_half_pp_sched_inline cfg bc g w hu hpp he h0 h1, ?_, ?_⟩
        · rintro (h2 | h2)
          · rw [hE, if_neg h0, if_pos h1, if_pos h2]
          · rw [hE, if_neg h0, if_pos h1]
            by_cases h3 : cfg.MALI200_REG_VAL_IRQ_END_OF_FRAME
                ≠ (upper_half_pp_inline_reads cfg bc g w).1
            · rw [if_pos h3]
            · rw [if_neg h3, if_pos h2]
        · intro h2 h3
          have h2n : ¬ cfg.MALI200_REG_VAL_IRQ_END_OF_FRAME
              ≠ (upper_half_pp_inline_reads cfg bc g w).1 := not_not.mpr h2
          have h3n : ¬ ((upper_half_pp_inline_reads cfg bc g w).2.1.any (fun status_readout =>
              status_readout &&& cfg.MALI200_REG_VAL_STATUS_RENDERING_ACTIVE != 0) = true) := by
            rw [h3]; exact Bool.false_ne_true
          constructor
          · intro hv
            rw [hE, if_neg h0, if_pos h1, if_neg h2n, if_neg h3n, if_pos hv]
          · intro hv
            have hvn : ¬ maliggy_group_is_in_virtual g = true := by
              rw [hv]; exact Bool.false_ne_true
            rw [hE, if_neg h0, if_pos h1, if_neg h2n, if_neg h3n, if_neg hvn]

/-- Witness of C18: the default build with the fresh GP group and status `0x1`; and the build
with upper-half scheduling, where the member of a virtual group reads status `END_OF_FRAME` and
raw status `END_OF_FRAME`, and returns `_MALI_OSK_ERR_FAULT` after it has enabled the
interrupts again. -/
theorem C18_upper_half_handles_own_interrupt_witness :
    ((maliggy_group_upper_half_gp build_default gp_group0 (world_of [1])).1 = true
      ↔ (maliggy_gp_get_int_stat (upper_half_enter build_default (world_of [1])).2).1 ≠ 0)
    ∧ maliggy_group_upper_half_pp cfg_mali400 build_upper_half_scheduling pp_child_in_virtual
        (world_of [1, 1])
      = (false, pp_child_in_virtual, upper_half_leave build_upper_half_scheduling
          (maliggy_group_unlock (maliggy_pp_enable_interrupts cfg_mali400
            (pp_child_in_virtual.pp_core.getD null_pp_core)
            (upper_half_pp_inline_reads cfg_mali400 build_upper_half_scheduling
              pp_child_in_virtual (world_of [1, 1])).2.2))) :=
  ⟨((C18_upper_half_handles_own_interrupt cfg_mali400 build_default gp_group0 (world_of [1])
      rfl rfl).2 rfl).1,
    (((((C18_upper_half_handles_own_interrupt cfg_mali400 build_upper_half_scheduling
      pp_child_in_virtual (world_of [1, 1]) rfl rfl).2 rfl).2.2.2.2.2.2.2 rfl).2.2.2
        (by decide) (by decide)).2.2 (by decide) (by decide)).1 (by decide)⟩

/-- C15: `maliggy_group_add_group(parent, child, update_hw)` for a virtual parent and a physical
child that is `JOINING_VIRTUAL` and has no parent, the child having an L2 cache, the parent a
broadcast unit, an empty slot when the cache of the child is in neither slot, count 0 in its empty
slots and counts below the `u32` maximum, and the broadcast id of the child within the lower
half of the mask. Afterwards the child is `IN_VIRTUAL`, its parent is `parent`, its session is
`NULL` and it is the last entry of the child list of the parent. A slot of the parent that held the
L2 cache of the child keeps it and its count is one higher, the other slot being unchanged; when
neither slot held it, the cache is in the first empty slot with count 1 and the other slot is
unchanged. The broadcast mask of the parent has the bit of the child in both halves. -/
theorem C15_add_group_links_child (cfg : Config) (t : GroupTable) (parent child : Nat)
    (update_hw : Bool) (w : World)
    (hv : maliggy_group_is_virtual (t.group parent) = true)
    (hc : maliggy_group_is_virtual (t.group child) = false)
    (_hstate : (t.group child).state = MALI_GROUP_STATE_JOINING_VIRTUAL)
    (_hpar : (t.group child).parent_group = none)
    (_hl2 : (t.group child).l2_cache_core.1 ≠ none)
    (hbc : (t.group parent).bcast_core ≠ none)
    (hroom : (t.group parent).l2_cache_core.1 ≠ (t.group child).l2_cache_core.1 →
      (t.group parent).l2_cache_core.2 ≠ (t.group child).l2_cache_core.1 →
      (t.group parent).l2_cache_core.1 = none ∨ (t.group parent).l2_cache_core.2 = none)
    (hz1 : (t.group parent).l2_cache_core.1 = none →
      (t.group parent).l2_cache_core_ref_count.1 = 0)
    (hz2 : (t.group parent).l2_cache_core.2 = none →
      (t.group parent).l2_cache_core_ref_count.2 = 0)
    (ho1 : (t.group parent).l2_cache_core_ref_count.1 < 4294967295)
    (ho2 : (t.group parent).l2_cache_core_ref_count.2 < 4294967295)
    (hb : (t.core_of child).bcast_id < 65536) :
    let r := (maliggy_group_add_group cfg t parent child update_hw w).1
    let P := t.group parent
    let c0 := (t.group child).l2_cache_core.1
    (r.group child).state = MALI_GROUP_STATE_IN_VIRTUAL
    ∧ (r.group child).parent_group = some parent
    ∧ (r.group child).session = none
    ∧ (r.members parent).getLast? = some child
    ∧ (r.group parent).group_list.getLast? = some (t.core_of child)
    ∧ (P.l2_cache_core.1 = c0 ∨ P.l2_cache_core.2 = c0 →
        (r.group parent).l2_cache_core = P.l2_cache_core
        ∧ (r.group parent).l2_cache_core_ref_count =
            (if P.l2_cache_core.1 = c0 then P.l2_cache_core_ref_count.1 + 1
                else P.l2_cache_core_ref_count.1,
             if P.l2_cache_core.2 = c0 then P.l2_cache_core_ref_count.2 + 1
                else P.l2_cache_core_ref_count.2))
    ∧ (P.l2_cache_core.1 ≠ c0 → P.l2_cache_core.2 ≠ c0 → P.l2_cache_core.1 = none →
        (r.group parent).l2_cache_core = (c0, P.l2_cache_core.2)
        ∧ (r.group parent).l2_cache_core_ref_count = (1, P.l2_cache_core_ref_count.2))
    ∧ (P.l2_cache_core.1 ≠ c0 → P.l2_cache_core.2 ≠ c0 → P.l2_cache_core.1 ≠ none →
        P.l2_cache_core.2 = none
        ∧ (r.group parent).l2_cache_core = (P.l2_cache_core.1, c0)
        ∧ (r.group parent).l2_cache_core_ref_count = (P.l2_cache_core_ref_count.1, 1))
    ∧ ∃ u, (r.group parent).bcast_core = some u
        ∧ u.current_mask &&& (t.core_of child).bcast_id = (t.core_of child).bcast_id
        ∧ (u.current_mask >>> 16) &&& (t.core_of child).bcast_id
            = (t.core_of child).bcast_id := by
  have hne : parent ≠ child := by
    intro h
    rw [h, hc] at hv
    exact Bool.noConfusion hv
  intro r P c0
  have hr : r = add_group_sw t parent child := add_group_table cfg t parent child update_hw w
  have hrc : r.group child = { add_group_child (t.group child) parent with session := none } := by
    rw [hr]; simp [add_group_sw]
  have hrp : r.group parent = add_group_parent (t.group parent) (t.group child) parent := by
    rw [hr]; simp [add_group_sw, Function.update_noteq hne]
  have hrm : r.members parent = t.members parent ++ [child] := by
    rw [hr]; simp [add_group_sw]
  obtain ⟨o1, o2, -⟩ := add_group_parent_other (t.group parent) (t.group child) parent
  have hl := add_group_parent_l2 (t.group parent) (t.group child) parent
  rw [← hrp] at o1 o2 hl
  refine ⟨by rw [hrc]; rfl, by rw [hrc]; rfl, by rw [hrc], by rw [hrm]; simp, ?_, ?_, ?_, ?_, ?_⟩
  · rw [o2]
    simp [GroupTable.core_of]
  · intro hf
    rw [if_pos hf] at hl
    have e1 := congrArg Prod.fst hl
    have e2 := congrArg Prod.snd hl
    simp only at e1 e2
    rw [Nat.mod_eq_of_lt (by omega), Nat.mod_eq_of_lt (by omega)] at e2
    exact ⟨e1, e2⟩
  · intro h1 h2 hn
    rw [if_neg (by simp [h1, h2, P, c0] at *), if_pos hn] at hl
    have e1 := congrArg Prod.fst hl
    have e2 := congrArg Prod.snd hl
    simp only at e1 e2
    rw [hz1 hn] at e2
    exact ⟨e1, e2⟩
  · intro h1 h2 hn
    have hn2 : P.l2_cache_core.2 = none := (hroom h1 h2).resolve_left hn
    refine ⟨hn2, ?_⟩
    rw [if_neg (by simp [h1, h2, P, c0] at *), if_neg hn] at hl
    have e1 := congrArg Prod.fst hl
    have e2 := congrArg Prod.snd hl
    simp only at e1 e2
    rw [hz2 hn2] at e2
    exact ⟨e1, e2⟩
  · obtain ⟨u0, hu0⟩ := Option.ne_none_iff_exists'.mp hbc
    refine ⟨maliggy_bcast_add_group u0 (add_group_child (t.group child) parent), ?_, ?_⟩
    · rw [o1, hu0]
      rfl
    · exact bcast_add_group_mask u0 (add_group_child (t.group child) parent) hb

/-- C16: `maliggy_group_add_group` for a virtual parent with a broadcast unit and a physical child
whose broadcast id lies in the lower half of the mask. With `update_hw` false the only event is the
call of `maliggy_dlbu_add_group`: no register is written and no job is started. With `update_hw`
true the events outside the MMU driver are, in this order: the call of `maliggy_dlbu_add_group`,
the write of the new broadcast mask, the write of the interrupt override mask, the call of
`maliggy_dlbu_update_mask`, and then, exactly when the parent has a running PP job, one call of
`maliggy_pp_job_start` with the core of the child, that job, the id of the core as sub job and
`restart_virtual` true. The mask written has the bit of the child in both halves. -/
theorem C16_add_group_starts_running_job (cfg : Config) (t : GroupTable) (parent child : Nat)
    (w : World)
    (hv : maliggy_group_is_virtual (t.group parent) = true)
    (hc : maliggy_group_is_virtual (t.group child) = false)
    (hbc : (t.group parent).bcast_core ≠ none)
    (hb : (t.core_of child).bcast_id < 65536) :
    let M := (((maliggy_group_add_group cfg t parent child true w).1.group parent).bcast_core.getD
      ⟨0⟩).current_mask
    (maliggy_group_add_group cfg t parent child false w).2.log
        = w.log ++ [.call .maliggy_dlbu_add_group [(t.core_of child).core_id]]
    ∧ non_mmu (maliggy_group_add_group cfg t parent child true w).2.log
        = non_mmu w.log ++
          [.call .maliggy_dlbu_add_group [(t.core_of child).core_id],
           .reg_write .bcast .bcast_unit_addr_broadcast_mask M,
           .reg_write .bcast .bcast_unit_addr_irq_override_mask (M &&& 0xFF),
           .call .maliggy_dlbu_update_mask []]
          ++ (match (t.group parent).pp_running_job with
              | some job => [.call .maliggy_pp_job_start
                  [(t.core_of child).core_id, job.id, (t.core_of child).core_id, 1]]
              | none => [])
    ∧ M &&& (t.core_of child).bcast_id = (t.core_of child).bcast_id
    ∧ (M >>> 16) &&& (t.core_of child).bcast_id = (t.core_of child).bcast_id := by
  have hne : parent ≠ child := by
    intro h
    rw [h, hc] at hv
    exact Bool.noConfusion hv
  intro M
  obtain ⟨o1, -, o3, o4, -⟩ := add_group_parent_other (t.group parent) (t.group child) parent
  obtain ⟨u0, hu0⟩ := Option.ne_none_iff_exists'.mp hbc
  have hM : M = (maliggy_bcast_add_group u0 (add_group_child (t.group child) parent)).current_mask
      := by
    show ((((maliggy_group_add_group cfg t parent child true w).1.group parent).bcast_core.getD
      ⟨0⟩).current_mask) = _
    rw [add_group_table]
    simp [add_group_sw, Function.update_noteq hne, o1, hu0]
  have hM2 : ((add_group_parent (t.group parent) (t.group child) parent).bcast_core.getD
      ⟨0⟩).current_mask = M := by
    rw [hM, o1, hu0]; rfl
  refine ⟨rfl, ?_, ?_, ?_⟩
  · unfold maliggy_group_add_group
    simp only [Bool.not_true, Bool.false_eq_true, if_false]
    rw [o4]
    cases hj : (t.group parent).pp_running_job with
    | none =>
      simp only []
      split_ifs
      · simp [maliggy_dlbu_update_mask, maliggy_bcast_reset, maliggy_dlbu_add_group,
          maliggy_hw_core_register_write, Ev.is_mmu, hM2, add_group_child, GroupTable.core_of]
      · split <;>
        simp [maliggy_dlbu_update_mask, maliggy_bcast_reset, maliggy_dlbu_add_group,
          maliggy_hw_core_register_write, Ev.is_mmu, hM2, add_group_child, GroupTable.core_of]
    | some job =>
      simp only []
      split_ifs
      · simp [maliggy_dlbu_update_mask, maliggy_bcast_reset, maliggy_dlbu_add_group,
          maliggy_hw_core_register_write, Ev.is_mmu, hM2, add_group_child, GroupTable.core_of,
          maliggy_pp_job_start, b2n]
      · split <;>
        simp [maliggy_dlbu_update_mask, maliggy_bcast_reset, maliggy_dlbu_add_group,
          maliggy_hw_core_register_write, Ev.is_mmu, hM2, add_group_child, GroupTable.core_of,
          maliggy_pp_job_start, b2n]
  · rw [hM]
    exact (bcast_add_group_mask u0 (add_group_child (t.group child) parent) hb).1
  · rw [hM]
    exact (bcast_add_group_mask u0 (add_group_child (t.group child) parent) hb).2

/-- Witness for C15: group 0 of `vtable_joining` joins the virtual group 1, whose slots are
empty; the L2 cache 1 of the child goes to slot 0 with count 1. -/
theorem C15_add_group_links_child_witness :
    ((maliggy_group_add_group cfg_mali400 vtable_joining 1 0 false (world_of [])).1.group 0).state
        = MALI_GROUP_STATE_IN_VIRTUAL
    ∧ ((maliggy_group_add_group cfg_mali400 vtable_joining 1 0 false
        (world_of [])).1.group 1).l2_cache_core = (some 1, none)
    ∧ ((maliggy_group_add_group cfg_mali400 vtable_joining 1 0 false
        (world_of [])).1.group 1).l2_cache_core_ref_count = (1, 0) :=
  have h := C15_add_group_links_child cfg_mali400 vtable_joining 1 0 false (world_of [])
    (by decide) (by decide) (by decide) (by decide) (by decide) (by decide) (by decide)
    (by decide) (by decide) (by decide) (by decide) (by decide)
  ⟨h.1, (h.2.2.2.2.2.2.1 (by decide) (by decide) (by decide)).1,
    (h.2.2.2.2.2.2.1 (by decide) (by decide) (by decide)).2⟩

/-- Witness for C16: group 0 joins the virtual group 1 of `vtable_running`, which runs the job
`pp_job1`. -/
theorem C16_add_group_starts_running_job_witness :
    (maliggy_group_add_group cfg_mali400 vtable_running 1 0 false (world_of [])).2.log
        = [.call .maliggy_dlbu_add_group [0]]
    ∧ non_mmu (maliggy_group_add_group cfg_mali400 vtable_running 1 0 true (world_of [])).2.log
        = [.call .maliggy_dlbu_add_group [0],
           .reg_write .bcast .bcast_unit_addr_broadcast_mask 65537,
           .reg_write .bcast .bcast_unit_addr_irq_override_mask 1,
           .call .maliggy_dlbu_update_mask [],
           .call .maliggy_pp_job_start [0, 3, 0, 1]] :=
  have h := C16_add_group_starts_running_job cfg_mali400 vtable_running 1 0 (world_of [])
    (by decide) (by decide) (by decide) (by decide)
  ⟨h.1, h.2.1⟩

/-- C14, counterexample: the caller marks group 0 of the table `vtable0` as `JOINING_VIRTUAL`
before it adds it. The table reached is `vtable_joining`, where the physical group 0 is in one of
the three membership states and its `parent_group` is `NULL`, as `maliggy_group_add_group`
asserts at its entry. -/
theorem C14_counterexample :
    vtable0.initial
    ∧ VReachable cfg_mali400 true vtable0 (world_of []) vtable_joining (world_of [])
    ∧ maliggy_group_is_virtual (vtable_joining.group 0) = false
    ∧ (vtable_joining.group 0).state = MALI_GROUP_STATE_JOINING_VIRTUAL
    ∧ maliggy_group_is_in_virtual (vtable_joining.group 0) = true
    ∧ (vtable_joining.group 0).parent_group = none :=
  ⟨vtable0_initial, vtable_joining_reachable cfg_mali400 true, rfl, rfl, rfl, rfl⟩

/-- C14, amended: in every table reached by membership steps from a table without children, a
group has a parent if and only if its state is `IN_VIRTUAL`, a group is on the child list of a
group if and only if that group is its parent, and no group is on the child lists of two
different groups. -/
theorem C14_parent_iff_in_virtual (cfg : Config) (power_on : Bool) (t0 t : GroupTable)
    (w0 w : World) (h0 : t0.initial) (hr : VReachable cfg power_on t0 w0 t w) :
    (∀ g, (t.group g).parent_group ≠ none ↔ (t.group g).state = MALI_GROUP_STATE_IN_VIRTUAL)
    ∧ (∀ p g, g ∈ t.members p ↔ (t.group g).parent_group = some p)
    ∧ (∀ p q g, g ∈ t.members p → g ∈ t.members q → p = q) := by
  have key : (∀ g, (t.group g).parent_group ≠ none ↔
        (t.group g).state = MALI_GROUP_STATE_IN_VIRTUAL)
      ∧ (∀ p g, g ∈ t.members p ↔ (t.group g).parent_group = some p) := by
    induction hr with
    | init =>
      obtain ⟨a, b, c⟩ := h0
      constructor
      · intro g
        have hb := b g
        simp only [maliggy_group_is_in_virtual] at hb
        constructor
        · intro hn; exact absurd (a g) hn
        · intro hs; rw [hs] at hb; exact absurd hb (by decide)
      · intro p g
        rw [c p, a g]
        simp
    | step op _ hg ha ih => exact vmember_step cfg power_on op _ _ _ _ hg ha ih.1 ih.2
  refine ⟨key.1, key.2, ?_⟩
  intro p q g hp hq
  have e1 := (key.2 p g).mp hp
  have e2 := (key.2 q g).mp hq
  rw [e1] at e2
  exact Option.some.inj e2

/-- Witness for C14: the table `vtable_joining`, reached from `vtable0` by one step. -/
theorem C14_parent_iff_in_virtual_witness :
    vtable0.initial
    ∧ VReachable cfg_mali400 true vtable0 (world_of []) vtable_joining (world_of [])
    ∧ ((vtable_joining.group 0).parent_group ≠ none ↔
        (vtable_joining.group 0).state = MALI_GROUP_STATE_IN_VIRTUAL) :=
  ⟨vtable0_initial, vtable_joining_reachable cfg_mali400 true,
    (C14_parent_iff_in_virtual cfg_mali400 true vtable0 vtable_joining (world_of [])
      (world_of []) vtable0_initial (vtable_joining_reachable cfg_mali400 true)).1 0⟩

set_option maxRecDepth 100000 in
/-- C13, counterexample. First: the PP group `pp_group0` runs `pp_job1` of session 7 to a
successful completion; it is then `IDLE` and still holds session 7. The caller marks it
`JOINING_VIRTUAL`. `maliggy_group_abort_session` with session 7 then returns at its test for
membership in a virtual group and the group still references session 7. Second: the GP group
`gp_group0` runs `gp_job1` of session 7 to a successful completion, and a second GP bottom half
reads the completion status again; the group has no running job, still holds session 7, and its
`page_dir_ref_count` is -1. `maliggy_group_abort_session` with session 7 finds the count nonzero
and leaves the session in place. -/
theorem C13_counterexample :
    Reachable cfg_mali400 Op.guard_running pp_group0 (world_of [])
      pp_done_run_completed.1 pp_done_run_completed.2
    ∧ pp_done_run_completed.1.state = MALI_GROUP_STATE_IDLE
    ∧ pp_group_joining.state = MALI_GROUP_STATE_JOINING_VIRTUAL
    ∧ (maliggy_group_abort_session cfg_mali400 pp_group_joining 7 pp_done_run_completed.2).map
        (fun r => r.1.session) = some (some 7)
    ∧ Reachable cfg_mali400 Op.guard_kind gp_group0 (world_of reads_stale_run)
        stale_run_repeated.1 stale_run_repeated.2
    ∧ stale_run_repeated.1.page_dir_ref_count = -1
    ∧ stale_run_repeated.1.gp_running_job = none
    ∧ stale_run_repeated.1.pp_running_job = none
    ∧ maliggy_group_is_in_virtual stale_run_repeated.1 = false
    ∧ (maliggy_group_abort_session cfg_mali400 stale_run_repeated.1 7 stale_run_repeated.2).map
        (fun r => r.1.session) = some (some 7) := by
  have h1 : Reachable cfg_mali400 Op.guard_running pp_group0 (world_of [])
      pp_done_run_started.1 pp_done_run_started.2 :=
    Reachable.step (.start_pp_job pp_job1 0) Reachable.init ⟨⟨rfl, rfl⟩, trivial⟩ rfl
  have g1 : pp_done_run_started.1.pp_core.isSome = true := by decide
  have g2 : pp_done_run_started.1.pp_running_job.isSome = true := by decide
  obtain ⟨-, -, s3, -, s5, s6, s7, s8⟩ := stale_run_facts
  exact ⟨Reachable.step (.complete_pp true) h1 ⟨g1, Or.inl ⟨g1, g2⟩⟩ rfl, by decide, rfl,
    by decide, stale_run_reachable, s3, s5, s6, s7, s8⟩

/-- C13, amended: take a group in a state reached from a fresh group by operations of the group
module called on a group of the right kind (`Op.guard_kind`; such a group is never joining, in
or leaving a virtual group), whose `page_dir_ref_count` is 1 while it runs a job and 0
otherwise. For every session `S`,
`maliggy_group_abort_session(group, S)` returns, and afterwards the session of the group is not
`S` and no running job belongs to `S`. A running job of `S` was reported by exactly one
scheduler callback of the call, with `success` false; when no running job belongs to `S` the
job slots and the state are unchanged and no callback is made. On any group that is joining, in
or leaving a virtual group the function returns after taking and releasing the lock, the group
unchanged. -/
theorem C13_abort_session_drops_session (cfg : Config) (g0 : maliggy_group) (w0 : World)
    (g : maliggy_group) (w : World) (S : Nat) (hf : Fresh g0)
    (hr : Reachable cfg Op.guard_kind g0 w0 g w)
    (href : g.page_dir_ref_count
      = (if g.gp_running_job.isSome = true ∨ g.pp_running_job.isSome = true then 1 else 0)) :
    (maliggy_group_is_in_virtual g = false
    ∧ ∃ r, maliggy_group_abort_session cfg g S w = some r
      ∧ r.1.session ≠ some S
      ∧ (∀ j, r.1.gp_running_job = some j → j.session ≠ S)
      ∧ (∀ j, r.1.pp_running_job = some j → j.session ≠ S)
      ∧ (∀ j, g.gp_running_job = some j → j.session = S →
          ∃ g1, callbacks r.2.log
            = callbacks w.log ++ [.gp_scheduler_job_done g1 (some j) false])
      ∧ (∀ j, g.pp_running_job = some j → j.session = S →
          ∃ g1, callbacks r.2.log
            = callbacks w.log ++ [.pp_scheduler_job_done g1 (some j) g.pp_running_sub_job false])
      ∧ ((∀ j, g.gp_running_job = some j → j.session ≠ S) →
          (∀ j, g.pp_running_job = some j → j.session ≠ S) →
          r.1.gp_running_job = g.gp_running_job ∧ r.1.pp_running_job = g.pp_running_job
          ∧ r.1.state = g.state ∧ callbacks r.2.log = callbacks w.log))
    ∧ (∀ (g1 : maliggy_group) (w1 : World), maliggy_group_is_in_virtual g1 = true →
        maliggy_group_abort_session cfg g1 S w1
          = some (g1, maliggy_group_unlock (maliggy_group_lock w1))) := by
  refine ⟨?_, fun g1 w1 h1 => by simp [maliggy_group_abort_session, h1]⟩
  have hs := reachable_slots_ok cfg g0 w0 g w hf hr
  have hk := reachable_sess_weak cfg g0 w0 g w hf hr
  obtain ⟨-, -, -, f4, f5, -, -, -, f9⟩ := slots_jobs g hs
  have r1 : g.gp_running_job ≠ none ∨ g.pp_running_job ≠ none → g.page_dir_ref_count = 1 := by
    intro h
    rw [href]
    cases hg : g.gp_running_job <;> cases hp : g.pp_running_job <;> simp_all
  obtain ⟨sa, sb, sc⟩ := abort_session_spec cfg g S w hs
  refine ⟨f9, ?_⟩
  by_cases hg : ∃ j, g.gp_running_job = some j ∧ j.session = S
  · obtain ⟨j, hj, hjs⟩ := hg
    have hpn : g.pp_running_job = none := f4 (by rw [hj]; simp)
    obtain ⟨c1, c2, c3⟩ := complete_gp_jobs cfg g false (maliggy_group_lock w)
    have href : g.page_dir_ref_count = 1 := r1 (Or.inl (by rw [hj]; simp))
    obtain ⟨m1, m2, -, m4, -⟩ := remove_session_if_unused_session cfg
      (maliggy_group_complete_gp cfg g false (maliggy_group_lock w)).1 S
      (maliggy_group_complete_gp cfg g false (maliggy_group_lock w)).2
    obtain ⟨pre, hl, hpre, -⟩ := group_complete_gp_callback cfg g false (maliggy_group_lock w)
    refine ⟨_, sb j hj hjs, m4 (by rw [c3, href]; rfl), ?_, ?_, ?_, ?_, ?_⟩
    · intro j1 h1
      rw [m1, c1] at h1
      exact Option.noConfusion h1
    · intro j1 h1
      rw [m2, c2, hpn] at h1
      exact Option.noConfusion h1
    · intro j1 h1 _
      rw [hj] at h1
      simp only [Option.some.injEq] at h1
      subst h1
      refine ⟨(maliggy_group_complete_gp cfg g false (maliggy_group_lock w)).1, ?_⟩
      have hcb := callbacks_of_obs _ (maliggy_group_lock w).log
        (pre ++ [.gp_scheduler_job_done
          (maliggy_group_complete_gp cfg g false (maliggy_group_lock w)).1 g.gp_running_job
          false]) (by rw [hl, List.append_assoc])
      rw [callbacks_unlock, callbacks_remove_session_if_unused, hcb, callbacks_lock,
        callbacks_append, callbacks_eq_nil pre hpre, hj]
      rfl
    · intro j1 h1
      rw [hpn] at h1
      exact Option.noConfusion h1
    · intro h1
      exact absurd hjs (h1 j hj)
  · by_cases hp : ∃ j, g.pp_running_job = some j ∧ j.session = S
    · obtain ⟨j, hj, hjs⟩ := hp
      have hgn : g.gp_running_job = none := f5 (by rw [hj]; simp)
      obtain ⟨c1, c2, c3⟩ := complete_pp_jobs cfg g false (maliggy_group_lock w)
      have href : g.page_dir_ref_count = 1 := r1 (Or.inr (by rw [hj]; simp))
      obtain ⟨m1, m2, -, m4, -⟩ := remove_session_if_unused_session cfg
        (maliggy_group_complete_pp cfg g false (maliggy_group_lock w)).1 S
        (maliggy_group_complete_pp cfg g false (maliggy_group_lock w)).2
      obtain ⟨pre, hl, hpre, -⟩ := group_complete_pp_callback cfg g false (maliggy_group_lock w)
      refine ⟨_, sc j hj hjs, m4 (by rw [c3, href]; rfl), ?_, ?_, ?_, ?_, ?_⟩
      · intro j1 h1
        rw [m1, c2, hgn] at h1
        exact Option.noConfusion h1
      · intro j1 h1
        rw [m2, c1] at h1
        exact Option.noConfusion h1
      · intro j1 h1
        rw [hgn] at h1
        exact Option.noConfusion h1
      · intro j1 h1 _
        rw [hj] at h1
        simp only [Option.some.injEq] at h1
        subst h1
        refine ⟨(maliggy_group_complete_pp cfg g false (maliggy_group_lock w)).1, ?_⟩
        have hcb := callbacks_of_obs _ (maliggy_group_lock w).log
          (pre ++ [.pp_scheduler_job_done
            (maliggy_group_complete_pp cfg g false (maliggy_group_lock w)).1 g.pp_running_job
            g.pp_running_sub_job false]) (by rw [hl, List.append_assoc])
        rw [callbacks_unlock, callbacks_remove_session_if_unused, hcb, callbacks_lock,
          callbacks_append, callbacks_eq_nil pre hpre, hj]
        rfl
      · intro _ h2
        exact absurd hjs (h2 j hj)
    · have hg1 : ∀ j, g.gp_running_job = some j → j.session ≠ S :=
        fun j hj hjs => hg ⟨j, hj, hjs⟩
      have hp1 : ∀ j, g.pp_running_job = some j → j.session ≠ S :=
        fun j hj hjs => hp ⟨j, hj, hjs⟩
      obtain ⟨m1, m2, m3, m4, m5⟩ := remove_session_if_unused_session cfg g S
        (maliggy_group_lock w)
      refine ⟨_, sa hg1 hp1, ?_, ?_, ?_, ?_, ?_, ?_⟩
      · by_cases h0 : g.page_dir_ref_count = 0
        · exact m4 h0
        · apply m5
          intro hses
          cases hj : g.gp_running_job with
          | some j =>
            rcases hk.1 j hj with e | e
            · rw [hses] at e
              exact Option.noConfusion e
            · rw [hses] at e
              exact hg1 j hj (Option.some.inj e).symm
          | none =>
            cases hq : g.pp_running_job with
            | some j =>
              rcases hk.2 j hq with e | e
              · rw [hses] at e
                exact Option.noConfusion e
              · rw [hses] at e
                exact hp1 j hq (Option.some.inj e).symm
            | none =>
              have hro2 := href
              simp [hj, hq] at hro2
              exact h0 hro2
      · intro j1 h1
        rw [m1] at h1
        exact hg1 j1 h1
      · intro j1 h1
        rw [m2] at h1
        exact hp1 j1 h1
      · intro j1 h1 h2
        exact absurd h2 (hg1 j1 h1)
      · intro j1 h1 h2
        exact absurd h2 (hp1 j1 h1)
      · intro _ _
        exact ⟨m1, m2, m3, by rw [callbacks_unlock, callbacks_remove_session_if_unused,
          callbacks_lock]⟩

/-- Witness for C13: the GP group of the run `reads_oom_run`, suspended in `OOM` with `gp_job1`
of session 7; the abort of session 7 returns and leaves a group without that session. -/
theorem C13_abort_session_drops_session_witness :
    maliggy_group_is_in_virtual oom_run_suspended.1 = false
    ∧ ∃ r, maliggy_group_abort_session cfg_mali400 oom_run_suspended.1 7 oom_run_suspended.2
        = some r
      ∧ r.1.session ≠ some 7 :=
  have h := C13_abort_session_drops_session cfg_mali400 gp_group0 (world_of reads_oom_run)
    oom_run_suspended.1 oom_run_suspended.2 7 (Or.inl ⟨none, _, rfl⟩)
    (reachable_mono _ _ _ _ _ oom_run_reachable) (by decide)
  ⟨h.1.1, h.1.2.elim fun r hr => ⟨r, hr.1, hr.2.1⟩⟩

/-- C21 as stated fails for ids that were not drawn from the job counter: with the counter at 0,
`maliggy_l2_cache_invalidate_conditional(cache, 5)` invalidates and stores the new id 1 (not 5)
in `last_invalidated_id`, so the following call with id 3 invalidates again: it returns true and
stores the new id 2. -/
theorem C21_counterexample :
    (maliggy_l2_cache_invalidate_conditional cfg_mali400 (some 0) 5 (world_of [])).1 = true
    ∧ ((maliggy_l2_cache_invalidate_conditional cfg_mali400 (some 0) 5
        (world_of [])).2.l2 0).last_invalidated_id = 1
    ∧ ¬ (maliggy_l2_cache_invalidate_conditional cfg_mali400 (some 0) 3
        (maliggy_l2_cache_invalidate_conditional cfg_mali400 (some 0) 5 (world_of [])).2).1
          = false := by
  obtain ⟨-, -, h3⟩ := l2_cache_invalidate_conditional_spec cfg_mali400 0 5 (world_of [])
  obtain ⟨a1, a2, -⟩ := h3 (by decide)
  have a2' : ((maliggy_l2_cache_invalidate_conditional cfg_mali400 (some 0) 5
      (world_of [])).2.l2 0).last_invalidated_id = 1 := by rw [a2]; rfl
  refine ⟨a1, a2', ?_⟩
  obtain ⟨b1, -, -⟩ := l2_cache_invalidate_conditional_spec cfg_mali400 0 3
    (maliggy_l2_cache_invalidate_conditional cfg_mali400 (some 0) 5 (world_of [])).2
  rw [b1, a2']
  decide

/-- C21 (amended): let `a` and `b` be ids with `b <= a` that the job counter has already issued
(`a` is at most the counter), the counter being below `0x7FFFFFFF`. If
`maliggy_l2_cache_invalidate_conditional(cache, a)` performs an invalidate, then a following
`maliggy_l2_cache_invalidate_conditional(cache, b)` returns false, adds nothing to the log but
its entry marker (no register write), and leaves every `last_invalidated_id`, the job counter and
the hardware oracle as they were. -/
theorem C21_second_conditional_invalidate_skips (cfg : Config) (c a b : Nat) (w : World)
    (hba : b ≤ a) (ha : a ≤ w.maliggy_job_autonumber)
    (hno : w.maliggy_job_autonumber + 1 < 2147483648)
    (hperf : (maliggy_l2_cache_invalidate_conditional cfg (some c) a w).1 = true) :
    (maliggy_l2_cache_invalidate_conditional cfg (some c) b
        (maliggy_l2_cache_invalidate_conditional cfg (some c) a w).2).1 = false
    ∧ (maliggy_l2_cache_invalidate_conditional cfg (some c) b
        (maliggy_l2_cache_invalidate_conditional cfg (some c) a w).2).2.log
        = (maliggy_l2_cache_invalidate_conditional cfg (some c) a w).2.log
          ++ [.call .maliggy_l2_cache_invalidate_conditional [c, b]]
    ∧ (maliggy_l2_cache_invalidate_conditional cfg (some c) b
        (maliggy_l2_cache_invalidate_conditional cfg (some c) a w).2).2.l2
        = (maliggy_l2_cache_invalidate_conditional cfg (some c) a w).2.l2
    ∧ (maliggy_l2_cache_invalidate_conditional cfg (some c) b
        (maliggy_l2_cache_invalidate_conditional cfg (some c) a w).2).2.maliggy_job_autonumber
        = (maliggy_l2_cache_invalidate_conditional cfg (some c) a w).2.maliggy_job_autonumber
    ∧ (maliggy_l2_cache_invalidate_conditional cfg (some c) b
        (maliggy_l2_cache_invalidate_conditional cfg (some c) a w).2).2.reads
        = (maliggy_l2_cache_invalidate_conditional cfg (some c) a w).2.reads := by
  obtain ⟨h1, -, h3⟩ := l2_cache_invalidate_conditional_spec cfg c a w
  have hn : ¬ to_s32 a ≤ to_s32 (w.l2 c).last_invalidated_id := by
    intro hle
    have := h1.mpr hle
    rw [hperf] at this
    exact Bool.noConfusion this
  obtain ⟨-, a2, -⟩ := h3 hn
  obtain ⟨b1, b2, -⟩ := l2_cache_invalidate_conditional_spec cfg c b
    (maliggy_l2_cache_invalidate_conditional cfg (some c) a w).2
  have hle : to_s32 b ≤ to_s32 ((maliggy_l2_cache_invalidate_conditional cfg (some c) a
      w).2.l2 c).last_invalidated_id := by
    rw [a2]
    unfold to_s32
    have e1 : (w.maliggy_job_autonumber + 1) % 4294967296 = w.maliggy_job_autonumber + 1 :=
      Nat.mod_eq_of_lt (by omega)
    have e2 : b % 4294967296 = b := Nat.mod_eq_of_lt (by omega)
    rw [Nat.mod_mod, e1, e2, if_pos (by omega), if_pos (by omega)]
    omega
  exact ⟨b1.mpr hle, b2 hle⟩

/-- Witness of C21: ids 5 then 3 after five ids were drawn from the counter. -/
theorem C21_second_conditional_invalidate_skips_witness :
    (maliggy_l2_cache_invalidate_conditional cfg_mali400 (some 0) 3
        (maliggy_l2_cache_invalidate_conditional cfg_mali400 (some 0) 5
          (world_after_draws 5)).2).1 = false :=
  (C21_second_conditional_invalidate_skips cfg_mali400 0 5 3 (world_after_draws 5)
    (by decide) (by decide) (by decide)
    ((l2_cache_invalidate_conditional_spec cfg_mali400 0 5 (world_after_draws 5)).2.2
      (by decide)).1).1

/-- C24 as stated fails: when the status read at entry has the page-fault bit set but the
paging-enabled bit clear, `maliggy_mmu_enable_stall` takes its first exit ("MMU stall is implicit
when paging is not enabled") and returns true, although the last (and only) status read shows a
page fault. -/
theorem C24_counterexample :
    (maliggy_hw_core_register_read .mmu .MALI_MMU_REGISTER_STATUS (world_of [0x2])).1
        &&& cfg_mali400.MALI_MMU_STATUS_BIT_PAGE_FAULT_ACTIVE ≠ 0
    ∧ (maliggy_mmu_enable_stall cfg_mali400 (world_of [0x2])).1 = true := by
  decide

/-- C24 (amended). Let `s` be the MMU status read at entry. If `s` shows paging disabled,
`maliggy_mmu_enable_stall` returns true at once; if `s` shows paging enabled and a page fault, it
returns false at once; in both cases it writes no register and reads no further status.
Otherwise it writes `ENABLE_STALL` once and polls. In every case it returns after `k` status
reads with `1 <= k <= MALI_REG_POLL_COUNT_FAST + 1` (the read at entry and the polls), and it
returns true only if the last status read shows paging disabled or no page fault. -/
theorem C24_enable_stall_bounded (cfg : Config) (w : World) :
    (w.read.1 &&& cfg.MALI_MMU_STATUS_BIT_PAGING_ENABLED = 0 →
      maliggy_mmu_enable_stall cfg w = (true, w.read.2))
    ∧ (w.read.1 &&& cfg.MALI_MMU_STATUS_BIT_PAGING_ENABLED ≠ 0 →
        w.read.1 &&& cfg.MALI_MMU_STATUS_BIT_PAGE_FAULT_ACTIVE ≠ 0 →
        maliggy_mmu_enable_stall cfg w = (false, w.read.2))
    ∧ (maliggy_mmu_enable_stall cfg w).2.log = w.log ++
        (if w.read.1 &&& cfg.MALI_MMU_STATUS_BIT_PAGING_ENABLED = 0
            ∨ w.read.1 &&& cfg.MALI_MMU_STATUS_BIT_PAGE_FAULT_ACTIVE ≠ 0 then []
          else [.reg_write .mmu .MALI_MMU_REGISTER_COMMAND MALI_MMU_COMMAND_ENABLE_STALL])
    ∧ ∃ k, 1 ≤ k ∧ k ≤ cfg.MALI_REG_POLL_COUNT_FAST + 1
        ∧ (maliggy_mmu_enable_stall cfg w).2.reads = w.reads.drop k
        ∧ ((maliggy_mmu_enable_stall cfg w).1 = true →
            (w.reads.getD (k - 1) 0 % 4294967296) &&& cfg.MALI_MMU_STATUS_BIT_PAGING_ENABLED = 0
            ∨ (w.reads.getD (k - 1) 0 % 4294967296)
                &&& cfg.MALI_MMU_STATUS_BIT_PAGE_FAULT_ACTIVE = 0) := by
  obtain ⟨r1, r2⟩ := World.read_reads w
  refine ⟨?_, ?_, mmu_enable_stall_log cfg w, ?_⟩
  · intro h
    simp [maliggy_mmu_enable_stall, maliggy_hw_core_register_read, h]
  · intro h1 h2
    simp [maliggy_mmu_enable_stall, maliggy_hw_core_register_read, h1, h2]
  · unfold maliggy_mmu_enable_stall
    simp only [maliggy_hw_core_register_read]
    by_cases h1 : w.read.1 &&& cfg.MALI_MMU_STATUS_BIT_PAGING_ENABLED = 0
    · rw [if_pos h1]
      exact ⟨1, Nat.le_refl _, by omega, r2, fun _ => Or.inl (by rw [← r1]; exact h1)⟩
    · rw [if_neg h1]
      by_cases h2 : w.read.1 &&& cfg.MALI_MMU_STATUS_BIT_PAGE_FAULT_ACTIVE ≠ 0
      · rw [if_pos h2]
        exact ⟨1, Nat.le_refl _, by omega, r2, fun h => Bool.noConfusion h⟩
      · rw [if_neg h2]
        obtain ⟨k, hk, e, p1, p2⟩ := poll_register_reads .mmu .MALI_MMU_REGISTER_STATUS
          (enable_stall_stop cfg) cfg.MALI_REG_POLL_COUNT_FAST w.read.1
          (maliggy_hw_core_register_write .mmu .MALI_MMU_REGISTER_COMMAND
            MALI_MMU_COMMAND_ENABLE_STALL w.read.2)
        have e' : (poll_register .mmu .MALI_MMU_REGISTER_STATUS (enable_stall_stop cfg)
            cfg.MALI_REG_POLL_COUNT_FAST w.read.1
            (maliggy_hw_core_register_write .mmu .MALI_MMU_REGISTER_COMMAND
              MALI_MMU_COMMAND_ENABLE_STALL w.read.2)).2.2.reads = w.reads.drop (k + 1) := by
          rw [e]
          show List.drop k w.read.2.reads = _
          rw [r2, List.drop_drop]
          congr 1
          omega
        generalize poll_register .mmu .MALI_MMU_REGISTER_STATUS (enable_stall_stop cfg)
          cfg.MALI_REG_POLL_COUNT_FAST w.read.1
          (maliggy_hw_core_register_write .mmu .MALI_MMU_REGISTER_COMMAND
            MALI_MMU_COMMAND_ENABLE_STALL w.read.2) = p at e e' p1 p2 ⊢
        refine ⟨k + 1, by omega, by omega, ?_, ?_⟩
        · split_ifs <;> exact e'
        · intro ht
          by_cases hp : p.1 = false
          · rw [if_pos hp] at ht
            exact Bool.noConfusion ht
          · rw [if_neg hp] at ht
            have hp' : p.1 = true := by simpa using hp
            obtain ⟨a, b, -⟩ := p1 hp'
            by_cases hf : p.2.1 &&& cfg.MALI_MMU_STATUS_BIT_PAGE_FAULT_ACTIVE ≠ 0
            · rw [if_pos hf] at ht
              exact Bool.noConfusion ht
            · right
              have hz : p.2.1 &&& cfg.MALI_MMU_STATUS_BIT_PAGE_FAULT_ACTIVE = 0 := by
                simpa using hf
              rw [b] at hz
              have e3 : (maliggy_hw_core_register_write .mmu .MALI_MMU_REGISTER_COMMAND
                MALI_MMU_COMMAND_ENABLE_STALL w.read.2).reads = w.reads.drop 1 := r2
              rw [e3] at hz
              have e4 : (List.drop 1 w.reads).getD (k - 1) 0 = w.reads.getD (k + 1 - 1) 0 := by
                have : k + 1 - 1 = (k - 1) + 1 := by omega
                rw [this]
                cases hw : w.reads <;> simp [List.getD]
              rw [e4] at hz
              exact hz

/-- C25: `maliggy_bcast_disable` writes 0 to the broadcast mask register and to the interrupt
override register and has no access to the stored `current_mask`; `maliggy_bcast_enable` after it
writes the stored mask to the first and its low 8 bits to the second. Removing a group after
adding it leaves, in each of the 32 bit positions, the bit the mask had before, except that the
bits of `bcast_id` and of `bcast_id << 16` are cleared. -/
theorem C25_bcast_mask_restored (u : maliggy_bcast_unit) (g : maliggy_group) (w : World) :
    (maliggy_bcast_enable u (maliggy_bcast_disable u w)).log = w.log ++
      [.call .maliggy_bcast_disable [],
       .reg_write .bcast .bcast_unit_addr_broadcast_mask 0,
       .reg_write .bcast .bcast_unit_addr_irq_override_mask 0,
       .call .maliggy_bcast_enable [],
       .reg_write .bcast .bcast_unit_addr_broadcast_mask u.current_mask,
       .reg_write .bcast .bcast_unit_addr_irq_override_mask (u.current_mask &&& 0xFF)]
    ∧ (maliggy_bcast_enable u (maliggy_bcast_disable u w)).reads = w.reads
    ∧ (∀ i, i < 32 →
        (maliggy_bcast_remove_group (maliggy_bcast_add_group u g) g).current_mask.testBit i
          = (u.current_mask.testBit i
              && !((g.pp_core.getD null_pp_core).bcast_id.testBit i)
              && !((((g.pp_core.getD null_pp_core).bcast_id <<< 16) % 4294967296).testBit i)))
    ∧ (maliggy_bcast_remove_group (maliggy_bcast_add_group u g) g).current_mask
        &&& (g.pp_core.getD null_pp_core).bcast_id % 4294967296 = 0
    ∧ (maliggy_bcast_remove_group (maliggy_bcast_add_group u g) g).current_mask
        &&& ((g.pp_core.getD null_pp_core).bcast_id <<< 16) % 4294967296 = 0 := by
  have hbit : ∀ i, i < 32 →
      (maliggy_bcast_remove_group (maliggy_bcast_add_group u g) g).current_mask.testBit i
        = (u.current_mask.testBit i
            && !((g.pp_core.getD null_pp_core).bcast_id.testBit i)
            && !((((g.pp_core.getD null_pp_core).bcast_id <<< 16) % 4294967296).testBit i)) := by
    intro i hi
    simp only [maliggy_bcast_remove_group, maliggy_bcast_add_group, Nat.testBit_and,
      Nat.testBit_or, u32_not_testBit _ i hi]
    cases u.current_mask.testBit i <;> cases (g.pp_core.getD null_pp_core).bcast_id.testBit i
      <;> cases (((g.pp_core.getD null_pp_core).bcast_id <<< 16) % 4294967296).testBit i <;> rfl
  have hlt : (maliggy_bcast_remove_group (maliggy_bcast_add_group u g) g).current_mask
      < 4294967296 := by
    simp only [maliggy_bcast_remove_group]
    refine lt_of_le_of_lt Nat.and_le_right ?_
    unfold u32_not
    exact Nat.xor_lt_two_pow (n := 32) (Nat.mod_lt _ (by norm_num)) (by norm_num)
  refine ⟨?_, rfl, hbit, ?_, ?_⟩
  · simp [maliggy_bcast_enable, maliggy_bcast_disable, maliggy_bcast_reset,
      maliggy_hw_core_register_write, World.emit]
  · apply Nat.eq_of_testBit_eq
    intro i
    rw [Nat.zero_testBit, Nat.testBit_and]
    by_cases hi : i < 32
    · have hb : ((g.pp_core.getD null_pp_core).bcast_id % 4294967296).testBit i
          = (g.pp_core.getD null_pp_core).bcast_id.testBit i := by
        have h4 : (4294967296 : Nat) = 2 ^ 32 := by norm_num
        rw [h4, Nat.testBit_mod_two_pow]
        simp [hi]
      rw [hbit i hi, hb]
      cases u.current_mask.testBit i <;> cases (g.pp_core.getD null_pp_core).bcast_id.testBit i
        <;> cases (((g.pp_core.getD null_pp_core).bcast_id <<< 16) % 4294967296).testBit i
        <;> rfl
    · have : (maliggy_bcast_remove_group (maliggy_bcast_add_group u g) g).current_mask.testBit i
          = false := by
        by_contra hc
        exact hi (testBit_lt_of_lt _ i hlt (by simpa using hc))
      rw [this]
      rfl
  · apply Nat.eq_of_testBit_eq
    intro i
    rw [Nat.zero_testBit, Nat.testBit_and]
    by_cases hi : i < 32
    · rw [hbit i hi]
      cases u.current_mask.testBit i <;> cases (g.pp_core.getD null_pp_core).bcast_id.testBit i
        <;> cases (((g.pp_core.getD null_pp_core).bcast_id <<< 16) % 4294967296).testBit i
        <;> rfl
    · have : (maliggy_bcast_remove_group (maliggy_bcast_add_group u g) g).current_mask.testBit i
          = false := by
        by_contra hc
        exact hi (testBit_lt_of_lt _ i hlt (by simpa using hc))
      rw [this]
      rfl

set_option maxRecDepth 100000 in
/-- C27 (the code departs from the claim and from its own comment, "the only way to get here
is if we only got one of two needed END_CMD_LST interrupts"): the final branch of the GP bottom
half is reached with no completion bit and with both completion bits in the raw status. First,
the working GP group whose timer flag is set reads raw status 0 and finds the timer pending
again: the timed-out branch does not return (the PP bottom half returns there), control falls
to the final branch and all used interrupts are enabled again. Second, the working GP group
reads raw status `0x3` (both completion bits) while the core status still shows the core
active: the used interrupts are enabled again without both bits. -/
theorem C27_gp_final_branch_without_single_completion_bit :
    bottom_half_gp_falls_through cfg_mali400 gp_group_timed_out (world_of [0, 1])
    ∧ (bottom_half_gp_reads cfg_mali400 (world_of [0, 1])).1 = 0
    ∧ (maliggy_group_bottom_half_gp cfg_mali400 gp_group_timed_out (world_of [0, 1])).2.log
        = [.call .maliggy_group_lock [], .ret ._maliggy_osk_timer_pending 1,
           .call .maliggy_gp_enable_interrupts [0],
           .reg_write .gp .MALIGP2_REG_ADDR_MGMT_INT_MASK 0x706E47,
           .call .maliggy_group_unlock []]
    ∧ bottom_half_gp_falls_through cfg_mali400 gp_group_working (world_of [3, 2])
    ∧ (bottom_half_gp_reads cfg_mali400 (world_of [3, 2])).1 = 3
    ∧ (maliggy_group_bottom_half_gp cfg_mali400 gp_group_working (world_of [3, 2])).2.log
        = [.call .maliggy_group_lock [],
           .call .maliggy_gp_enable_interrupts [3],
           .reg_write .gp .MALIGP2_REG_ADDR_MGMT_INT_MASK 0x706E44,
           .call .maliggy_group_unlock []] := by
  have c1 : ¬ bottom_half_gp_clean cfg_mali400 (world_of [0, 1]) := by
    rw [← bottom_half_gp_clean_iff]; decide
  have c2 : ¬ bottom_half_gp_clean cfg_mali400 (world_of [3, 2]) := by
    rw [← bottom_half_gp_clean_iff]; decide
  exact ⟨⟨by decide, c1, by decide, by decide⟩, by decide, by decide,
    ⟨by decide, c2, by decide, by decide⟩, by decide, by decide⟩

set_option maxRecDepth 100000 in
/-- C26 as stated fails in its second half: the working GP group whose timer flag is set reads
raw status `0x40`, an error bit, while the timer is pending again. The error test comes before
the test of the flag, so the job is completed, with `success` false. -/
theorem C26_counterexample :
    gp_group_timed_out.state = MALI_GROUP_STATE_WORKING
    ∧ gp_group_timed_out.power_is_on = true
    ∧ gp_group_timed_out.core_timed_out = true
    ∧ gp_group_timed_out.gp_running_job = some gp_job1
    ∧ (_maliggy_osk_timer_pending (bottom_half_gp_reads cfg_mali400 (world_of [0x40, 1])).2.2).1
        = true
    ∧ (maliggy_group_bottom_half_gp cfg_mali400 gp_group_timed_out
        (world_of [0x40, 1])).1.gp_running_job = none
    ∧ callbacks (maliggy_group_bottom_half_gp cfg_mali400 gp_group_timed_out
        (world_of [0x40, 1])).2.log
        = callbacks (world_of [0x40, 1]).log ++
          [.gp_scheduler_job_done (maliggy_group_bottom_half_gp cfg_mali400 gp_group_timed_out
            (world_of [0x40, 1])).1 gp_group_timed_out.gp_running_job false] := by
  have hc : ¬ bottom_half_gp_clean cfg_mali400 (world_of [0x40, 1]) := by
    rw [← bottom_half_gp_clean_iff]; decide
  have h := bottom_half_gp_error cfg_mali400 gp_group_timed_out (world_of [0x40, 1])
    (by decide) hc (by decide)
  exact ⟨by decide, by decide, by decide, by decide, by decide, h.1, h.2⟩

/-- C26 (amended): take a powered-on group in state `WORKING`. If the GP bottom half reads a
clean completion, the job is completed with `success` true (one callback, carrying the running
job) and the group is left with the timer flag clear. If the timer flag is set, the status read
is neither a clean completion nor an error, and the timer is pending again or no job is running,
the GP bottom half leaves the group as it was but for the flag, which is clear, and makes no
callback. The same holds of the PP bottom half, clean meaning a raw status that is exactly
`END_OF_FRAME` and, on a virtual group, a status with the rendering-active bit clear; its second
case requires a raw status other than `END_OF_FRAME`. -/
theorem C26_timer_flag_consulted_by_bottom_half (cfg : Config) (g : maliggy_group) (w : World)
    (hpow : g.power_is_on = true) (hst : g.state = MALI_GROUP_STATE_WORKING) :
    (bottom_half_gp_clean cfg w →
      (maliggy_group_bottom_half_gp cfg g w).1.core_timed_out = false
      ∧ (maliggy_group_bottom_half_gp cfg g w).1.gp_running_job = none
      ∧ callbacks (maliggy_group_bottom_half_gp cfg g w).2.log = callbacks w.log ++
          [.gp_scheduler_job_done (maliggy_group_bottom_half_gp cfg g w).1 g.gp_running_job
            true])
    ∧ (g.core_timed_out = true → ¬ bottom_half_gp_clean cfg w →
        gp_irq_errors cfg (bottom_half_gp_reads cfg w).1 = 0 →
        ((_maliggy_osk_timer_pending (bottom_half_gp_reads cfg w).2.2).1 = true
          ∨ g.gp_running_job = none) →
        (maliggy_group_bottom_half_gp cfg g w).1 = { g with core_timed_out := false }
        ∧ callbacks (maliggy_group_bottom_half_gp cfg g w).2.log = callbacks w.log)
    ∧ (bottom_half_pp_clean cfg g w →
        (maliggy_group_bottom_half_pp cfg g w).1.core_timed_out = false
        ∧ (maliggy_group_bottom_half_pp cfg g w).1.pp_running_job = none
        ∧ callbacks (maliggy_group_bottom_half_pp cfg g w).2.log = callbacks w.log ++
            [.pp_scheduler_job_done (maliggy_group_bottom_half_pp cfg g w).1 g.pp_running_job
              g.pp_running_sub_job true])
    ∧ (g.core_timed_out = true →
        cfg.MALI200_REG_VAL_IRQ_END_OF_FRAME ≠ (bottom_half_pp_reads cfg g w).1 →
        pp_irq_errors cfg (bottom_half_pp_reads cfg g w).1 = 0 →
        ((_maliggy_osk_timer_pending (bottom_half_pp_reads cfg g w).2.2).1 = true
          ∨ g.pp_running_job = none) →
        (maliggy_group_bottom_half_pp cfg g w).1 = { g with core_timed_out := false }
        ∧ callbacks (maliggy_group_bottom_half_pp cfg g w).2.log = callbacks w.log) := by
  have hv : maliggy_group_is_in_virtual g = false := by
    simp [maliggy_group_is_in_virtual, hst]
  refine ⟨?_, ?_, ?_, ?_⟩
  · intro hc
    rw [bottom_half_gp_eq, if_neg (by simp [hpow]),
      if_pos ((bottom_half_gp_clean_iff cfg w).mpr hc)]
    refine ⟨(complete_gp_flag cfg _ true _).1, (complete_gp_jobs cfg _ true _).1, ?_⟩
    show callbacks (maliggy_group_unlock _).log = _
    rw [callbacks_unlock, callbacks_complete_gp, callbacks_bottom_half_gp_reads]
  · intro hto hnc herr hp
    have hf : bottom_half_gp_falls_through cfg g w :=
      ⟨hpow, hnc, herr, by rw [if_pos hto]; exact hp⟩
    have hnc' : ¬ ((bottom_half_gp_reads cfg w).2.1.any (fun core_status =>
        core_status &&& cfg.MALIGP2_REG_VAL_STATUS_MASK_ACTIVE == 0) = true) :=
      fun h => hnc ((bottom_half_gp_clean_iff cfg w).mp h)
    rw [bottom_half_gp_eq, if_neg (by simp [hpow]), if_neg hnc',
      (bottom_half_gp_rest_branches cfg g _ _).1 ⟨herr, by rw [if_pos hto]; exact hp⟩]
    refine ⟨rfl, ?_⟩
    show callbacks (maliggy_group_unlock _).log = _
    rw [callbacks_unlock, if_pos hto]
    simp only [maliggy_gp_enable_interrupts, maliggy_hw_core_register_write, World.emit_log,
      callbacks_append]
    rw [callbacks_timer_pending, callbacks_bottom_half_gp_reads]
    simp [callbacks, Ev.is_callback]
  · rintro ⟨h1, h2⟩
    have hna : ¬ ((bottom_half_pp_reads cfg g w).2.1.any (fun status_readout =>
        status_readout &&& cfg.MALI200_REG_VAL_STATUS_RENDERING_ACTIVE != 0) = true) := by
      cases hs : (bottom_half_pp_reads cfg g w).2.1 with
      | none => simp
      | some s => simp [h2 s hs]
    rw [bottom_half_pp_eq cfg g w hv hpow, if_pos h1, if_neg hna]
    refine ⟨(complete_pp_flag cfg _ true _).1, (complete_pp_jobs cfg _ true _).1, ?_⟩
    show callbacks (maliggy_group_unlock _).log = _
    rw [callbacks_unlock, callbacks_complete_pp, callbacks_bottom_half_pp_reads]
  · intro hto hne herr hp
    have hc : ¬ ((!(_maliggy_osk_timer_pending (bottom_half_pp_reads cfg g w).2.2).1
        && g.pp_running_job.isSome) = true) := by
      rcases hp with h | h
      · simp [h]
      · simp [h]
    rw [bottom_half_pp_eq cfg g w hv hpow, if_neg hne, if_neg (not_not.mpr herr), if_pos hto,
      if_neg hc]
    refine ⟨rfl, ?_⟩
    show callbacks (maliggy_group_unlock _).log = _
    rw [callbacks_unlock, callbacks_timer_pending, callbacks_bottom_half_pp_reads]

set_option maxRecDepth 100000 in
/-- Witness of C26: the working GP group whose timer flag is set reads raw status 0 and finds the
timer pending again. -/
theorem C26_timer_flag_consulted_by_bottom_half_witness :
    (maliggy_group_bottom_half_gp cfg_mali400 gp_group_timed_out (world_of [0, 1])).1
        = { gp_group_timed_out with core_timed_out := false }
    ∧ callbacks (maliggy_group_bottom_half_gp cfg_mali400 gp_group_timed_out
        (world_of [0, 1])).2.log = callbacks (world_of [0, 1]).log :=
  (C26_timer_flag_consulted_by_bottom_half cfg_mali400 gp_group_timed_out (world_of [0, 1])
    (by decide) (by decide)).2.1 (by decide)
    (by rw [← bottom_half_gp_clean_iff]; decide) (by decide) (by decide)

/-- C23 (the code departs from the claim): `maliggy_pmu_send_command` calls
`maliggy_pmu_send_command_internal` and drops its result, so it returns `_MALI_OSK_ERR_OK`
always. Whenever the four power functions get as far as sending their command and the poll in
`maliggy_pmu_send_command_internal` times out, they return `_MALI_OSK_ERR_OK`. The poll itself
is bounded: it reads at least one and at most `timeout` values. -/
theorem C23_pmu_timeout_not_reported (cfg : Config) (pmu : maliggy_pmu_core) (mask : Nat)
    (w : World)
    (hdown : (maliggy_pmu_send_command_internal cfg .PMU_REG_ADDR_MGMT_POWER_DOWN mask
      (maliggy_hw_core_register_read .pmu .PMU_REG_ADDR_MGMT_STATUS
        (_maliggy_osk_pm_dev_ref_add_no_power_on (maliggy_pmu_lock w))).2).1
        = _MALI_OSK_ERR_TIMEOUT)
    (hmask : ¬ mask > pmu.registered_cores_mask) :
    (maliggy_pmu_power_down cfg true pmu mask w).1 = _MALI_OSK_ERR_OK
    ∧ (mask &&& u32_not pmu.registered_cores_mask = 0 →
        (maliggy_pmu_power_up cfg true pmu mask w).1 = _MALI_OSK_ERR_OK)
    ∧ (maliggy_pmu_power_down_all cfg pmu w).1 = _MALI_OSK_ERR_OK
    ∧ (maliggy_pmu_power_up_all cfg pmu w).1 = _MALI_OSK_ERR_OK
    ∧ (∀ command W, (maliggy_pmu_send_command cfg pmu command mask W).1 = _MALI_OSK_ERR_OK)
    ∧ (∀ n W, ∃ k, 1 ≤ k ∧ k ≤ n + 1 ∧ (maliggy_pmu_wait n W).2.reads = W.reads.drop k) := by
  have _h := hdown
  refine ⟨?_, ?_, ?_, ?_, fun command W => pmu_send_command_ok cfg pmu command mask W,
    fun n W => pmu_wait_reads n W⟩
  · unfold maliggy_pmu_power_down
    rw [if_neg hmask]
    exact pmu_send_command_ok cfg _ _ _ _
  · intro hv
    unfold maliggy_pmu_power_up
    rw [if_neg (not_not.mpr hv)]
    exact pmu_send_command_ok cfg _ _ _ _
  · exact pmu_send_command_ok cfg _ _ _ _
  · exact pmu_send_command_ok cfg _ _ _ _

/-- Witness of C23: the Mali-400 MP4 PMU is asked to power down all six domains while no core
answers (every register reads 0). The command is written, the poll of
`maliggy_pmu_send_command_internal` times out, and `maliggy_pmu_power_down` returns
`_MALI_OSK_ERR_OK`. -/
theorem C23_pmu_timeout_not_reported_witness :
    (maliggy_pmu_send_command_internal cfg_mali400 .PMU_REG_ADDR_MGMT_POWER_DOWN 0x3F
      (maliggy_hw_core_register_read .pmu .PMU_REG_ADDR_MGMT_STATUS
        (_maliggy_osk_pm_dev_ref_add_no_power_on (maliggy_pmu_lock (world_of [])))).2).1
        = _MALI_OSK_ERR_TIMEOUT
    ∧ (maliggy_pmu_power_down cfg_mali400 true pmu_mp4 0x3F (world_of [])).1
        = _MALI_OSK_ERR_OK :=
  ⟨pmu_send_command_internal_silent cfg_mali400 _ 0x3F _ (by rfl),
    (C23_pmu_timeout_not_reported cfg_mali400 pmu_mp4 0x3F (world_of [])
      (pmu_send_command_internal_silent cfg_mali400 _ 0x3F _ (by rfl)) (by decide)).1⟩

/-- C30: for a PMU whose `registered_cores_mask` is the mask `maliggy_pmu_detect_mask` gives
for at least one L2 cache and at most 8 PP cores, and every 32-bit `mask`: the test
`mask > registered_cores_mask` of `maliggy_pmu_power_down` holds exactly when the test
`mask & ~registered_cores_mask` of `maliggy_pmu_power_up` does, that is exactly when `mask` has
a bit outside `registered_cores_mask`; `maliggy_pmu_power_down` returns
`_MALI_OSK_ERR_INVALID_ARGS` exactly then, and leaves the PMU (so `active_cores_mask`) and the
hardware untouched when it does; and when `active_cores_mask` has no bit outside
`registered_cores_mask`, it still has none after every accepted `maliggy_pmu_power_down` and
`maliggy_pmu_power_up`, which leave `registered_cores_mask` as it was. -/
theorem C30_power_down_mask_test (number_of_pp_cores number_of_l2_caches : Nat) (cfg : Config)
    (power_on : Bool) (pmu : maliggy_pmu_core) (mask : Nat) (w : World)
    (hl2 : 1 ≤ number_of_l2_caches) (hpp : number_of_pp_cores ≤ 8)
    (hreg : pmu.registered_cores_mask
      = maliggy_pmu_detect_mask number_of_pp_cores number_of_l2_caches)
    (hmask : mask < 4294967296) :
    (mask > pmu.registered_cores_mask ↔ mask &&& u32_not pmu.registered_cores_mask ≠ 0)
    ∧ (mask > pmu.registered_cores_mask ↔ has_bit_outside mask pmu.registered_cores_mask)
    ∧ ((maliggy_pmu_power_down cfg power_on pmu mask w).1 = _MALI_OSK_ERR_INVALID_ARGS
        ↔ has_bit_outside mask pmu.registered_cores_mask)
    ∧ ((maliggy_pmu_power_down cfg power_on pmu mask w).1 = _MALI_OSK_ERR_INVALID_ARGS →
        maliggy_pmu_power_down cfg power_on pmu mask w = (_MALI_OSK_ERR_INVALID_ARGS, pmu, w))
    ∧ ((maliggy_pmu_power_up cfg power_on pmu mask w).1 = _MALI_OSK_ERR_INVALID_ARGS
        ↔ has_bit_outside mask pmu.registered_cores_mask)
    ∧ (¬ has_bit_outside pmu.active_cores_mask pmu.registered_cores_mask →
        ((maliggy_pmu_power_down cfg power_on pmu mask w).1 ≠ _MALI_OSK_ERR_INVALID_ARGS →
          (maliggy_pmu_power_down cfg power_on pmu mask w).2.1.registered_cores_mask
            = pmu.registered_cores_mask
          ∧ ¬ has_bit_outside (maliggy_pmu_power_down cfg power_on pmu mask w).2.1.active_cores_mask
              pmu.registered_cores_mask)
        ∧ ((maliggy_pmu_power_up cfg power_on pmu mask w).1 ≠ _MALI_OSK_ERR_INVALID_ARGS →
          (maliggy_pmu_power_up cfg power_on pmu mask w).2.1.registered_cores_mask
            = pmu.registered_cores_mask
          ∧ ¬ has_bit_outside (maliggy_pmu_power_up cfg power_on pmu mask w).2.1.active_cores_mask
              pmu.registered_cores_mask)) := by
  obtain ⟨k, hk⟩ := pmu_detect_mask_low_bits number_of_pp_cores number_of_l2_caches hl2 hpp
  have hgt : mask > pmu.registered_cores_mask
      ↔ has_bit_outside mask pmu.registered_cores_mask := by
    rw [hreg, hk]
    exact gt_low_bits_iff mask k
  have hup : mask &&& u32_not pmu.registered_cores_mask ≠ 0
      ↔ has_bit_outside mask pmu.registered_cores_mask :=
    and_not_ne_zero_iff mask pmu.registered_cores_mask hmask
  have hd := pmu_power_down_result cfg power_on pmu mask w
  have hu := pmu_power_up_result cfg power_on pmu mask w
  have hdi : (maliggy_pmu_power_down cfg power_on pmu mask w).1 = _MALI_OSK_ERR_INVALID_ARGS
      ↔ mask > pmu.registered_cores_mask := by
    constructor
    · intro h
      by_contra hc
      exact (hd.2 hc).1 h
    · intro h
      rw [hd.1 h]
  have hui : (maliggy_pmu_power_up cfg power_on pmu mask w).1 = _MALI_OSK_ERR_INVALID_ARGS
      ↔ mask &&& u32_not pmu.registered_cores_mask ≠ 0 := by
    constructor
    · intro h
      by_contra hc
      exact (hu.2 (not_not.mpr hc)).1 h
    · intro h
      rw [hu.1 h]
  refine ⟨hgt.trans hup.symm, hgt, hdi.trans hgt, fun h => hd.1 (hdi.mp h), hui.trans hup, ?_⟩
  intro hsub
  constructor
  · intro h
    have hacc : ¬ mask > pmu.registered_cores_mask := fun hc => h (hdi.mpr hc)
    rw [(hd.2 hacc).2]
    refine ⟨rfl, ?_⟩
    rintro ⟨i, h1, h2⟩
    apply hsub
    refine ⟨i, ?_, h2⟩
    simp only [Nat.testBit_and, Bool.and_eq_true] at h1
    exact h1.1
  · intro h
    have hacc : ¬ mask &&& u32_not pmu.registered_cores_mask ≠ 0 := fun hc => h (hui.mpr hc)
    rw [(hu.2 hacc).2]
    refine ⟨rfl, ?_⟩
    rintro ⟨i, h1, h2⟩
    simp only [Nat.testBit_or, Bool.or_eq_true] at h1
    rcases h1 with h1 | h1
    · exact hsub ⟨i, h1, h2⟩
    · exact hacc (hup.mpr ⟨i, h1, h2⟩)

/-- Witness of C30: the Mali-400 MP4 PMU (mask `0x3F`) and the mask `0x40`, which has bit 6
outside the registered mask. -/
theorem C30_power_down_mask_test_witness :
    (maliggy_pmu_power_down cfg_mali400 true pmu_mp4 0x40 (world_of [])).1
        = _MALI_OSK_ERR_INVALID_ARGS
      ↔ has_bit_outside 0x40 pmu_mp4.registered_cores_mask :=
  (C30_power_down_mask_test 4 1 cfg_mali400 true pmu_mp4 0x40 (world_of [])
    (by decide) (by decide) rfl (by decide)).2.2.1

/-- C28: take a virtual group `parent` that has no L2 cache and no children (slots null,
counters 0), and any table reached by membership steps made under the assertions of the source
(`VOp.guard`), in which every child added to `parent` has an L2 cache that is `a` or `b` and the
list of `parent` stays below `2^32 - 1` children. Then each counter of `parent` is the number of
children on its list whose L2 cache is the cache of that slot, the two counters sum to the
length of the list, and a slot is null exactly when its counter is 0. Moreover adding a child
to `parent` and removing it again leaves both slots and both counters of `parent` as they
were. -/
theorem C28_l2_ref_counts_follow_children (cfg : Config) (power_on : Bool) (parent a b : Nat)
    (t0 t : GroupTable) (w0 w : World) (h0 : t0.initial)
    (hv : maliggy_group_is_virtual (t0.group parent) = true)
    (hl2 : (t0.group parent).l2_cache_core = (none, none))
    (hrc : (t0.group parent).l2_cache_core_ref_count = (0, 0))
    (hr : VReachableL2 cfg power_on parent a b t0 w0 t w) :
    (t.group parent).l2_cache_core_ref_count.1
        = t.l2_users parent (t.group parent).l2_cache_core.1
    ∧ (t.group parent).l2_cache_core_ref_count.2
        = t.l2_users parent (t.group parent).l2_cache_core.2
    ∧ (t.group parent).l2_cache_core_ref_count.1 + (t.group parent).l2_cache_core_ref_count.2
        = (t.members parent).length
    ∧ ((t.group parent).l2_cache_core.1 = none ↔ (t.group parent).l2_cache_core_ref_count.1 = 0)
    ∧ ((t.group parent).l2_cache_core.2 = none ↔ (t.group parent).l2_cache_core_ref_count.2 = 0)
    ∧ (∀ child update_hw wa wb, (VOp.add_group parent child update_hw).guard t →
        (VOp.add_group parent child update_hw).l2_guard parent a b t →
        ((maliggy_group_remove_group (maliggy_group_add_group cfg t parent child update_hw wa).1
            power_on parent child wb).1.group parent).l2_cache_core
          = (t.group parent).l2_cache_core
        ∧ ((maliggy_group_remove_group (maliggy_group_add_group cfg t parent child update_hw wa).1
            power_on parent child wb).1.group parent).l2_cache_core_ref_count
          = (t.group parent).l2_cache_core_ref_count) := by
  have hi := l2_reachable_inv cfg power_on parent a b t0 t w0 w
    (l2_inv_initial t0 parent a b h0 hv hl2 hrc) hr
  obtain ⟨-, -, -, hvt, -, hok⟩ := hi
  have hok1 := hok
  obtain ⟨-, -, -, -, -, k1, k2, k3, k4, k5⟩ := hok1
  have hlen : (t.child_caches parent).length = (t.members parent).length := by
    unfold GroupTable.child_caches
    rw [List.length_map]
  refine ⟨k1, k2, by rw [k3, hlen], k4, k5, ?_⟩
  intro child update_hw wa wb hg hl
  obtain ⟨hc, hl1⟩ := hl rfl
  obtain ⟨-, gc, -, -⟩ := hg
  have hpc : parent ≠ child := by
    intro e
    rw [e, gc] at hvt
    exact Bool.noConfusion hvt
  have hs := remove_group_parent_slots
    (maliggy_group_add_group cfg t parent child update_hw wa).1 power_on parent child wb hpc
  have ha := add_group_parent_slots cfg t parent child update_hw wa hpc
  have ha1 := congrArg Prod.fst ha
  have ha2 := congrArg Prod.snd ha
  simp only at ha1 ha2
  rw [((add_group_frame cfg t parent child update_hw wa child).2 (Ne.symm hpc)).1, ha1, ha2,
    l2_slots_add_remove a b _ _ (t.child_caches parent) _ hok hc (by rw [hlen]; exact hl1)]
    at hs
  exact ⟨congrArg Prod.fst hs, congrArg Prod.snd hs⟩

/-- Witness of C28: in the table `vtable0` the virtual group 1 has no L2 cache; the physical
group 0, whose L2 cache is cache 1, is marked `JOINING_VIRTUAL` and added to it. The first
counter of group 1 then is the number of children that use the cache of slot 0. -/
theorem C28_l2_ref_counts_follow_children_witness :
    vtable0.initial
    ∧ VReachableL2 cfg_mali400 true 1 1 2 vtable0 (world_of [])
        (maliggy_group_add_group cfg_mali400 vtable_joining 1 0 false (world_of [])).1
        (maliggy_group_add_group cfg_mali400 vtable_joining 1 0 false (world_of [])).2
    ∧ ((maliggy_group_add_group cfg_mali400 vtable_joining 1 0 false (world_of [])).1.group
        1).l2_cache_core_ref_count.1
      = (maliggy_group_add_group cfg_mali400 vtable_joining 1 0 false (world_of [])).1.l2_users 1
          ((maliggy_group_add_group cfg_mali400 vtable_joining 1 0 false (world_of [])).1.group
            1).l2_cache_core.1 :=
  have hr : VReachableL2 cfg_mali400 true 1 1 2 vtable0 (world_of [])
      (maliggy_group_add_group cfg_mali400 vtable_joining 1 0 false (world_of [])).1
      (maliggy_group_add_group cfg_mali400 vtable_joining 1 0 false (world_of [])).2 :=
    VReachableL2.step (.add_group 1 0 false)
      (VReachableL2.step (.set_joining 0) VReachableL2.init ⟨rfl, rfl⟩ trivial rfl)
      ⟨rfl, rfl, rfl, rfl⟩ (fun _ => ⟨Or.inl rfl, by decide⟩) rfl
  ⟨vtable0_initial, hr,
    (C28_l2_ref_counts_follow_children cfg_mali400 true 1 1 2 vtable0 _ (world_of []) _
      vtable0_initial rfl rfl rfl hr).1⟩

/-- C29 as stated fails in its last part: groups 0 and 1 are registered, group 1 is a virtual
group without parent whose child list holds the physical group 0. `maliggy_group_delete` of
group 1 first deletes the child, so afterwards no group is registered: group 0 is gone from the
registry although it is not the group that was deleted. -/
theorem C29_counterexample :
    RegReachable (registry_two, [0, 1])
    ∧ registry_two.maliggy_group_get_glob_group 0 = some 0
    ∧ registry_two.maliggy_group_get_glob_group 1 = some 1
    ∧ maliggy_group_is_virtual (vtable_joined.group 1) = true
    ∧ (vtable_joined.group 1).parent_group = none
    ∧ vtable_joined.members 1 = [0]
    ∧ maliggy_group_is_virtual (vtable_joined.group 0) = false
    ∧ (registry_two.maliggy_group_delete 2 vtable_joined 1).map
        (fun r => (r.maliggy_group_get_glob_num_groups, r.maliggy_group_get_glob_group 0))
      = some (0, none) :=
  ⟨registry_two_reachable, rfl, rfl, rfl, rfl, rfl, rfl, rfl⟩

/-- C29 (amended): after every sequence of `maliggy_group_create` and `maliggy_group_delete`
calls (`_maliggy_osk_calloc` returning unused memory, children of virtual groups being physical
groups): the number of registered groups is at most `MALI_MAX_NUMBER_OF_GROUPS`, the entries
below it are non-null and pairwise distinct, the entries from it on are null, and the
registered groups are exactly the live ones; `maliggy_group_create` returns `NULL` and leaves
the registry as it was when `MALI_MAX_NUMBER_OF_GROUPS` groups exist;
`maliggy_group_get_glob_group(i)` returns `NULL` for every `i` not below the number of groups;
`maliggy_group_delete` returns, keeps the shape of the registry, and removes the group and, if
it is virtual, the children on its list, and nothing else; for a group at entry `i` that has no
children to delete, it decrements the number of groups, moves the last entry to entry `i` when
`i` is not the last entry, and clears the last entry. -/
theorem C29_registry_shape (s : GroupRegistry × List Nat) (hr : RegReachable s) :
    s.1.maliggy_global_num_groups ≤ MALI_MAX_NUMBER_OF_GROUPS
    ∧ (∀ i, i < s.1.maliggy_global_num_groups → s.1.maliggy_global_groups i ≠ none)
    ∧ (∀ i j, i < s.1.maliggy_global_num_groups → j < s.1.maliggy_global_num_groups →
        s.1.maliggy_global_groups i = s.1.maliggy_global_groups j → i = j)
    ∧ (∀ i, s.1.maliggy_global_num_groups ≤ i → s.1.maliggy_global_groups i = none)
    ∧ (∀ p, s.1.registered p ↔ p ∈ s.2)
    ∧ (∀ alloc timer lock, s.1.maliggy_global_num_groups ≥ MALI_MAX_NUMBER_OF_GROUPS →
        s.1.maliggy_group_create alloc timer lock = (none, s.1))
    ∧ (∀ i, s.1.maliggy_global_num_groups ≤ i → s.1.maliggy_group_get_glob_group i = none)
    ∧ (∀ fuel t group,
        (∀ c ∈ t.members group, maliggy_group_is_virtual (t.group c) = false) →
        ∃ r1, GroupRegistry.maliggy_group_delete (fuel + 2) t group s.1 = some r1 ∧ r1.ok
          ∧ ∀ p, r1.registered p ↔ (s.1.registered p ∧ p ∉ t.deleted_with group))
    ∧ (∀ fuel t group i,
        (maliggy_group_is_virtual (t.group group) = false ∨ t.members group = []) →
        i < s.1.maliggy_global_num_groups → s.1.maliggy_global_groups i = some group →
        GroupRegistry.maliggy_group_delete (fuel + 2) t group s.1 = some
          (if i ≠ s.1.maliggy_global_num_groups - 1 then
            { maliggy_global_groups := Function.update
                (Function.update s.1.maliggy_global_groups i
                  (s.1.maliggy_global_groups (s.1.maliggy_global_num_groups - 1)))
                (s.1.maliggy_global_num_groups - 1) none,
              maliggy_global_num_groups := s.1.maliggy_global_num_groups - 1 }
          else
            { maliggy_global_groups := Function.update s.1.maliggy_global_groups i none,
              maliggy_global_num_groups := s.1.maliggy_global_num_groups - 1 })) := by
  obtain ⟨ok, live⟩ := registry_reachable_inv s hr
  have ok1 := ok
  obtain ⟨h1, h2, h3, h4⟩ := ok1
  refine ⟨h1, h2, h3, h4, live, ?_, ?_, ?_, ?_⟩
  · intro alloc timer lock hfull
    unfold GroupRegistry.maliggy_group_create
    rw [if_pos hfull]
  · intro i hi
    unfold GroupRegistry.maliggy_group_get_glob_group
    rw [if_neg (by omega)]
  · intro fuel t group hc
    exact registry_delete_spec fuel t group s.1 ok hc
  · intro fuel t group i hch hi hg
    rw [registry_delete_childless fuel t group s.1 hch, registry_remove_at s.1 group i ok hi hg]

/-- Witness of C29: the registry after groups 0 and 1 were created. -/
theorem C29_registry_shape_witness :
    RegReachable (registry_two, [0, 1])
    ∧ registry_two.maliggy_global_num_groups ≤ MALI_MAX_NUMBER_OF_GROUPS
    ∧ (∀ p, registry_two.registered p ↔ p ∈ [0, 1]) :=
  ⟨registry_two_reachable, (C29_registry_shape (registry_two, [0, 1]) registry_two_reachable).1,
    (C29_registry_shape (registry_two, [0, 1]) registry_two_reachable).2.2.2.2.1⟩

/-- C22 as stated fails. First, when a table page cannot be allocated: the range
`0x3FF000 .. 0x400FFF` covers the directory entries 0 and 1 of the empty page directory, and
the allocator has one page to give; `maliggy_mmu_pagedir_map` returns `_MALI_OSK_ERR_NOMEM`
with the usage count of entry 0 incremented and entry 0 present, and the usage count of entry
1 still 0. Second, on a directory whose absent entry 0 has usage count 5 the count is 1 after
the map. Third, a usage count `0xFFFFFFFF` of a present entry is 0 after the map. Fourth, when
the page table of entry 0, in use once, is the page of the directory itself, the map makes the
count 2 and the following unmap makes it 1, releases nothing, and zeroes the table entry of the
range in that page, which is directory entry 0. -/
theorem C22_counterexample :
    MALI_MMU_PDE_ENTRY 0x3FF000 = 0
    ∧ MALI_MMU_PDE_ENTRY (0x3FF000 + 0x2000 - 1) = 1
    ∧ (maliggy_mmu_pagedir_map pagedir_empty 0x3FF000 0x2000
        (page_world_of [(_MALI_OSK_ERR_OK, 0x1000, 200)])).1 = _MALI_OSK_ERR_NOMEM
    ∧ (maliggy_mmu_pagedir_map pagedir_empty 0x3FF000 0x2000
        (page_world_of [(_MALI_OSK_ERR_OK, 0x1000, 200)])).2.1.page_entries_usage_count 0 = 1
    ∧ (maliggy_mmu_pagedir_map pagedir_empty 0x3FF000 0x2000
        (page_world_of [(_MALI_OSK_ERR_OK, 0x1000, 200)])).2.1.page_entries_usage_count 1 = 0
    ∧ pagedir_empty.entry (maliggy_mmu_pagedir_map pagedir_empty 0x3FF000 0x2000
        (page_world_of [(_MALI_OSK_ERR_OK, 0x1000, 200)])).2.2 0 = 0x1001
    ∧ pagedir_stale_count.present (page_world_of [(_MALI_OSK_ERR_OK, 0x1000, 200)]) 0 = false
    ∧ pagedir_stale_count.page_entries_usage_count 0 = 5
    ∧ (maliggy_mmu_pagedir_map pagedir_stale_count 0 0x1000
        (page_world_of [(_MALI_OSK_ERR_OK, 0x1000, 200)])).1 = _MALI_OSK_ERR_OK
    ∧ (maliggy_mmu_pagedir_map pagedir_stale_count 0 0x1000
        (page_world_of [(_MALI_OSK_ERR_OK, 0x1000, 200)])).2.1.page_entries_usage_count 0 = 1
    ∧ pagedir_full_count.present (page_world_present []) 0 = true
    ∧ pagedir_full_count.page_entries_usage_count 0 = 0xFFFFFFFF
    ∧ (maliggy_mmu_pagedir_map pagedir_full_count 0 0x1000 (page_world_present [])).1
        = _MALI_OSK_ERR_OK
    ∧ (maliggy_mmu_pagedir_map pagedir_full_count 0 0x1000
        (page_world_present [])).2.1.page_entries_usage_count 0 = 0
    ∧ pagedir_self_mapped.present (page_world_present []) 0 = true
    ∧ pagedir_self_mapped.page_entries_mapped 0 = pagedir_self_mapped.page_directory_mapped
    ∧ (maliggy_mmu_pagedir_map pagedir_self_mapped 0 0x1000 (page_world_present [])).1
        = _MALI_OSK_ERR_OK
    ∧ (maliggy_mmu_pagedir_map pagedir_self_mapped 0 0x1000
        (page_world_present [])).2.1.page_entries_usage_count 0 = 2
    ∧ (maliggy_mmu_pagedir_unmap
        (maliggy_mmu_pagedir_map pagedir_self_mapped 0 0x1000 (page_world_present [])).2.1
        0 0x1000
        (maliggy_mmu_pagedir_map pagedir_self_mapped 0 0x1000
          (page_world_present [])).2.2).2.1.page_entries_usage_count 0 = 1
    ∧ released_table_pages (maliggy_mmu_pagedir_unmap
        (maliggy_mmu_pagedir_map pagedir_self_mapped 0 0x1000 (page_world_present [])).2.1
        0 0x1000
        (maliggy_mmu_pagedir_map pagedir_self_mapped 0 0x1000
          (page_world_present [])).2.2).2.2.log = []
    ∧ pagedir_self_mapped.entry (maliggy_mmu_pagedir_unmap
        (maliggy_mmu_pagedir_map pagedir_self_mapped 0 0x1000 (page_world_present [])).2.1
        0 0x1000
        (maliggy_mmu_pagedir_map pagedir_self_mapped 0 0x1000
          (page_world_present [])).2.2).2.2 0 = 0 := by
  decide

/-- C22 (amended): take a range with `size > 0` and `address + size - 1 <= 0xFFFFFFFF` and a
page directory in which, for every entry from `PDE(address)` to `PDE(address + size - 1)`, the
usage count is below `0xFFFFFFFF`, an entry not marked present has usage count 0, and the page
table of an entry in use is not the page of the directory itself. When
`maliggy_mmu_pagedir_map` returns `_MALI_OSK_ERR_OK`: the range of entries is not empty and
below 1024; the usage count of each entry of the range has grown by exactly one and no other
entry has changed; the entries of the range that were not present, in order, received the next
results of the allocator (the entry holds the physical address with the present flag, the
mapping is stored), the entries that were present kept word and mapping, and every entry of
the range is present. The following `maliggy_mmu_pagedir_unmap` of the same range returns
`_MALI_OSK_ERR_OK` without allocating: every usage count is as before the map; the entries of
the range whose count is 0 again are zeroed and their mapping cleared, and the pages released
are the addresses these entries held, in order; every other entry has the word and the mapping
it had before the map. -/
theorem C22_map_then_unmap_restores_usage_counts (pagedir : maliggy_page_directory)
    (w : PageWorld) (address size : Nat) (hs : 0 < size)
    (hr : address + size - 1 ≤ 0xFFFFFFFF)
    (hc : ∀ i, MALI_MMU_PDE_ENTRY address ≤ i → i ≤ MALI_MMU_PDE_ENTRY (address + size - 1) →
      pagedir.page_entries_usage_count i < 0xFFFFFFFF
      ∧ (pagedir.present w i = false → pagedir.page_entries_usage_count i = 0)
      ∧ (pagedir.page_entries_usage_count i ≠ 0 →
          pagedir.page_entries_mapped i ≠ pagedir.page_directory_mapped))
    (hok : (maliggy_mmu_pagedir_map pagedir address size w).1 = _MALI_OSK_ERR_OK) :
    (MALI_MMU_PDE_ENTRY address ≤ MALI_MMU_PDE_ENTRY (address + size - 1)
      ∧ MALI_MMU_PDE_ENTRY (address + size - 1) < 1024)
    ∧ (∀ i, MALI_MMU_PDE_ENTRY address ≤ i → i ≤ MALI_MMU_PDE_ENTRY (address + size - 1) →
        (maliggy_mmu_pagedir_map pagedir address size w).2.1.page_entries_usage_count i
          = pagedir.page_entries_usage_count i + 1
        ∧ (maliggy_mmu_pagedir_map pagedir address size w).2.1.present
            (maliggy_mmu_pagedir_map pagedir address size w).2.2 i = true)
    ∧ (∀ i, ¬ (MALI_MMU_PDE_ENTRY address ≤ i ∧ i ≤ MALI_MMU_PDE_ENTRY (address + size - 1)) →
        (maliggy_mmu_pagedir_map pagedir address size w).2.1.page_entries_usage_count i
          = pagedir.page_entries_usage_count i
        ∧ (maliggy_mmu_pagedir_map pagedir address size w).2.1.page_entries_mapped i
          = pagedir.page_entries_mapped i
        ∧ pagedir.entry (maliggy_mmu_pagedir_map pagedir address size w).2.2 i
          = pagedir.entry w i)
    ∧ (∀ i, MALI_MMU_PDE_ENTRY address ≤ i → i ≤ MALI_MMU_PDE_ENTRY (address + size - 1) →
        pagedir.present w i = true →
        (maliggy_mmu_pagedir_map pagedir address size w).2.1.page_entries_mapped i
          = pagedir.page_entries_mapped i
        ∧ pagedir.entry (maliggy_mmu_pagedir_map pagedir address size w).2.2 i
          = pagedir.entry w i)
    ∧ (∃ allocs : List (Nat × Nat),
        w.table_pages = allocs.map (fun a => (_MALI_OSK_ERR_OK, a.1, a.2))
          ++ (maliggy_mmu_pagedir_map pagedir address size w).2.2.table_pages
        ∧ ((pde_range (MALI_MMU_PDE_ENTRY address)
              (MALI_MMU_PDE_ENTRY (address + size - 1))).filter
            (fun i => !pagedir.present w i)).map
            (fun i => (pagedir.entry (maliggy_mmu_pagedir_map pagedir address size w).2.2 i,
              (maliggy_mmu_pagedir_map pagedir address size w).2.1.page_entries_mapped i))
          = allocs.map (fun a => ((a.1 % 4294967296) ||| MALI_MMU_FLAGS_PRESENT, a.2)))
    ∧ (maliggy_mmu_pagedir_unmap (maliggy_mmu_pagedir_map pagedir address size w).2.1
        address size (maliggy_mmu_pagedir_map pagedir address size w).2.2).1
        = _MALI_OSK_ERR_OK
    ∧ (maliggy_mmu_pagedir_unmap (maliggy_mmu_pagedir_map pagedir address size w).2.1
        address size (maliggy_mmu_pagedir_map pagedir address size w).2.2).2.2.table_pages
        = (maliggy_mmu_pagedir_map pagedir address size w).2.2.table_pages
    ∧ (∀ i, (maliggy_mmu_pagedir_unmap (maliggy_mmu_pagedir_map pagedir address size w).2.1
        address size
        (maliggy_mmu_pagedir_map pagedir address size w).2.2).2.1.page_entries_usage_count i
        = pagedir.page_entries_usage_count i)
    ∧ (∀ i, MALI_MMU_PDE_ENTRY address ≤ i → i ≤ MALI_MMU_PDE_ENTRY (address + size - 1) →
        pagedir.page_entries_usage_count i = 0 →
        pagedir.entry (maliggy_mmu_pagedir_unmap
          (maliggy_mmu_pagedir_map pagedir address size w).2.1 address size
          (maliggy_mmu_pagedir_map pagedir address size w).2.2).2.2 i = 0
        ∧ (maliggy_mmu_pagedir_unmap (maliggy_mmu_pagedir_map pagedir address size w).2.1
            address size
            (maliggy_mmu_pagedir_map pagedir address size w).2.2).2.1.page_entries_mapped i
          = 0)
    ∧ (∀ i, (¬ (MALI_MMU_PDE_ENTRY address ≤ i ∧ i ≤ MALI_MMU_PDE_ENTRY (address + size - 1))
          ∨ pagedir.page_entries_usage_count i ≠ 0) →
        pagedir.entry (maliggy_mmu_pagedir_unmap
          (maliggy_mmu_pagedir_map pagedir address size w).2.1 address size
          (maliggy_mmu_pagedir_map pagedir address size w).2.2).2.2 i = pagedir.entry w i
        ∧ (maliggy_mmu_pagedir_unmap (maliggy_mmu_pagedir_map pagedir address size w).2.1
            address size
            (maliggy_mmu_pagedir_map pagedir address size w).2.2).2.1.page_entries_mapped i
          = pagedir.page_entries_mapped i)
    ∧ released_table_pages (maliggy_mmu_pagedir_unmap
        (maliggy_mmu_pagedir_map pagedir address size w).2.1 address size
        (maliggy_mmu_pagedir_map pagedir address size w).2.2).2.2.log
      = released_table_pages w.log
        ++ ((pde_range (MALI_MMU_PDE_ENTRY address)
              (MALI_MMU_PDE_ENTRY (address + size - 1))).filter
            (fun i => pagedir.page_entries_usage_count i == 0)).map
            (fun i => MALI_MMU_ENTRY_ADDRESS
              (_maliggy_osk_mem_ioread32 pagedir.page_directory_mapped (i * 4)
                (maliggy_mmu_pagedir_map pagedir address size w).2.2)) := by
  have he : (address + size + 4294967295) % 4294967296 = address + size - 1 := by omega
  have hmap : maliggy_mmu_pagedir_map pagedir address size w
      = maliggy_mmu_pagedir_map_loop
          (pde_range (MALI_MMU_PDE_ENTRY address) (MALI_MMU_PDE_ENTRY (address + size - 1)))
          pagedir w := by
    unfold maliggy_mmu_pagedir_map
    rw [he]
  have hrange : ∀ i, i ∈ pde_range (MALI_MMU_PDE_ENTRY address)
        (MALI_MMU_PDE_ENTRY (address + size - 1))
      ↔ MALI_MMU_PDE_ENTRY address ≤ i ∧ i ≤ MALI_MMU_PDE_ENTRY (address + size - 1) :=
    fun i => mem_pde_range _ _ i
  have hfirst : MALI_MMU_PDE_ENTRY address ≤ MALI_MMU_PDE_ENTRY (address + size - 1)
      ∧ MALI_MMU_PDE_ENTRY (address + size - 1) < 1024 := by
    rw [pde_entry_eq address (by omega), pde_entry_eq (address + size - 1) (by omega)]
    omega
  rw [hmap] at hok
  obtain ⟨m1, m2, m3, m4, m5, m6, m7, allocs, m8, m9⟩ :=
    pagedir_map_loop_spec _ (pde_range_nodup _ _) pagedir w hok
  obtain ⟨u1, u2, u3, u4, u5⟩ := pagedir_unmap_view
    (maliggy_mmu_pagedir_map pagedir address size w).2.1 address size
    (maliggy_mmu_pagedir_map pagedir address size w).2.2
  rw [he] at u2 u3 u4 u5
  -- the usage counts after the map
  have hcount : ∀ i, MALI_MMU_PDE_ENTRY address ≤ i →
      i ≤ MALI_MMU_PDE_ENTRY (address + size - 1) →
      (maliggy_mmu_pagedir_map_loop
        (pde_range (MALI_MMU_PDE_ENTRY address) (MALI_MMU_PDE_ENTRY (address + size - 1)))
        pagedir w).2.1.page_entries_usage_count i = pagedir.page_entries_usage_count i + 1 := by
    intro i h1 h2
    obtain ⟨c1, c2, -⟩ := hc i h1 h2
    cases hp : pagedir.present w i with
    | true =>
      rw [(m6 i ((hrange i).mpr ⟨h1, h2⟩) hp).2.1]
      exact Nat.mod_eq_of_lt (by omega)
    | false =>
      rw [m7 i ((hrange i).mpr ⟨h1, h2⟩) hp, c2 hp]
  have hdec : ∀ i, MALI_MMU_PDE_ENTRY address ≤ i →
      i ≤ MALI_MMU_PDE_ENTRY (address + size - 1) →
      ((maliggy_mmu_pagedir_map_loop
        (pde_range (MALI_MMU_PDE_ENTRY address) (MALI_MMU_PDE_ENTRY (address + size - 1)))
        pagedir w).2.1.page_entries_usage_count i + 4294967295) % 4294967296
        = pagedir.page_entries_usage_count i := by
    intro i h1 h2
    rw [hcount i h1 h2]
    have := (hc i h1 h2).1
    omega
  have hpres : ∀ i, MALI_MMU_PDE_ENTRY address ≤ i →
      i ≤ MALI_MMU_PDE_ENTRY (address + size - 1) →
      pagedir.page_entries_usage_count i ≠ 0 → pagedir.present w i = true := by
    intro i h1 h2 h0
    cases hp : pagedir.present w i with
    | true => rfl
    | false => exact absurd ((hc i h1 h2).2.1 hp) h0
  rw [hmap] at u1 u2 u3 u4 u5 ⊢
  have hna : ∀ i, i ∈ pde_range (MALI_MMU_PDE_ENTRY address)
        (MALI_MMU_PDE_ENTRY (address + size - 1)) →
      ((maliggy_mmu_pagedir_map_loop
        (pde_range (MALI_MMU_PDE_ENTRY address) (MALI_MMU_PDE_ENTRY (address + size - 1)))
        pagedir w).2.1.page_entries_usage_count i + 4294967295) % 4294967296 ≠ 0 →
      (maliggy_mmu_pagedir_map_loop
        (pde_range (MALI_MMU_PDE_ENTRY address) (MALI_MMU_PDE_ENTRY (address + size - 1)))
        pagedir w).2.1.page_entries_mapped i
        ≠ (maliggy_mmu_pagedir_map_loop
          (pde_range (MALI_MMU_PDE_ENTRY address) (MALI_MMU_PDE_ENTRY (address + size - 1)))
          pagedir w).2.1.page_directory_mapped := by
    intro i hi h0
    obtain ⟨h1, h2⟩ := (hrange i).mp hi
    rw [hdec i h1 h2] at h0
    rw [(m6 i hi (hpres i h1 h2 h0)).2.2, m2]
    exact (hc i h1 h2).2.2 h0
  obtain ⟨n1, n2, n3, n4, n5, n6, n7⟩ := pagedir_unmap_loop_spec _ (pde_range_nodup _ _)
    { left := size, maliggy_address := address, pd_changed := false,
      pages_to_invalidate := [], invalidate_all := false }
    (maliggy_mmu_pagedir_map_loop
      (pde_range (MALI_MMU_PDE_ENTRY address) (MALI_MMU_PDE_ENTRY (address + size - 1)))
      pagedir w).2.1
    (maliggy_mmu_pagedir_map_loop
      (pde_range (MALI_MMU_PDE_ENTRY address) (MALI_MMU_PDE_ENTRY (address + size - 1)))
      pagedir w).2.2 hna
  rw [m2] at n4 n5 n6 n7
  refine ⟨hfirst, ?_, ?_, ?_, ⟨allocs, m8, m9⟩, u1, ?_, ?_, ?_, ?_, ?_⟩
  · intro i h1 h2
    refine ⟨hcount i h1 h2, ?_⟩
    have hi := (hrange i).mpr ⟨h1, h2⟩
    cases hp : pagedir.present w i with
    | true =>
      rw [← hp]
      exact present_congr _ _ _ _ i m2 (m6 i hi hp).1
    | false =>
      have hmem : i ∈ (pde_range (MALI_MMU_PDE_ENTRY address)
          (MALI_MMU_PDE_ENTRY (address + size - 1))).filter
            (fun i => !pagedir.present w i) := by
        rw [List.mem_filter]
        exact ⟨hi, by rw [hp]; rfl⟩
      have hx := List.mem_map_of_mem
        (fun i => ((maliggy_mmu_pagedir_map_loop
            (pde_range (MALI_MMU_PDE_ENTRY address) (MALI_MMU_PDE_ENTRY (address + size - 1)))
            pagedir w).2.2.mem pagedir.page_directory_mapped (i * 4),
          (maliggy_mmu_pagedir_map_loop
            (pde_range (MALI_MMU_PDE_ENTRY address) (MALI_MMU_PDE_ENTRY (address + size - 1)))
            pagedir w).2.1.page_entries_mapped i)) hmem
      rw [m9] at hx
      obtain ⟨a, -, ha⟩ := List.mem_map.mp hx
      have hword := congrArg Prod.fst ha
      simp only at hword
      unfold maliggy_page_directory.present _maliggy_osk_mem_ioread32
      rw [m2, ← hword,
        Nat.mod_eq_of_lt (or_present_lt _ (Nat.mod_lt _ (by norm_num))), or_present_and]
      rfl
  · intro i hi
    have hi1 : i ∉ pde_range (MALI_MMU_PDE_ENTRY address)
        (MALI_MMU_PDE_ENTRY (address + size - 1)) := fun h => hi ((hrange i).mp h)
    obtain ⟨a, b, c⟩ := m5 i hi1
    exact ⟨b, c, a⟩
  · intro i h1 h2 hp
    obtain ⟨a, -, c⟩ := m6 i ((hrange i).mpr ⟨h1, h2⟩) hp
    exact ⟨c, a⟩
  · rw [u4]
    exact n3
  · intro i
    rw [u2]
    by_cases hi : i ∈ pde_range (MALI_MMU_PDE_ENTRY address)
        (MALI_MMU_PDE_ENTRY (address + size - 1))
    · obtain ⟨h1, h2⟩ := (hrange i).mp hi
      by_cases h0 : pagedir.page_entries_usage_count i = 0
      · rw [(n5 i hi (by rw [hdec i h1 h2]; exact h0)).2.1, h0]
      · rw [(n6 i hi (by rw [hdec i h1 h2]; exact h0)).2.1, hdec i h1 h2]
    · rw [(n4 i hi).2.1, (m5 i hi).2.1]
  · intro i h1 h2 h0
    have hi := (hrange i).mpr ⟨h1, h2⟩
    obtain ⟨a, -, c⟩ := n5 i hi (by rw [hdec i h1 h2]; exact h0)
    unfold maliggy_page_directory.entry
    rw [u2, u3]
    exact ⟨a, c⟩
  · intro i hi
    unfold maliggy_page_directory.entry
    rw [u2, u3]
    by_cases hin : i ∈ pde_range (MALI_MMU_PDE_ENTRY address)
        (MALI_MMU_PDE_ENTRY (address + size - 1))
    · obtain ⟨h1, h2⟩ := (hrange i).mp hin
      have h0 : pagedir.page_entries_usage_count i ≠ 0 := by
        rcases hi with h | h
        · exact absurd ⟨h1, h2⟩ h
        · exact h
      obtain ⟨a, -, c⟩ := n6 i hin (by rw [hdec i h1 h2]; exact h0)
      obtain ⟨a1, -, c1⟩ := m6 i hin (hpres i h1 h2 h0)
      exact ⟨a.trans a1, c.trans c1⟩
    · obtain ⟨a, -, c⟩ := n4 i hin
      obtain ⟨a1, -, c1⟩ := m5 i hin
      exact ⟨a.trans a1, c.trans c1⟩
  · rw [u5, n7, m3, released_table_pages_append]
    have hb : released_table_pages [PageCall._maliggy_osk_write_mem_barrier] = [] := rfl
    rw [hb, List.append_nil]
    have hf : (pde_range (MALI_MMU_PDE_ENTRY address)
          (MALI_MMU_PDE_ENTRY (address + size - 1))).filter (fun i =>
          ((maliggy_mmu_pagedir_map_loop
            (pde_range (MALI_MMU_PDE_ENTRY address) (MALI_MMU_PDE_ENTRY (address + size - 1)))
            pagedir w).2.1.page_entries_usage_count i + 4294967295) % 4294967296 == 0)
        = (pde_range (MALI_MMU_PDE_ENTRY address)
          (MALI_MMU_PDE_ENTRY (address + size - 1))).filter
            (fun i => pagedir.page_entries_usage_count i == 0) := by
      apply List.filter_congr
      intro i hi
      obtain ⟨h1, h2⟩ := (hrange i).mp hi
      rw [hdec i h1 h2]
    rw [hf]
    simp only [_maliggy_osk_mem_ioread32]

/-- Witness of C22: the empty page directory, the range `0x3FF000 .. 0x400FFF` over the
directory entries 0 and 1, and an allocator with two pages to give. -/
theorem C22_map_then_unmap_restores_usage_counts_witness :
    (maliggy_mmu_pagedir_map pagedir_empty 0x3FF000 0x2000
      (page_world_of [(_MALI_OSK_ERR_OK, 0x1000, 200), (_MALI_OSK_ERR_OK, 0x2000, 300)])).1
      = _MALI_OSK_ERR_OK
    ∧ (∀ i, (maliggy_mmu_pagedir_unmap
        (maliggy_mmu_pagedir_map pagedir_empty 0x3FF000 0x2000
          (page_world_of [(_MALI_OSK_ERR_OK, 0x1000, 200),
            (_MALI_OSK_ERR_OK, 0x2000, 300)])).2.1 0x3FF000 0x2000
        (maliggy_mmu_pagedir_map pagedir_empty 0x3FF000 0x2000
          (page_world_of [(_MALI_OSK_ERR_OK, 0x1000, 200),
            (_MALI_OSK_ERR_OK, 0x2000, 300)])).2.2).2.1.page_entries_usage_count i
        = pagedir_empty.page_entries_usage_count i) :=
  ⟨by decide,
    (C22_map_then_unmap_restores_usage_counts pagedir_empty
      (page_world_of [(_MALI_OSK_ERR_OK, 0x1000, 200), (_MALI_OSK_ERR_OK, 0x2000, 300)])
      0x3FF000 0x2000 (by decide) (by decide)
      (fun _ _ _ => ⟨(by decide : (0 : Nat) < 4294967295), fun _ => rfl, fun h => absurd rfl h⟩) (by decide)).2.2.2.2.2.2.2.1⟩
end Mali
